import Mathlib

/-!
# The input dispatcher (`libs/ui/InputDispatcher.cpp`)

A shallow embedding of the dispatcher and a verification of its documented
properties.

Modelling conventions.

* Event entries live in pools.  The pools are one `heap : List EventEntry`; an
  `EventEntry*` is an index into it.  `Pool::alloc` hands out an address that is
  not in use; the embedding always takes the next fresh index, and `Pool::free`
  marks the cell with `inPool := true`.
* `Connection` objects are reference counted by `sp<>`; they live in
  `conns : List Connection` and a `Connection*` is an index into it.
* An intrusive queue is the list of its nodes from head to tail (sentinels are
  not represented).  Dispatch entries belong to exactly one outbound queue and are
  stored in it by value.
* A motion entry's sample chain is `firstSample :: moreSamples` (following the
  `next` links); a `MotionSample*` into the chain of an entry is the index of the
  sample in that chain, and `NULL` is `none`.
* `float` values are only copied by this code; they are carried as integers.
* The policy and the input publishers are external.  The policy is a record of
  functions that may be different at every operation.  A publisher call returns the
  status chosen by an oracle that sees the whole history of publisher calls; every
  call is appended to `trace`.
* `systemTime` is a parameter of the operations that read the clock.
-/

namespace Dispatcher

/-! ## Constants of the headers -/

/-- Largest `nsecs_t`. -/
def LONG_LONG_MAX : Int := 9223372036854775807
/-- Largest `int`. -/
def INT_MAX : Int := 2147483647

/-- Status `OK`. -/
def OK : Int := 0
/-- Status `NO_MEMORY`, which is `-ENOMEM`. -/
def NO_MEMORY : Int := -12
/-- Status `BAD_VALUE`, which is `-EINVAL`. -/
def BAD_VALUE : Int := -22
/-- Status `FAILED_TRANSACTION`. -/
def FAILED_TRANSACTION : Int := -2147483646

def KEY_EVENT_ACTION_DOWN : Int := 0
def KEY_EVENT_ACTION_UP : Int := 1
def KEY_EVENT_ACTION_MULTIPLE : Int := 2
def KEY_EVENT_FLAG_CANCELED : Nat := 0x20

def MOTION_EVENT_ACTION_DOWN : Int := 0
def MOTION_EVENT_ACTION_UP : Int := 1
def MOTION_EVENT_ACTION_MOVE : Int := 2
def MOTION_EVENT_ACTION_CANCEL : Int := 3
def MOTION_EVENT_ACTION_OUTSIDE : Int := 4

def KEYCODE_DPAD_UP : Int := 19
def KEYCODE_DPAD_DOWN : Int := 20
def KEYCODE_DPAD_LEFT : Int := 21
def KEYCODE_DPAD_RIGHT : Int := 22

def POLLIN : Nat := 0x01
def POLLERR : Nat := 0x08
def POLLHUP : Nat := 0x10
def POLLNVAL : Nat := 0x20

/-- The function `isMovementKey`. -/
def isMovementKey (keyCode : Int) : Bool :=
  keyCode == KEYCODE_DPAD_UP
    || keyCode == KEYCODE_DPAD_DOWN
    || keyCode == KEYCODE_DPAD_LEFT
    || keyCode == KEYCODE_DPAD_RIGHT

/-! ## Data model -/

structure PointerCoords where
  x : Int
  y : Int
  pressure : Int
  size : Int
deriving DecidableEq, Repr

/-- One link of a sample chain, without its `next` pointer. -/
structure MotionSample where
  eventTime : Int
  pointerCoords : List PointerCoords
deriving DecidableEq, Repr

/-- Fields of `KeyEntry` that are not in `EventEntry`. -/
structure KeyEntry where
  deviceId : Int
  nature : Int
  policyFlags : Nat
  action : Int
  flags : Nat
  keyCode : Int
  scanCode : Int
  metaState : Int
  repeatCount : Int
  downTime : Int
deriving DecidableEq, Repr

/-- Fields of `MotionEntry` that are not in `EventEntry`.  `lastSample` is the
pointer of the source, as an index into `firstSample :: moreSamples`. -/
structure MotionEntry where
  deviceId : Int
  nature : Int
  policyFlags : Nat
  action : Int
  metaState : Int
  edgeFlags : Int
  xPrecision : Int
  yPrecision : Int
  downTime : Int
  pointerCount : Nat
  pointerIds : List Int
  firstSample : MotionSample
  moreSamples : List MotionSample
  lastSample : Nat
deriving DecidableEq, Repr

/-- The variant part of an event entry; the constructor is the `type` tag. -/
inductive EntryBody where
  | configurationChanged (touchScreenConfig keyboardConfig navigationConfig : Int)
  | key (k : KeyEntry)
  | motion (m : MotionEntry)
deriving DecidableEq, Repr

/-- A pool cell holding an event entry.  `inPool` records that the cell has been
given back to its pool. -/
structure EventEntry where
  refCount : Int
  eventTime : Int
  body : EntryBody
  inPool : Bool
deriving DecidableEq, Repr

/-- What dereferencing an address outside the heap yields: a cell that is not in use. -/
def EventEntry.invalid : EventEntry :=
  { refCount := 0, eventTime := 0, body := .configurationChanged 0 0 0, inPool := true }

/-- The sample chain of a motion entry, from `firstSample` along `next`. -/
def MotionEntry.chain (m : MotionEntry) : List MotionSample :=
  m.firstSample :: m.moreSamples

def KeyEntry.blank : KeyEntry :=
  { deviceId := 0, nature := 0, policyFlags := 0, action := 0, flags := 0, keyCode := 0,
    scanCode := 0, metaState := 0, repeatCount := 0, downTime := 0 }

def MotionSample.blank : MotionSample := { eventTime := 0, pointerCoords := [] }

def MotionEntry.blank : MotionEntry :=
  { deviceId := 0, nature := 0, policyFlags := 0, action := 0, metaState := 0, edgeFlags := 0,
    xPrecision := 0, yPrecision := 0, downTime := 0, pointerCount := 0, pointerIds := [],
    firstSample := MotionSample.blank, moreSamples := [], lastSample := 0 }

/-- The cell read as a `KeyEntry` (a `static_cast`). -/
def EventEntry.asKey (e : EventEntry) : KeyEntry :=
  match e.body with
  | .key k => k
  | _ => KeyEntry.blank

/-- The cell read as a `MotionEntry` (a `static_cast`). -/
def EventEntry.asMotion (e : EventEntry) : MotionEntry :=
  match e.body with
  | .motion m => m
  | _ => MotionEntry.blank

/-- The structure `InputTarget`; the channel is identified by its receive pipe fd. -/
structure InputTarget where
  inputChannel : Int
  flags : Nat
  xOffset : Int
  yOffset : Int
  timeout : Int
deriving DecidableEq, Repr

def InputTarget.FLAG_SYNC : Nat := 0x01
def InputTarget.FLAG_OUTSIDE : Nat := 0x02
def InputTarget.FLAG_CANCEL : Nat := 0x04

structure DispatchEntry where
  eventEntry : Nat
  targetFlags : Nat
  xOffset : Int
  yOffset : Int
  timeout : Int
  inProgress : Bool
  headMotionSample : Option Nat
  tailMotionSample : Option Nat
deriving DecidableEq, Repr

/-- Whether the dispatch entry is marked `FLAG_SYNC`. -/
def DispatchEntry.isSync (d : DispatchEntry) : Bool :=
  d.targetFlags &&& InputTarget.FLAG_SYNC != 0

inductive Status where
  | NORMAL
  | BROKEN
  | NOT_RESPONDING
  | ZOMBIE
deriving DecidableEq, Repr

structure Connection where
  status : Status
  inputChannel : Int
  outboundQueue : List DispatchEntry
  nextTimeoutTime : Int
  lastEventTime : Int
  lastDispatchTime : Int
  lastANRTime : Int
deriving DecidableEq, Repr

/-- The constructor `Connection::Connection`. -/
def Connection.new (inputChannel : Int) : Connection :=
  { status := .NORMAL, inputChannel := inputChannel, outboundQueue := [],
    nextTimeoutTime := LONG_LONG_MAX, lastEventTime := LONG_LONG_MAX,
    lastDispatchTime := LONG_LONG_MAX, lastANRTime := LONG_LONG_MAX }

/-- What dereferencing an address that holds no connection yields. -/
def Connection.invalid : Connection :=
  { status := .ZOMBIE, inputChannel := 0, outboundQueue := [],
    nextTimeoutTime := LONG_LONG_MAX, lastEventTime := LONG_LONG_MAX,
    lastDispatchTime := LONG_LONG_MAX, lastANRTime := LONG_LONG_MAX }

/-- The method `Connection::findQueuedDispatchEntryForEvent` on the queue of the
connection: the scan runs from the tail to the head, so the entry found is the one
for `eventEntry` that is nearest the tail.  The result is its position from the
head. -/
def findQueuedDispatchEntryForEvent : List DispatchEntry → Nat → Option Nat
  | [], _ => none
  | d :: q, eventEntry =>
    match findQueuedDispatchEntryForEvent q eventEntry with
    | some i => some (i + 1)
    | none => if d.eventEntry = eventEntry then some 0 else none

/-- Modelled from the spec: `Connection::hasPendingSyncTarget` is declared in the
header, which is not part of the sources at hand.  The specification says that the
flag is raised if the connection "has any in-progress or queued sync dispatch
entry". -/
def Connection.hasPendingSyncTarget (c : Connection) : Bool :=
  c.outboundQueue.any DispatchEntry.isSync

structure KeyRepeatState where
  lastKeyEntry : Option Nat
  nextRepeatTime : Int
deriving DecidableEq, Repr

/-- The arguments of `KeyEvent::initialize`. -/
structure KeyEvent where
  deviceId : Int
  nature : Int
  action : Int
  flags : Nat
  keyCode : Int
  scanCode : Int
  metaState : Int
  repeatCount : Int
  downTime : Int
  eventTime : Int
deriving DecidableEq, Repr

/-- The arguments of `MotionEvent::initialize`. -/
structure MotionEvent where
  deviceId : Int
  nature : Int
  action : Int
  edgeFlags : Int
  metaState : Int
  rawX : Int
  rawY : Int
  xPrecision : Int
  yPrecision : Int
  downTime : Int
  eventTime : Int
  pointerCount : Nat
  pointerIds : List Int
  pointerCoords : List PointerCoords
deriving DecidableEq, Repr

/-- The arguments of `InputPublisher::publishMotionEvent`. -/
structure PublishedMotion where
  deviceId : Int
  nature : Int
  action : Int
  edgeFlags : Int
  metaState : Int
  xOffset : Int
  yOffset : Int
  xPrecision : Int
  yPrecision : Int
  downTime : Int
  eventTime : Int
  pointerCount : Nat
  pointerIds : List Int
  pointerCoords : List PointerCoords
deriving DecidableEq, Repr

/-- A call of a method of `InputPublisher`. -/
inductive PublisherCall where
  | init
  | publishKeyEvent (e : KeyEvent)
  | publishMotionEvent (e : PublishedMotion)
  | appendMotionSample (eventTime : Int) (pointerCoords : List PointerCoords)
  | sendDispatchSignal
  | receiveFinishedSignal
  | reset
deriving DecidableEq, Repr

/-- One publisher call as it is logged: the connection whose publisher was called,
the call and the status it returned. -/
structure PublisherRecord where
  connection : Nat
  call : PublisherCall
  status : Int
deriving DecidableEq, Repr

/-- The interface `InputDispatchPolicyInterface`. -/
structure Policy where
  allowKeyRepeat : Bool
  getKeyRepeatTimeout : Int
  getKeyEventTargets : KeyEvent → Nat → List InputTarget
  getMotionEventTargets : MotionEvent → Nat → List InputTarget

/-- The environment of one operation: the policy and the behaviour of the
publishers (history of calls, connection, call to status). -/
structure Env where
  policy : Policy
  publisher : List PublisherRecord → Nat → PublisherCall → Int

/-- The calls received by the poll loop. -/
structure PollLoop where
  wakeCount : Nat
  callbacks : List Int
  pollTimeouts : List Int
deriving DecidableEq, Repr

/-- A call the dispatcher makes to the policy or to one of its own notification
hooks (`onDispatchCycle...Locked`). -/
inductive Callout where
  | onDispatchCycleStarted (connection : Nat)
  | onDispatchCycleFinished (connection : Nat) (recoveredFromANR : Bool)
  | onDispatchCycleANR (connection : Nat)
  | onDispatchCycleBroken (connection : Nat)
  | notifyConfigurationChanged (eventTime touchScreenConfig keyboardConfig navigationConfig : Int)
  | notifyLidSwitchChanged (eventTime : Int) (lidOpen : Bool)
deriving DecidableEq, Repr

/-- The state of an `InputDispatcher`. -/
structure InputDispatcher where
  heap : List EventEntry
  conns : List Connection
  mInboundQueue : List Nat
  mConnectionsByReceiveFd : List (Int × Nat)
  mActiveConnections : List Nat
  mKeyRepeatState : KeyRepeatState
  mCurrentInputTargets : List InputTarget
  mPollLoop : PollLoop
  trace : List PublisherRecord
  callouts : List Callout
deriving DecidableEq, Repr

/-- The body shared by `releaseConfigurationChangedEntry`, `releaseKeyEntry` and
`releaseMotionEntry`, on the cell. -/
def EventEntry.release (e : EventEntry) : EventEntry :=
  if e.refCount - 1 = 0 then { e with refCount := e.refCount - 1, inPool := true }
  else { e with refCount := e.refCount - 1 }

/-- The function `Allocator::appendMotionSample` on the motion entry: the new
sample becomes the `next` of the sample `lastSample` points at, and `lastSample`
moves to it. -/
def MotionEntry.appendMotionSample (m : MotionEntry) (eventTime : Int) (pointerCount : Nat)
    (pointerCoords : List PointerCoords) : MotionEntry :=
  { m with
    moreSamples := m.moreSamples.take m.lastSample ++
      [{ eventTime := eventTime, pointerCoords := pointerCoords.take pointerCount }]
    lastSample := m.lastSample + 1 }

namespace InputDispatcher

/-- The constructor `InputDispatcher::InputDispatcher`. -/
def init : InputDispatcher :=
  { heap := [], conns := [], mInboundQueue := [], mConnectionsByReceiveFd := [],
    mActiveConnections := [],
    mKeyRepeatState := { lastKeyEntry := none, nextRepeatTime := 0 },
    mCurrentInputTargets := [],
    mPollLoop := { wakeCount := 0, callbacks := [], pollTimeouts := [] },
    trace := [], callouts := [] }

/-! ## Memory access -/

/-- Dereference an `EventEntry*`. -/
def entry (s : InputDispatcher) (p : Nat) : EventEntry :=
  (s.heap[p]?).getD EventEntry.invalid

/-- Write through an `EventEntry*`. -/
def setEntry (s : InputDispatcher) (p : Nat) (e : EventEntry) : InputDispatcher :=
  { s with heap := s.heap.set p e }

/-- Dereference a `Connection*`. -/
def conn (s : InputDispatcher) (c : Nat) : Connection :=
  (s.conns[c]?).getD Connection.invalid

/-- Write through a `Connection*`. -/
def setConn (s : InputDispatcher) (c : Nat) (x : Connection) : InputDispatcher :=
  { s with conns := s.conns.set c x }

/-- Assign the outbound queue of a connection. -/
def setOutbound (s : InputDispatcher) (c : Nat) (q : List DispatchEntry) : InputDispatcher :=
  s.setConn c { s.conn c with outboundQueue := q }

/-- The lookup `mConnectionsByReceiveFd.indexOfKey` followed by `valueAt`. -/
def connectionByReceiveFd (s : InputDispatcher) (fd : Int) : Option Nat :=
  s.mConnectionsByReceiveFd.lookup fd

/-- Call a method of the publisher of connection `c`: the status it returns. -/
def publisherStatus (env : Env) (s : InputDispatcher) (c : Nat) (call : PublisherCall) : Int :=
  env.publisher s.trace c call

/-- Call a method of the publisher of connection `c`: the call is logged. -/
def publisherCalled (env : Env) (s : InputDispatcher) (c : Nat) (call : PublisherCall) :
    InputDispatcher :=
  { s with trace := s.trace ++ [⟨c, call, publisherStatus env s c call⟩] }

/-- Log a call to the policy or to a notification hook. -/
def callout (s : InputDispatcher) (x : Callout) : InputDispatcher :=
  { s with callouts := s.callouts ++ [x] }

/-- The call `mPollLoop->wake()`. -/
def wake (s : InputDispatcher) : InputDispatcher :=
  { s with mPollLoop := { s.mPollLoop with wakeCount := s.mPollLoop.wakeCount + 1 } }

/-! ## Allocator -/

/-- The pool part of `obtainConfigurationChangedEntry`, `obtainKeyEntry` and
`obtainMotionEntry`: a fresh cell with `refCount = 1` and the type tag set; the
caller fills the fields in, which `body` and `eventTime` stand for.  The address
of the cell is the old `heap.length`. -/
def obtainEntry (s : InputDispatcher) (eventTime : Int) (body : EntryBody) : InputDispatcher :=
  { s with heap := s.heap ++ [{ refCount := 1, eventTime := eventTime, body := body,
                                inPool := false }] }

def releaseConfigurationChangedEntry (s : InputDispatcher) (p : Nat) : InputDispatcher :=
  s.setEntry p (EventEntry.release (s.entry p))

def releaseKeyEntry (s : InputDispatcher) (p : Nat) : InputDispatcher :=
  s.setEntry p (EventEntry.release (s.entry p))

/-- The function `releaseMotionEntry`; `freeMotionSampleList` gives the samples
back to their pool, which does not change what the cell holds. -/
def releaseMotionEntry (s : InputDispatcher) (p : Nat) : InputDispatcher :=
  s.setEntry p (EventEntry.release (s.entry p))

def releaseEventEntry (s : InputDispatcher) (p : Nat) : InputDispatcher :=
  match (s.entry p).body with
  | .configurationChanged _ _ _ => s.releaseConfigurationChangedEntry p
  | .key _ => s.releaseKeyEntry p
  | .motion _ => s.releaseMotionEntry p

def releaseDispatchEntry (s : InputDispatcher) (d : DispatchEntry) : InputDispatcher :=
  s.releaseEventEntry d.eventEntry

/-- The part of `obtainDispatchEntry` that touches the event entry. -/
def retainEventEntry (s : InputDispatcher) (p : Nat) : InputDispatcher :=
  s.setEntry p { s.entry p with refCount := (s.entry p).refCount + 1 }

def appendMotionSample (s : InputDispatcher) (p : Nat) (eventTime : Int) (pointerCount : Nat)
    (pointerCoords : List PointerCoords) : InputDispatcher :=
  s.setEntry p { s.entry p with
    body := .motion ((s.entry p).asMotion.appendMotionSample eventTime pointerCount
      pointerCoords) }

/-! ## Active connections -/

def activateConnectionLocked (s : InputDispatcher) (c : Nat) : InputDispatcher :=
  if c ∈ s.mActiveConnections then s
  else { s with mActiveConnections := s.mActiveConnections ++ [c] }

def deactivateConnectionLocked (s : InputDispatcher) (c : Nat) : InputDispatcher :=
  { s with mActiveConnections := s.mActiveConnections.erase c }

def resetKeyRepeatLocked (s : InputDispatcher) : InputDispatcher :=
  match s.mKeyRepeatState.lastKeyEntry with
  | some p =>
    { s.releaseKeyEntry p with
      mKeyRepeatState := { s.mKeyRepeatState with lastKeyEntry := none } }
  | none => s

/-! ## The dispatch cycle -/

/-- The loop of `abortDispatchCycleLocked` that clears the outbound queue of `c`;
the list is the queue of `c` in the state. -/
def drainOutboundQueue (c : Nat) : List DispatchEntry → InputDispatcher → InputDispatcher
  | [], s => s
  | d :: q, s => drainOutboundQueue c q ((s.setOutbound c q).releaseDispatchEntry d)

def abortDispatchCycleLocked (s : InputDispatcher) (c : Nat) (broken : Bool) :
    InputDispatcher × Bool :=
  if (s.conn c).status = .BROKEN then (s, false)
  else
    let s1 := s.setConn c { s.conn c with nextTimeoutTime := LONG_LONG_MAX }
    let s2 := drainOutboundQueue c (s1.conn c).outboundQueue s1
    let s3 := s2.deactivateConnectionLocked c
    let s4 := if broken
      then (s3.setConn c { s3.conn c with status := .BROKEN }).callout (.onDispatchCycleBroken c)
      else s3
    (s4, true)

/-- How the loop that appends the further samples of a motion event ends: it
stops with the value of `nextMotionSample`, or a call fails. -/
inductive AppendOutcome where
  | stopped (nextMotionSample : Option Nat)
  | failed
deriving DecidableEq, Repr

/-- The loop of `startDispatchCycleLocked` over `firstMotionSample->next` and its
successors; `i` is the position in the chain of the head of the list. -/
def appendFurtherSamples (env : Env) (c : Nat) :
    List MotionSample → Nat → InputDispatcher → InputDispatcher × AppendOutcome
  | [], _, s => (s, .stopped none)
  | x :: xs, i, s =>
    let call := PublisherCall.appendMotionSample x.eventTime x.pointerCoords
    let status := s.publisherStatus env c call
    let s1 := s.publisherCalled env c call
    if status = NO_MEMORY then (s1, .stopped (some i))
    else if status ≠ OK then (s1, .failed)
    else appendFurtherSamples env c xs (i + 1) s1

/-- The `switch` of `startDispatchCycleLocked` that publishes the event of the head
dispatch entry `d` of connection `c`: the state and, unless a call failed, the
dispatch entry as the switch leaves it. -/
def publishEventOf (env : Env) (s : InputDispatcher) (c : Nat) (d : DispatchEntry) :
    InputDispatcher × Option DispatchEntry :=
  let e := s.entry d.eventEntry
  match e.body with
  | .key keyEntry =>
    let flags := if d.targetFlags &&& InputTarget.FLAG_CANCEL ≠ 0
      then keyEntry.flags ||| KEY_EVENT_FLAG_CANCELED else keyEntry.flags
    let call := PublisherCall.publishKeyEvent
      { deviceId := keyEntry.deviceId, nature := keyEntry.nature, action := keyEntry.action,
        flags := flags, keyCode := keyEntry.keyCode, scanCode := keyEntry.scanCode,
        metaState := keyEntry.metaState, repeatCount := keyEntry.repeatCount,
        downTime := keyEntry.downTime, eventTime := e.eventTime }
    let status := s.publisherStatus env c call
    let s1 := s.publisherCalled env c call
    if status ≠ 0 then (s1, none) else (s1, some d)
  | .motion motionEntry =>
    let action0 := if d.targetFlags &&& InputTarget.FLAG_OUTSIDE ≠ 0
      then MOTION_EVENT_ACTION_OUTSIDE else motionEntry.action
    let action := if d.targetFlags &&& InputTarget.FLAG_CANCEL ≠ 0
      then MOTION_EVENT_ACTION_CANCEL else action0
    let first := d.headMotionSample.getD 0
    let firstMotionSample := motionEntry.chain.getD first MotionSample.blank
    let call := PublisherCall.publishMotionEvent
      { deviceId := motionEntry.deviceId, nature := motionEntry.nature, action := action,
        edgeFlags := motionEntry.edgeFlags, metaState := motionEntry.metaState,
        xOffset := d.xOffset, yOffset := d.yOffset,
        xPrecision := motionEntry.xPrecision, yPrecision := motionEntry.yPrecision,
        downTime := motionEntry.downTime, eventTime := firstMotionSample.eventTime,
        pointerCount := motionEntry.pointerCount, pointerIds := motionEntry.pointerIds,
        pointerCoords := firstMotionSample.pointerCoords }
    let status := s.publisherStatus env c call
    let s1 := s.publisherCalled env c call
    if status ≠ 0 then (s1, none)
    else
      match appendFurtherSamples env c (motionEntry.chain.drop (first + 1)) (first + 1) s1 with
      | (s2, .failed) => (s2, none)
      | (s2, .stopped nextMotionSample) =>
        (s2, some { d with tailMotionSample := nextMotionSample })
  | .configurationChanged _ _ _ => (s, some d)

/-- The function `startDispatchCycleLocked`.  The source asserts that the outbound
queue is not empty; on an empty queue the embedding does nothing. -/
def startDispatchCycleLocked (env : Env) (s : InputDispatcher) (currentTime : Int) (c : Nat) :
    InputDispatcher :=
  match (s.conn c).outboundQueue with
  | [] => s
  | d :: q =>
    match s.publishEventOf env c d with
    | (s1, none) => (s1.abortDispatchCycleLocked c true).1
    | (s1, some d1) =>
      let status := s1.publisherStatus env c .sendDispatchSignal
      let s2 := s1.publisherCalled env c .sendDispatchSignal
      if status ≠ 0 then (s2.abortDispatchCycleLocked c true).1
      else
        (s2.setConn c { s2.conn c with
          outboundQueue := { d1 with inProgress := true } :: q
          lastEventTime := (s2.entry d1.eventEntry).eventTime
          lastDispatchTime := currentTime
          nextTimeoutTime :=
            if d1.timeout ≥ 0 then currentTime + d1.timeout else LONG_LONG_MAX }
          ).callout (.onDispatchCycleStarted c)

/-- The dispatch entry that `prepareDispatchCycleLocked` obtains and fills in for a
new event. -/
def newDispatchEntry (s : InputDispatcher) (eventEntry : Nat) (inputTarget : InputTarget)
    (resumeWithAppendedMotionSample : Bool) : DispatchEntry :=
  { eventEntry := eventEntry, targetFlags := inputTarget.flags,
    xOffset := inputTarget.xOffset, yOffset := inputTarget.yOffset,
    timeout := inputTarget.timeout, inProgress := false,
    headMotionSample :=
      if resumeWithAppendedMotionSample
      then some (s.entry eventEntry).asMotion.lastSample else none,
    tailMotionSample := none }

def prepareDispatchCycleLocked (env : Env) (s : InputDispatcher) (currentTime : Int) (c : Nat)
    (eventEntry : Nat) (inputTarget : InputTarget) (resumeWithAppendedMotionSample : Bool) :
    InputDispatcher :=
  let connection := s.conn c
  if connection.status ≠ .NORMAL then s
  else
    let wasEmpty := connection.outboundQueue.isEmpty
    match (if !wasEmpty && resumeWithAppendedMotionSample
            then findQueuedDispatchEntryForEvent connection.outboundQueue eventEntry
            else none) with
    | some i =>
      let motionEventDispatchEntry := connection.outboundQueue.getD i
        { eventEntry := eventEntry, targetFlags := 0, xOffset := 0, yOffset := 0, timeout := 0,
          inProgress := false, headMotionSample := none, tailMotionSample := none }
      if !motionEventDispatchEntry.inProgress then s
      else if motionEventDispatchEntry.tailMotionSample.isSome then s
      else
        let motionEntry := (s.entry eventEntry).asMotion
        let appendedMotionSample := motionEntry.chain.getD motionEntry.lastSample
          MotionSample.blank
        let call := PublisherCall.appendMotionSample appendedMotionSample.eventTime
          appendedMotionSample.pointerCoords
        let status := s.publisherStatus env c call
        let s1 := s.publisherCalled env c call
        if status = OK then s1
        else
          s1.setOutbound c (connection.outboundQueue.set i
            { motionEventDispatchEntry with tailMotionSample := some motionEntry.lastSample })
    | none =>
      let s1 := s.retainEventEntry eventEntry
      let dispatchEntry := s.newDispatchEntry eventEntry inputTarget
        resumeWithAppendedMotionSample
      let s2 := s1.setOutbound c (connection.outboundQueue ++ [dispatchEntry])
      if wasEmpty then (s2.activateConnectionLocked c).startDispatchCycleLocked env currentTime c
      else s2

/-- The loop of `dispatchEventToCurrentInputTargetsLocked` over the targets. -/
def dispatchEventToInputTargets (env : Env) (currentTime : Int) (eventEntry : Nat)
    (resumeWithAppendedMotionSample : Bool) :
    List InputTarget → InputDispatcher → InputDispatcher
  | [], s => s
  | inputTarget :: rest, s =>
    match s.connectionByReceiveFd inputTarget.inputChannel with
    | some c =>
      dispatchEventToInputTargets env currentTime eventEntry resumeWithAppendedMotionSample rest
        (s.prepareDispatchCycleLocked env currentTime c eventEntry inputTarget
          resumeWithAppendedMotionSample)
    | none =>
      dispatchEventToInputTargets env currentTime eventEntry resumeWithAppendedMotionSample rest s

def dispatchEventToCurrentInputTargetsLocked (env : Env) (s : InputDispatcher) (currentTime : Int)
    (eventEntry : Nat) (resumeWithAppendedMotionSample : Bool) : InputDispatcher :=
  dispatchEventToInputTargets env currentTime eventEntry resumeWithAppendedMotionSample
    s.mCurrentInputTargets s

/-- The loop of `finishDispatchCycleLocked` that starts the next dispatch cycle;
the list is the outbound queue of `c` in the state. -/
def finishDispatchLoop (env : Env) (currentTime : Int) (c : Nat) :
    List DispatchEntry → InputDispatcher → InputDispatcher
  | [], s => s.deactivateConnectionLocked c
  | d :: q, s =>
    if d.inProgress then
      if d.tailMotionSample.isSome then
        (s.setOutbound c
          ({ d with inProgress := false, headMotionSample := d.tailMotionSample,
                    tailMotionSample := none } :: q)).startDispatchCycleLocked env currentTime c
      else
        finishDispatchLoop env currentTime c q ((s.setOutbound c q).releaseDispatchEntry d)
    else s.startDispatchCycleLocked env currentTime c

def finishDispatchCycleLocked (env : Env) (s : InputDispatcher) (currentTime : Int) (c : Nat) :
    InputDispatcher :=
  if (s.conn c).status = .BROKEN then s
  else
    let s1 := s.setConn c { s.conn c with nextTimeoutTime := LONG_LONG_MAX }
    let s2 := if (s1.conn c).status = .NOT_RESPONDING
      then (s1.setConn c { s1.conn c with status := .NORMAL }).callout
        (.onDispatchCycleFinished c true)
      else s1.callout (.onDispatchCycleFinished c false)
    let status := s2.publisherStatus env c .reset
    let s3 := s2.publisherCalled env c .reset
    if status ≠ 0 then (s3.abortDispatchCycleLocked c true).1
    else finishDispatchLoop env currentTime c (s3.conn c).outboundQueue s3

def timeoutDispatchCycleLocked (s : InputDispatcher) (currentTime : Int) (c : Nat) :
    InputDispatcher × Bool :=
  if (s.conn c).status ≠ .NORMAL then (s, false)
  else
    let r := (s.setConn c { s.conn c with status := .NOT_RESPONDING, lastANRTime := currentTime }
      ).abortDispatchCycleLocked c false
    (r.1.callout (.onDispatchCycleANR c), r.2)

/-! ## Processing of inbound events -/

/-- Write the `KeyEntry` fields of the cell at `p`. -/
def setKey (s : InputDispatcher) (p : Nat) (k : KeyEntry) : InputDispatcher :=
  s.setEntry p { s.entry p with body := .key k }

def identifyInputTargetsAndDispatchKeyLocked (env : Env) (s : InputDispatcher)
    (currentTime : Int) (p : Nat) : InputDispatcher :=
  let e := s.entry p
  let entry := e.asKey
  let mReusableKeyEvent : KeyEvent :=
    { deviceId := entry.deviceId, nature := entry.nature, action := entry.action,
      flags := entry.flags, keyCode := entry.keyCode, scanCode := entry.scanCode,
      metaState := entry.metaState, repeatCount := entry.repeatCount,
      downTime := entry.downTime, eventTime := e.eventTime }
  let s1 := { s with
    mCurrentInputTargets := env.policy.getKeyEventTargets mReusableKeyEvent entry.policyFlags }
  s1.dispatchEventToCurrentInputTargetsLocked env currentTime p false

def identifyInputTargetsAndDispatchMotionLocked (env : Env) (s : InputDispatcher)
    (currentTime : Int) (p : Nat) : InputDispatcher :=
  let e := s.entry p
  let entry := e.asMotion
  let first := entry.firstSample.pointerCoords.getD 0 { x := 0, y := 0, pressure := 0, size := 0 }
  let mReusableMotionEvent : MotionEvent :=
    { deviceId := entry.deviceId, nature := entry.nature, action := entry.action,
      edgeFlags := entry.edgeFlags, metaState := entry.metaState,
      rawX := first.x, rawY := first.y,
      xPrecision := entry.xPrecision, yPrecision := entry.yPrecision,
      downTime := entry.downTime, eventTime := e.eventTime,
      pointerCount := entry.pointerCount, pointerIds := entry.pointerIds,
      pointerCoords := entry.firstSample.pointerCoords }
  let s1 := { s with
    mCurrentInputTargets :=
      env.policy.getMotionEventTargets mReusableMotionEvent entry.policyFlags }
  s1.dispatchEventToCurrentInputTargetsLocked env currentTime p false

/-- The function `processConfigurationChangedLocked`: it only calls the policy. -/
def processConfigurationChangedLocked (s : InputDispatcher) (_currentTime : Int) (p : Nat) :
    InputDispatcher :=
  match (s.entry p).body with
  | .configurationChanged touchScreenConfig keyboardConfig navigationConfig =>
    s.callout (.notifyConfigurationChanged (s.entry p).eventTime touchScreenConfig
      keyboardConfig navigationConfig)
  | _ => s

/-- The key repeat bookkeeping of `processKeyLocked`, before the targets are
identified. -/
def trackKeyRepeat (env : Env) (s : InputDispatcher) (p : Nat) : InputDispatcher :=
  if (s.entry p).asKey.action = KEY_EVENT_ACTION_DOWN then
    let s1 :=
      match s.mKeyRepeatState.lastKeyEntry with
      | some l =>
        if (s.entry l).asKey.keyCode = (s.entry p).asKey.keyCode then
          let s2 := s.setKey p { (s.entry p).asKey with
            repeatCount := (s.entry l).asKey.repeatCount + 1 }
          let s3 := s2.resetKeyRepeatLocked
          { s3 with mKeyRepeatState := { s3.mKeyRepeatState with nextRepeatTime := LONG_LONG_MAX } }
        else
          let s3 := s.resetKeyRepeatLocked
          { s3 with mKeyRepeatState := { s3.mKeyRepeatState with
              nextRepeatTime := (s.entry p).eventTime + env.policy.getKeyRepeatTimeout } }
      | none =>
        let s3 := s.resetKeyRepeatLocked
        { s3 with mKeyRepeatState := { s3.mKeyRepeatState with
            nextRepeatTime := (s.entry p).eventTime + env.policy.getKeyRepeatTimeout } }
    let s4 := { s1 with mKeyRepeatState := { s1.mKeyRepeatState with lastKeyEntry := some p } }
    s4.retainEventEntry p
  else s.resetKeyRepeatLocked

def processKeyLocked (env : Env) (s : InputDispatcher) (currentTime : Int) (p : Nat) :
    InputDispatcher :=
  (s.trackKeyRepeat env p).identifyInputTargetsAndDispatchKeyLocked env currentTime p

/-- The first part of `processKeyRepeatLocked`: the entry that carries the repeat
(the previous one if it is otherwise unreferenced, else a copy of it). -/
def obtainRepeatEntry (s : InputDispatcher) (l : Nat) : InputDispatcher × Nat :=
  let entry := s.entry l
  if entry.refCount = 1 then
    (s.setKey l { entry.asKey with repeatCount := entry.asKey.repeatCount + 1 }, l)
  else
    let newEntry := s.heap.length
    let s1 := s.obtainEntry 0
      (.key { deviceId := entry.asKey.deviceId, nature := entry.asKey.nature,
              policyFlags := entry.asKey.policyFlags, action := entry.asKey.action,
              flags := entry.asKey.flags, keyCode := entry.asKey.keyCode,
              scanCode := entry.asKey.scanCode, metaState := entry.asKey.metaState,
              repeatCount := entry.asKey.repeatCount + 1, downTime := 0 })
    let s2 := { s1 with mKeyRepeatState := { s1.mKeyRepeatState with lastKeyEntry := some newEntry } }
    (s2.releaseKeyEntry l, newEntry)

/-- The function `processKeyRepeatLocked`; the caller has checked that there is a
`lastKeyEntry`. -/
def processKeyRepeatLocked (env : Env) (s : InputDispatcher) (currentTime : Int) :
    InputDispatcher :=
  match s.mKeyRepeatState.lastKeyEntry with
  | none => s
  | some l =>
    let (s1, p) := s.obtainRepeatEntry l
    let s2 := s1.setEntry p { s1.entry p with
      eventTime := currentTime
      body := .key { (s1.entry p).asKey with downTime := currentTime, policyFlags := 0 } }
    let s3 := { s2 with mKeyRepeatState := { s2.mKeyRepeatState with
      nextRepeatTime := currentTime + env.policy.getKeyRepeatTimeout } }
    s3.identifyInputTargetsAndDispatchKeyLocked env currentTime p

def processMotionLocked (env : Env) (s : InputDispatcher) (currentTime : Int) (p : Nat) :
    InputDispatcher :=
  s.identifyInputTargetsAndDispatchMotionLocked env currentTime p

/-! ## `dispatchOnce` -/

/-- The state of the loop of `dispatchOnce` over the active connections. -/
structure TimeoutScan where
  state : InputDispatcher
  nextWakeupTime : Int
  hasPendingSyncTarget : Bool

/-- The loop of `dispatchOnce` that processes the timeouts, from index `i`.  Every
iteration either advances `i` or removes a connection from `mActiveConnections`,
so `fuel = mActiveConnections.size() - i` iterations are enough. -/
def processTimeouts (currentTime : Int) : Nat → Nat → TimeoutScan → TimeoutScan
  | 0, _, r => r
  | fuel + 1, i, r =>
    match r.state.mActiveConnections[i]? with
    | none => r
    | some c =>
      let connectionTimeoutTime := (r.state.conn c).nextTimeoutTime
      let t := if connectionTimeoutTime ≤ currentTime
        then r.state.timeoutDispatchCycleLocked currentTime c else (r.state, false)
      if t.2 then
        processTimeouts currentTime fuel i { r with state := t.1 }
      else
        processTimeouts currentTime fuel (i + 1)
          { state := t.1
            nextWakeupTime :=
              if connectionTimeoutTime < r.nextWakeupTime then connectionTimeoutTime
              else r.nextWakeupTime
            hasPendingSyncTarget :=
              if (t.1.conn c).hasPendingSyncTarget then true else r.hasPendingSyncTarget }

/-- The part of `dispatchOnce` up to the end of the loop over the active
connections. -/
def dispatchOnceTimeouts (env : Env) (s : InputDispatcher) (currentTime : Int) : TimeoutScan :=
  let s1 := if !env.policy.allowKeyRepeat then s.resetKeyRepeatLocked else s
  processTimeouts currentTime s1.mActiveConnections.length 0
    { state := s1, nextWakeupTime := LONG_LONG_MAX, hasPendingSyncTarget := false }

/-- The function `nanoseconds_to_milliseconds` (a C++ division, which truncates). -/
def nanoseconds_to_milliseconds (t : Int) : Int := Int.tdiv t 1000000

/-- The difference `a - b` of two `nsecs_t`, which are 64-bit integers in two's
complement: the difference of the numbers, wrapped into the range of `int64_t`. -/
def subNsecs (a b : Int) : Int :=
  (a - b + 9223372036854775808) % 18446744073709551616 - 9223372036854775808

/-- The end of `dispatchOnce`: wait in the poll loop. -/
def pollOnce (s : InputDispatcher) (nextWakeupTime currentTime : Int) : InputDispatcher :=
  let timeout := nanoseconds_to_milliseconds (subNsecs nextWakeupTime currentTime)
  let timeoutMillis : Int := if timeout > INT_MAX then -1 else if timeout > 0 then timeout else 0
  { s with mPollLoop := { s.mPollLoop with
      pollTimeouts := s.mPollLoop.pollTimeouts ++ [timeoutMillis] } }

/-- The dispatch of the inbound entry `p` by its type, and its release. -/
def dispatchInboundEntry (env : Env) (s : InputDispatcher) (currentTime : Int) (p : Nat) :
    InputDispatcher :=
  match (s.entry p).body with
  | .configurationChanged _ _ _ =>
    (s.processConfigurationChangedLocked currentTime p).releaseConfigurationChangedEntry p
  | .key _ => (s.processKeyLocked env currentTime p).releaseKeyEntry p
  | .motion _ => (s.processMotionLocked env currentTime p).releaseMotionEntry p

def dispatchOnce (env : Env) (s : InputDispatcher) (currentTime : Int) : InputDispatcher :=
  let r := s.dispatchOnceTimeouts env currentTime
  let s1 := r.state
  if !r.hasPendingSyncTarget then
    match s1.mInboundQueue with
    | [] =>
      match s1.mKeyRepeatState.lastKeyEntry with
      | some _ =>
        if currentTime ≥ s1.mKeyRepeatState.nextRepeatTime then
          s1.processKeyRepeatLocked env currentTime
        else
          s1.pollOnce
            (if s1.mKeyRepeatState.nextRepeatTime < r.nextWakeupTime
              then s1.mKeyRepeatState.nextRepeatTime else r.nextWakeupTime)
            currentTime
      | none => s1.pollOnce r.nextWakeupTime currentTime
    | p :: rest =>
      dispatchInboundEntry env { s1 with mInboundQueue := rest } currentTime p
  else s1.pollOnce r.nextWakeupTime currentTime

/-! ## Notifications -/

/-- The end of a notification that enqueues a new entry with the given contents:
the entry is obtained, enqueued at the tail of the inbound queue, and the poll loop
is woken if the queue was empty. -/
def enqueueInboundEntry (s : InputDispatcher) (eventTime : Int) (body : EntryBody) :
    InputDispatcher :=
  let newEntry := s.heap.length
  let s1 := s.obtainEntry eventTime body
  let wasEmpty := s1.mInboundQueue.isEmpty
  let s2 := { s1 with mInboundQueue := s1.mInboundQueue ++ [newEntry] }
  if wasEmpty then s2.wake else s2

def notifyConfigurationChanged (s : InputDispatcher) (eventTime : Int)
    (touchScreenConfig keyboardConfig navigationConfig : Int) : InputDispatcher :=
  s.enqueueInboundEntry eventTime
    (.configurationChanged touchScreenConfig keyboardConfig navigationConfig)

/-- The function `notifyLidSwitchChanged`: it only calls the policy. -/
def notifyLidSwitchChanged (s : InputDispatcher) (eventTime : Int) (lidOpen : Bool) :
    InputDispatcher :=
  s.callout (.notifyLidSwitchChanged eventTime lidOpen)

/-- The loop of `notifyAppSwitchComing`, from the tail of the inbound queue to its
head; the list holds the entries still to be visited. -/
def dropMovementKeys : List Nat → InputDispatcher → InputDispatcher
  | [], s => s
  | p :: prev, s =>
    match (s.entry p).body with
    | .key keyEntry =>
      if isMovementKey keyEntry.keyCode then
        dropMovementKeys prev
          ({ s with mInboundQueue := s.mInboundQueue.erase p }.releaseKeyEntry p)
      else s
    | _ => dropMovementKeys prev s

def notifyAppSwitchComing (s : InputDispatcher) (_eventTime : Int) : InputDispatcher :=
  dropMovementKeys s.mInboundQueue.reverse s

def notifyKey (s : InputDispatcher) (eventTime : Int) (deviceId nature : Int) (policyFlags : Nat)
    (action : Int) (flags : Nat) (keyCode scanCode metaState : Int) (downTime : Int) :
    InputDispatcher :=
  s.enqueueInboundEntry eventTime
    (.key { deviceId := deviceId, nature := nature, policyFlags := policyFlags,
            action := action, flags := flags, keyCode := keyCode, scanCode := scanCode,
            metaState := metaState, repeatCount := 0, downTime := downTime })

/-- The arguments of `notifyMotion`. -/
structure MotionArgs where
  eventTime : Int
  deviceId : Int
  nature : Int
  policyFlags : Nat
  action : Int
  metaState : Int
  edgeFlags : Int
  pointerCount : Nat
  pointerIds : List Int
  pointerCoords : List PointerCoords
  xPrecision : Int
  yPrecision : Int
  downTime : Int
deriving DecidableEq, Repr

/-- How a search of `notifyMotion` ends: with the motion entry to append to, with
the jump to `NoBatchingOrStreaming`, or at the end of the loop. -/
inductive MotionSearch where
  | found (motionEntry : Nat)
  | noBatchingOrStreaming
  | exhausted
deriving DecidableEq, Repr

/-- The batching loop of `notifyMotion`, from the tail of the inbound queue to its
head; the list holds the entries still to be visited. -/
def findBatchEntry (s : InputDispatcher) (deviceId : Int) (pointerCount : Nat) :
    List Nat → MotionSearch
  | [] => .exhausted
  | p :: prev =>
    match (s.entry p).body with
    | .motion motionEntry =>
      if motionEntry.deviceId ≠ deviceId then findBatchEntry s deviceId pointerCount prev
      else if motionEntry.action ≠ MOTION_EVENT_ACTION_MOVE
          ∨ motionEntry.pointerCount ≠ pointerCount then .noBatchingOrStreaming
      else .found p
    | _ => findBatchEntry s deviceId pointerCount prev

/-- The streaming loop of `notifyMotion` over the active connections; the list
holds the connections still to be visited. -/
def findStreamEntry (s : InputDispatcher) (deviceId : Int) (pointerCount : Nat) :
    List Nat → MotionSearch
  | [] => .exhausted
  | c :: rest =>
    match (s.conn c).outboundQueue.getLast? with
    | none => findStreamEntry s deviceId pointerCount rest
    | some dispatchEntry =>
      if dispatchEntry.targetFlags &&& InputTarget.FLAG_SYNC ≠ 0 then
        match (s.entry dispatchEntry.eventEntry).body with
        | .motion syncedMotionEntry =>
          if syncedMotionEntry.action ≠ MOTION_EVENT_ACTION_MOVE
              ∨ syncedMotionEntry.deviceId ≠ deviceId
              ∨ syncedMotionEntry.pointerCount ≠ pointerCount then .noBatchingOrStreaming
          else .found dispatchEntry.eventEntry
        | _ => .noBatchingOrStreaming
      else findStreamEntry s deviceId pointerCount rest

/-- The fields that the end of `notifyMotion` writes into the new motion entry. -/
def MotionArgs.motionEntry (a : MotionArgs) : MotionEntry :=
  { deviceId := a.deviceId, nature := a.nature, policyFlags := a.policyFlags,
    action := a.action, metaState := a.metaState, edgeFlags := a.edgeFlags,
    xPrecision := a.xPrecision, yPrecision := a.yPrecision, downTime := a.downTime,
    pointerCount := a.pointerCount,
    pointerIds := a.pointerIds.take a.pointerCount,
    firstSample := { eventTime := a.eventTime,
                     pointerCoords := a.pointerCoords.take a.pointerCount },
    moreSamples := [], lastSample := 0 }

/-- The end of `notifyMotion`: just enqueue a new motion event. -/
def enqueueMotionEntry (s : InputDispatcher) (a : MotionArgs) : InputDispatcher :=
  s.enqueueInboundEntry a.eventTime (.motion a.motionEntry)

def notifyMotion (env : Env) (s : InputDispatcher) (currentTime : Int) (a : MotionArgs) :
    InputDispatcher :=
  if a.action = MOTION_EVENT_ACTION_MOVE then
    match findBatchEntry s a.deviceId a.pointerCount s.mInboundQueue.reverse with
    | .found motionEntry =>
      s.appendMotionSample motionEntry a.eventTime a.pointerCount a.pointerCoords
    | .noBatchingOrStreaming => s.enqueueMotionEntry a
    | .exhausted =>
      match findStreamEntry s a.deviceId a.pointerCount s.mActiveConnections with
      | .found syncedMotionEntry =>
        (s.appendMotionSample syncedMotionEntry a.eventTime a.pointerCount a.pointerCoords
          ).dispatchEventToCurrentInputTargetsLocked env currentTime syncedMotionEntry true
      | _ => s.enqueueMotionEntry a
  else s.enqueueMotionEntry a

/-! ## Input channels -/

def registerInputChannel (env : Env) (s : InputDispatcher) (receiveFd : Int) :
    InputDispatcher × Int :=
  match s.connectionByReceiveFd receiveFd with
  | some _ => (s, BAD_VALUE)
  | none =>
    let connection := s.conns.length
    let status := s.publisherStatus env connection .init
    let s1 := s.publisherCalled env connection .init
    if status ≠ 0 then (s1, status)
    else
      ({ s1 with
          conns := s1.conns ++ [Connection.new receiveFd]
          mConnectionsByReceiveFd := s1.mConnectionsByReceiveFd ++ [(receiveFd, connection)]
          mPollLoop := { s1.mPollLoop with callbacks := receiveFd :: s1.mPollLoop.callbacks } },
        OK)

def unregisterInputChannel (s : InputDispatcher) (receiveFd : Int) : InputDispatcher × Int :=
  match s.connectionByReceiveFd receiveFd with
  | none => (s, BAD_VALUE)
  | some connection =>
    let s1 := { s with
      mConnectionsByReceiveFd := s.mConnectionsByReceiveFd.eraseP (fun kv => kv.1 == receiveFd) }
    let s2 := s1.setConn connection { s1.conn connection with status := .ZOMBIE }
    let s3 := (s2.abortDispatchCycleLocked connection true).1
    let s4 := { s3 with mPollLoop := { s3.mPollLoop with
      callbacks := s3.mPollLoop.callbacks.erase receiveFd } }
    (s4.wake, OK)

def handleReceiveCallback (env : Env) (s : InputDispatcher) (currentTime : Int) (receiveFd : Int)
    (events : Nat) : InputDispatcher × Bool :=
  match s.connectionByReceiveFd receiveFd with
  | none => (s, false)
  | some connection =>
    if events &&& (POLLERR ||| POLLHUP ||| POLLNVAL) ≠ 0 then
      ((s.abortDispatchCycleLocked connection true).1, false)
    else if events &&& POLLIN = 0 then (s, true)
    else
      let status := s.publisherStatus env connection .receiveFinishedSignal
      let s1 := s.publisherCalled env connection .receiveFinishedSignal
      if status ≠ 0 then ((s1.abortDispatchCycleLocked connection true).1, false)
      else (s1.finishDispatchCycleLocked env currentTime connection, true)

/-! ## The destructor -/

/-- A node that the drain loop of the destructor reaches along `next`: an entry of
the inbound queue, or the `tail` sentinel of the queue, whose type the constructor
sets to `TYPE_SENTINEL`. -/
inductive QueueNode where
  | entry (p : Nat)
  | tail
deriving DecidableEq, Repr

/-- The function `releaseEventEntry` on a node.  The `switch` on the type releases a
configuration change, a key or a motion entry; on the sentinel it takes the
`default` branch, which is `assert(false)` and releases nothing.  The flag tells
that the `default` branch was reached. -/
def releaseQueueNode (s : InputDispatcher) : QueueNode → InputDispatcher × Bool
  | .entry p => (s.releaseEventEntry p, false)
  | .tail => (s, true)

/-- The drain loop of `~InputDispatcher`.  The list holds `entry` and the entries
behind it, up to the `tail` sentinel; the loop stops when `entry` is the sentinel.
Every iteration reads `next = entry->next`, calls `releaseEventEntry(next)` and goes
on with `entry = next`.  The second component logs the arguments of the
`releaseEventEntry` calls, in the order of the calls. -/
def drainInboundQueue : List Nat → InputDispatcher × List QueueNode →
    InputDispatcher × List QueueNode
  | [], r => r
  | [_], r => ((r.1.releaseQueueNode .tail).1, r.2 ++ [.tail])
  | _ :: next :: rest, r =>
    drainInboundQueue (next :: rest)
      ((r.1.releaseQueueNode (.entry next)).1, r.2 ++ [.entry next])

/-- The receive fd of `mConnectionsByReceiveFd.valueAt(0)->inputChannel`: the vector
is sorted by its keys, so this is the smallest registered fd. -/
def firstReceiveFd (s : InputDispatcher) : Option Int :=
  (s.mConnectionsByReceiveFd.map Prod.fst).min?

/-- The loop of `~InputDispatcher` that unregisters the channels.  Every iteration
takes one connection out of `mConnectionsByReceiveFd`, so
`fuel = mConnectionsByReceiveFd.size()` iterations are enough. -/
def unregisterAll : Nat → InputDispatcher → InputDispatcher
  | 0, s => s
  | fuel + 1, s =>
    match s.firstReceiveFd with
    | none => s
    | some fd => unregisterAll fuel (s.unregisterInputChannel fd).1

/-- The destructor `~InputDispatcher`: the state it leaves and the arguments of the
`releaseEventEntry` calls of its drain loop. -/
def destroy (s : InputDispatcher) : InputDispatcher × List QueueNode :=
  let s1 := s.resetKeyRepeatLocked
  let s2 := unregisterAll s1.mConnectionsByReceiveFd.length s1
  drainInboundQueue s2.mInboundQueue (s2, [])

end InputDispatcher

/-! ## The dispatcher as a transition system -/

/-- A call of a public operation of the dispatcher (or of its receive callback). -/
inductive Operation where
  | notifyConfigurationChanged (eventTime touchScreenConfig keyboardConfig navigationConfig : Int)
  | notifyLidSwitchChanged (eventTime : Int) (lidOpen : Bool)
  | notifyAppSwitchComing (eventTime : Int)
  | notifyKey (eventTime : Int) (deviceId nature : Int) (policyFlags : Nat) (action : Int)
      (flags : Nat) (keyCode scanCode metaState : Int) (downTime : Int)
  | notifyMotion (a : InputDispatcher.MotionArgs)
  | registerInputChannel (receiveFd : Int)
  | unregisterInputChannel (receiveFd : Int)
  | dispatchOnce
  | handleReceiveCallback (receiveFd : Int) (events : Nat)
deriving DecidableEq, Repr

/-- The state after one operation, run in environment `env` at time `currentTime`. -/
def InputDispatcher.step (env : Env) (currentTime : Int) (s : InputDispatcher) :
    Operation → InputDispatcher
  | .notifyConfigurationChanged t a b c => s.notifyConfigurationChanged t a b c
  | .notifyLidSwitchChanged t o => s.notifyLidSwitchChanged t o
  | .notifyAppSwitchComing t => s.notifyAppSwitchComing t
  | .notifyKey t deviceId nature policyFlags action flags keyCode scanCode metaState downTime =>
    s.notifyKey t deviceId nature policyFlags action flags keyCode scanCode metaState downTime
  | .notifyMotion a => s.notifyMotion env currentTime a
  | .registerInputChannel fd => (s.registerInputChannel env fd).1
  | .unregisterInputChannel fd => (s.unregisterInputChannel fd).1
  | .dispatchOnce => s.dispatchOnce env currentTime
  | .handleReceiveCallback fd events => (s.handleReceiveCallback env currentTime fd events).1

/-- The states the dispatcher can be in between two operations: those reached from
the initial state by public operations, each in an environment of its own. -/
inductive Reachable : InputDispatcher → Prop where
  | init : Reachable InputDispatcher.init
  | step (env : Env) (currentTime : Int) (op : Operation) {s : InputDispatcher} :
      Reachable s → Reachable (s.step env currentTime op)

/-- The policy names every channel at most once in each answer to a target query. -/
def DistinctTargets (env : Env) : Prop :=
  (∀ e f, ((env.policy.getKeyEventTargets e f).map (fun t => t.inputChannel)).Nodup)
    ∧ ∀ e f, ((env.policy.getMotionEventTargets e f).map (fun t => t.inputChannel)).Nodup

/-- The states reached from the initial state by public operations, each in an
environment of its own whose policy names every channel at most once per answer. -/
inductive ReachableDistinct : InputDispatcher → Prop where
  | init : ReachableDistinct InputDispatcher.init
  | step (env : Env) (h : DistinctTargets env) (currentTime : Int) (op : Operation)
      {s : InputDispatcher} :
      ReachableDistinct s → ReachableDistinct (s.step env currentTime op)

/-! ## Invariants -/

namespace InputDispatcher

/-- The number of dispatch entries of the queue that reference the event entry `p`. -/
def queueRefs (q : List DispatchEntry) (p : Nat) : Nat :=
  q.countP (fun d => d.eventEntry == p)

/-- The number of dispatch entries in all outbound queues that reference `p`. -/
def outboundRefs (s : InputDispatcher) (p : Nat) : Nat :=
  (s.conns.map (fun c => queueRefs c.outboundQueue p)).sum

/-- One if the pointer (the `lastKeyEntry`, or a pointer held in a local variable)
is `p`, else zero. -/
def heldRefs (held : Option Nat) (p : Nat) : Nat :=
  if held = some p then 1 else 0

/-- The number of references to the event entry `p` from the inbound queue, the
outbound queues and the key repeat state, with multiplicity. -/
def refs (s : InputDispatcher) (p : Nat) : Nat :=
  s.mInboundQueue.count p + s.outboundRefs p + heldRefs s.mKeyRepeatState.lastKeyEntry p

/-- The number of references to the event entry `p`: one if it is in the inbound
queue, the number of dispatch entries in all outbound queues whose `eventEntry` it
is, and one if it is `mKeyRepeatState.lastKeyEntry`. -/
def references (s : InputDispatcher) (p : Nat) : Nat :=
  (if p ∈ s.mInboundQueue then 1 else 0) + s.outboundRefs p
    + (if s.mKeyRepeatState.lastKeyEntry = some p then 1 else 0)

/-- A cell agrees with `n` references: it is in its pool exactly if `n = 0`, and
otherwise its reference count is `n`. -/
structure CellOk (e : EventEntry) (n : Nat) : Prop where
  pool : e.inPool = true ↔ n = 0
  count : e.inPool = false → e.refCount = n

/-- The reference counts are right, counting one more reference to the entry
`held` (an entry the running operation has taken off the inbound queue). -/
def RefsOk (held : Option Nat) (s : InputDispatcher) : Prop :=
  ∀ p, CellOk (s.entry p) (s.refs p + heldRefs held p)

/-- The state of connection `c` is consistent: it is active exactly if its outbound
queue is not empty, only the head of the queue can be in progress, and a queue that
is not empty belongs to a `NORMAL` connection and has its head in progress. -/
structure ConnOk (s : InputDispatcher) (c : Nat) : Prop where
  active : c ∈ s.mActiveConnections ↔ (s.conn c).outboundQueue ≠ []
  inProgress : ∀ d q, (s.conn c).outboundQueue = d :: q → ∀ x ∈ q, x.inProgress = false
  delivering : ∀ d q, (s.conn c).outboundQueue = d :: q →
    (s.conn c).status = .NORMAL ∧ d.inProgress = true

/-- Every motion entry's `lastSample` points at the last sample of its chain. -/
def SamplesOk (s : InputDispatcher) : Prop :=
  ∀ p, (s.entry p).asMotion.lastSample = (s.entry p).asMotion.moreSamples.length

/-- What an operation of the dispatch cycle of connection `c` leaves alone: the
contents of the cells other than their reference counts, the other connections,
and every queue or table of the dispatcher but the active connections, where only
the membership of `c` may change. -/
structure CycleFrame (c : Nat) (s s1 : InputDispatcher) : Prop where
  body : ∀ p, (s1.entry p).body = (s.entry p).body
  eventTime : ∀ p, (s1.entry p).eventTime = (s.entry p).eventTime
  heapLength : s1.heap.length = s.heap.length
  connsLength : s1.conns.length = s.conns.length
  conn : ∀ c1, c1 ≠ c → s1.conn c1 = s.conn c1
  inbound : s1.mInboundQueue = s.mInboundQueue
  keyRepeat : s1.mKeyRepeatState = s.mKeyRepeatState
  map : s1.mConnectionsByReceiveFd = s.mConnectionsByReceiveFd
  targets : s1.mCurrentInputTargets = s.mCurrentInputTargets
  pollLoop : s1.mPollLoop = s.mPollLoop
  active : ∀ c1, c1 ≠ c → (c1 ∈ s1.mActiveConnections ↔ c1 ∈ s.mActiveConnections)
  activeNodup : s.mActiveConnections.Nodup → s1.mActiveConnections.Nodup

/-- What dispatching an event to its targets leaves alone: the contents of the
cells other than their reference counts, the inbound queue, the key repeat state,
the registered connections and the current input targets. -/
structure DispatchFrame (s s1 : InputDispatcher) : Prop where
  body : ∀ p, (s1.entry p).body = (s.entry p).body
  eventTime : ∀ p, (s1.entry p).eventTime = (s.entry p).eventTime
  heapLength : s1.heap.length = s.heap.length
  connsLength : s1.conns.length = s.conns.length
  inbound : s1.mInboundQueue = s.mInboundQueue
  keyRepeat : s1.mKeyRepeatState = s.mKeyRepeatState
  map : s1.mConnectionsByReceiveFd = s.mConnectionsByReceiveFd
  targets : s1.mCurrentInputTargets = s.mCurrentInputTargets
  pollLoop : s1.mPollLoop = s.mPollLoop

/-- The publisher calls that an operation of the dispatch cycle of connection `c`
makes are calls on the publisher of `c`: the trace grows by records of `c`. -/
def TraceFrame (c : Nat) (s s1 : InputDispatcher) : Prop :=
  ∃ ext : List PublisherRecord, s1.trace = s.trace ++ ext ∧ ∀ r ∈ ext, r.connection = c

/-- The event entry and the `FLAG_SYNC` bit of the dispatch entries of connection
`c`, in the order of the outbound queue. -/
def syncSignature (s : InputDispatcher) (c : Nat) : List (Nat × Bool) :=
  (s.conn c).outboundQueue.map (fun d => (d.eventEntry, d.isSync))

/-- In every outbound queue only the tail can be marked `FLAG_SYNC`. -/
def SyncTailOk (s : InputDispatcher) : Prop :=
  ∀ c, ∀ x ∈ (s.syncSignature c).dropLast, x.2 = false

/-- Every dispatch entry marked `FLAG_SYNC`, in whatever outbound queue, is for the
event entry `p`. -/
def SyncOf (p : Nat) (s : InputDispatcher) : Prop :=
  ∀ c, ∀ x ∈ s.syncSignature c, x.2 = true → x.1 = p

/-- No dispatch entry of any outbound queue is marked `FLAG_SYNC`. -/
def NoSync (s : InputDispatcher) : Prop :=
  ∀ c, ∀ x ∈ s.syncSignature c, x.2 = false

/-- The connections and the table of the registered channels of `s1` are those of
`s`. -/
def SameConnections (s s1 : InputDispatcher) : Prop :=
  s1.conns = s.conns ∧ s1.mConnectionsByReceiveFd = s.mConnectionsByReceiveFd

/-- The notifications that starting or aborting a dispatch cycle of connection `c`
sends: the callouts grow by `onDispatchCycleStarted c` and `onDispatchCycleBroken c`
only. -/
def CalloutFrame (c : Nat) (s s1 : InputDispatcher) : Prop :=
  ∃ ext : List Callout, s1.callouts = s.callouts ++ ext
    ∧ ∀ x ∈ ext, x = .onDispatchCycleStarted c ∨ x = .onDispatchCycleBroken c

/-- The invariant behind the synchronous tail: only tails are marked `FLAG_SYNC`, all
marked dispatch entries are for one event, and no connection is registered for two
channels. -/
structure SyncInv (s : InputDispatcher) : Prop where
  tail : SyncTailOk s
  same : ∃ p, SyncOf p s
  channels : (s.mConnectionsByReceiveFd.map Prod.snd).Nodup

/-- The invariant of the dispatcher; `held` is as in `RefsOk`. -/
structure Inv (held : Option Nat) (s : InputDispatcher) : Prop where
  refsOk : RefsOk held s
  inboundNodup : s.mInboundQueue.Nodup
  heldNotInbound : ∀ p, held = some p → p ∉ s.mInboundQueue
  connOk : ∀ c, ConnOk s c
  activeNodup : s.mActiveConnections.Nodup
  mapValid : ∀ fd c, (fd, c) ∈ s.mConnectionsByReceiveFd → c < s.conns.length
  samplesOk : SamplesOk s

end InputDispatcher

/-! ## Notions of the specification -/

namespace InputDispatcher

/-- Whether the cell holds a motion entry of device `deviceId`. -/
def isMotionOf (deviceId : Int) (e : EventEntry) : Bool :=
  match e.body with
  | .motion m => m.deviceId == deviceId
  | _ => false

/-- The latest motion entry for device `deviceId` in the inbound queue: the one
nearest the tail. -/
def latestInboundMotion (s : InputDispatcher) (deviceId : Int) : Option Nat :=
  s.mInboundQueue.reverse.find? (fun p => isMotionOf deviceId (s.entry p))

/-- Whether the cell holds a `MOVE` motion entry of device `deviceId` with
`pointerCount` pointers. -/
def isMoveOf (deviceId : Int) (pointerCount : Nat) (e : EventEntry) : Bool :=
  match e.body with
  | .motion m =>
    m.action == MOTION_EVENT_ACTION_MOVE && m.deviceId == deviceId
      && m.pointerCount == pointerCount
  | _ => false

/-- The tail dispatch entry of the first active connection whose tail dispatch entry
is marked `FLAG_SYNC`. -/
def firstSyncTail (s : InputDispatcher) : Option DispatchEntry :=
  (s.mActiveConnections.filterMap (fun c => (s.conn c).outboundQueue.getLast?)).find?
    DispatchEntry.isSync

/-- The sample that `notifyMotion` makes of its arguments. -/
def MotionArgs.sample (a : MotionArgs) : MotionSample :=
  { eventTime := a.eventTime, pointerCoords := a.pointerCoords.take a.pointerCount }

/-- The publisher calls made on connection `c` since the trace was `old`. -/
def callsSince (s : InputDispatcher) (old : List PublisherRecord) (c : Nat) :
    List PublisherCall :=
  ((s.trace.drop old.length).filter (fun r => r.connection == c)).map (fun r => r.call)

/-- The current input targets that name connection `c`: those whose channel is
registered for `c`. -/
def targetsNaming (s : InputDispatcher) (c : Nat) : List InputTarget :=
  s.mCurrentInputTargets.filter (fun t => s.connectionByReceiveFd t.inputChannel = some c)

/-- Whether the cell holds a key entry whose key code is a movement key. -/
def isMovementKeyEntry (e : EventEntry) : Bool :=
  match e.body with
  | .key k => isMovementKey k.keyCode
  | _ => false

/-- Whether the cell holds a key entry whose key code is not a movement key. -/
def isOtherKeyEntry (e : EventEntry) : Bool :=
  match e.body with
  | .key k => !isMovementKey k.keyCode
  | _ => false

/-- The entries of the queue `q` that lie after its last non-movement key entry (all
of `q` if it has none), with the cells read in `s`. -/
def afterLastOtherKey (s : InputDispatcher) (q : List Nat) : List Nat :=
  (q.reverse.takeWhile (fun p => !isOtherKeyEntry (s.entry p))).reverse

/-- The entries of the queue `q` up to and including its last non-movement key
entry (none if it has none). -/
def uptoLastOtherKey (s : InputDispatcher) (q : List Nat) : List Nat :=
  (q.reverse.dropWhile (fun p => !isOtherKeyEntry (s.entry p))).reverse

/-- The app-switch trim as the specification words it: `q` with those entries removed
that are movement keys and lie after the last non-movement key entry of `q`. -/
def appSwitchTrim (s : InputDispatcher) (q : List Nat) : List Nat :=
  uptoLastOtherKey s q ++ (afterLastOtherKey s q).filter (fun p => !isMovementKeyEntry (s.entry p))

/-- Whether the record is of a publisher call that failed for the transport:
`publishKeyEvent`, `publishMotionEvent`, `sendDispatchSignal` and `reset` fail when they
return another status than `OK`, `appendMotionSample` when it returns neither `OK` nor
`NO_MEMORY`. -/
def isTransportFailure (r : PublisherRecord) : Bool :=
  match r.call with
  | .publishKeyEvent _ => r.status != OK
  | .publishMotionEvent _ => r.status != OK
  | .sendDispatchSignal => r.status != OK
  | .reset => r.status != OK
  | .appendMotionSample _ _ => r.status != OK && r.status != NO_MEMORY
  | _ => false

/-- The publisher records that the operation leading from the trace `old` to `s`
added. -/
def recordsSince (s : InputDispatcher) (old : List PublisherRecord) : List PublisherRecord :=
  s.trace.drop old.length

/-- Connection `c` is broken and idle: its status is `BROKEN`, its outbound queue is
empty, it is not in the active set and no timeout is pending. -/
structure BrokenIdle (s : InputDispatcher) (c : Nat) : Prop where
  status : (s.conn c).status = .BROKEN
  outbound : (s.conn c).outboundQueue = []
  inactive : c ∉ s.mActiveConnections
  timeout : (s.conn c).nextTimeoutTime = LONG_LONG_MAX

/-- Whether `dispatchOnce` synthesizes a key repeat: after the timeouts no synchronous
target is pending, the inbound queue is empty, there is a `lastKeyEntry` and the
current time has reached `nextRepeatTime`, so that `processKeyRepeatLocked` is
called. -/
def synthesizesKeyRepeat (env : Env) (s : InputDispatcher) (currentTime : Int) : Bool :=
  let r := s.dispatchOnceTimeouts env currentTime
  !r.hasPendingSyncTarget && r.state.mInboundQueue.isEmpty
    && r.state.mKeyRepeatState.lastKeyEntry.isSome
    && decide (currentTime ≥ r.state.mKeyRepeatState.nextRepeatTime)

/-- Whether `dispatchOnce` processes a key event: after the timeouts no synchronous
target is pending and the head of the inbound queue is a key entry, so that
`processKeyLocked` is called. -/
def processesKeyEvent (env : Env) (s : InputDispatcher) (currentTime : Int) : Bool :=
  let r := s.dispatchOnceTimeouts env currentTime
  !r.hasPendingSyncTarget &&
    match r.state.mInboundQueue with
    | p :: _ =>
      match (r.state.entry p).body with
      | .key _ => true
      | _ => false
    | [] => false

/-- A run of public operations, each in its environment and at its time. -/
def runSteps : List (Env × Int × Operation) → InputDispatcher → InputDispatcher
  | [], s => s
  | (env, currentTime, op) :: rest, s => runSteps rest (s.step env currentTime op)

/-- Every `dispatchOnce` of the run happens at a finite time and processes no key
event. -/
def QuietRun : List (Env × Int × Operation) → InputDispatcher → Prop
  | [], _ => True
  | (env, currentTime, op) :: rest, s =>
    (op = .dispatchOnce →
        currentTime < LONG_LONG_MAX ∧ s.processesKeyEvent env currentTime = false)
      ∧ QuietRun rest (s.step env currentTime op)

/-- No `dispatchOnce` of the run synthesizes a key repeat. -/
def NoSynthesis : List (Env × Int × Operation) → InputDispatcher → Prop
  | [], _ => True
  | (env, currentTime, op) :: rest, s =>
    (op = .dispatchOnce → s.synthesizesKeyRepeat env currentTime = false)
      ∧ NoSynthesis rest (s.step env currentTime op)

/-- The motion sample a publisher call hands over, if it hands one over. -/
def sampleOfCall : PublisherCall → Option MotionSample
  | .publishMotionEvent e => some { eventTime := e.eventTime, pointerCoords := e.pointerCoords }
  | .appendMotionSample eventTime pointerCoords =>
    some { eventTime := eventTime, pointerCoords := pointerCoords }
  | _ => none

/-- The samples that the publisher of connection `c` accepted (the call returned
`OK`), in the order of the calls. -/
def acceptedSamples (records : List PublisherRecord) (c : Nat) : List MotionSample :=
  records.filterMap
    (fun r => if r.connection = c ∧ r.status = OK then sampleOfCall r.call else none)

/-- The samples that the publisher of connection `c` refused with `NO_MEMORY`, in
the order of the calls. -/
def refusedSamples (records : List PublisherRecord) (c : Nat) : List MotionSample :=
  records.filterMap
    (fun r => if r.connection = c ∧ r.status = NO_MEMORY then sampleOfCall r.call else none)

/-- The samples with which dispatch cycles of connection `c` started: those handed
over by `publishMotionEvent`, in the order of the calls. -/
def cycleStartSamples (records : List PublisherRecord) (c : Nat) : List MotionSample :=
  records.filterMap
    (fun r => if r.connection = c then
      match r.call with
      | .publishMotionEvent e =>
        some { eventTime := e.eventTime, pointerCoords := e.pointerCoords }
      | _ => none
      else none)

/-- A publisher on which `publishMotionEvent`, `sendDispatchSignal` and `reset`
succeed and `appendMotionSample` returns only `OK` or `NO_MEMORY`. -/
structure BackPressureOnly (env : Env) (c : Nat) : Prop where
  publishMotionEvent : ∀ tr e, env.publisher tr c (.publishMotionEvent e) = OK
  sendDispatchSignal : ∀ tr, env.publisher tr c .sendDispatchSignal = OK
  reset : ∀ tr, env.publisher tr c .reset = OK
  appendMotionSample : ∀ tr t cs,
    env.publisher tr c (.appendMotionSample t cs) = OK
      ∨ env.publisher tr c (.appendMotionSample t cs) = NO_MEMORY

/-- The consumer finishes the cycle of connection `c`, and the dispatcher runs
`finishDispatchCycleLocked`, as long as the head dispatch entry is in progress with
samples left over for a later cycle. -/
def finishWhilePending (env : Env) (currentTime : Int) (c : Nat) :
    Nat → InputDispatcher → InputDispatcher
  | 0, s => s
  | fuel + 1, s =>
    match (s.conn c).outboundQueue with
    | [] => s
    | d :: _ =>
      if d.inProgress && d.tailMotionSample.isSome then
        finishWhilePending env currentTime c fuel
          (s.finishDispatchCycleLocked env currentTime c)
      else s

/-- Start the dispatch cycle of connection `c` and alternate finish and start until
no samples of the head dispatch entry are left over. -/
def deliverHead (env : Env) (currentTime : Int) (c : Nat) (fuel : Nat) (s : InputDispatcher) :
    InputDispatcher :=
  finishWhilePending env currentTime c fuel (s.startDispatchCycleLocked env currentTime c)

/-- The event times of the samples of a motion entry, along the walk from
`firstSample` by `next`. -/
def sampleTimes (m : MotionEntry) : List Int :=
  m.chain.map (fun x => x.eventTime)

/-- The arguments of the `notifyMotion` calls of a run, in the order of the calls. -/
def motionCalls : List (Env × Int × Operation) → List MotionArgs
  | [] => []
  | (_, _, .notifyMotion a) :: rest => a :: motionCalls rest
  | _ :: rest => motionCalls rest

/-- The event times that the `notifyMotion` calls of the run pass are non-decreasing
for each device. -/
def MotionTimesOrdered (ops : List (Env × Int × Operation)) : Prop :=
  (motionCalls ops).Pairwise (fun a b => a.deviceId = b.deviceId → a.eventTime ≤ b.eventTime)

/-- Every motion entry of `s1` is a motion entry of `s` with the same fields and the
same samples: going from `s` to `s1` has neither made nor changed a motion entry. -/
def MotionsKept (s s1 : InputDispatcher) : Prop :=
  ∀ p m, (s1.entry p).body = .motion m → (s.entry p).body = .motion m

/-- The sample times of every motion entry are non-decreasing along its chain, and
every sample carries the event time of one of the `notifyMotion` calls `calls` for the
device of the entry. -/
def TimesOk (calls : List MotionArgs) (s : InputDispatcher) : Prop :=
  ∀ p m, (s.entry p).body = .motion m →
    (sampleTimes m).Pairwise (fun x y => x ≤ y)
      ∧ ∀ x ∈ m.chain, ∃ a ∈ calls, a.deviceId = m.deviceId ∧ a.eventTime = x.eventTime

/-- The `publishKeyEvent` calls among the records, in the order of the calls. -/
def publishedKeys (records : List PublisherRecord) : List KeyEvent :=
  records.filterMap (fun r =>
    match r.call with
    | .publishKeyEvent e => some e
    | _ => none)

/-- The walk over the active connections as the specification words it: every
connection of the list is examined once, in the order of the list; a connection
whose `nextTimeoutTime` has passed is timed out, and any other folds its
`nextTimeoutTime` into the wake-up time and its pending synchronous target into the
flag. -/
def timeoutWalk (currentTime : Int) : List Nat → TimeoutScan → TimeoutScan
  | [], r => r
  | c :: rest, r =>
    if (r.state.conn c).nextTimeoutTime ≤ currentTime then
      timeoutWalk currentTime rest
        { r with state := (r.state.timeoutDispatchCycleLocked currentTime c).1 }
    else
      timeoutWalk currentTime rest
        { state := r.state
          nextWakeupTime := min (r.state.conn c).nextTimeoutTime r.nextWakeupTime
          hasPendingSyncTarget :=
            (r.state.conn c).hasPendingSyncTarget || r.hasPendingSyncTarget }

/-- Whether the dispatch cycle of connection `c` has timed out at `currentTime`. -/
def hasTimedOut (s : InputDispatcher) (currentTime : Int) (c : Nat) : Bool :=
  decide ((s.conn c).nextTimeoutTime ≤ currentTime)

end InputDispatcher

/-! ## Example runs -/

namespace Example

/-- An input target for the channel with receive fd `fd`, with a timeout of 100. -/
def target (fd : Int) (flags : Nat) : InputTarget :=
  { inputChannel := fd, flags := flags, xOffset := 0, yOffset := 0, timeout := 100 }

/-- An environment whose policy answers every target query with `targets` and
whose publishers always succeed. -/
def env (targets : List InputTarget) : Env :=
  { policy := { allowKeyRepeat := true, getKeyRepeatTimeout := 50,
                getKeyEventTargets := fun _ _ => targets,
                getMotionEventTargets := fun _ _ => targets },
    publisher := fun _ _ _ => 0 }

/-- A motion notification of device 1 with one pointer, at position `(t, t)`. -/
def motion (t : Int) (action : Int) : InputDispatcher.MotionArgs :=
  { eventTime := t, deviceId := 1, nature := 0, policyFlags := 0, action := action,
    metaState := 0, edgeFlags := 0, pointerCount := 1, pointerIds := [0],
    pointerCoords := [{ x := t, y := t, pressure := 0, size := 0 }],
    xPrecision := 0, yPrecision := 0, downTime := 0 }

/-- Run a list of operations, each at its time, in one environment. -/
def run (e : Env) (ops : List (Int × Operation)) (s : InputDispatcher) : InputDispatcher :=
  ops.foldl (fun s o => s.step e o.1 o.2) s

/-- Channel 7 is registered, a key down (key code 29) is notified and dispatched to
channel 7 as a synchronous target. -/
def keyDispatched : InputDispatcher :=
  run (env [target 7 InputTarget.FLAG_SYNC])
    [(0, .registerInputChannel 7), (0, .notifyKey 0 1 0 0 KEY_EVENT_ACTION_DOWN 0 29 0 0 0),
     (1, .dispatchOnce)] InputDispatcher.init

/-- Channel 7 is registered; a move of device 1 is notified and dispatched to
channel 7 as a synchronous target, and then a down of device 1 is notified, which
waits in the inbound queue behind the synchronous dispatch. -/
def downBehindSyncMove : InputDispatcher :=
  run (env [target 7 InputTarget.FLAG_SYNC])
    [(0, .registerInputChannel 7), (0, .notifyMotion (motion 0 MOTION_EVENT_ACTION_MOVE)),
     (1, .dispatchOnce), (30, .notifyMotion (motion 30 MOTION_EVENT_ACTION_DOWN))]
    InputDispatcher.init

/-- Channel 7 is registered and a move of device 1 waits in the inbound queue. -/
def moveQueued : InputDispatcher :=
  run (env [target 7 InputTarget.FLAG_SYNC])
    [(0, .registerInputChannel 7), (0, .notifyMotion (motion 0 MOTION_EVENT_ACTION_MOVE))]
    InputDispatcher.init

/-- After `keyDispatched`, while the key down is still being delivered, the key up
is notified. -/
def keyUpWaiting : InputDispatcher :=
  run (env [target 7 InputTarget.FLAG_SYNC])
    [(2, .notifyKey 2 1 0 0 KEY_EVENT_ACTION_UP 0 29 0 0 0)] keyDispatched

/-- Channel 7 is registered and nothing has been notified. -/
def registered : InputDispatcher :=
  run (env [target 7 InputTarget.FLAG_SYNC]) [(0, .registerInputChannel 7)]
    InputDispatcher.init

/-- An environment whose publishers refuse a further sample with `NO_MEMORY`
whenever an odd number of calls has been logged, and succeed otherwise. -/
def pressureEnv : Env :=
  { policy := (env [target 7 0]).policy,
    publisher := fun records _ call =>
      match call with
      | .appendMotionSample _ _ => if records.length % 2 = 1 then NO_MEMORY else OK
      | _ => OK }

/-- Channel 7 is registered and four moves of device 1 are notified, which are
batched into one motion entry of the inbound queue. -/
def batchedMoves : InputDispatcher :=
  run pressureEnv
    [(0, .registerInputChannel 7), (0, .notifyMotion (motion 0 MOTION_EVENT_ACTION_MOVE)),
     (1, .notifyMotion (motion 1 MOTION_EVENT_ACTION_MOVE)),
     (2, .notifyMotion (motion 2 MOTION_EVENT_ACTION_MOVE)),
     (3, .notifyMotion (motion 3 MOTION_EVENT_ACTION_MOVE))]
    InputDispatcher.init

/-- The state in which `prepareDispatchCycleLocked` starts the dispatch cycle of
connection 0 for the batched moves: their dispatch entry is the head of the
outbound queue and the connection is active. -/
def headReady : InputDispatcher :=
  ((batchedMoves.retainEventEntry 0).setOutbound 0
    [batchedMoves.newDispatchEntry 0 (target 7 0) false]).activateConnectionLocked 0

/-- Channel 7 is registered; a move of device 1 is notified and dispatched to
channel 7 as a synchronous target, and its dispatch cycle is in progress. -/
def moveDelivering : InputDispatcher :=
  run (env [target 7 InputTarget.FLAG_SYNC])
    [(0, .registerInputChannel 7), (0, .notifyMotion (motion 0 MOTION_EVENT_ACTION_MOVE)),
     (1, .dispatchOnce)] InputDispatcher.init

/-- Channel 7 is registered and the policy names it twice as a synchronous target;
a move of device 1 is notified and dispatched, which gives two dispatch entries, and
the consumer has finished the first, so that the cycle of the second is in
progress. -/
def moveDeliveringTwice : InputDispatcher :=
  run (env [target 7 InputTarget.FLAG_SYNC, target 7 InputTarget.FLAG_SYNC])
    [(0, .registerInputChannel 7), (0, .notifyMotion (motion 0 MOTION_EVENT_ACTION_MOVE)),
     (1, .dispatchOnce), (2, .handleReceiveCallback 7 POLLIN)] InputDispatcher.init

/-- Channel 7 is registered and the policy names it twice as a synchronous target;
a move of device 1 is notified and dispatched, which gives two dispatch entries. -/
def moveDispatchedTwice : InputDispatcher :=
  run (env [target 7 InputTarget.FLAG_SYNC, target 7 InputTarget.FLAG_SYNC])
    [(0, .registerInputChannel 7), (0, .notifyMotion (motion 0 MOTION_EVENT_ACTION_MOVE)),
     (1, .dispatchOnce)] InputDispatcher.init

/-- An environment whose policy answers every target query with `targets` and
whose publishers fail every call but `initialize`. -/
def brokenEnv (targets : List InputTarget) : Env :=
  { policy := (env targets).policy,
    publisher := fun _ _ call =>
      match call with
      | .init => OK
      | _ => FAILED_TRANSACTION }

/-- Channel 7 is registered and a key down is dispatched to it; the publisher fails,
which breaks the connection. -/
def keyBroken : InputDispatcher :=
  run (brokenEnv [target 7 InputTarget.FLAG_SYNC])
    [(0, .registerInputChannel 7), (0, .notifyKey 0 1 0 0 KEY_EVENT_ACTION_DOWN 0 29 0 0 0),
     (1, .dispatchOnce)] InputDispatcher.init

/-- Six events wait in the inbound queue: key A (29), DPAD up (19), key B (30),
DPAD down (20), a motion down, DPAD left (21). -/
def keysQueued : InputDispatcher :=
  run (env [])
    [(0, .notifyKey 0 1 0 0 KEY_EVENT_ACTION_DOWN 0 29 0 0 0),
     (1, .notifyKey 1 1 0 0 KEY_EVENT_ACTION_DOWN 0 KEYCODE_DPAD_UP 0 0 1),
     (2, .notifyKey 2 1 0 0 KEY_EVENT_ACTION_DOWN 0 30 0 0 2),
     (3, .notifyKey 3 1 0 0 KEY_EVENT_ACTION_DOWN 0 KEYCODE_DPAD_DOWN 0 0 3),
     (4, .notifyMotion (motion 4 MOTION_EVENT_ACTION_DOWN)),
     (5, .notifyKey 5 1 0 0 KEY_EVENT_ACTION_DOWN 0 KEYCODE_DPAD_LEFT 0 0 5)]
    InputDispatcher.init

/-- After `keyDispatched`, the consumer has not finished when `dispatchOnce` runs at
time 200, past the timeout of the dispatch cycle: the connection is not responding. -/
def keyTimedOut : InputDispatcher :=
  run (env [target 7 InputTarget.FLAG_SYNC]) [(200, .dispatchOnce)] keyDispatched

/-- Channel 7 is registered and a down of key 29 with event time 0 has been taken
off the inbound queue by `dispatchOnce`, which is about to call `processKeyLocked`. -/
def keyDequeued : InputDispatcher :=
  { run (env [target 7 InputTarget.FLAG_SYNC])
      [(0, .registerInputChannel 7), (0, .notifyKey 0 1 0 0 KEY_EVENT_ACTION_DOWN 0 29 0 0 0)]
      InputDispatcher.init with mInboundQueue := [] }

/-- After `keyDispatched` the consumer has finished the key down, the driver has sent
a second down of key 29, and `dispatchOnce` has taken it off the inbound queue and is
about to call `processKeyLocked`. -/
def secondDownDequeued : InputDispatcher :=
  { run (env [target 7 InputTarget.FLAG_SYNC])
      [(2, .handleReceiveCallback 7 POLLIN),
       (10, .notifyKey 10 1 0 0 KEY_EVENT_ACTION_DOWN 0 29 0 0 0)] keyDispatched
    with mInboundQueue := [] }

/-- An environment whose publishers fail to initialize, with `BAD_VALUE`. -/
def refusingEnv : Env :=
  { policy := (env []).policy,
    publisher := fun _ _ call =>
      match call with
      | .init => BAD_VALUE
      | _ => OK }

/-- Two moves of device 1 are notified, the second with an earlier event time than
the first; the second is batched onto the first. -/
def movesOutOfOrder : InputDispatcher :=
  run (env [])
    [(0, .notifyMotion (motion 10 MOTION_EVENT_ACTION_MOVE)),
     (1, .notifyMotion (motion 5 MOTION_EVENT_ACTION_MOVE))] InputDispatcher.init

/-- Channel 7 is registered; two moves of device 1 are notified and batched, the
batch is dispatched to channel 7 as a synchronous target, and a third move is
streamed. -/
def orderedMoves : List (Env × Int × Operation) :=
  [(env [target 7 InputTarget.FLAG_SYNC], 0, .registerInputChannel 7),
   (env [target 7 InputTarget.FLAG_SYNC], 0, .notifyMotion (motion 0 MOTION_EVENT_ACTION_MOVE)),
   (env [target 7 InputTarget.FLAG_SYNC], 10, .notifyMotion (motion 10 MOTION_EVENT_ACTION_MOVE)),
   (env [target 7 InputTarget.FLAG_SYNC], 11, .dispatchOnce),
   (env [target 7 InputTarget.FLAG_SYNC], 20, .notifyMotion (motion 20 MOTION_EVENT_ACTION_MOVE))]

/-- The window of the simple key scenario: channel 7, with a timeout of 500 ms. -/
def window (flags : Nat) : InputTarget :=
  { inputChannel := 7, flags := flags, xOffset := 0, yOffset := 0, timeout := 500000000 }

/-- The simple key scenario: channel 7 is registered; a down and an up of the key are
notified; `dispatchOnce` processes the down, the consumer finishes it,
`dispatchOnce` processes the up and the consumer finishes it. -/
def simpleKey (flags : Nat) (deviceId nature : Int) (policyFlags keyFlags : Nat)
    (keyCode scanCode metaState : Int) : InputDispatcher :=
  run (env [window flags])
    [(0, .registerInputChannel 7),
     (1000000000, .notifyKey 1000000000 deviceId nature policyFlags KEY_EVENT_ACTION_DOWN
        keyFlags keyCode scanCode metaState 1000000000),
     (1020000000, .notifyKey 1020000000 deviceId nature policyFlags KEY_EVENT_ACTION_UP
        keyFlags keyCode scanCode metaState 1000000000),
     (1021000000, .dispatchOnce), (1022000000, .handleReceiveCallback 7 POLLIN),
     (1023000000, .dispatchOnce), (1024000000, .handleReceiveCallback 7 POLLIN)]
    InputDispatcher.init

/-- The simple key scenario with a window that is not a synchronous target, when
`dispatchOnce` processes the down and the up before the consumer finishes either. -/
def simpleKeyPipelined (deviceId nature : Int) (policyFlags keyFlags : Nat)
    (keyCode scanCode metaState : Int) : InputDispatcher :=
  run (env [window 0])
    [(0, .registerInputChannel 7),
     (1000000000, .notifyKey 1000000000 deviceId nature policyFlags KEY_EVENT_ACTION_DOWN
        keyFlags keyCode scanCode metaState 1000000000),
     (1020000000, .notifyKey 1020000000 deviceId nature policyFlags KEY_EVENT_ACTION_UP
        keyFlags keyCode scanCode metaState 1000000000),
     (1021000000, .dispatchOnce), (1022000000, .dispatchOnce),
     (1023000000, .handleReceiveCallback 7 POLLIN),
     (1024000000, .handleReceiveCallback 7 POLLIN)]
    InputDispatcher.init

/-- The state in which `prepareDispatchCycleLocked` starts the dispatch cycle of
connection 0 for a key down that is to be cancelled: its dispatch entry, marked
`FLAG_CANCEL`, is the head of the outbound queue. -/
def cancelReady : InputDispatcher :=
  ((keyDequeued.retainEventEntry 0).setOutbound 0
    [keyDequeued.newDispatchEntry 0 (target 7 InputTarget.FLAG_CANCEL) false]
    ).activateConnectionLocked 0

/-- The state in which `prepareDispatchCycleLocked` starts the dispatch cycle of
connection 0 for a move whose target is marked both `FLAG_OUTSIDE` and
`FLAG_CANCEL`. -/
def outsideCancelReady : InputDispatcher :=
  ((moveQueued.retainEventEntry 0).setOutbound 0
    [moveQueued.newDispatchEntry 0
      (target 7 (InputTarget.FLAG_OUTSIDE ||| InputTarget.FLAG_CANCEL)) false]
    ).activateConnectionLocked 0

/-- An environment whose policy names the window of channel 7 as the only target,
with the given flags, and repeats keys after 50 ms; its publishers always succeed. -/
def repeatEnv (flags : Nat) : Env :=
  { policy := { allowKeyRepeat := true, getKeyRepeatTimeout := 50000000,
                getKeyEventTargets := fun _ _ => [window flags],
                getMotionEventTargets := fun _ _ => [window flags] },
    publisher := fun _ _ _ => 0 }

/-- Channel 7 is registered, a key down (key code 29) is notified at time 0 and
dispatched at 1 ms to the window as a synchronous target with a timeout of 500 ms:
the key repeat is due at 50 ms, the timeout of the connection at 501 ms. -/
def keyHeld : InputDispatcher :=
  run (repeatEnv InputTarget.FLAG_SYNC)
    [(0, .registerInputChannel 7), (0, .notifyKey 0 1 0 0 KEY_EVENT_ACTION_DOWN 0 29 0 0 0),
     (1000000, .dispatchOnce)] InputDispatcher.init

/-- After `keyHeld` the consumer has finished the key down, at 3 ms. -/
def keyHeldDelivered : InputDispatcher :=
  run (repeatEnv InputTarget.FLAG_SYNC) [(3000000, .handleReceiveCallback 7 POLLIN)] keyHeld

/-- Channels 7 and 8 are registered; a key down is dispatched to both at time 1 with
a timeout of 100, and a second key down is dispatched to channel 8 only at time 50. -/
def twoWindows : InputDispatcher :=
  run (env [target 8 0])
    [(40, .handleReceiveCallback 8 POLLIN),
     (45, .notifyKey 45 1 0 0 KEY_EVENT_ACTION_DOWN 0 30 0 0 45), (50, .dispatchOnce)]
    (run (env [target 7 0, target 8 0])
      [(0, .registerInputChannel 7), (0, .registerInputChannel 8),
       (0, .notifyKey 0 1 0 0 KEY_EVENT_ACTION_DOWN 0 29 0 0 0), (1, .dispatchOnce)]
      InputDispatcher.init)

end Example

end Dispatcher

namespace Dispatcher

namespace InputDispatcher

/-! ## Frame lemmas for the primitive updates -/

@[simp] theorem setEntry_conns (s : InputDispatcher) (p : Nat) (e : EventEntry) :
    (s.setEntry p e).conns = s.conns := rfl

@[simp] theorem setEntry_mInboundQueue (s : InputDispatcher) (p : Nat) (e : EventEntry) :
    (s.setEntry p e).mInboundQueue = s.mInboundQueue := rfl

@[simp] theorem setEntry_mConnectionsByReceiveFd (s : InputDispatcher) (p : Nat) (e : EventEntry) :
    (s.setEntry p e).mConnectionsByReceiveFd = s.mConnectionsByReceiveFd := rfl

@[simp] theorem setEntry_mActiveConnections (s : InputDispatcher) (p : Nat) (e : EventEntry) :
    (s.setEntry p e).mActiveConnections = s.mActiveConnections := rfl

@[simp] theorem setEntry_mKeyRepeatState (s : InputDispatcher) (p : Nat) (e : EventEntry) :
    (s.setEntry p e).mKeyRepeatState = s.mKeyRepeatState := rfl

@[simp] theorem setEntry_mCurrentInputTargets (s : InputDispatcher) (p : Nat) (e : EventEntry) :
    (s.setEntry p e).mCurrentInputTargets = s.mCurrentInputTargets := rfl

@[simp] theorem setEntry_mPollLoop (s : InputDispatcher) (p : Nat) (e : EventEntry) :
    (s.setEntry p e).mPollLoop = s.mPollLoop := rfl

@[simp] theorem setEntry_trace (s : InputDispatcher) (p : Nat) (e : EventEntry) :
    (s.setEntry p e).trace = s.trace := rfl

@[simp] theorem setEntry_callouts (s : InputDispatcher) (p : Nat) (e : EventEntry) :
    (s.setEntry p e).callouts = s.callouts := rfl

@[simp] theorem setConn_heap (s : InputDispatcher) (c : Nat) (x : Connection) :
    (s.setConn c x).heap = s.heap := rfl

@[simp] theorem setConn_mInboundQueue (s : InputDispatcher) (c : Nat) (x : Connection) :
    (s.setConn c x).mInboundQueue = s.mInboundQueue := rfl

@[simp] theorem setConn_mConnectionsByReceiveFd (s : InputDispatcher) (c : Nat) (x : Connection) :
    (s.setConn c x).mConnectionsByReceiveFd = s.mConnectionsByReceiveFd := rfl

@[simp] theorem setConn_mActiveConnections (s : InputDispatcher) (c : Nat) (x : Connection) :
    (s.setConn c x).mActiveConnections = s.mActiveConnections := rfl

@[simp] theorem setConn_mKeyRepeatState (s : InputDispatcher) (c : Nat) (x : Connection) :
    (s.setConn c x).mKeyRepeatState = s.mKeyRepeatState := rfl

@[simp] theorem setConn_mCurrentInputTargets (s : InputDispatcher) (c : Nat) (x : Connection) :
    (s.setConn c x).mCurrentInputTargets = s.mCurrentInputTargets := rfl

@[simp] theorem setConn_mPollLoop (s : InputDispatcher) (c : Nat) (x : Connection) :
    (s.setConn c x).mPollLoop = s.mPollLoop := rfl

@[simp] theorem setConn_trace (s : InputDispatcher) (c : Nat) (x : Connection) :
    (s.setConn c x).trace = s.trace := rfl

@[simp] theorem setConn_callouts (s : InputDispatcher) (c : Nat) (x : Connection) :
    (s.setConn c x).callouts = s.callouts := rfl

@[simp] theorem publisherCalled_heap (s : InputDispatcher) (env : Env) (c : Nat) (call : PublisherCall) :
    (s.publisherCalled env c call).heap = s.heap := rfl

@[simp] theorem publisherCalled_conns (s : InputDispatcher) (env : Env) (c : Nat) (call : PublisherCall) :
    (s.publisherCalled env c call).conns = s.conns := rfl

@[simp] theorem publisherCalled_mInboundQueue (s : InputDispatcher) (env : Env) (c : Nat) (call : PublisherCall) :
    (s.publisherCalled env c call).mInboundQueue = s.mInboundQueue := rfl

@[simp] theorem publisherCalled_mConnectionsByReceiveFd (s : InputDispatcher) (env : Env) (c : Nat) (call : PublisherCall) :
    (s.publisherCalled env c call).mConnectionsByReceiveFd = s.mConnectionsByReceiveFd := rfl

@[simp] theorem publisherCalled_mActiveConnections (s : InputDispatcher) (env : Env) (c : Nat) (call : PublisherCall) :
    (s.publisherCalled env c call).mActiveConnections = s.mActiveConnections := rfl

@[simp] theorem publisherCalled_mKeyRepeatState (s : InputDispatcher) (env : Env) (c : Nat) (call : PublisherCall) :
    (s.publisherCalled env c call).mKeyRepeatState = s.mKeyRepeatState := rfl

@[simp] theorem publisherCalled_mCurrentInputTargets (s : InputDispatcher) (env : Env) (c : Nat) (call : PublisherCall) :
    (s.publisherCalled env c call).mCurrentInputTargets = s.mCurrentInputTargets := rfl

@[simp] theorem publisherCalled_mPollLoop (s : InputDispatcher) (env : Env) (c : Nat) (call : PublisherCall) :
    (s.publisherCalled env c call).mPollLoop = s.mPollLoop := rfl

@[simp] theorem publisherCalled_callouts (s : InputDispatcher) (env : Env) (c : Nat) (call : PublisherCall) :
    (s.publisherCalled env c call).callouts = s.callouts := rfl

@[simp] theorem callout_heap (s : InputDispatcher) (x : Callout) :
    (s.callout x).heap = s.heap := rfl

@[simp] theorem callout_conns (s : InputDispatcher) (x : Callout) :
    (s.callout x).conns = s.conns := rfl

@[simp] theorem callout_mInboundQueue (s : InputDispatcher) (x : Callout) :
    (s.callout x).mInboundQueue = s.mInboundQueue := rfl

@[simp] theorem callout_mConnectionsByReceiveFd (s : InputDispatcher) (x : Callout) :
    (s.callout x).mConnectionsByReceiveFd = s.mConnectionsByReceiveFd := rfl

@[simp] theorem callout_mActiveConnections (s : InputDispatcher) (x : Callout) :
    (s.callout x).mActiveConnections = s.mActiveConnections := rfl

@[simp] theorem callout_mKeyRepeatState (s : InputDispatcher) (x : Callout) :
    (s.callout x).mKeyRepeatState = s.mKeyRepeatState := rfl

@[simp] theorem callout_mCurrentInputTargets (s : InputDispatcher) (x : Callout) :
    (s.callout x).mCurrentInputTargets = s.mCurrentInputTargets := rfl

@[simp] theorem callout_mPollLoop (s : InputDispatcher) (x : Callout) :
    (s.callout x).mPollLoop = s.mPollLoop := rfl

@[simp] theorem callout_trace (s : InputDispatcher) (x : Callout) :
    (s.callout x).trace = s.trace := rfl

@[simp] theorem wake_heap (s : InputDispatcher)  :
    (s.wake).heap = s.heap := rfl

@[simp] theorem wake_conns (s : InputDispatcher)  :
    (s.wake).conns = s.conns := rfl

@[simp] theorem wake_mInboundQueue (s : InputDispatcher)  :
    (s.wake).mInboundQueue = s.mInboundQueue := rfl

@[simp] theorem wake_mConnectionsByReceiveFd (s : InputDispatcher)  :
    (s.wake).mConnectionsByReceiveFd = s.mConnectionsByReceiveFd := rfl

@[simp] theorem wake_mActiveConnections (s : InputDispatcher)  :
    (s.wake).mActiveConnections = s.mActiveConnections := rfl

@[simp] theorem wake_mKeyRepeatState (s : InputDispatcher)  :
    (s.wake).mKeyRepeatState = s.mKeyRepeatState := rfl

@[simp] theorem wake_mCurrentInputTargets (s : InputDispatcher)  :
    (s.wake).mCurrentInputTargets = s.mCurrentInputTargets := rfl

@[simp] theorem wake_trace (s : InputDispatcher)  :
    (s.wake).trace = s.trace := rfl

@[simp] theorem wake_callouts (s : InputDispatcher)  :
    (s.wake).callouts = s.callouts := rfl

@[simp] theorem obtainEntry_conns (s : InputDispatcher) (t : Int) (b : EntryBody) :
    (s.obtainEntry t b).conns = s.conns := rfl

@[simp] theorem obtainEntry_mInboundQueue (s : InputDispatcher) (t : Int) (b : EntryBody) :
    (s.obtainEntry t b).mInboundQueue = s.mInboundQueue := rfl

@[simp] theorem obtainEntry_mConnectionsByReceiveFd (s : InputDispatcher) (t : Int) (b : EntryBody) :
    (s.obtainEntry t b).mConnectionsByReceiveFd = s.mConnectionsByReceiveFd := rfl

@[simp] theorem obtainEntry_mActiveConnections (s : InputDispatcher) (t : Int) (b : EntryBody) :
    (s.obtainEntry t b).mActiveConnections = s.mActiveConnections := rfl

@[simp] theorem obtainEntry_mKeyRepeatState (s : InputDispatcher) (t : Int) (b : EntryBody) :
    (s.obtainEntry t b).mKeyRepeatState = s.mKeyRepeatState := rfl

@[simp] theorem obtainEntry_mCurrentInputTargets (s : InputDispatcher) (t : Int) (b : EntryBody) :
    (s.obtainEntry t b).mCurrentInputTargets = s.mCurrentInputTargets := rfl

@[simp] theorem obtainEntry_mPollLoop (s : InputDispatcher) (t : Int) (b : EntryBody) :
    (s.obtainEntry t b).mPollLoop = s.mPollLoop := rfl

@[simp] theorem obtainEntry_trace (s : InputDispatcher) (t : Int) (b : EntryBody) :
    (s.obtainEntry t b).trace = s.trace := rfl

@[simp] theorem obtainEntry_callouts (s : InputDispatcher) (t : Int) (b : EntryBody) :
    (s.obtainEntry t b).callouts = s.callouts := rfl

@[simp] theorem activateConnectionLocked_heap (s : InputDispatcher) (c : Nat) :
    (s.activateConnectionLocked c).heap = s.heap := by
  unfold activateConnectionLocked; split <;> rfl

@[simp] theorem activateConnectionLocked_conns (s : InputDispatcher) (c : Nat) :
    (s.activateConnectionLocked c).conns = s.conns := by
  unfold activateConnectionLocked; split <;> rfl

@[simp] theorem activateConnectionLocked_mInboundQueue (s : InputDispatcher) (c : Nat) :
    (s.activateConnectionLocked c).mInboundQueue = s.mInboundQueue := by
  unfold activateConnectionLocked; split <;> rfl

@[simp] theorem activateConnectionLocked_mConnectionsByReceiveFd (s : InputDispatcher) (c : Nat) :
    (s.activateConnectionLocked c).mConnectionsByReceiveFd = s.mConnectionsByReceiveFd := by
  unfold activateConnectionLocked; split <;> rfl

@[simp] theorem activateConnectionLocked_mKeyRepeatState (s : InputDispatcher) (c : Nat) :
    (s.activateConnectionLocked c).mKeyRepeatState = s.mKeyRepeatState := by
  unfold activateConnectionLocked; split <;> rfl

@[simp] theorem activateConnectionLocked_mCurrentInputTargets (s : InputDispatcher) (c : Nat) :
    (s.activateConnectionLocked c).mCurrentInputTargets = s.mCurrentInputTargets := by
  unfold activateConnectionLocked; split <;> rfl

@[simp] theorem activateConnectionLocked_mPollLoop (s : InputDispatcher) (c : Nat) :
    (s.activateConnectionLocked c).mPollLoop = s.mPollLoop := by
  unfold activateConnectionLocked; split <;> rfl

@[simp] theorem activateConnectionLocked_trace (s : InputDispatcher) (c : Nat) :
    (s.activateConnectionLocked c).trace = s.trace := by
  unfold activateConnectionLocked; split <;> rfl

@[simp] theorem activateConnectionLocked_callouts (s : InputDispatcher) (c : Nat) :
    (s.activateConnectionLocked c).callouts = s.callouts := by
  unfold activateConnectionLocked; split <;> rfl

@[simp] theorem deactivateConnectionLocked_heap (s : InputDispatcher) (c : Nat) :
    (s.deactivateConnectionLocked c).heap = s.heap := rfl

@[simp] theorem deactivateConnectionLocked_conns (s : InputDispatcher) (c : Nat) :
    (s.deactivateConnectionLocked c).conns = s.conns := rfl

@[simp] theorem deactivateConnectionLocked_mInboundQueue (s : InputDispatcher) (c : Nat) :
    (s.deactivateConnectionLocked c).mInboundQueue = s.mInboundQueue := rfl

@[simp] theorem deactivateConnectionLocked_mConnectionsByReceiveFd (s : InputDispatcher) (c : Nat) :
    (s.deactivateConnectionLocked c).mConnectionsByReceiveFd = s.mConnectionsByReceiveFd := rfl

@[simp] theorem deactivateConnectionLocked_mKeyRepeatState (s : InputDispatcher) (c : Nat) :
    (s.deactivateConnectionLocked c).mKeyRepeatState = s.mKeyRepeatState := rfl

@[simp] theorem deactivateConnectionLocked_mCurrentInputTargets (s : InputDispatcher) (c : Nat) :
    (s.deactivateConnectionLocked c).mCurrentInputTargets = s.mCurrentInputTargets := rfl

@[simp] theorem deactivateConnectionLocked_mPollLoop (s : InputDispatcher) (c : Nat) :
    (s.deactivateConnectionLocked c).mPollLoop = s.mPollLoop := rfl

@[simp] theorem deactivateConnectionLocked_trace (s : InputDispatcher) (c : Nat) :
    (s.deactivateConnectionLocked c).trace = s.trace := rfl

@[simp] theorem deactivateConnectionLocked_callouts (s : InputDispatcher) (c : Nat) :
    (s.deactivateConnectionLocked c).callouts = s.callouts := rfl

@[simp] theorem setEntry_conn (s : InputDispatcher) (p : Nat) (e : EventEntry) (c : Nat) :
    (s.setEntry p e).conn c = s.conn c := rfl

@[simp] theorem publisherCalled_conn (s : InputDispatcher) (env : Env) (c : Nat)
    (call : PublisherCall) (c1 : Nat) : (s.publisherCalled env c call).conn c1 = s.conn c1 := rfl

@[simp] theorem callout_conn (s : InputDispatcher) (x : Callout) (c : Nat) :
    (s.callout x).conn c = s.conn c := rfl

@[simp] theorem wake_conn (s : InputDispatcher) (c : Nat) : s.wake.conn c = s.conn c := rfl

@[simp] theorem obtainEntry_conn (s : InputDispatcher) (t : Int) (b : EntryBody) (c : Nat) :
    (s.obtainEntry t b).conn c = s.conn c := rfl

@[simp] theorem activateConnectionLocked_conn (s : InputDispatcher) (c c1 : Nat) :
    (s.activateConnectionLocked c).conn c1 = s.conn c1 := by
  unfold activateConnectionLocked; split <;> rfl

@[simp] theorem deactivateConnectionLocked_conn (s : InputDispatcher) (c c1 : Nat) :
    (s.deactivateConnectionLocked c).conn c1 = s.conn c1 := rfl

@[simp] theorem setConn_entry (s : InputDispatcher) (c : Nat) (x : Connection) (p : Nat) :
    (s.setConn c x).entry p = s.entry p := rfl

@[simp] theorem publisherCalled_entry (s : InputDispatcher) (env : Env) (c : Nat)
    (call : PublisherCall) (p : Nat) : (s.publisherCalled env c call).entry p = s.entry p := rfl

@[simp] theorem callout_entry (s : InputDispatcher) (x : Callout) (p : Nat) :
    (s.callout x).entry p = s.entry p := rfl

@[simp] theorem wake_entry (s : InputDispatcher) (p : Nat) : s.wake.entry p = s.entry p := rfl

@[simp] theorem activateConnectionLocked_entry (s : InputDispatcher) (c p : Nat) :
    (s.activateConnectionLocked c).entry p = s.entry p := by
  unfold activateConnectionLocked; split <;> rfl

@[simp] theorem deactivateConnectionLocked_entry (s : InputDispatcher) (c p : Nat) :
    (s.deactivateConnectionLocked c).entry p = s.entry p := rfl

/-! ## Reading and writing memory -/

theorem entry_of_le (s : InputDispatcher) {p : Nat} (h : s.heap.length ≤ p) :
    s.entry p = EventEntry.invalid := by
  simp [entry, List.getElem?_eq_none h]

theorem lt_of_live (s : InputDispatcher) {p : Nat} (h : (s.entry p).inPool = false) :
    p < s.heap.length := by
  by_contra hp
  rw [entry_of_le s (Nat.le_of_not_lt hp)] at h
  simp [EventEntry.invalid] at h

theorem setEntry_of_le (s : InputDispatcher) {p : Nat} (e : EventEntry)
    (h : s.heap.length ≤ p) : s.setEntry p e = s := by
  simp [setEntry, List.set_eq_of_length_le h]

theorem entry_setEntry_self (s : InputDispatcher) {p : Nat} (e : EventEntry)
    (h : p < s.heap.length) : (s.setEntry p e).entry p = e := by
  simp [entry, setEntry, List.getElem?_set, h]

theorem entry_setEntry_of_ne (s : InputDispatcher) {p q : Nat} (e : EventEntry) (h : p ≠ q) :
    (s.setEntry p e).entry q = s.entry q := by
  simp [entry, setEntry, List.getElem?_set_ne h]

theorem entry_setEntry (s : InputDispatcher) (p q : Nat) (e : EventEntry) :
    (s.setEntry p e).entry q = if p = q ∧ p < s.heap.length then e else s.entry q := by
  by_cases h : p = q
  · subst h
    by_cases hp : p < s.heap.length
    · simp [hp, entry_setEntry_self]
    · simp [hp, setEntry_of_le s e (Nat.le_of_not_lt hp)]
  · simp [h, entry_setEntry_of_ne]

theorem conn_of_le (s : InputDispatcher) {c : Nat} (h : s.conns.length ≤ c) :
    s.conn c = Connection.invalid := by
  simp [conn, List.getElem?_eq_none h]

theorem lt_of_outbound_ne_nil (s : InputDispatcher) {c : Nat}
    (h : (s.conn c).outboundQueue ≠ []) : c < s.conns.length := by
  by_contra hc
  rw [conn_of_le s (Nat.le_of_not_lt hc)] at h
  simp [Connection.invalid] at h

theorem setConn_of_le (s : InputDispatcher) {c : Nat} (x : Connection)
    (h : s.conns.length ≤ c) : s.setConn c x = s := by
  simp [setConn, List.set_eq_of_length_le h]

theorem conn_setConn_self (s : InputDispatcher) {c : Nat} (x : Connection)
    (h : c < s.conns.length) : (s.setConn c x).conn c = x := by
  simp [conn, setConn, List.getElem?_set, h]

theorem conn_setConn_of_ne (s : InputDispatcher) {c c1 : Nat} (x : Connection) (h : c ≠ c1) :
    (s.setConn c x).conn c1 = s.conn c1 := by
  simp [conn, setConn, List.getElem?_set_ne h]

@[simp] theorem setEntry_heap_length (s : InputDispatcher) (p : Nat) (e : EventEntry) :
    (s.setEntry p e).heap.length = s.heap.length := by
  simp [setEntry]

@[simp] theorem setConn_conns_length (s : InputDispatcher) (c : Nat) (x : Connection) :
    (s.setConn c x).conns.length = s.conns.length := by
  simp [setConn]

@[simp] theorem setConn_connectionByReceiveFd (s : InputDispatcher) (c : Nat) (x : Connection)
    (fd : Int) : (s.setConn c x).connectionByReceiveFd fd = s.connectionByReceiveFd fd := rfl

@[simp] theorem setEntry_connectionByReceiveFd (s : InputDispatcher) (p : Nat) (e : EventEntry)
    (fd : Int) : (s.setEntry p e).connectionByReceiveFd fd = s.connectionByReceiveFd fd := rfl

end InputDispatcher

end Dispatcher

namespace Dispatcher

namespace InputDispatcher

/-! ## Counting references -/

theorem sum_map_set {α : Type} (f : α → Nat) (l : List α) (i : Nat) (x : α)
    (h : i < l.length) :
    ((l.set i x).map f).sum + f (l.get ⟨i, h⟩) = (l.map f).sum + f x := by
  induction l generalizing i with
  | nil => simp at h
  | cons a l ih =>
    cases i with
    | zero => simp; omega
    | succ i =>
      simp only [List.length_cons, Nat.add_lt_add_iff_right] at h
      have := ih i h
      simp only [List.set_cons_succ, List.map_cons, List.sum_cons, List.get_cons_succ]
      simp only [List.get_eq_getElem] at this ⊢
      omega

theorem conn_eq_get (s : InputDispatcher) {c : Nat} (h : c < s.conns.length) :
    s.conn c = s.conns.get ⟨c, h⟩ := by
  simp [conn, List.getElem?_eq_getElem h]

theorem outboundRefs_setConn (s : InputDispatcher) {c : Nat} (x : Connection) (p : Nat)
    (h : c < s.conns.length) :
    (s.setConn c x).outboundRefs p + queueRefs (s.conn c).outboundQueue p
      = s.outboundRefs p + queueRefs x.outboundQueue p := by
  have := sum_map_set (fun c => queueRefs c.outboundQueue p) s.conns c x h
  rw [conn_eq_get s h]
  simpa [outboundRefs, setConn] using this

theorem outboundRefs_setConn_same (s : InputDispatcher) (c : Nat) (x : Connection) (p : Nat)
    (hq : queueRefs x.outboundQueue p = queueRefs (s.conn c).outboundQueue p) :
    (s.setConn c x).outboundRefs p = s.outboundRefs p := by
  by_cases h : c < s.conns.length
  · have := outboundRefs_setConn s x p h
    omega
  · rw [setConn_of_le s x (Nat.le_of_not_lt h)]

theorem queueRefs_le_outboundRefs (s : InputDispatcher) (c p : Nat) :
    queueRefs (s.conn c).outboundQueue p ≤ s.outboundRefs p := by
  by_cases h : c < s.conns.length
  · rw [conn_eq_get s h]
    unfold outboundRefs
    apply List.single_le_sum (by simp)
    exact List.mem_map.mpr ⟨_, List.get_mem _ _ _, rfl⟩
  · simp [conn_of_le s (Nat.le_of_not_lt h), Connection.invalid, queueRefs]

@[simp] theorem queueRefs_nil (p : Nat) : queueRefs [] p = 0 := rfl

theorem queueRefs_cons (d : DispatchEntry) (q : List DispatchEntry) (p : Nat) :
    queueRefs (d :: q) p = queueRefs q p + (if d.eventEntry = p then 1 else 0) := by
  simp [queueRefs, List.countP_cons]

theorem queueRefs_append (q1 q2 : List DispatchEntry) (p : Nat) :
    queueRefs (q1 ++ q2) p = queueRefs q1 p + queueRefs q2 p := by
  simp [queueRefs]

theorem queueRefs_congr {q1 q2 : List DispatchEntry}
    (h : q1.map (fun d => d.eventEntry) = q2.map (fun d => d.eventEntry)) (p : Nat) :
    queueRefs q1 p = queueRefs q2 p := by
  induction q1 generalizing q2 with
  | nil => cases q2 <;> simp_all
  | cons a q1 ih =>
    cases q2 with
    | nil => simp at h
    | cons b q2 =>
      simp only [List.map_cons, List.cons.injEq] at h
      rw [queueRefs_cons, queueRefs_cons, ih h.2, h.1]

@[simp] theorem heldRefs_none (p : Nat) : heldRefs none p = 0 := rfl

theorem heldRefs_some (q p : Nat) : heldRefs (some q) p = if q = p then 1 else 0 := by
  simp [heldRefs]

/-! ## Cells -/

theorem EventEntry.release_refCount (e : EventEntry) :
    (EventEntry.release e).refCount = e.refCount - 1 := by
  unfold EventEntry.release; split <;> rfl

theorem EventEntry.release_body (e : EventEntry) : (EventEntry.release e).body = e.body := by
  unfold EventEntry.release; split <;> rfl

theorem EventEntry.release_eventTime (e : EventEntry) :
    (EventEntry.release e).eventTime = e.eventTime := by
  unfold EventEntry.release; split <;> rfl

theorem CellOk.cell_live {e : EventEntry} {n : Nat} (h : CellOk e (n + 1)) : e.inPool = false := by
  cases hp : e.inPool with
  | false => rfl
  | true => have := h.pool.mp hp; omega

theorem CellOk.cell_release {e : EventEntry} {n : Nat} (h : CellOk e (n + 1)) :
    CellOk (EventEntry.release e) n := by
  have hl := h.cell_live
  have hc := h.count hl
  unfold EventEntry.release
  split
  · rename_i h0
    have : n = 0 := by omega
    subst this
    constructor <;> simp
  · rename_i h0
    have : n ≠ 0 := by omega
    constructor
    · simp [hl, this]
    · intro _; simp only; omega

theorem CellOk.cell_retain {e : EventEntry} {n : Nat} (h : CellOk e n) (hl : e.inPool = false) :
    CellOk { e with refCount := e.refCount + 1 } (n + 1) := by
  constructor
  · simp [hl]
  · intro _
    have := h.count hl
    simp only; omega

theorem releaseEventEntry_eq (s : InputDispatcher) (p : Nat) :
    s.releaseEventEntry p = s.setEntry p (EventEntry.release (s.entry p)) := by
  unfold releaseEventEntry
  split <;> rfl

theorem releaseDispatchEntry_eq (s : InputDispatcher) (d : DispatchEntry) :
    s.releaseDispatchEntry d
      = s.setEntry d.eventEntry (EventEntry.release (s.entry d.eventEntry)) :=
  releaseEventEntry_eq s d.eventEntry

theorem releaseKeyEntry_eq (s : InputDispatcher) (p : Nat) :
    s.releaseKeyEntry p = s.setEntry p (EventEntry.release (s.entry p)) := rfl

theorem releaseMotionEntry_eq (s : InputDispatcher) (p : Nat) :
    s.releaseMotionEntry p = s.setEntry p (EventEntry.release (s.entry p)) := rfl

theorem releaseConfigurationChangedEntry_eq (s : InputDispatcher) (p : Nat) :
    s.releaseConfigurationChangedEntry p = s.setEntry p (EventEntry.release (s.entry p)) := rfl

/-! ## Reference counts under the primitive updates -/

theorem refs_setEntry (s : InputDispatcher) (p : Nat) (e : EventEntry) (q : Nat) :
    (s.setEntry p e).refs q = s.refs q := rfl

/-- Dropping one reference to `p`, while releasing the cell, keeps the counts right. -/
theorem RefsOk.release {held held1 : Option Nat} {s s1 : InputDispatcher} {p : Nat}
    (h : RefsOk held s)
    (hr : ∀ q, s1.refs q + heldRefs held1 q + (if p = q then 1 else 0)
      = s.refs q + heldRefs held q)
    (he : ∀ q, s1.entry q = s.entry q) :
    RefsOk held1 (s1.setEntry p (EventEntry.release (s1.entry p))) := by
  intro q
  rw [refs_setEntry, entry_setEntry]
  have hq := h q
  have hrq := hr q
  split
  · rename_i hpq
    obtain ⟨rfl, _⟩ := hpq
    rw [he]
    simp only [if_true] at hrq
    rw [← hrq] at hq
    exact hq.cell_release
  · rename_i hpq
    rw [he]
    by_cases hpq1 : p = q
    · subst hpq1
      simp only [true_and, not_lt] at hpq
      simp only [if_true] at hrq
      rw [← hrq] at hq
      have hl := hq.cell_live
      have h2 := he p
      rw [entry_of_le s1 hpq] at h2
      rw [← h2] at hl
      simp [EventEntry.invalid] at hl
    · simp only [hpq1, if_false, Nat.add_zero] at hrq
      rw [hrq]; exact hq

/-- Adding one reference to the live entry `p`, while retaining the cell, keeps the
counts right. -/
theorem RefsOk.retain {held held1 : Option Nat} {s s1 : InputDispatcher} {p : Nat}
    (h : RefsOk held s) (hl : (s.entry p).inPool = false)
    (hr : ∀ q, s1.refs q + heldRefs held1 q
      = s.refs q + heldRefs held q + (if p = q then 1 else 0))
    (he : ∀ q, s1.entry q
      = if p = q then { s.entry p with refCount := (s.entry p).refCount + 1 } else s.entry q) :
    RefsOk held1 s1 := by
  intro q
  rw [hr, he]
  have hq := h q
  split
  · rename_i hpq
    subst hpq
    exact hq.cell_retain hl
  · simpa using hq

/-- Updates that keep the reference counts of the cells and the numbers of
references keep the counts right. -/
theorem RefsOk.refs_congr {held held1 : Option Nat} {s s1 : InputDispatcher} (h : RefsOk held s)
    (hr : ∀ q, s1.refs q + heldRefs held1 q = s.refs q + heldRefs held q)
    (he : ∀ q, (s1.entry q).refCount = (s.entry q).refCount
      ∧ (s1.entry q).inPool = (s.entry q).inPool) : RefsOk held1 s1 := by
  intro q
  have hq := h q
  rw [hr]
  exact ⟨by rw [(he q).2]; exact hq.pool, by rw [(he q).1, (he q).2]; exact hq.count⟩

end InputDispatcher

end Dispatcher

namespace Dispatcher

namespace InputDispatcher

/-! ## Frames -/

theorem CycleFrame.refl (c : Nat) (s : InputDispatcher) : CycleFrame c s s :=
  ⟨fun _ => rfl, fun _ => rfl, rfl, rfl, fun _ _ => rfl, rfl, rfl, rfl, rfl, rfl,
    fun _ _ => Iff.rfl, id⟩

theorem CycleFrame.trans {c : Nat} {s s1 s2 : InputDispatcher} (h1 : CycleFrame c s s1)
    (h2 : CycleFrame c s1 s2) : CycleFrame c s s2 where
  body p := (h2.body p).trans (h1.body p)
  eventTime p := (h2.eventTime p).trans (h1.eventTime p)
  heapLength := h2.heapLength.trans h1.heapLength
  connsLength := h2.connsLength.trans h1.connsLength
  conn c1 hc := (h2.conn c1 hc).trans (h1.conn c1 hc)
  inbound := h2.inbound.trans h1.inbound
  keyRepeat := h2.keyRepeat.trans h1.keyRepeat
  map := h2.map.trans h1.map
  targets := h2.targets.trans h1.targets
  pollLoop := h2.pollLoop.trans h1.pollLoop
  active c1 hc := (h2.active c1 hc).trans (h1.active c1 hc)
  activeNodup h := h2.activeNodup (h1.activeNodup h)

theorem CycleFrame.frame_setConn (c : Nat) (s : InputDispatcher) (x : Connection) :
    CycleFrame c s (s.setConn c x) where
  body _ := rfl
  eventTime _ := rfl
  heapLength := rfl
  connsLength := by simp
  conn c1 hc := conn_setConn_of_ne s x (Ne.symm hc)
  inbound := rfl
  keyRepeat := rfl
  map := rfl
  targets := rfl
  pollLoop := rfl
  active _ _ := Iff.rfl
  activeNodup := id

theorem CycleFrame.setOutbound (c : Nat) (s : InputDispatcher) (q : List DispatchEntry) :
    CycleFrame c s (s.setOutbound c q) :=
  CycleFrame.frame_setConn c s _

theorem CycleFrame.frame_setEntry (c : Nat) (s : InputDispatcher) (p : Nat) (e : EventEntry)
    (hb : e.body = (s.entry p).body) (ht : e.eventTime = (s.entry p).eventTime) :
    CycleFrame c s (s.setEntry p e) where
  body q := by rw [entry_setEntry]; split <;> simp_all
  eventTime q := by rw [entry_setEntry]; split <;> simp_all
  heapLength := by simp
  connsLength := rfl
  conn _ _ := rfl
  inbound := rfl
  keyRepeat := rfl
  map := rfl
  targets := rfl
  pollLoop := rfl
  active _ _ := Iff.rfl
  activeNodup := id

theorem CycleFrame.releaseDispatchEntry (c : Nat) (s : InputDispatcher) (d : DispatchEntry) :
    CycleFrame c s (s.releaseDispatchEntry d) := by
  rw [releaseDispatchEntry_eq]
  exact CycleFrame.frame_setEntry c s _ _ (EventEntry.release_body _) (EventEntry.release_eventTime _)

theorem CycleFrame.retainEventEntry (c : Nat) (s : InputDispatcher) (p : Nat) :
    CycleFrame c s (s.retainEventEntry p) :=
  CycleFrame.frame_setEntry c s _ _ rfl rfl

theorem CycleFrame.publisherCalled (c : Nat) (s : InputDispatcher) (env : Env) (c1 : Nat)
    (call : PublisherCall) : CycleFrame c s (s.publisherCalled env c1 call) :=
  ⟨fun _ => rfl, fun _ => rfl, rfl, rfl, fun _ _ => rfl, rfl, rfl, rfl, rfl, rfl,
    fun _ _ => Iff.rfl, id⟩

theorem CycleFrame.frame_callout (c : Nat) (s : InputDispatcher) (x : Callout) :
    CycleFrame c s (s.callout x) :=
  ⟨fun _ => rfl, fun _ => rfl, rfl, rfl, fun _ _ => rfl, rfl, rfl, rfl, rfl, rfl,
    fun _ _ => Iff.rfl, id⟩

theorem CycleFrame.deactivateConnectionLocked (c : Nat) (s : InputDispatcher) :
    CycleFrame c s (s.deactivateConnectionLocked c) where
  body _ := rfl
  eventTime _ := rfl
  heapLength := rfl
  connsLength := rfl
  conn _ _ := rfl
  inbound := rfl
  keyRepeat := rfl
  map := rfl
  targets := rfl
  pollLoop := rfl
  active c1 hc := by simp [InputDispatcher.deactivateConnectionLocked, List.mem_erase_of_ne hc]
  activeNodup h := h.erase c

theorem CycleFrame.activateConnectionLocked (c : Nat) (s : InputDispatcher) :
    CycleFrame c s (s.activateConnectionLocked c) := by
  unfold InputDispatcher.activateConnectionLocked
  split
  · exact CycleFrame.refl c s
  · rename_i hc
    exact
      { body := fun _ => rfl
        eventTime := fun _ => rfl
        heapLength := rfl
        connsLength := rfl
        conn := fun _ _ => rfl
        inbound := rfl
        keyRepeat := rfl
        map := rfl
        targets := rfl
        pollLoop := rfl
        active := fun c1 hc1 => by simp [hc1]
        activeNodup := fun h => by
          simp only
          exact List.Nodup.append h (List.nodup_singleton c) (by simpa using hc) }

/-! ## Connections after the primitive updates -/

theorem conn_setOutbound_self (s : InputDispatcher) {c : Nat} (q : List DispatchEntry)
    (h : c < s.conns.length) :
    (s.setOutbound c q).conn c = { s.conn c with outboundQueue := q } :=
  conn_setConn_self s _ h

theorem outbound_setOutbound_self (s : InputDispatcher) {c : Nat} (q : List DispatchEntry)
    (h : c < s.conns.length) : ((s.setOutbound c q).conn c).outboundQueue = q := by
  rw [conn_setOutbound_self s q h]

@[simp] theorem releaseDispatchEntry_conn (s : InputDispatcher) (d : DispatchEntry) (c : Nat) :
    (s.releaseDispatchEntry d).conn c = s.conn c := by
  rw [releaseDispatchEntry_eq]; rfl

@[simp] theorem releaseDispatchEntry_mActiveConnections (s : InputDispatcher)
    (d : DispatchEntry) :
    (s.releaseDispatchEntry d).mActiveConnections = s.mActiveConnections := by
  rw [releaseDispatchEntry_eq]; rfl

@[simp] theorem releaseDispatchEntry_conns (s : InputDispatcher) (d : DispatchEntry) :
    (s.releaseDispatchEntry d).conns = s.conns := by
  rw [releaseDispatchEntry_eq]; rfl

@[simp] theorem retainEventEntry_conn (s : InputDispatcher) (p : Nat) (c : Nat) :
    (s.retainEventEntry p).conn c = s.conn c := rfl

@[simp] theorem retainEventEntry_conns (s : InputDispatcher) (p : Nat) :
    (s.retainEventEntry p).conns = s.conns := rfl

@[simp] theorem retainEventEntry_mActiveConnections (s : InputDispatcher) (p : Nat) :
    (s.retainEventEntry p).mActiveConnections = s.mActiveConnections := rfl

@[simp] theorem retainEventEntry_mInboundQueue (s : InputDispatcher) (p : Nat) :
    (s.retainEventEntry p).mInboundQueue = s.mInboundQueue := rfl

@[simp] theorem retainEventEntry_mKeyRepeatState (s : InputDispatcher) (p : Nat) :
    (s.retainEventEntry p).mKeyRepeatState = s.mKeyRepeatState := rfl

@[simp] theorem setOutbound_conns_length (s : InputDispatcher) (c : Nat)
    (q : List DispatchEntry) : (s.setOutbound c q).conns.length = s.conns.length := by
  simp [setOutbound]

@[simp] theorem setOutbound_mActiveConnections (s : InputDispatcher) (c : Nat)
    (q : List DispatchEntry) :
    (s.setOutbound c q).mActiveConnections = s.mActiveConnections := rfl

@[simp] theorem setOutbound_entry (s : InputDispatcher) (c : Nat)
    (q : List DispatchEntry) (p : Nat) : (s.setOutbound c q).entry p = s.entry p := rfl

/-! ## Clearing an outbound queue -/

theorem refs_setOutbound (s : InputDispatcher) {c : Nat} (q : List DispatchEntry) (p : Nat)
    (h : c < s.conns.length) :
    (s.setOutbound c q).refs p + queueRefs (s.conn c).outboundQueue p
      = s.refs p + queueRefs q p := by
  have := outboundRefs_setConn s { s.conn c with outboundQueue := q } p h
  simp only [refs, setOutbound] at this ⊢
  simp only [setConn_mInboundQueue, setConn_mKeyRepeatState]
  omega

/-- Taking the head off the outbound queue of `c` and releasing it keeps the counts
right. -/
theorem RefsOk.refs_dequeue {held : Option Nat} {s : InputDispatcher} {c : Nat}
    {d : DispatchEntry} {q : List DispatchEntry} (h : RefsOk held s)
    (hq : (s.conn c).outboundQueue = d :: q) :
    RefsOk held ((s.setOutbound c q).releaseDispatchEntry d) := by
  have hc : c < s.conns.length := lt_of_outbound_ne_nil s (by simp [hq])
  rw [releaseDispatchEntry_eq]
  refine RefsOk.release h ?_ (fun _ => rfl)
  intro p
  have := refs_setOutbound s q p hc
  rw [hq, queueRefs_cons] at this
  omega

theorem drainOutboundQueue_frame (c : Nat) (q : List DispatchEntry) (s : InputDispatcher) :
    CycleFrame c s (drainOutboundQueue c q s) := by
  induction q generalizing s with
  | nil => exact CycleFrame.refl c s
  | cons d q ih =>
    exact ((CycleFrame.setOutbound c s q).trans
      (CycleFrame.releaseDispatchEntry c _ d)).trans (ih _)

theorem drainOutboundQueue_mActiveConnections (c : Nat) (q : List DispatchEntry)
    (s : InputDispatcher) :
    (drainOutboundQueue c q s).mActiveConnections = s.mActiveConnections := by
  induction q generalizing s with
  | nil => rfl
  | cons d q ih => simp [drainOutboundQueue, ih]

theorem drainOutboundQueue_conn (c : Nat) (q : List DispatchEntry) (s : InputDispatcher)
    (hq : (s.conn c).outboundQueue = q) :
    (drainOutboundQueue c q s).conn c = { s.conn c with outboundQueue := [] } := by
  induction q generalizing s with
  | nil => simp [drainOutboundQueue, ← hq]
  | cons d q ih =>
    have hc : c < s.conns.length := lt_of_outbound_ne_nil s (by simp [hq])
    simp only [drainOutboundQueue]
    rw [ih]
    · simp [conn_setOutbound_self s q hc]
    · simp [outbound_setOutbound_self s q hc]

theorem drainOutboundQueue_refsOk {held : Option Nat} (c : Nat) (q : List DispatchEntry)
    (s : InputDispatcher) (h : RefsOk held s) (hq : (s.conn c).outboundQueue = q) :
    RefsOk held (drainOutboundQueue c q s) := by
  induction q generalizing s with
  | nil => exact h
  | cons d q ih =>
    have hc : c < s.conns.length := lt_of_outbound_ne_nil s (by simp [hq])
    simp only [drainOutboundQueue]
    apply ih _ (h.refs_dequeue hq)
    simp [outbound_setOutbound_self s q hc]

end InputDispatcher

end Dispatcher

namespace Dispatcher

namespace InputDispatcher

/-! ## Invariants under updates of one connection -/

theorem RefsOk.setConn_same {held : Option Nat} {s : InputDispatcher} (h : RefsOk held s)
    (c : Nat) (x : Connection)
    (hx : x.outboundQueue.map (fun d => d.eventEntry)
      = (s.conn c).outboundQueue.map (fun d => d.eventEntry)) :
    RefsOk held (s.setConn c x) := by
  refine h.refs_congr ?_ (fun _ => ⟨rfl, rfl⟩)
  intro p
  have := outboundRefs_setConn_same s c x p (queueRefs_congr hx p)
  simp only [refs, this, setConn_mInboundQueue, setConn_mKeyRepeatState]

theorem RefsOk.setOutbound_same {held : Option Nat} {s : InputDispatcher} (h : RefsOk held s)
    (c : Nat) (q : List DispatchEntry)
    (hx : q.map (fun d => d.eventEntry)
      = (s.conn c).outboundQueue.map (fun d => d.eventEntry)) :
    RefsOk held (s.setOutbound c q) :=
  h.setConn_same c _ hx

theorem outbound_setConn_nil (s : InputDispatcher) (c : Nat) (x : Connection)
    (hx : x.outboundQueue = []) : ((s.setConn c x).conn c).outboundQueue = [] := by
  by_cases hc : c < s.conns.length
  · rw [conn_setConn_self s x hc, hx]
  · rw [conn_of_le _ (by simpa using hc)]; rfl

theorem ConnOk.congr {s s1 : InputDispatcher} {c : Nat} (h : ConnOk s c)
    (hc : s1.conn c = s.conn c)
    (ha : c ∈ s1.mActiveConnections ↔ c ∈ s.mActiveConnections) : ConnOk s1 c where
  active := by rw [ha, hc]; exact h.active
  inProgress := by rw [hc]; exact h.inProgress
  delivering := by rw [hc]; exact h.delivering

theorem ConnOk.connOk_of_frame {s s1 : InputDispatcher} {c c1 : Nat} (h : ConnOk s c1)
    (hf : CycleFrame c s s1) (hne : c1 ≠ c) : ConnOk s1 c1 :=
  h.congr (hf.conn c1 hne) (hf.active c1 hne)

/-- A connection with an empty queue that is not active is consistent. -/
theorem ConnOk.idle {s : InputDispatcher} {c : Nat} (hq : (s.conn c).outboundQueue = [])
    (ha : c ∉ s.mActiveConnections) : ConnOk s c where
  active := by simp [hq, ha]
  inProgress := by simp [hq]
  delivering := by simp [hq]

theorem connectionByReceiveFd_of_frame {c : Nat} {s s1 : InputDispatcher}
    (hf : CycleFrame c s s1) (fd : Int) :
    s1.connectionByReceiveFd fd = s.connectionByReceiveFd fd := by
  simp [connectionByReceiveFd, hf.map]

theorem mem_of_lookup {α β : Type} [BEq α] [LawfulBEq α] {l : List (α × β)} {a : α} {b : β}
    (h : l.lookup a = some b) : (a, b) ∈ l := by
  induction l with
  | nil => simp at h
  | cons x l ih =>
    obtain ⟨k, v⟩ := x
    simp only [List.lookup_cons] at h
    split at h
    · rename_i hk
      have hk : a = k := by simpa using hk
      simp only [Option.some.injEq] at h
      subst h hk
      exact List.mem_cons_self _ _
    · exact List.mem_cons_of_mem _ (ih h)

/-- A registered connection is a connection. -/
theorem Inv.lookupValid {held : Option Nat} {s : InputDispatcher} (h : Inv held s) {fd : Int}
    {c : Nat} (hc : s.connectionByReceiveFd fd = some c) : c < s.conns.length :=
  h.mapValid fd c (mem_of_lookup hc)

theorem SamplesOk.of_body {s s1 : InputDispatcher} (h : SamplesOk s)
    (hb : ∀ p, (s1.entry p).body = (s.entry p).body) : SamplesOk s1 := by
  intro p
  have := h p
  simp only [EventEntry.asMotion, hb] at this ⊢
  exact this

/-- An operation of the dispatch cycle of `c` that keeps the reference counts right
and leaves `c` consistent preserves the invariant. -/
theorem Inv.of_frame {held : Option Nat} {s s1 : InputDispatcher} {c : Nat} (h : Inv held s)
    (hf : CycleFrame c s s1) (hr : RefsOk held s1) (hc : ConnOk s1 c) : Inv held s1 where
  refsOk := hr
  inboundNodup := by rw [hf.inbound]; exact h.inboundNodup
  heldNotInbound := by rw [hf.inbound]; exact h.heldNotInbound
  connOk c1 := by
    by_cases hne : c1 = c
    · subst hne; exact hc
    · exact (h.connOk c1).connOk_of_frame hf hne
  activeNodup := hf.activeNodup h.activeNodup
  mapValid fd c1 hfd := by
    rw [hf.map] at hfd
    rw [hf.connsLength]; exact h.mapValid fd c1 hfd
  samplesOk := h.samplesOk.of_body hf.body

/-! ## `abortDispatchCycleLocked` -/

theorem abortDispatchCycleLocked_broken (s : InputDispatcher) (c : Nat) (broken : Bool)
    (h : (s.conn c).status = .BROKEN) : s.abortDispatchCycleLocked c broken = (s, false) := by
  simp [abortDispatchCycleLocked, h]

theorem abortDispatchCycleLocked_frame (s : InputDispatcher) (c : Nat) (broken : Bool) :
    CycleFrame c s (s.abortDispatchCycleLocked c broken).1 := by
  unfold abortDispatchCycleLocked
  split
  · exact CycleFrame.refl c s
  · have h3 : CycleFrame c s (deactivateConnectionLocked (drainOutboundQueue c
        ((s.setConn c { s.conn c with nextTimeoutTime := LONG_LONG_MAX }).conn c).outboundQueue
        (s.setConn c { s.conn c with nextTimeoutTime := LONG_LONG_MAX })) c) :=
      ((CycleFrame.frame_setConn c s _).trans (drainOutboundQueue_frame c _ _)).trans
        (CycleFrame.deactivateConnectionLocked c _)
    simp only
    split
    · exact (h3.trans (CycleFrame.frame_setConn c _ _)).trans (CycleFrame.frame_callout c _ _)
    · exact h3

theorem abortDispatchCycleLocked_refsOk {held : Option Nat} (s : InputDispatcher) (c : Nat)
    (broken : Bool) (h : RefsOk held s) :
    RefsOk held (s.abortDispatchCycleLocked c broken).1 := by
  unfold abortDispatchCycleLocked
  split
  · exact h
  · have h1 : RefsOk held (s.setConn c { s.conn c with nextTimeoutTime := LONG_LONG_MAX }) :=
      h.setConn_same c _ rfl
    have h2 := drainOutboundQueue_refsOk c _ _ h1 rfl
    simp only
    split
    · exact RefsOk.setConn_same (s := deactivateConnectionLocked _ c) h2 c _ rfl
    · exact h2

theorem abortDispatchCycleLocked_outbound (s : InputDispatcher) (c : Nat) (broken : Bool)
    (h : (s.conn c).status ≠ .BROKEN) :
    ((s.abortDispatchCycleLocked c broken).1.conn c).outboundQueue = [] := by
  simp only [abortDispatchCycleLocked, h, if_false]
  have h2 := drainOutboundQueue_conn c _
    (s.setConn c { s.conn c with nextTimeoutTime := LONG_LONG_MAX }) rfl
  split
  · rw [callout_conn]
    exact outbound_setConn_nil _ _ _ (by simp [h2])
  · simp [h2]

theorem abortDispatchCycleLocked_active (s : InputDispatcher) (c : Nat) (broken : Bool)
    (h : (s.conn c).status ≠ .BROKEN) :
    (s.abortDispatchCycleLocked c broken).1.mActiveConnections
      = s.mActiveConnections.erase c := by
  simp only [abortDispatchCycleLocked, h, if_false]
  split <;>
    simp [deactivateConnectionLocked, drainOutboundQueue_mActiveConnections]

theorem abortDispatchCycleLocked_snd (s : InputDispatcher) (c : Nat) (broken : Bool) :
    (s.abortDispatchCycleLocked c broken).2 = !decide ((s.conn c).status = .BROKEN) := by
  unfold abortDispatchCycleLocked
  split <;> simp [*]

theorem abortDispatchCycleLocked_connOk (s : InputDispatcher) (c : Nat) (broken : Bool)
    (h : ConnOk s c) (hn : s.mActiveConnections.Nodup) :
    ConnOk (s.abortDispatchCycleLocked c broken).1 c := by
  by_cases hb : (s.conn c).status = .BROKEN
  · rw [abortDispatchCycleLocked_broken s c broken hb]; exact h
  · apply ConnOk.idle (abortDispatchCycleLocked_outbound s c broken hb)
    rw [abortDispatchCycleLocked_active s c broken hb]
    exact fun hm => (hn.mem_erase_iff.mp hm).1 rfl

/-- Aborting leaves `c` consistent whatever its state was, when it is not `BROKEN`. -/
theorem abortDispatchCycleLocked_connOk_of_ne (s : InputDispatcher) (c : Nat) (broken : Bool)
    (hb : (s.conn c).status ≠ .BROKEN) (hn : s.mActiveConnections.Nodup) :
    ConnOk (s.abortDispatchCycleLocked c broken).1 c := by
  apply ConnOk.idle (abortDispatchCycleLocked_outbound s c broken hb)
  rw [abortDispatchCycleLocked_active s c broken hb]
  exact fun hm => (hn.mem_erase_iff.mp hm).1 rfl

theorem abortDispatchCycleLocked_inv {held : Option Nat} (s : InputDispatcher) (c : Nat)
    (broken : Bool) (h : Inv held s) : Inv held (s.abortDispatchCycleLocked c broken).1 :=
  h.of_frame (abortDispatchCycleLocked_frame s c broken)
    (abortDispatchCycleLocked_refsOk s c broken h.refsOk)
    (abortDispatchCycleLocked_connOk s c broken (h.connOk c) h.activeNodup)

end InputDispatcher

end Dispatcher

namespace Dispatcher

namespace InputDispatcher

/-! ## Publishing only appends to the trace -/

theorem Inv.withTrace {held : Option Nat} {s : InputDispatcher} (h : Inv held s)
    (tr : List PublisherRecord) : Inv held { s with trace := tr } :=
  ⟨h.refsOk, h.inboundNodup, h.heldNotInbound,
    fun c => ⟨(h.connOk c).active, (h.connOk c).inProgress, (h.connOk c).delivering⟩,
    h.activeNodup, h.mapValid, h.samplesOk⟩

theorem CycleFrame.frame_withTrace (c : Nat) (s : InputDispatcher) (tr : List PublisherRecord) :
    CycleFrame c s { s with trace := tr } :=
  ⟨fun _ => rfl, fun _ => rfl, rfl, rfl, fun _ _ => rfl, rfl, rfl, rfl, rfl, rfl,
    fun _ _ => Iff.rfl, id⟩

theorem publisherCalled_eq (env : Env) (s : InputDispatcher) (c : Nat) (call : PublisherCall) :
    s.publisherCalled env c call
      = { s with trace := s.trace ++ [⟨c, call, s.publisherStatus env c call⟩] } := rfl

theorem appendFurtherSamples_state (env : Env) (c : Nat) (xs : List MotionSample) (i : Nat)
    (s : InputDispatcher) :
    ∃ tr, (appendFurtherSamples env c xs i s).1 = { s with trace := tr } := by
  induction xs generalizing i s with
  | nil => exact ⟨s.trace, rfl⟩
  | cons x xs ih =>
    simp only [appendFurtherSamples]
    split
    · exact ⟨_, rfl⟩
    · split
      · exact ⟨_, rfl⟩
      · obtain ⟨tr, h⟩ := ih (i + 1) (s.publisherCalled env c
          (PublisherCall.appendMotionSample x.eventTime x.pointerCoords))
        exact ⟨tr, by rw [h]; rfl⟩

theorem publishEventOf_state (env : Env) (s : InputDispatcher) (c : Nat) (d : DispatchEntry) :
    ∃ tr, (s.publishEventOf env c d).1 = { s with trace := tr } := by
  unfold publishEventOf
  cases hb : (s.entry d.eventEntry).body with
  | configurationChanged a b c => exact ⟨s.trace, by simp only [hb]⟩
  | key k =>
    simp only [hb]
    split_ifs <;> exact ⟨_, rfl⟩
  | motion m =>
    simp only [hb]
    generalize PublisherCall.publishMotionEvent _ = call
    split_ifs
    · exact ⟨_, rfl⟩
    · obtain ⟨tr, h⟩ := appendFurtherSamples_state env c
        (m.chain.drop (d.headMotionSample.getD 0 + 1)) (d.headMotionSample.getD 0 + 1)
        (s.publisherCalled env c call)
      split
      · rename_i heq
        rw [heq] at h
        exact ⟨tr, h⟩
      · rename_i heq
        rw [heq] at h
        exact ⟨tr, h⟩

theorem publishEventOf_entry (env : Env) (s : InputDispatcher) (c : Nat) (d d1 : DispatchEntry)
    (h : (s.publishEventOf env c d).2 = some d1) :
    ∃ t, d1 = { d with tailMotionSample := t } := by
  unfold publishEventOf at h
  cases hb : (s.entry d.eventEntry).body with
  | configurationChanged a b c =>
    simp only [hb, Option.some.injEq] at h
    exact ⟨d.tailMotionSample, h.symm⟩
  | key k =>
    simp only [hb] at h
    split_ifs at h <;>
      (simp only [Option.some.injEq] at h; exact ⟨d.tailMotionSample, h.symm⟩)
  | motion m =>
    simp only [hb] at h
    generalize PublisherCall.publishMotionEvent _ = call at h
    split_ifs at h
    split at h
    · simp at h
    · simp only [Option.some.injEq] at h; exact ⟨_, h.symm⟩

/-! ## `startDispatchCycleLocked` -/

/-- The three ways `startDispatchCycleLocked` can end. -/
theorem startDispatchCycleLocked_cases (env : Env) (s : InputDispatcher) (currentTime : Int)
    (c : Nat) :
    ((s.conn c).outboundQueue = [] ∧ s.startDispatchCycleLocked env currentTime c = s)
    ∨ (∃ tr, s.startDispatchCycleLocked env currentTime c
        = (InputDispatcher.abortDispatchCycleLocked { s with trace := tr } c true).1)
    ∨ (∃ tr d q t x, (s.conn c).outboundQueue = d :: q
        ∧ x.outboundQueue = { d with tailMotionSample := t, inProgress := true } :: q
        ∧ x.status = (s.conn c).status
        ∧ s.startDispatchCycleLocked env currentTime c
          = (InputDispatcher.setConn { s with trace := tr } c x).callout
              (.onDispatchCycleStarted c)) := by
  unfold startDispatchCycleLocked
  split
  · rename_i hq; exact Or.inl ⟨hq, rfl⟩
  · rename_i d q hq
    obtain ⟨tr, htr⟩ := publishEventOf_state env s c d
    split
    · rename_i s1 heq
      rw [heq] at htr
      simp only at htr
      subst htr
      exact Or.inr (Or.inl ⟨tr, rfl⟩)
    · rename_i s1 d1 heq
      obtain ⟨t, ht⟩ := publishEventOf_entry env s c d d1 (by rw [heq])
      rw [heq] at htr
      simp only at htr
      subst htr
      simp only
      split
      · exact Or.inr (Or.inl ⟨_, rfl⟩)
      · refine Or.inr (Or.inr ⟨_, d, q, t, _, hq, ?_, ?_, rfl⟩)
        · subst ht; rfl
        · rfl

theorem startDispatchCycleLocked_frame (env : Env) (s : InputDispatcher) (currentTime : Int)
    (c : Nat) : CycleFrame c s (s.startDispatchCycleLocked env currentTime c) := by
  rcases startDispatchCycleLocked_cases env s currentTime c with
    ⟨_, h⟩ | ⟨tr, h⟩ | ⟨tr, d, q, t, x, _, _, _, h⟩ <;> rw [h]
  · exact CycleFrame.refl c s
  · exact (CycleFrame.frame_withTrace c s tr).trans (abortDispatchCycleLocked_frame _ c true)
  · exact ((CycleFrame.frame_withTrace c s tr).trans (CycleFrame.frame_setConn c _ x)).trans
      (CycleFrame.frame_callout c _ _)

theorem startDispatchCycleLocked_refsOk {held : Option Nat} (env : Env) (s : InputDispatcher)
    (currentTime : Int) (c : Nat) (h : RefsOk held s) :
    RefsOk held (s.startDispatchCycleLocked env currentTime c) := by
  rcases startDispatchCycleLocked_cases env s currentTime c with
    ⟨_, h1⟩ | ⟨tr, h1⟩ | ⟨tr, d, q, t, x, hq, hx, _, h1⟩ <;> rw [h1]
  · exact h
  · exact @abortDispatchCycleLocked_refsOk held _ c true h
  · apply RefsOk.setConn_same (s := { s with trace := tr }) h c x
    rw [hx]
    show _ = List.map _ (s.conn c).outboundQueue
    rw [hq]; rfl

/-- Starting a cycle on an active `NORMAL` connection whose entries behind the head
are not in progress leaves the connection consistent. -/
theorem startDispatchCycleLocked_connOk (env : Env) (s : InputDispatcher) (currentTime : Int)
    (c : Nat) {d : DispatchEntry} {q : List DispatchEntry}
    (hq : (s.conn c).outboundQueue = d :: q) (hp : ∀ x ∈ q, x.inProgress = false)
    (hs : (s.conn c).status = .NORMAL) (ha : c ∈ s.mActiveConnections)
    (hn : s.mActiveConnections.Nodup) :
    ConnOk (s.startDispatchCycleLocked env currentTime c) c := by
  have hc : c < s.conns.length := lt_of_outbound_ne_nil s (by simp [hq])
  rcases startDispatchCycleLocked_cases env s currentTime c with
    ⟨h0, _⟩ | ⟨tr, h1⟩ | ⟨tr, d1, q1, t, x, hq1, hx, hxs, h1⟩
  · simp [hq] at h0
  · rw [h1]
    exact abortDispatchCycleLocked_connOk_of_ne _ c true
      (by show (s.conn c).status ≠ .BROKEN; simp [hs]) hn
  · rw [h1, hq] at *
    simp only [List.cons.injEq] at hq1
    obtain ⟨rfl, rfl⟩ := hq1
    have hcx : ((InputDispatcher.setConn { s with trace := tr } c x).callout
        (.onDispatchCycleStarted c)).conn c = x := by
      rw [callout_conn]; exact conn_setConn_self _ x hc
    constructor
    · rw [hcx, hx]; simpa using ha
    · rw [hcx, hx]
      intro d2 q2 h2
      simp only [List.cons.injEq] at h2
      rw [← h2.2]; exact hp
    · rw [hcx, hx]
      intro d2 q2 h2
      simp only [List.cons.injEq] at h2
      rw [← h2.1, hxs, hs]
      exact ⟨rfl, rfl⟩

end InputDispatcher

end Dispatcher

namespace Dispatcher

namespace InputDispatcher

/-! ## `prepareDispatchCycleLocked` -/

theorem map_set_getD {α β : Type} (f : α → β) (g : α → α) (q : List α) (i : Nat) (dflt : α)
    (hg : ∀ d, f (g d) = f d) : (q.set i (g (q.getD i dflt))).map f = q.map f := by
  induction q generalizing i with
  | nil => rfl
  | cons a q ih =>
    cases i with
    | zero => simp [hg]
    | succ i => simpa using ih i

/-- The new dispatch entry `prepareDispatchCycleLocked` makes. -/
theorem prepareDispatchCycleLocked_cases (env : Env) (s : InputDispatcher) (currentTime : Int)
    (c p : Nat) (inputTarget : InputTarget) (resume : Bool) :
    (∃ tr, s.prepareDispatchCycleLocked env currentTime c p inputTarget resume
        = { s with trace := tr })
    ∨ (∃ tr q, q.map (fun d => (d.eventEntry, d.inProgress))
          = (s.conn c).outboundQueue.map (fun d => (d.eventEntry, d.inProgress))
        ∧ s.prepareDispatchCycleLocked env currentTime c p inputTarget resume
          = InputDispatcher.setOutbound { s with trace := tr } c q)
    ∨ (∃ d, d.eventEntry = p ∧ d.inProgress = false ∧ (s.conn c).status = .NORMAL
        ∧ (s.conn c).outboundQueue ≠ []
        ∧ s.prepareDispatchCycleLocked env currentTime c p inputTarget resume
          = (s.retainEventEntry p).setOutbound c ((s.conn c).outboundQueue ++ [d]))
    ∨ (∃ d, d.eventEntry = p ∧ d.inProgress = false ∧ (s.conn c).status = .NORMAL
        ∧ (s.conn c).outboundQueue = []
        ∧ s.prepareDispatchCycleLocked env currentTime c p inputTarget resume
          = (((s.retainEventEntry p).setOutbound c [d]).activateConnectionLocked c
              ).startDispatchCycleLocked env currentTime c) := by
  unfold prepareDispatchCycleLocked
  simp only
  split
  · exact Or.inl ⟨s.trace, rfl⟩
  · rename_i hs
    have hs : (s.conn c).status = .NORMAL := by simpa using hs
    split
    · rename_i i _
      split
      · exact Or.inl ⟨s.trace, rfl⟩
      · split
        · exact Or.inl ⟨s.trace, rfl⟩
        · split
          · exact Or.inl ⟨_, rfl⟩
          · refine Or.inr (Or.inl ⟨_, _, ?_, rfl⟩)
            exact map_set_getD (fun d : DispatchEntry => (d.eventEntry, d.inProgress))
              (fun d : DispatchEntry =>
                { d with tailMotionSample := some (s.entry p).asMotion.lastSample })
              _ _ _ (fun _ => rfl)
    · cases hq : (s.conn c).outboundQueue with
      | nil =>
        refine Or.inr (Or.inr (Or.inr ⟨s.newDispatchEntry p inputTarget resume, rfl, rfl, hs, rfl, ?_⟩))
        simp [hq]
      | cons a q =>
        refine Or.inr (Or.inr (Or.inl ⟨s.newDispatchEntry p inputTarget resume, rfl, rfl, hs,
          by simp, ?_⟩))
        simp [hq]

theorem prepareDispatchCycleLocked_frame (env : Env) (s : InputDispatcher) (currentTime : Int)
    (c p : Nat) (inputTarget : InputTarget) (resume : Bool) :
    CycleFrame c s (s.prepareDispatchCycleLocked env currentTime c p inputTarget resume) := by
  rcases prepareDispatchCycleLocked_cases env s currentTime c p inputTarget resume with
    ⟨tr, h⟩ | ⟨tr, q, _, h⟩ | ⟨d, _, _, _, _, h⟩ | ⟨d, _, _, _, _, h⟩ <;> rw [h]
  · exact CycleFrame.frame_withTrace c s tr
  · exact (CycleFrame.frame_withTrace c s tr).trans (CycleFrame.setOutbound c _ q)
  · exact (CycleFrame.retainEventEntry c s p).trans (CycleFrame.setOutbound c _ _)
  · exact (((CycleFrame.retainEventEntry c s p).trans (CycleFrame.setOutbound c _ _)).trans
      (CycleFrame.activateConnectionLocked c _)).trans (startDispatchCycleLocked_frame _ _ _ c)

theorem map_eventEntry_of_map_pair {q1 q2 : List DispatchEntry}
    (h : q1.map (fun d => (d.eventEntry, d.inProgress))
      = q2.map (fun d => (d.eventEntry, d.inProgress))) :
    q1.map (fun d => d.eventEntry) = q2.map (fun d => d.eventEntry) := by
  have := congrArg (List.map Prod.fst) h
  simpa [List.map_map, Function.comp_def] using this

theorem map_inProgress_of_map_pair {q1 q2 : List DispatchEntry}
    (h : q1.map (fun d => (d.eventEntry, d.inProgress))
      = q2.map (fun d => (d.eventEntry, d.inProgress))) :
    q1.map (fun d => d.inProgress) = q2.map (fun d => d.inProgress) := by
  have := congrArg (List.map Prod.snd) h
  simpa [List.map_map, Function.comp_def] using this

/-- Appending a dispatch entry for the live entry `p` to the queue of `c`, while
retaining `p`, keeps the counts right. -/
theorem RefsOk.enqueue {held : Option Nat} {s : InputDispatcher} {c p : Nat}
    (h : RefsOk held s) (hl : (s.entry p).inPool = false) (hc : c < s.conns.length)
    (d : DispatchEntry) (hd : d.eventEntry = p) :
    RefsOk held ((s.retainEventEntry p).setOutbound c ((s.conn c).outboundQueue ++ [d])) := by
  have hp := lt_of_live s hl
  refine h.retain hl ?_ ?_
  · intro r
    have := refs_setOutbound (s.retainEventEntry p) ((s.conn c).outboundQueue ++ [d]) r hc
    rw [queueRefs_append, queueRefs_cons, queueRefs_nil, hd] at this
    have h2 : (s.retainEventEntry p).refs r = s.refs r := rfl
    simp only [retainEventEntry_conn] at this
    omega
  · intro r
    rw [setOutbound_entry]
    unfold retainEventEntry
    rw [entry_setEntry]
    simp [hp]

theorem RefsOk.refs_activateConnectionLocked {held : Option Nat} {s : InputDispatcher}
    (h : RefsOk held s) (c : Nat) : RefsOk held (s.activateConnectionLocked c) := by
  unfold InputDispatcher.activateConnectionLocked
  split
  · exact h
  · exact h

theorem prepareDispatchCycleLocked_refsOk {held : Option Nat} (env : Env) (s : InputDispatcher)
    (currentTime : Int) (c p : Nat) (inputTarget : InputTarget) (resume : Bool)
    (h : RefsOk held s) (hl : (s.entry p).inPool = false) (hc : c < s.conns.length) :
    RefsOk held (s.prepareDispatchCycleLocked env currentTime c p inputTarget resume) := by
  rcases prepareDispatchCycleLocked_cases env s currentTime c p inputTarget resume with
    ⟨tr, h1⟩ | ⟨tr, q, hq, h1⟩ | ⟨d, hd, _, _, _, h1⟩ | ⟨d, hd, _, _, hq, h1⟩ <;> rw [h1]
  · exact h
  · exact RefsOk.setOutbound_same (s := { s with trace := tr }) h c q
      (map_eventEntry_of_map_pair hq)
  · exact h.enqueue hl hc d hd
  · apply startDispatchCycleLocked_refsOk
    apply RefsOk.refs_activateConnectionLocked
    have := h.enqueue hl hc d hd
    rwa [hq, List.nil_append] at this

theorem ConnOk.connOk_setOutbound_same {s : InputDispatcher} {c : Nat} (h : ConnOk s c)
    (hc : c < s.conns.length) (q : List DispatchEntry)
    (hq : q.map (fun d => d.inProgress) = (s.conn c).outboundQueue.map (fun d => d.inProgress)) :
    ConnOk (s.setOutbound c q) c := by
  have hcq := conn_setOutbound_self s q hc
  constructor
  · rw [hcq]
    simp only [setOutbound_mActiveConnections]
    rw [h.active]
    have := congrArg List.length hq
    simp only [List.length_map] at this
    constructor
    · intro h1 h2; apply h1; rw [h2] at this; exact List.length_eq_zero.mp this.symm
    · intro h1 h2; apply h1; rw [h2] at this; exact List.length_eq_zero.mp this
  · rw [hcq]
    intro d q1 hdq x hx
    simp only at hdq
    subst hdq
    cases hs : (s.conn c).outboundQueue with
    | nil => rw [hs] at hq; simp at hq
    | cons d0 q0 =>
      rw [hs] at hq
      simp only [List.map_cons, List.cons.injEq] at hq
      have h0 := h.inProgress d0 q0 hs
      have : x.inProgress ∈ q0.map (fun d => d.inProgress) := by
        rw [← hq.2]; exact List.mem_map.mpr ⟨x, hx, rfl⟩
      obtain ⟨y, hy, hxy⟩ := List.mem_map.mp this
      rw [← hxy]; exact h0 y hy
  · rw [hcq]
    intro d q1 hdq
    simp only at hdq
    subst hdq
    cases hs : (s.conn c).outboundQueue with
    | nil => rw [hs] at hq; simp at hq
    | cons d0 q0 =>
      rw [hs] at hq
      simp only [List.map_cons, List.cons.injEq] at hq
      have h0 := h.delivering d0 q0 hs
      exact ⟨h0.1, hq.1.trans h0.2⟩

theorem prepareDispatchCycleLocked_connOk (env : Env) (s : InputDispatcher)
    (currentTime : Int) (c p : Nat) (inputTarget : InputTarget) (resume : Bool)
    (h : ConnOk s c) (hn : s.mActiveConnections.Nodup) (hc : c < s.conns.length) :
    ConnOk (s.prepareDispatchCycleLocked env currentTime c p inputTarget resume) c := by
  rcases prepareDispatchCycleLocked_cases env s currentTime c p inputTarget resume with
    ⟨tr, h1⟩ | ⟨tr, q, hq, h1⟩ | ⟨d, hd, hdp, hs, hq, h1⟩ | ⟨d, hd, hdp, hs, hq, h1⟩ <;> rw [h1]
  · exact h.congr rfl Iff.rfl
  · exact ConnOk.connOk_setOutbound_same (s := { s with trace := tr }) (h.congr rfl Iff.rfl) hc q
      (map_inProgress_of_map_pair hq)
  · have hcq := conn_setOutbound_self (s.retainEventEntry p)
      ((s.conn c).outboundQueue ++ [d]) hc
    obtain ⟨d0, q0, hs0⟩ := List.exists_cons_of_ne_nil hq
    have hd0 := h.delivering d0 q0 hs0
    have hp0 := h.inProgress d0 q0 hs0
    constructor
    · rw [hcq]
      simp only [setOutbound_mActiveConnections, retainEventEntry_mActiveConnections,
        retainEventEntry_conn]
      rw [h.active, hs0]; simp
    · rw [hcq]
      simp only [retainEventEntry_conn, hs0, List.cons_append, List.cons.injEq]
      rintro d1 q1 ⟨rfl, rfl⟩ x hx
      rcases List.mem_append.mp hx with hx | hx
      · exact hp0 x hx
      · simp only [List.mem_singleton] at hx; rw [hx]; exact hdp
    · rw [hcq]
      simp only [retainEventEntry_conn, hs0, List.cons_append, List.cons.injEq]
      rintro d1 q1 ⟨rfl, rfl⟩
      exact hd0
  · have hc2 : c < ((s.retainEventEntry p).setOutbound c [d]).conns.length := by simpa using hc
    apply startDispatchCycleLocked_connOk (d := d) (q := [])
    · rw [activateConnectionLocked_conn]
      exact outbound_setOutbound_self _ _ (by simpa using hc)
    · simp
    · rw [activateConnectionLocked_conn, conn_setOutbound_self _ _ (by simpa using hc)]
      exact hs
    · unfold InputDispatcher.activateConnectionLocked
      split
      · assumption
      · simp
    · exact (CycleFrame.activateConnectionLocked c _).activeNodup hn

theorem prepareDispatchCycleLocked_inv {held : Option Nat} (env : Env) (s : InputDispatcher)
    (currentTime : Int) (c p : Nat) (inputTarget : InputTarget) (resume : Bool)
    (h : Inv held s) (hl : (s.entry p).inPool = false) (hc : c < s.conns.length) :
    Inv held (s.prepareDispatchCycleLocked env currentTime c p inputTarget resume) :=
  h.of_frame (prepareDispatchCycleLocked_frame env s currentTime c p inputTarget resume)
    (prepareDispatchCycleLocked_refsOk env s currentTime c p inputTarget resume h.refsOk hl hc)
    (prepareDispatchCycleLocked_connOk env s currentTime c p inputTarget resume (h.connOk c)
      h.activeNodup hc)

end InputDispatcher

end Dispatcher

namespace Dispatcher

namespace InputDispatcher

/-! ## `finishDispatchCycleLocked` and `timeoutDispatchCycleLocked` -/

theorem lt_of_status_normal (s : InputDispatcher) {c : Nat}
    (h : (s.conn c).status = .NORMAL) : c < s.conns.length := by
  by_contra hc
  rw [conn_of_le s (Nat.le_of_not_lt hc)] at h
  simp [Connection.invalid] at h

theorem conn_setConn (s : InputDispatcher) (c : Nat) (x : Connection) :
    (s.setConn c x).conn c = if c < s.conns.length then x else s.conn c := by
  split
  · rename_i h; exact conn_setConn_self s x h
  · rename_i h; rw [setConn_of_le s x (Nat.le_of_not_lt h)]

theorem ConnOk.setConn {s : InputDispatcher} {c : Nat} (h : ConnOk s c) (x : Connection)
    (hq : x.outboundQueue = (s.conn c).outboundQueue)
    (hs : (s.conn c).outboundQueue ≠ [] → x.status = .NORMAL) : ConnOk (s.setConn c x) c := by
  by_cases hc : c < s.conns.length
  · have hx := conn_setConn_self s x hc
    constructor
    · rw [hx, hq]; exact h.active
    · rw [hx, hq]; exact h.inProgress
    · rw [hx, hq]
      intro d q hdq
      exact ⟨hs (by simp [hdq]), (h.delivering d q hdq).2⟩
  · rw [setConn_of_le s x (Nat.le_of_not_lt hc)]; exact h

theorem finishDispatchLoop_frame (env : Env) (currentTime : Int) (c : Nat)
    (q : List DispatchEntry) (s : InputDispatcher) :
    CycleFrame c s (finishDispatchLoop env currentTime c q s) := by
  induction q generalizing s with
  | nil => exact CycleFrame.deactivateConnectionLocked c s
  | cons d q ih =>
    simp only [finishDispatchLoop]
    split
    · split
      · exact (CycleFrame.setOutbound c s _).trans (startDispatchCycleLocked_frame _ _ _ c)
      · exact ((CycleFrame.setOutbound c s q).trans
          (CycleFrame.releaseDispatchEntry c _ d)).trans (ih _)
    · exact startDispatchCycleLocked_frame env s currentTime c

theorem finishDispatchLoop_refsOk {held : Option Nat} (env : Env) (currentTime : Int) (c : Nat)
    (q : List DispatchEntry) (s : InputDispatcher) (h : RefsOk held s)
    (hq : (s.conn c).outboundQueue = q) :
    RefsOk held (finishDispatchLoop env currentTime c q s) := by
  induction q generalizing s with
  | nil => exact h
  | cons d q ih =>
    have hc : c < s.conns.length := lt_of_outbound_ne_nil s (by simp [hq])
    simp only [finishDispatchLoop]
    split
    · split
      · apply startDispatchCycleLocked_refsOk
        apply h.setOutbound_same
        rw [hq]; rfl
      · apply ih _ (h.refs_dequeue hq)
        simp [outbound_setOutbound_self s q hc]
    · exact startDispatchCycleLocked_refsOk env s currentTime c h

theorem finishDispatchLoop_connOk (env : Env) (currentTime : Int) (c : Nat)
    (q : List DispatchEntry) (s : InputDispatcher) (hq : (s.conn c).outboundQueue = q)
    (ha : q ≠ [] → c ∈ s.mActiveConnections) (hs : q ≠ [] → (s.conn c).status = .NORMAL)
    (hp : ∀ d q1, q = d :: q1 → ∀ x ∈ q1, x.inProgress = false)
    (hn : s.mActiveConnections.Nodup) :
    ConnOk (finishDispatchLoop env currentTime c q s) c := by
  induction q generalizing s with
  | nil =>
    apply ConnOk.idle
    · simpa [finishDispatchLoop] using hq
    · simp only [finishDispatchLoop, InputDispatcher.deactivateConnectionLocked]
      exact fun hm => (hn.mem_erase_iff.mp hm).1 rfl
  | cons d q ih =>
    have hc : c < s.conns.length := lt_of_outbound_ne_nil s (by simp [hq])
    have ha1 := ha (by simp)
    have hs1 := hs (by simp)
    have hp1 := hp d q rfl
    simp only [finishDispatchLoop]
    split
    · split
      · apply startDispatchCycleLocked_connOk (q := q)
        · exact outbound_setOutbound_self s _ hc
        · exact hp1
        · rw [conn_setOutbound_self s _ hc]; exact hs1
        · exact ha1
        · exact hn
      · apply ih
        · simp [outbound_setOutbound_self s q hc]
        · intro _; simpa using ha1
        · intro _
          rw [releaseDispatchEntry_conn, conn_setOutbound_self s q hc]; exact hs1
        · intro d1 q1 hq1 x hx
          exact hp1 x (by rw [hq1]; exact List.mem_cons_of_mem _ hx)
        · simpa using hn
    · exact startDispatchCycleLocked_connOk env s currentTime c hq hp1 hs1 ha1 hn

theorem finishDispatchCycleLocked_frame (env : Env) (s : InputDispatcher) (currentTime : Int)
    (c : Nat) : CycleFrame c s (s.finishDispatchCycleLocked env currentTime c) := by
  unfold finishDispatchCycleLocked
  split
  · exact CycleFrame.refl c s
  · have h1 := CycleFrame.frame_setConn c s { s.conn c with nextTimeoutTime := LONG_LONG_MAX }
    simp only
    have h2 : ∀ s2, CycleFrame c s s2 →
        CycleFrame c s
          (if s2.publisherStatus env c .reset ≠ 0
            then ((s2.publisherCalled env c .reset).abortDispatchCycleLocked c true).1
            else finishDispatchLoop env currentTime c
              ((s2.publisherCalled env c .reset).conn c).outboundQueue
              (s2.publisherCalled env c .reset)) := by
      intro s2 hs2
      have h3 := hs2.trans (CycleFrame.publisherCalled c s2 env c .reset)
      split
      · exact h3.trans (abortDispatchCycleLocked_frame _ c true)
      · exact h3.trans (finishDispatchLoop_frame env currentTime c _ _)
    apply h2
    split
    · exact (h1.trans (CycleFrame.frame_setConn c _ _)).trans (CycleFrame.frame_callout c _ _)
    · exact h1.trans (CycleFrame.frame_callout c _ _)

theorem ConnOk.normal_of_ne_nil {s : InputDispatcher} {c : Nat} (h : ConnOk s c)
    (hq : (s.conn c).outboundQueue ≠ []) : (s.conn c).status = .NORMAL := by
  obtain ⟨d, q, hdq⟩ := List.exists_cons_of_ne_nil hq
  exact (h.delivering d q hdq).1

theorem ConnOk.connOk_callout {s : InputDispatcher} {c : Nat} (h : ConnOk s c) (x : Callout) :
    ConnOk (s.callout x) c :=
  h.congr rfl Iff.rfl

theorem finishDispatchCycleLocked_refsOk {held : Option Nat} (env : Env) (s : InputDispatcher)
    (currentTime : Int) (c : Nat) (h : RefsOk held s) :
    RefsOk held (s.finishDispatchCycleLocked env currentTime c) := by
  unfold finishDispatchCycleLocked
  split
  · exact h
  · have h1 : RefsOk held (s.setConn c { s.conn c with nextTimeoutTime := LONG_LONG_MAX }) :=
      h.setConn_same c _ rfl
    simp only
    have h2 : ∀ s2, RefsOk held s2 →
        RefsOk held
          (if s2.publisherStatus env c .reset ≠ 0
            then ((s2.publisherCalled env c .reset).abortDispatchCycleLocked c true).1
            else finishDispatchLoop env currentTime c
              ((s2.publisherCalled env c .reset).conn c).outboundQueue
              (s2.publisherCalled env c .reset)) := by
      intro s2 hs2
      split
      · exact @abortDispatchCycleLocked_refsOk held _ c true hs2
      · exact @finishDispatchLoop_refsOk held env currentTime c _ _ hs2 rfl
    apply h2
    split
    · exact RefsOk.setConn_same h1 c _ rfl
    · exact h1

theorem finishDispatchCycleLocked_connOk (env : Env) (s : InputDispatcher)
    (currentTime : Int) (c : Nat) (h : ConnOk s c) (hn : s.mActiveConnections.Nodup) :
    ConnOk (s.finishDispatchCycleLocked env currentTime c) c := by
  unfold finishDispatchCycleLocked
  split
  · exact h
  · have h1 : ConnOk (s.setConn c { s.conn c with nextTimeoutTime := LONG_LONG_MAX }) c :=
      h.setConn _ rfl h.normal_of_ne_nil
    simp only
    have h2 : ∀ s2, ConnOk s2 c → s2.mActiveConnections.Nodup →
        ConnOk
          (if s2.publisherStatus env c .reset ≠ 0
            then ((s2.publisherCalled env c .reset).abortDispatchCycleLocked c true).1
            else finishDispatchLoop env currentTime c
              ((s2.publisherCalled env c .reset).conn c).outboundQueue
              (s2.publisherCalled env c .reset)) c := by
      intro s2 hs2 hn2
      have hs3 : ConnOk (s2.publisherCalled env c .reset) c := hs2.congr rfl Iff.rfl
      split
      · exact abortDispatchCycleLocked_connOk _ c true hs3 hn2
      · apply finishDispatchLoop_connOk env currentTime c _ _ rfl
        · exact hs3.active.mpr
        · exact hs3.normal_of_ne_nil
        · exact hs3.inProgress
        · exact hn2
    split
    · apply h2
      · apply ConnOk.connOk_callout
        apply ConnOk.setConn h1
        · rfl
        · intro _; rfl
      · exact hn
    · apply h2
      · exact h1.connOk_callout _
      · exact hn

theorem finishDispatchCycleLocked_inv {held : Option Nat} (env : Env) (s : InputDispatcher)
    (currentTime : Int) (c : Nat) (h : Inv held s) :
    Inv held (s.finishDispatchCycleLocked env currentTime c) :=
  h.of_frame (finishDispatchCycleLocked_frame env s currentTime c)
    (finishDispatchCycleLocked_refsOk env s currentTime c h.refsOk)
    (finishDispatchCycleLocked_connOk env s currentTime c (h.connOk c) h.activeNodup)

theorem timeoutDispatchCycleLocked_frame (s : InputDispatcher) (currentTime : Int) (c : Nat) :
    CycleFrame c s (s.timeoutDispatchCycleLocked currentTime c).1 := by
  unfold timeoutDispatchCycleLocked
  split
  · exact CycleFrame.refl c s
  · exact ((CycleFrame.frame_setConn c s _).trans (abortDispatchCycleLocked_frame _ c false)).trans
      (CycleFrame.frame_callout c _ _)

theorem timeoutDispatchCycleLocked_refsOk {held : Option Nat} (s : InputDispatcher)
    (currentTime : Int) (c : Nat) (h : RefsOk held s) :
    RefsOk held (s.timeoutDispatchCycleLocked currentTime c).1 := by
  unfold timeoutDispatchCycleLocked
  split
  · exact h
  · exact @abortDispatchCycleLocked_refsOk held _ c false (h.setConn_same c _ rfl)

theorem timeoutDispatchCycleLocked_connOk (s : InputDispatcher) (currentTime : Int) (c : Nat)
    (h : ConnOk s c) (hn : s.mActiveConnections.Nodup) :
    ConnOk (s.timeoutDispatchCycleLocked currentTime c).1 c := by
  unfold timeoutDispatchCycleLocked
  split
  · exact h
  · rename_i hs
    have hs : (s.conn c).status = .NORMAL := by simpa using hs
    have hc := lt_of_status_normal s hs
    apply ConnOk.connOk_callout
    refine abortDispatchCycleLocked_connOk_of_ne _ c false ?_ hn
    rw [conn_setConn_self s _ hc]
    simp

theorem timeoutDispatchCycleLocked_inv {held : Option Nat} (s : InputDispatcher)
    (currentTime : Int) (c : Nat) (h : Inv held s) :
    Inv held (s.timeoutDispatchCycleLocked currentTime c).1 :=
  h.of_frame (timeoutDispatchCycleLocked_frame s currentTime c)
    (timeoutDispatchCycleLocked_refsOk s currentTime c h.refsOk)
    (timeoutDispatchCycleLocked_connOk s currentTime c (h.connOk c) h.activeNodup)

end InputDispatcher

end Dispatcher

namespace Dispatcher

namespace InputDispatcher

/-! ## Dispatching an event to the input targets -/

theorem conns_of_frame {c : Nat} {s s1 : InputDispatcher} (hf : CycleFrame c s s1) :
    s1.conns = s.conns.set c (s1.conn c) := by
  apply List.ext_getElem?
  intro i
  by_cases hi : i = c
  · subst hi
    by_cases hc : i < s.conns.length
    · have hc1 : i < s1.conns.length := by rw [hf.connsLength]; exact hc
      rw [List.getElem?_set, if_pos rfl, if_pos hc]
      simp [conn, List.getElem?_eq_getElem hc1]
    · have hc1 : ¬ i < s1.conns.length := by rw [hf.connsLength]; exact hc
      rw [List.set_eq_of_length_le (Nat.le_of_not_lt hc),
        List.getElem?_eq_none (Nat.le_of_not_lt hc), List.getElem?_eq_none (Nat.le_of_not_lt hc1)]
  · rw [List.getElem?_set_ne (Ne.symm hi)]
    have := hf.conn i hi
    by_cases hc : i < s.conns.length
    · have hc1 : i < s1.conns.length := by rw [hf.connsLength]; exact hc
      simp only [conn, List.getElem?_eq_getElem hc1, List.getElem?_eq_getElem hc,
        Option.getD_some] at this
      rw [List.getElem?_eq_getElem hc1, List.getElem?_eq_getElem hc, this]
    · have hc1 : ¬ i < s1.conns.length := by rw [hf.connsLength]; exact hc
      rw [List.getElem?_eq_none (Nat.le_of_not_lt hc), List.getElem?_eq_none (Nat.le_of_not_lt hc1)]

/-- How an operation of the dispatch cycle of `c` changes the numbers of references. -/
theorem refs_of_frame {c : Nat} {s s1 : InputDispatcher} (hf : CycleFrame c s s1) (r : Nat) :
    s1.refs r + queueRefs (s.conn c).outboundQueue r
      = s.refs r + queueRefs (s1.conn c).outboundQueue r := by
  have h1 : s1.outboundRefs r = (s.setConn c (s1.conn c)).outboundRefs r := by
    simp only [outboundRefs, setConn, conns_of_frame hf]
  by_cases hc : c < s.conns.length
  · have := outboundRefs_setConn s (s1.conn c) r hc
    simp only [refs, hf.inbound, hf.keyRepeat]
    omega
  · have hc1 : ¬ c < s1.conns.length := by rw [hf.connsLength]; exact hc
    rw [setConn_of_le s _ (Nat.le_of_not_lt hc)] at h1
    rw [conn_of_le s (Nat.le_of_not_lt hc), conn_of_le s1 (Nat.le_of_not_lt hc1)]
    simp only [refs, hf.inbound, hf.keyRepeat, h1]

theorem prepareDispatchCycleLocked_refs (env : Env) (s : InputDispatcher) (currentTime : Int)
    (c p : Nat) (inputTarget : InputTarget) (resume : Bool) (r : Nat) :
    s.refs r ≤ (s.prepareDispatchCycleLocked env currentTime c p inputTarget resume).refs r := by
  have hf := prepareDispatchCycleLocked_frame env s currentTime c p inputTarget resume
  have hr := refs_of_frame hf r
  by_cases hq0 : (s.conn c).outboundQueue = []
  · rw [hq0, queueRefs_nil] at hr; omega
  · have hc := lt_of_outbound_ne_nil s hq0
    rcases prepareDispatchCycleLocked_cases env s currentTime c p inputTarget resume with
      ⟨tr, h1⟩ | ⟨tr, q, hq, h1⟩ | ⟨d, hd, _, _, _, h1⟩ | ⟨d, hd, _, _, hq, h1⟩
    · rw [h1]; exact Nat.le_refl _
    · rw [h1]
      have := outboundRefs_setConn_same { s with trace := tr } c
        { (InputDispatcher.conn { s with trace := tr } c) with outboundQueue := q } r
        (queueRefs_congr (map_eventEntry_of_map_pair hq) r)
      simp only [refs, setOutbound, this, setConn_mInboundQueue, setConn_mKeyRepeatState]
      exact Nat.le_refl _
    · rw [h1] at hr ⊢
      rw [conn_setOutbound_self _ _ (by simpa using hc)] at hr
      simp only [queueRefs_append] at hr
      omega
    · exact absurd hq hq0

theorem DispatchFrame.dframe_refl (s : InputDispatcher) : DispatchFrame s s :=
  ⟨fun _ => rfl, fun _ => rfl, rfl, rfl, rfl, rfl, rfl, rfl, rfl⟩

theorem DispatchFrame.dframe_trans {s s1 s2 : InputDispatcher} (h1 : DispatchFrame s s1)
    (h2 : DispatchFrame s1 s2) : DispatchFrame s s2 where
  body p := (h2.body p).trans (h1.body p)
  eventTime p := (h2.eventTime p).trans (h1.eventTime p)
  heapLength := h2.heapLength.trans h1.heapLength
  connsLength := h2.connsLength.trans h1.connsLength
  inbound := h2.inbound.trans h1.inbound
  keyRepeat := h2.keyRepeat.trans h1.keyRepeat
  map := h2.map.trans h1.map
  targets := h2.targets.trans h1.targets
  pollLoop := h2.pollLoop.trans h1.pollLoop

theorem CycleFrame.dispatchFrame {c : Nat} {s s1 : InputDispatcher} (h : CycleFrame c s s1) :
    DispatchFrame s s1 :=
  ⟨h.body, h.eventTime, h.heapLength, h.connsLength, h.inbound, h.keyRepeat, h.map, h.targets,
    h.pollLoop⟩

/-- The entry `p` is referenced, so that a correct reference count keeps it out of
its pool. -/
theorem RefsOk.live {held : Option Nat} {s : InputDispatcher} (h : RefsOk held s) {p : Nat}
    (hp : 1 ≤ s.refs p + heldRefs held p) : (s.entry p).inPool = false := by
  cases hpool : (s.entry p).inPool with
  | false => rfl
  | true => have := (h p).pool.mp hpool; omega

theorem dispatchEventToInputTargets_inv {held : Option Nat} (env : Env) (currentTime : Int)
    (p : Nat) (resume : Bool) (ts : List InputTarget) (s : InputDispatcher) (h : Inv held s)
    (hp : 1 ≤ s.refs p + heldRefs held p) :
    Inv held (dispatchEventToInputTargets env currentTime p resume ts s)
      ∧ 1 ≤ (dispatchEventToInputTargets env currentTime p resume ts s).refs p + heldRefs held p
      ∧ DispatchFrame s (dispatchEventToInputTargets env currentTime p resume ts s) := by
  induction ts generalizing s with
  | nil => exact ⟨h, hp, DispatchFrame.dframe_refl s⟩
  | cons t ts ih =>
    simp only [dispatchEventToInputTargets]
    split
    · rename_i c hc
      have hcv := h.lookupValid hc
      have hl := h.refsOk.live hp
      have h1 := prepareDispatchCycleLocked_inv env s currentTime c p t resume h hl hcv
      have h2 := prepareDispatchCycleLocked_refs env s currentTime c p t resume p
      have h3 := prepareDispatchCycleLocked_frame env s currentTime c p t resume
      obtain ⟨i1, i2, i3⟩ := ih _ h1 (by omega)
      exact ⟨i1, i2, h3.dispatchFrame.dframe_trans i3⟩
    · exact ih s h hp

theorem dispatchEventToCurrentInputTargetsLocked_inv {held : Option Nat} (env : Env)
    (s : InputDispatcher) (currentTime : Int) (p : Nat) (resume : Bool) (h : Inv held s)
    (hp : 1 ≤ s.refs p + heldRefs held p) :
    Inv held (s.dispatchEventToCurrentInputTargetsLocked env currentTime p resume) :=
  (dispatchEventToInputTargets_inv env currentTime p resume _ s h hp).1

theorem dispatchEventToInputTargets_frame (env : Env) (currentTime : Int) (p : Nat)
    (resume : Bool) :
    ∀ ts s, DispatchFrame s (dispatchEventToInputTargets env currentTime p resume ts s) := by
  intro ts
  induction ts with
  | nil => exact fun s => DispatchFrame.dframe_refl s
  | cons t ts ih =>
    intro s
    simp only [dispatchEventToInputTargets]
    split
    · exact (prepareDispatchCycleLocked_frame env s currentTime _ p t resume
        ).dispatchFrame.dframe_trans (ih _)
    · exact ih s

/-- Changing the current input targets does not touch the invariant. -/
theorem Inv.withTargets {held : Option Nat} {s : InputDispatcher} (h : Inv held s)
    (ts : List InputTarget) : Inv held { s with mCurrentInputTargets := ts } :=
  ⟨h.refsOk, h.inboundNodup, h.heldNotInbound,
    fun c => ⟨(h.connOk c).active, (h.connOk c).inProgress, (h.connOk c).delivering⟩,
    h.activeNodup, h.mapValid, h.samplesOk⟩

theorem identifyInputTargetsAndDispatchKeyLocked_inv {held : Option Nat} (env : Env)
    (s : InputDispatcher) (currentTime : Int) (p : Nat) (h : Inv held s)
    (hp : 1 ≤ s.refs p + heldRefs held p) :
    Inv held (s.identifyInputTargetsAndDispatchKeyLocked env currentTime p) :=
  dispatchEventToCurrentInputTargetsLocked_inv env _ currentTime p false (h.withTargets _) hp

theorem identifyInputTargetsAndDispatchMotionLocked_inv {held : Option Nat} (env : Env)
    (s : InputDispatcher) (currentTime : Int) (p : Nat) (h : Inv held s)
    (hp : 1 ≤ s.refs p + heldRefs held p) :
    Inv held (s.identifyInputTargetsAndDispatchMotionLocked env currentTime p) :=
  dispatchEventToCurrentInputTargetsLocked_inv env _ currentTime p false (h.withTargets _) hp

end InputDispatcher

end Dispatcher

namespace Dispatcher

namespace InputDispatcher

/-! ## Updates of the heap and of the key repeat state -/

/-- An update that leaves the connections and the tables alone preserves the
invariant if it keeps the counts right and the sample chains well formed. -/
theorem Inv.of_heap {held held1 : Option Nat} {s s1 : InputDispatcher} (h : Inv held s)
    (hc : s1.conns = s.conns) (ha : s1.mActiveConnections = s.mActiveConnections)
    (hm : s1.mConnectionsByReceiveFd = s.mConnectionsByReceiveFd)
    (hi : s1.mInboundQueue.Nodup) (hh : ∀ p, held1 = some p → p ∉ s1.mInboundQueue)
    (hr : RefsOk held1 s1) (hs : SamplesOk s1) : Inv held1 s1 where
  refsOk := hr
  inboundNodup := hi
  heldNotInbound := hh
  connOk c := by
    have hcc : s1.conn c = s.conn c := by simp [conn, hc]
    exact (h.connOk c).congr hcc (by rw [ha])
  activeNodup := by rw [ha]; exact h.activeNodup
  mapValid fd c hfd := by
    rw [hc]
    apply h.mapValid fd c
    rwa [hm] at hfd
  samplesOk := hs

theorem SamplesOk.setEntry {s : InputDispatcher} (h : SamplesOk s) (p : Nat) (e : EventEntry)
    (he : e.asMotion.lastSample = e.asMotion.moreSamples.length) :
    SamplesOk (s.setEntry p e) := by
  intro q
  rw [entry_setEntry]
  split
  · exact he
  · exact h q

theorem RefsOk.refs_setEntry_same {held : Option Nat} {s : InputDispatcher} (h : RefsOk held s)
    (p : Nat) (e : EventEntry) (hc : e.refCount = (s.entry p).refCount)
    (hp : e.inPool = (s.entry p).inPool) : RefsOk held (s.setEntry p e) := by
  refine h.refs_congr (fun _ => rfl) ?_
  intro q
  rw [entry_setEntry]
  split
  · rename_i hpq; rw [← hpq.1]; exact ⟨hc, hp⟩
  · exact ⟨rfl, rfl⟩

/-- Writing the contents of a cell, but not its reference count, preserves the
invariant when the sample chain written is well formed. -/
theorem Inv.setEntry_same {held : Option Nat} {s : InputDispatcher} (h : Inv held s)
    (p : Nat) (e : EventEntry) (hc : e.refCount = (s.entry p).refCount)
    (hp : e.inPool = (s.entry p).inPool)
    (he : e.asMotion.lastSample = e.asMotion.moreSamples.length) :
    Inv held (s.setEntry p e) :=
  h.of_heap rfl rfl rfl h.inboundNodup h.heldNotInbound (h.refsOk.refs_setEntry_same p e hc hp)
    (h.samplesOk.setEntry p e he)

theorem Inv.setKey {held : Option Nat} {s : InputDispatcher} (h : Inv held s) (p : Nat)
    (k : KeyEntry) : Inv held (s.setKey p k) :=
  h.setEntry_same p _ rfl rfl rfl

theorem Inv.withNextRepeatTime {held : Option Nat} {s : InputDispatcher} (h : Inv held s)
    (t : Int) :
    Inv held { s with mKeyRepeatState := { s.mKeyRepeatState with nextRepeatTime := t } } :=
  h.of_heap rfl rfl rfl h.inboundNodup h.heldNotInbound h.refsOk h.samplesOk

theorem SamplesOk.samples_release {s : InputDispatcher} (h : SamplesOk s) (p : Nat) :
    SamplesOk (s.setEntry p (EventEntry.release (s.entry p))) := by
  apply h.setEntry
  have := h p
  simpa [EventEntry.asMotion, EventEntry.release_body] using this

/-- Dropping the reference held by the running operation and releasing the cell. -/
theorem Inv.releaseHeld {s : InputDispatcher} {p : Nat} (h : Inv (some p) s) :
    Inv none (s.setEntry p (EventEntry.release (s.entry p))) := by
  refine h.of_heap rfl rfl rfl h.inboundNodup (by simp) ?_ (h.samplesOk.samples_release p)
  refine h.refsOk.release ?_ (fun _ => rfl)
  intro q
  simp [heldRefs]

theorem resetKeyRepeatLocked_lastKeyEntry (s : InputDispatcher) :
    s.resetKeyRepeatLocked.mKeyRepeatState.lastKeyEntry = none := by
  unfold resetKeyRepeatLocked
  split
  · rfl
  · assumption

theorem resetKeyRepeatLocked_inv {held : Option Nat} {s : InputDispatcher} (h : Inv held s) :
    Inv held s.resetKeyRepeatLocked := by
  unfold resetKeyRepeatLocked
  split
  · rename_i l hl
    have hs : SamplesOk ({ s.releaseKeyEntry l with
        mKeyRepeatState := { s.mKeyRepeatState with lastKeyEntry := none } }) :=
      h.samplesOk.samples_release l
    refine h.of_heap rfl rfl rfl h.inboundNodup h.heldNotInbound ?_ hs
    have := @RefsOk.release held held s
      { s with mKeyRepeatState := { s.mKeyRepeatState with lastKeyEntry := none } } l
      h.refsOk ?_ (fun _ => rfl)
    · exact this
    · intro q
      simp only [refs, outboundRefs, hl, heldRefs, Option.some.injEq, reduceCtorEq, if_false]
      omega
  · exact h

/-- Taking `p` as the new `lastKeyEntry`, when there is none, and retaining it. -/
theorem Inv.rememberKey {held : Option Nat} {s : InputDispatcher} (h : Inv held s) (p : Nat)
    (hn : s.mKeyRepeatState.lastKeyEntry = none) (hp : 1 ≤ s.refs p + heldRefs held p) :
    Inv held (InputDispatcher.retainEventEntry
      { s with mKeyRepeatState := { s.mKeyRepeatState with lastKeyEntry := some p } } p) := by
  have hl := h.refsOk.live hp
  have hlt := lt_of_live s hl
  refine h.of_heap rfl rfl rfl h.inboundNodup h.heldNotInbound ?_ ?_
  · refine h.refsOk.retain hl ?_ ?_
    · intro q
      simp only [refs, outboundRefs, retainEventEntry_mInboundQueue, retainEventEntry_conns,
        retainEventEntry_mKeyRepeatState, hn, heldRefs, Option.some.injEq, reduceCtorEq,
        if_false]
      omega
    · intro q
      unfold retainEventEntry
      rw [entry_setEntry]
      by_cases hpq : p = q
      · subst hpq
        rw [if_pos ⟨rfl, hlt⟩, if_pos rfl]; rfl
      · rw [if_neg (fun hh => hpq hh.1), if_neg hpq]; rfl
  · unfold retainEventEntry
    apply SamplesOk.setEntry (s := { s with mKeyRepeatState := _ }) h.samplesOk
    exact h.samplesOk p

theorem trackKeyRepeat_inv (env : Env) {s : InputDispatcher} {p : Nat} (h : Inv (some p) s) :
    Inv (some p) (s.trackKeyRepeat env p) := by
  unfold trackKeyRepeat
  have hp : ∀ s1 : InputDispatcher, 1 ≤ s1.refs p + heldRefs (some p) p := by
    intro s1; simp [heldRefs]
  split
  · simp only
    split
    · split
      · apply Inv.rememberKey _ p _ (hp _)
        · exact (resetKeyRepeatLocked_inv (h.setKey p _)).withNextRepeatTime _
        · exact resetKeyRepeatLocked_lastKeyEntry _
      · apply Inv.rememberKey _ p _ (hp _)
        · exact (resetKeyRepeatLocked_inv h).withNextRepeatTime _
        · exact resetKeyRepeatLocked_lastKeyEntry _
    · apply Inv.rememberKey _ p _ (hp _)
      · exact (resetKeyRepeatLocked_inv h).withNextRepeatTime _
      · exact resetKeyRepeatLocked_lastKeyEntry _
  · exact resetKeyRepeatLocked_inv h

theorem processKeyLocked_inv (env : Env) {s : InputDispatcher} (currentTime : Int) {p : Nat}
    (h : Inv (some p) s) : Inv (some p) (s.processKeyLocked env currentTime p) :=
  identifyInputTargetsAndDispatchKeyLocked_inv env _ currentTime p (trackKeyRepeat_inv env h)
    (by simp [heldRefs])

theorem processMotionLocked_inv (env : Env) {s : InputDispatcher} (currentTime : Int) {p : Nat}
    (h : Inv (some p) s) : Inv (some p) (s.processMotionLocked env currentTime p) :=
  identifyInputTargetsAndDispatchMotionLocked_inv env _ currentTime p h (by simp [heldRefs])

theorem Inv.callout {held : Option Nat} {s : InputDispatcher} (h : Inv held s) (x : Callout) :
    Inv held (s.callout x) :=
  h.of_heap rfl rfl rfl h.inboundNodup h.heldNotInbound h.refsOk h.samplesOk

theorem processConfigurationChangedLocked_inv {held : Option Nat} {s : InputDispatcher}
    (currentTime : Int) (p : Nat) (h : Inv held s) :
    Inv held (s.processConfigurationChangedLocked currentTime p) := by
  unfold processConfigurationChangedLocked
  split
  · exact h.callout _
  · exact h

theorem dispatchInboundEntry_inv (env : Env) {s : InputDispatcher} (currentTime : Int) {p : Nat}
    (h : Inv (some p) s) : Inv none (dispatchInboundEntry env s currentTime p) := by
  unfold dispatchInboundEntry
  split
  · exact (processConfigurationChangedLocked_inv currentTime p h).releaseHeld
  · exact (processKeyLocked_inv env currentTime h).releaseHeld
  · exact (processMotionLocked_inv env currentTime h).releaseHeld

end InputDispatcher

end Dispatcher

namespace Dispatcher

namespace InputDispatcher

/-! ## Obtaining entries -/

theorem entry_obtainEntry (s : InputDispatcher) (t : Int) (b : EntryBody) (q : Nat) :
    (s.obtainEntry t b).entry q
      = if q = s.heap.length
        then { refCount := 1, eventTime := t, body := b, inPool := false }
        else s.entry q := by
  simp only [entry, obtainEntry]
  split
  · rename_i h; subst h; simp
  · rename_i h
    by_cases hq : q < s.heap.length
    · rw [List.getElem?_append_left hq]
    · have : s.heap.length < q := by omega
      rw [List.getElem?_eq_none (by simp; omega), List.getElem?_eq_none (by omega)]

theorem RefsOk.fresh {held : Option Nat} {s : InputDispatcher} (h : RefsOk held s) :
    s.refs s.heap.length + heldRefs held s.heap.length = 0 :=
  (h s.heap.length).pool.mp (by rw [entry_of_le s (Nat.le_refl _)]; rfl)

/-- A cell obtained from the pool, with one reference to it, keeps the counts right. -/
theorem RefsOk.refs_obtain {held held1 : Option Nat} {s s1 : InputDispatcher} (h : RefsOk held s)
    (e : EventEntry) (he0 : e.inPool = false) (he1 : e.refCount = 1)
    (hent : ∀ q, s1.entry q = if q = s.heap.length then e else s.entry q)
    (hr : ∀ q, s1.refs q + heldRefs held1 q
      = s.refs q + heldRefs held q + (if q = s.heap.length then 1 else 0)) :
    RefsOk held1 s1 := by
  intro q
  rw [hent, hr]
  split
  · rename_i hq
    subst hq
    rw [h.fresh]
    exact ⟨by simp [he0], fun _ => by simp [he1]⟩
  · simpa using h q

theorem SamplesOk.samples_obtain {s s1 : InputDispatcher} (h : SamplesOk s) (e : EventEntry)
    (he : e.asMotion.lastSample = e.asMotion.moreSamples.length)
    (hent : ∀ q, s1.entry q = if q = s.heap.length then e else s.entry q) : SamplesOk s1 := by
  intro q
  rw [hent]
  split
  · exact he
  · exact h q

/-! ## `processKeyRepeatLocked` -/

theorem obtainRepeatEntry_inv {s : InputDispatcher} {l : Nat} (h : Inv none s)
    (hl : s.mKeyRepeatState.lastKeyEntry = some l) :
    Inv none (s.obtainRepeatEntry l).1
      ∧ (s.obtainRepeatEntry l).1.mKeyRepeatState.lastKeyEntry = some (s.obtainRepeatEntry l).2 := by
  unfold obtainRepeatEntry
  simp only
  split
  · exact ⟨h.setKey l _, hl⟩
  · refine ⟨?_, rfl⟩
    generalize hb : EntryBody.key _ = b
    have hbm : ∀ e : EventEntry, e.body = b →
        e.asMotion.lastSample = e.asMotion.moreSamples.length := by
      intro e he; subst hb; simp [EventEntry.asMotion, he, MotionEntry.blank]
    have h2 : RefsOk (some l) { s.obtainEntry 0 b with
        mKeyRepeatState := { s.mKeyRepeatState with lastKeyEntry := some s.heap.length } } := by
      refine h.refsOk.refs_obtain _ rfl rfl (entry_obtainEntry s 0 b) ?_
      intro q
      simp only [refs, outboundRefs, obtainEntry_mInboundQueue, obtainEntry_conns, hl, heldRefs,
        Option.some.injEq, reduceCtorEq, if_false]
      have : (s.heap.length = q) = (q = s.heap.length) := propext eq_comm
      simp only [this]
      omega
    have h3 : SamplesOk { s.obtainEntry 0 b with
        mKeyRepeatState := { s.mKeyRepeatState with lastKeyEntry := some s.heap.length } } :=
      h.samplesOk.samples_obtain _ (hbm _ rfl) (entry_obtainEntry s 0 b)
    refine h.of_heap rfl rfl rfl h.inboundNodup (by simp) ?_ (h3.samples_release l)
    refine h2.release ?_ (fun _ => rfl)
    intro q
    simp [heldRefs]

theorem processKeyRepeatLocked_inv (env : Env) {s : InputDispatcher} (currentTime : Int)
    (h : Inv none s) : Inv none (s.processKeyRepeatLocked env currentTime) := by
  unfold processKeyRepeatLocked
  split
  · exact h
  · rename_i l hl
    obtain ⟨h1, h2⟩ := obtainRepeatEntry_inv h hl
    simp only
    apply identifyInputTargetsAndDispatchKeyLocked_inv
    · apply Inv.withNextRepeatTime
      apply Inv.setEntry_same h1
      · rfl
      · rfl
      · rfl
    · simp only [refs, heldRefs]
      have : (InputDispatcher.setEntry (s.obtainRepeatEntry l).1 (s.obtainRepeatEntry l).2
          { (InputDispatcher.entry (s.obtainRepeatEntry l).1 (s.obtainRepeatEntry l).2) with
            eventTime := currentTime
            body := .key { (InputDispatcher.entry (s.obtainRepeatEntry l).1
              (s.obtainRepeatEntry l).2).asKey with
              downTime := currentTime, policyFlags := 0 } }).mKeyRepeatState.lastKeyEntry
          = some (s.obtainRepeatEntry l).2 := h2
      simp only [this, if_true]
      omega

/-! ## `dispatchOnce` -/

theorem Inv.pollOnce {held : Option Nat} {s : InputDispatcher} (h : Inv held s)
    (nextWakeupTime currentTime : Int) : Inv held (s.pollOnce nextWakeupTime currentTime) :=
  h.of_heap rfl rfl rfl h.inboundNodup h.heldNotInbound h.refsOk h.samplesOk

theorem Inv.wake {held : Option Nat} {s : InputDispatcher} (h : Inv held s) :
    Inv held s.wake :=
  h.of_heap rfl rfl rfl h.inboundNodup h.heldNotInbound h.refsOk h.samplesOk

theorem processTimeouts_inv {held : Option Nat} (currentTime : Int) (fuel i : Nat)
    (r : TimeoutScan) (h : Inv held r.state) :
    Inv held (processTimeouts currentTime fuel i r).state := by
  induction fuel generalizing i r with
  | zero => exact h
  | succ fuel ih =>
    simp only [processTimeouts]
    split
    · exact h
    · rename_i c _
      generalize ht : (if (r.state.conn c).nextTimeoutTime ≤ currentTime
          then r.state.timeoutDispatchCycleLocked currentTime c else (r.state, false)) = t
      have h1 : Inv held t.1 := by
        rw [← ht]
        split
        · exact timeoutDispatchCycleLocked_inv _ currentTime c h
        · exact h
      split
      · exact ih _ _ h1
      · exact ih _ _ h1

theorem dispatchOnceTimeouts_inv (env : Env) {s : InputDispatcher} (currentTime : Int)
    (h : Inv none s) : Inv none (s.dispatchOnceTimeouts env currentTime).state := by
  unfold dispatchOnceTimeouts
  apply processTimeouts_inv
  simp only
  split
  · exact resetKeyRepeatLocked_inv h
  · exact h

/-- Taking the head off the inbound queue: the running operation holds it. -/
theorem Inv.dequeue {s : InputDispatcher} {p : Nat} {rest : List Nat} (h : Inv none s)
    (hq : s.mInboundQueue = p :: rest) : Inv (some p) { s with mInboundQueue := rest } := by
  have hn := h.inboundNodup
  rw [hq] at hn
  refine h.of_heap rfl rfl rfl (List.nodup_cons.mp hn).2 ?_ ?_ h.samplesOk
  · intro q hpq
    simp only [Option.some.injEq] at hpq
    subst hpq
    exact (List.nodup_cons.mp hn).1
  · refine h.refsOk.refs_congr ?_ (fun _ => ⟨rfl, rfl⟩)
    intro q
    simp only [refs, outboundRefs, hq, heldRefs, Option.some.injEq, reduceCtorEq, if_false,
      List.count_cons, beq_iff_eq]
    have : (p = q) = (q = p) := propext eq_comm
    simp only [this]
    omega

theorem dispatchOnce_inv (env : Env) {s : InputDispatcher} (currentTime : Int)
    (h : Inv none s) : Inv none (s.dispatchOnce env currentTime) := by
  have h1 := dispatchOnceTimeouts_inv env currentTime h
  unfold dispatchOnce
  simp only
  split
  · split
    · split
      · split
        · exact processKeyRepeatLocked_inv env currentTime h1
        · exact h1.pollOnce _ _
      · exact h1.pollOnce _ _
    · rename_i p rest hq
      exact dispatchInboundEntry_inv env currentTime (h1.dequeue hq)
  · exact h1.pollOnce _ _

end InputDispatcher

end Dispatcher

namespace Dispatcher

namespace InputDispatcher

/-! ## Notifications -/

theorem enqueueInboundEntry_inv {s : InputDispatcher} (h : Inv none s) (t : Int) (b : EntryBody)
    (hb : ∀ e : EventEntry, e.body = b →
      e.asMotion.lastSample = e.asMotion.moreSamples.length) :
    Inv none (s.enqueueInboundEntry t b) := by
  have hf := h.refsOk.fresh
  have hnot : s.heap.length ∉ s.mInboundQueue := by
    intro hm
    have := List.count_pos_iff.mpr hm
    simp only [refs] at hf
    omega
  have h1 : Inv none { s.obtainEntry t b with
      mInboundQueue := s.mInboundQueue ++ [s.heap.length] } := by
    refine h.of_heap rfl rfl rfl ?_ (by simp) ?_ ?_
    · exact List.Nodup.append h.inboundNodup (List.nodup_singleton _) (by simpa using hnot)
    · refine h.refsOk.refs_obtain _ rfl rfl (entry_obtainEntry s t b) ?_
      intro q
      simp only [refs, outboundRefs, obtainEntry_conns, obtainEntry_mKeyRepeatState,
        List.count_append, List.count_singleton, beq_iff_eq, heldRefs_none]
      have : (s.heap.length = q) = (q = s.heap.length) := propext eq_comm
      simp only [this]
      omega
    · exact h.samplesOk.samples_obtain _ (hb _ rfl) (entry_obtainEntry s t b)
  unfold enqueueInboundEntry
  simp only
  split
  · exact h1.wake
  · exact h1

theorem notifyConfigurationChanged_inv {s : InputDispatcher} (h : Inv none s)
    (t a b c : Int) : Inv none (s.notifyConfigurationChanged t a b c) :=
  enqueueInboundEntry_inv h t _ (by intro e he; simp [EventEntry.asMotion, he, MotionEntry.blank])

theorem notifyKey_inv {s : InputDispatcher} (h : Inv none s) (t : Int) (deviceId nature : Int)
    (policyFlags : Nat) (action : Int) (flags : Nat) (keyCode scanCode metaState : Int)
    (downTime : Int) :
    Inv none (s.notifyKey t deviceId nature policyFlags action flags keyCode scanCode metaState
      downTime) :=
  enqueueInboundEntry_inv h t _ (by intro e he; simp [EventEntry.asMotion, he, MotionEntry.blank])

theorem enqueueMotionEntry_inv {s : InputDispatcher} (h : Inv none s) (a : MotionArgs) :
    Inv none (s.enqueueMotionEntry a) :=
  enqueueInboundEntry_inv h _ _
    (by intro e he; simp [EventEntry.asMotion, he, MotionArgs.motionEntry])

theorem dropMovementKeys_inv (l : List Nat) (s : InputDispatcher) (h : Inv none s)
    (hl : l.Nodup) (hm : ∀ x ∈ l, x ∈ s.mInboundQueue) : Inv none (dropMovementKeys l s) := by
  induction l generalizing s with
  | nil => exact h
  | cons p prev ih =>
    have hp := hm p (List.mem_cons_self _ _)
    have hn := List.nodup_cons.mp hl
    simp only [dropMovementKeys]
    split
    · split
      · apply ih _ _ hn.2
        · intro x hx
          have hxp : x ≠ p := fun hxp => hn.1 (hxp ▸ hx)
          show x ∈ s.mInboundQueue.erase p
          exact (List.mem_erase_of_ne hxp).mpr (hm x (List.mem_cons_of_mem _ hx))
        · refine h.of_heap rfl rfl rfl (h.inboundNodup.erase p) (by simp) ?_
            (h.samplesOk.samples_release p)
          refine @RefsOk.release none none s
            { s with mInboundQueue := s.mInboundQueue.erase p } p h.refsOk ?_ (fun _ => rfl)
          intro q
          simp only [refs, outboundRefs, heldRefs_none, List.count_erase, beq_iff_eq]
          have := List.count_pos_iff.mpr hp
          by_cases hpq : p = q
          · subst hpq; simp only [if_true]; omega
          · simp only [hpq, if_false]; omega
      · exact h
    · exact ih _ h hn.2 (fun x hx => hm x (List.mem_cons_of_mem _ hx))

theorem notifyAppSwitchComing_inv {s : InputDispatcher} (h : Inv none s) (t : Int) :
    Inv none (s.notifyAppSwitchComing t) :=
  dropMovementKeys_inv _ s h (List.nodup_reverse.mpr h.inboundNodup)
    (fun _ hx => List.mem_reverse.mp hx)

theorem appendMotionSample_inv {held : Option Nat} {s : InputDispatcher} (h : Inv held s)
    (p : Nat) (eventTime : Int) (pointerCount : Nat) (pointerCoords : List PointerCoords) :
    Inv held (s.appendMotionSample p eventTime pointerCount pointerCoords) := by
  unfold appendMotionSample
  apply h.setEntry_same
  · rfl
  · rfl
  · have := h.samplesOk p
    simp [EventEntry.asMotion, MotionEntry.appendMotionSample] at this ⊢
    omega

theorem findStreamEntry_found (s : InputDispatcher) (deviceId : Int) (pointerCount : Nat)
    (l : List Nat) (p : Nat) (h : findStreamEntry s deviceId pointerCount l = .found p) :
    ∃ c d, c ∈ l ∧ (s.conn c).outboundQueue.getLast? = some d ∧ d.eventEntry = p := by
  induction l with
  | nil => simp [findStreamEntry] at h
  | cons c rest ih =>
    simp only [findStreamEntry] at h
    split at h
    · obtain ⟨c1, d, hc1, hd⟩ := ih h
      exact ⟨c1, d, List.mem_cons_of_mem _ hc1, hd⟩
    · rename_i d hd
      split at h
      · split at h
        · split at h
          · simp at h
          · simp only [MotionSearch.found.injEq] at h
            exact ⟨c, d, List.mem_cons_self _ _, hd, h⟩
        · simp at h
      · obtain ⟨c1, d1, hc1, hd1⟩ := ih h
        exact ⟨c1, d1, List.mem_cons_of_mem _ hc1, hd1⟩

theorem one_le_refs_of_getLast? (s : InputDispatcher) {c : Nat} {d : DispatchEntry}
    (h : (s.conn c).outboundQueue.getLast? = some d) : 1 ≤ s.refs d.eventEntry := by
  have hm : d ∈ (s.conn c).outboundQueue := List.mem_of_getLast?_eq_some h
  have h1 : 1 ≤ queueRefs (s.conn c).outboundQueue d.eventEntry := by
    unfold queueRefs
    exact List.countP_pos_iff.mpr ⟨d, hm, by simp⟩
  have h2 := queueRefs_le_outboundRefs s c d.eventEntry
  simp only [refs]
  omega

theorem notifyMotion_inv (env : Env) {s : InputDispatcher} (h : Inv none s) (currentTime : Int)
    (a : MotionArgs) : Inv none (s.notifyMotion env currentTime a) := by
  unfold notifyMotion
  split
  · split
    · exact appendMotionSample_inv h _ _ _ _
    · exact enqueueMotionEntry_inv h a
    · split
      · rename_i p hp
        obtain ⟨c, d, _, hd, hdp⟩ := findStreamEntry_found s _ _ _ p hp
        have := one_le_refs_of_getLast? s hd
        rw [hdp] at this
        exact dispatchEventToCurrentInputTargetsLocked_inv env _ currentTime p true
          (appendMotionSample_inv h _ _ _ _) (by simpa using this)
      · exact enqueueMotionEntry_inv h a
  · exact enqueueMotionEntry_inv h a

end InputDispatcher

end Dispatcher

namespace Dispatcher

namespace InputDispatcher

/-! ## Input channels -/

theorem conn_append_of_lt (s : InputDispatcher) (x : Connection) {c : Nat}
    (h : c < s.conns.length) : ((s.conns ++ [x])[c]?).getD Connection.invalid = s.conn c := by
  simp [conn, List.getElem?_append_left h]

theorem registerInputChannel_inv (env : Env) {s : InputDispatcher} (h : Inv none s) (fd : Int) :
    Inv none (s.registerInputChannel env fd).1 := by
  unfold registerInputChannel
  split
  · exact h
  · simp only
    split
    · exact h.withTrace _
    · have hconn : ∀ c, ((s.conns ++ [Connection.new fd])[c]?).getD Connection.invalid
          = s.conn c ∨ (c = s.conns.length ∧
            ((s.conns ++ [Connection.new fd])[c]?).getD Connection.invalid = Connection.new fd
            ∧ (s.conn c).outboundQueue = []) := by
        intro c
        by_cases hc : c < s.conns.length
        · exact Or.inl (conn_append_of_lt s _ hc)
        · by_cases hc2 : c = s.conns.length
          · subst hc2
            refine Or.inr ⟨rfl, by simp, ?_⟩
            rw [conn_of_le s (Nat.le_refl _)]; rfl
          · left
            rw [conn_of_le s (by omega), List.getElem?_eq_none (by simp; omega)]
            rfl
      refine
        { refsOk := ?_
          inboundNodup := h.inboundNodup
          heldNotInbound := by simp
          connOk := ?_
          activeNodup := h.activeNodup
          mapValid := ?_
          samplesOk := h.samplesOk }
      · refine h.refsOk.refs_congr ?_ (fun _ => ⟨rfl, rfl⟩)
        intro q
        simp [refs, outboundRefs, Connection.new]
      · intro c
        rcases hconn c with hc | ⟨hc, hnew, hq⟩
        · exact (h.connOk c).congr hc Iff.rfl
        · apply ConnOk.idle
          · show (((s.conns ++ [Connection.new fd])[c]?).getD Connection.invalid).outboundQueue
              = []
            rw [hnew]; rfl
          · intro hm
            exact ((h.connOk c).active.mp hm) hq
      · intro fd1 c hm
        simp only [publisherCalled_mConnectionsByReceiveFd, List.mem_append,
          List.mem_singleton, Prod.mk.injEq] at hm
        simp only [List.length_append, List.length_singleton, publisherCalled_conns]
        rcases hm with hm | ⟨_, hm⟩
        · have := h.mapValid fd1 c hm; omega
        · omega

theorem unregisterInputChannel_inv {s : InputDispatcher} (h : Inv none s) (fd : Int) :
    Inv none (s.unregisterInputChannel fd).1 := by
  unfold unregisterInputChannel
  split
  · exact h
  · rename_i c hc
    have hcv := h.lookupValid hc
    simp only
    have h1 : Inv none { s with mConnectionsByReceiveFd :=
        s.mConnectionsByReceiveFd.eraseP (fun kv => kv.1 == fd) } :=
      { refsOk := h.refsOk
        inboundNodup := h.inboundNodup
        heldNotInbound := h.heldNotInbound
        connOk := fun c => (h.connOk c).congr rfl Iff.rfl
        activeNodup := h.activeNodup
        mapValid := fun fd1 c1 hm => h.mapValid fd1 c1 (List.mem_of_mem_eraseP hm)
        samplesOk := h.samplesOk }
    generalize hs1 : ({ s with mConnectionsByReceiveFd :=
        s.mConnectionsByReceiveFd.eraseP (fun kv => kv.1 == fd) } : InputDispatcher) = s1 at h1
    have hcv1 : c < s1.conns.length := by rw [← hs1]; exact hcv
    have h3 : Inv none ((s1.setConn c { s1.conn c with status := .ZOMBIE }
        ).abortDispatchCycleLocked c true).1 := by
      refine h1.of_frame ((CycleFrame.frame_setConn c s1 _).trans
        (abortDispatchCycleLocked_frame _ c true)) ?_ ?_
      · exact abortDispatchCycleLocked_refsOk _ c true (h1.refsOk.setConn_same c _ rfl)
      · refine abortDispatchCycleLocked_connOk_of_ne _ c true ?_ h1.activeNodup
        rw [conn_setConn_self s1 _ hcv1]
        simp
    apply Inv.wake
    exact h3.of_heap rfl rfl rfl h3.inboundNodup h3.heldNotInbound h3.refsOk h3.samplesOk

theorem handleReceiveCallback_inv (env : Env) {s : InputDispatcher} (h : Inv none s)
    (currentTime : Int) (fd : Int) (events : Nat) :
    Inv none (s.handleReceiveCallback env currentTime fd events).1 := by
  unfold handleReceiveCallback
  split
  · exact h
  · rename_i c hc
    split
    · exact abortDispatchCycleLocked_inv s c true h
    · split
      · exact h
      · simp only
        split
        · exact abortDispatchCycleLocked_inv _ c true (h.withTrace _)
        · exact finishDispatchCycleLocked_inv env _ currentTime c (h.withTrace _)

/-! ## The invariant holds in every reachable state -/

theorem init_inv : Inv none init where
  refsOk := by
    intro p
    have : init.entry p = EventEntry.invalid := entry_of_le init (Nat.zero_le _)
    rw [this]
    exact ⟨by simp [EventEntry.invalid, refs, outboundRefs, init, heldRefs],
      by simp [EventEntry.invalid]⟩
  inboundNodup := List.nodup_nil
  heldNotInbound := by simp
  connOk c := by
    have : init.conn c = Connection.invalid := conn_of_le init (Nat.zero_le _)
    apply ConnOk.idle
    · rw [this]; rfl
    · simp [init]
  activeNodup := List.nodup_nil
  mapValid := by simp [init]
  samplesOk := by
    intro p
    have : init.entry p = EventEntry.invalid := entry_of_le init (Nat.zero_le _)
    rw [this]; rfl

theorem step_inv (env : Env) (currentTime : Int) {s : InputDispatcher} (op : Operation)
    (h : Inv none s) : Inv none (s.step env currentTime op) := by
  cases op with
  | notifyConfigurationChanged t a b c => exact notifyConfigurationChanged_inv h t a b c
  | notifyLidSwitchChanged t o => exact h.callout _
  | notifyAppSwitchComing t => exact notifyAppSwitchComing_inv h t
  | notifyKey t deviceId nature policyFlags action flags keyCode scanCode metaState downTime =>
    exact notifyKey_inv h t deviceId nature policyFlags action flags keyCode scanCode metaState
      downTime
  | notifyMotion a => exact notifyMotion_inv env h currentTime a
  | registerInputChannel fd => exact registerInputChannel_inv env h fd
  | unregisterInputChannel fd => exact unregisterInputChannel_inv h fd
  | dispatchOnce => exact dispatchOnce_inv env currentTime h
  | handleReceiveCallback fd events => exact handleReceiveCallback_inv env h currentTime fd events

theorem inv_of_reachable {s : InputDispatcher} (h : Reachable s) : Inv none s := by
  induction h with
  | init => exact init_inv
  | step env currentTime op _ ih => exact step_inv env currentTime op ih

end InputDispatcher

end Dispatcher

namespace Dispatcher

open InputDispatcher

/-! ## Reachable states of the examples -/

theorem Example.run_reachable (e : Env) (ops : List (Int × Operation)) {s : InputDispatcher}
    (h : Reachable s) : Reachable (Example.run e ops s) := by
  induction ops generalizing s with
  | nil => exact h
  | cons o ops ih => exact ih (Reachable.step e o.1 o.2 h)

theorem Example.keyDispatched_reachable : Reachable Example.keyDispatched :=
  Example.run_reachable _ _ Reachable.init

/-! ## The invariants of the data model -/

theorem InputDispatcher.references_eq_refs {s : InputDispatcher} (h : s.mInboundQueue.Nodup)
    (p : Nat) : s.references p = s.refs p := by
  unfold references refs heldRefs
  by_cases hp : p ∈ s.mInboundQueue
  · rw [if_pos hp, List.count_eq_one_of_mem h hp]
  · rw [if_neg hp, List.count_eq_zero_of_not_mem hp]

/-- C1. In every state reachable by the public operations, the reference count of
each live event entry is the number of references to it (one if it is in the inbound
queue, the number of dispatch entries in all outbound queues whose event entry it
is, one if it is `lastKeyEntry`), and an entry is in its pool exactly if that number
is zero. -/
theorem refCount_invariant (s : InputDispatcher) (h : Reachable s) (p : Nat) :
    ((s.entry p).inPool = false → (s.entry p).refCount = s.references p)
      ∧ ((s.entry p).inPool = true ↔ s.references p = 0) := by
  have hi := inv_of_reachable h
  have := hi.refsOk p
  rw [heldRefs_none, Nat.add_zero, ← references_eq_refs hi.inboundNodup] at this
  exact ⟨this.count, this.pool⟩

theorem refCount_invariant_witness :
    Reachable Example.keyDispatched
      ∧ (Example.keyDispatched.entry 0).inPool = false
      ∧ Example.keyDispatched.references 0 = 2
      ∧ (Example.keyDispatched.entry 0).refCount = 2 :=
  ⟨Example.keyDispatched_reachable, by decide, by decide,
    ((refCount_invariant Example.keyDispatched Example.keyDispatched_reachable 0).1
      (by decide)).trans (by decide)⟩

/-- C3. In every state reachable by the public operations, a connection is in the set
of active connections if and only if its outbound queue is not empty. -/
theorem active_iff_outbound_nonempty (s : InputDispatcher) (h : Reachable s) (c : Nat) :
    c ∈ s.mActiveConnections ↔ (s.conn c).outboundQueue ≠ [] :=
  ((inv_of_reachable h).connOk c).active

theorem active_iff_outbound_nonempty_witness :
    Reachable Example.keyDispatched ∧ 0 ∈ Example.keyDispatched.mActiveConnections
      ∧ (Example.keyDispatched.conn 0).outboundQueue ≠ [] :=
  ⟨Example.keyDispatched_reachable, by decide,
    (active_iff_outbound_nonempty Example.keyDispatched Example.keyDispatched_reachable 0).mp
      (by decide)⟩

/-- C4. In every state reachable by the public operations, each connection's outbound
queue contains at most one dispatch entry that is in progress, and an entry that is
in progress is at the head of the queue. -/
theorem inProgress_only_at_head (s : InputDispatcher) (h : Reachable s) (c : Nat) :
    (s.conn c).outboundQueue.countP (fun d => d.inProgress) ≤ 1
      ∧ ∀ i d, (s.conn c).outboundQueue[i]? = some d → d.inProgress = true → i = 0 := by
  have hp := ((inv_of_reachable h).connOk c).inProgress
  cases hq : (s.conn c).outboundQueue with
  | nil => simp
  | cons d0 q =>
    have hq0 := hp d0 q hq
    constructor
    · rw [List.countP_cons]
      have : q.countP (fun d => d.inProgress) = 0 := by
        rw [List.countP_eq_zero]
        intro x hx; simp [hq0 x hx]
      rw [this]
      split <;> omega
    · intro i d hi hd
      cases i with
      | zero => rfl
      | succ i =>
        simp only [List.getElem?_cons_succ] at hi
        have := hq0 d (List.getElem?_mem hi)
        rw [this] at hd
        exact absurd hd (by simp)

theorem inProgress_only_at_head_witness :
    Reachable Example.keyDispatched
      ∧ (Example.keyDispatched.conn 0).outboundQueue.countP (fun d => d.inProgress) = 1 :=
  ⟨Example.keyDispatched_reachable,
    Nat.le_antisymm
      (inProgress_only_at_head Example.keyDispatched Example.keyDispatched_reachable 0).1
      (by decide)⟩

end Dispatcher

namespace Dispatcher

open InputDispatcher

/-! ## The searches of `notifyMotion` -/

theorem InputDispatcher.findBatchEntry_eq (s : InputDispatcher) (deviceId : Int)
    (pointerCount : Nat) (l : List Nat) :
    findBatchEntry s deviceId pointerCount l
      = match l.find? (fun p => isMotionOf deviceId (s.entry p)) with
        | none => .exhausted
        | some p =>
          if isMoveOf deviceId pointerCount (s.entry p) then .found p
          else .noBatchingOrStreaming := by
  induction l with
  | nil => rfl
  | cons p l ih =>
    simp only [findBatchEntry, List.find?_cons]
    cases hb : (s.entry p).body with
    | configurationChanged a b c =>
      have h1 : isMotionOf deviceId (s.entry p) = false := by simp [isMotionOf, hb]
      simp only [h1]; exact ih
    | key k =>
      have h1 : isMotionOf deviceId (s.entry p) = false := by simp [isMotionOf, hb]
      simp only [h1]; exact ih
    | motion m =>
      by_cases hd : m.deviceId = deviceId
      · have h1 : isMotionOf deviceId (s.entry p) = true := by simp [isMotionOf, hb, hd]
        simp only [h1, hd, ne_eq, not_true_eq_false, if_false]
        by_cases hm : m.action = MOTION_EVENT_ACTION_MOVE
        · by_cases hn : m.pointerCount = pointerCount
          · simp [isMoveOf, hb, hm, hn, hd]
          · simp [isMoveOf, hb, hm, hn, hd]
        · simp [isMoveOf, hb, hm]
      · have h1 : isMotionOf deviceId (s.entry p) = false := by simp [isMotionOf, hb, hd]
        simp only [h1, ne_eq, hd, not_false_eq_true, if_true]; exact ih

theorem InputDispatcher.findStreamEntry_eq (s : InputDispatcher) (deviceId : Int)
    (pointerCount : Nat) (l : List Nat) :
    findStreamEntry s deviceId pointerCount l
      = match (l.filterMap (fun c => (s.conn c).outboundQueue.getLast?)).find?
          DispatchEntry.isSync with
        | none => .exhausted
        | some d =>
          if isMoveOf deviceId pointerCount (s.entry d.eventEntry) then .found d.eventEntry
          else .noBatchingOrStreaming := by
  induction l with
  | nil => rfl
  | cons c l ih =>
    simp only [findStreamEntry, List.filterMap_cons]
    cases hq : (s.conn c).outboundQueue.getLast? with
    | none => simp only; exact ih
    | some d =>
      simp only [List.find?_cons]
      by_cases hs : d.targetFlags &&& InputTarget.FLAG_SYNC = 0
      · have h1 : d.isSync = false := by simp [DispatchEntry.isSync, hs]
        simp only [h1, ne_eq, hs, not_true_eq_false, if_false]; exact ih
      · have h1 : d.isSync = true := by simp [DispatchEntry.isSync, hs]
        simp only [h1, ne_eq, hs, not_false_eq_true, if_true]
        cases hb : (s.entry d.eventEntry).body with
        | configurationChanged a b c => simp [isMoveOf, hb]
        | key k => simp [isMoveOf, hb]
        | motion m =>
          by_cases hm : m.action = MOTION_EVENT_ACTION_MOVE
          · by_cases hd : m.deviceId = deviceId
            · by_cases hn : m.pointerCount = pointerCount
              · simp [isMoveOf, hb, hm, hd, hn]
              · simp [isMoveOf, hb, hm, hd, hn]
            · simp [isMoveOf, hb, hm, hd]
          · simp [isMoveOf, hb, hm]

end Dispatcher

namespace Dispatcher

open InputDispatcher

/-! ## `notifyMotion` -/

/-- What enqueuing a new motion entry does. -/
theorem InputDispatcher.enqueueMotionEntry_spec (s : InputDispatcher) (a : MotionArgs) :
    (∀ q, q < s.heap.length → (s.enqueueMotionEntry a).entry q = s.entry q)
      ∧ (s.enqueueMotionEntry a).trace = s.trace
      ∧ (s.enqueueMotionEntry a).conns = s.conns
      ∧ (s.enqueueMotionEntry a).mInboundQueue = s.mInboundQueue ++ [s.heap.length]
      ∧ (s.enqueueMotionEntry a).entry s.heap.length
          = { refCount := 1, eventTime := a.eventTime, body := .motion a.motionEntry,
              inPool := false } := by
  have key : ∀ s1 : InputDispatcher,
      s1 = { s.obtainEntry a.eventTime (.motion a.motionEntry) with
        mInboundQueue := s.mInboundQueue ++ [s.heap.length] }
      ∨ s1 = InputDispatcher.wake { s.obtainEntry a.eventTime (.motion a.motionEntry) with
        mInboundQueue := s.mInboundQueue ++ [s.heap.length] } →
      (∀ q, q < s.heap.length → s1.entry q = s.entry q) ∧ s1.trace = s.trace
        ∧ s1.conns = s.conns ∧ s1.mInboundQueue = s.mInboundQueue ++ [s.heap.length]
        ∧ s1.entry s.heap.length
          = { refCount := 1, eventTime := a.eventTime, body := .motion a.motionEntry,
              inPool := false } := by
    intro s1 hs1
    have he : ∀ q, s1.entry q = (s.obtainEntry a.eventTime (.motion a.motionEntry)).entry q := by
      rcases hs1 with rfl | rfl <;> intro q <;> rfl
    refine ⟨?_, ?_, ?_, ?_, ?_⟩
    · intro q hq
      rw [he, entry_obtainEntry, if_neg (by omega)]
    · rcases hs1 with rfl | rfl <;> rfl
    · rcases hs1 with rfl | rfl <;> rfl
    · rcases hs1 with rfl | rfl <;> rfl
    · rw [he, entry_obtainEntry, if_pos rfl]
  apply key
  unfold enqueueMotionEntry enqueueInboundEntry
  simp only
  split
  · exact Or.inr rfl
  · exact Or.inl rfl

/-- C10. When `notifyMotion` of a `MOVE` finds no motion entry for the device in the
inbound queue and no active connection whose tail dispatch entry is a `FLAG_SYNC`
`MOVE` motion for the device with the same pointer count, then no existing entry
(so no sample chain) is changed, no publisher is called, no outbound queue is
changed, and exactly one new motion entry is enqueued at the tail of the inbound
queue. -/
theorem notifyMotion_enqueues_without_sync_move (env : Env) (s : InputDispatcher)
    (currentTime : Int) (a : MotionArgs) (ha : a.action = MOTION_EVENT_ACTION_MOVE)
    (hin : s.latestInboundMotion a.deviceId = none)
    (hout : ∀ c ∈ s.mActiveConnections, ∀ d, (s.conn c).outboundQueue.getLast? = some d →
      ¬ (d.isSync = true ∧ isMoveOf a.deviceId a.pointerCount (s.entry d.eventEntry) = true)) :
    (∀ q, q < s.heap.length → (s.notifyMotion env currentTime a).entry q = s.entry q)
      ∧ (s.notifyMotion env currentTime a).trace = s.trace
      ∧ (s.notifyMotion env currentTime a).conns = s.conns
      ∧ (s.notifyMotion env currentTime a).mInboundQueue = s.mInboundQueue ++ [s.heap.length]
      ∧ (s.notifyMotion env currentTime a).entry s.heap.length
          = { refCount := 1, eventTime := a.eventTime, body := .motion a.motionEntry,
              inPool := false } := by
  have h : s.notifyMotion env currentTime a = s.enqueueMotionEntry a := by
    unfold notifyMotion
    rw [if_pos ha, findBatchEntry_eq]
    unfold latestInboundMotion at hin
    rw [hin]
    simp only
    rw [findStreamEntry_eq]
    cases hf : (s.mActiveConnections.filterMap
        (fun c => (s.conn c).outboundQueue.getLast?)).find? DispatchEntry.isSync with
    | none => rfl
    | some d =>
      have hd := List.find?_some hf
      have hm := List.mem_of_find?_eq_some hf
      obtain ⟨c, hc, hcd⟩ := List.mem_filterMap.mp hm
      have hne := hout c hc d hcd
      have : isMoveOf a.deviceId a.pointerCount (s.entry d.eventEntry) = false := by
        cases hmv : isMoveOf a.deviceId a.pointerCount (s.entry d.eventEntry) with
        | false => rfl
        | true => exact absurd ⟨hd, hmv⟩ hne
      simp only [this]
      rfl
  rw [h]
  exact enqueueMotionEntry_spec s a

theorem notifyMotion_enqueues_without_sync_move_witness :
    Example.registered.latestInboundMotion 1 = none
      ∧ (Example.registered.notifyMotion (Example.env []) 0
          (Example.motion 0 MOTION_EVENT_ACTION_MOVE)).mInboundQueue = [0] :=
  ⟨by decide,
    (notifyMotion_enqueues_without_sync_move (Example.env []) Example.registered 0
      (Example.motion 0 MOTION_EVENT_ACTION_MOVE) rfl (by decide) (by decide)).2.2.2.1⟩

/-- C8, as the code has it. When `notifyMotion` of a `MOVE` finds that the latest
inbound motion entry for the device is not a `MOVE` or has another pointer count, it
performs no streaming check: whatever the outbound queues hold, no existing entry is
changed, no publisher is called, no outbound queue is changed, and one new motion
entry is enqueued at the tail of the inbound queue. -/
theorem notifyMotion_batching_miss_enqueues (env : Env) (s : InputDispatcher)
    (currentTime : Int) (a : MotionArgs) (p : Nat) (ha : a.action = MOTION_EVENT_ACTION_MOVE)
    (hp : s.latestInboundMotion a.deviceId = some p)
    (hmiss : isMoveOf a.deviceId a.pointerCount (s.entry p) = false) :
    (∀ q, q < s.heap.length → (s.notifyMotion env currentTime a).entry q = s.entry q)
      ∧ (s.notifyMotion env currentTime a).trace = s.trace
      ∧ (s.notifyMotion env currentTime a).conns = s.conns
      ∧ (s.notifyMotion env currentTime a).mInboundQueue = s.mInboundQueue ++ [s.heap.length]
      ∧ (s.notifyMotion env currentTime a).entry s.heap.length
          = { refCount := 1, eventTime := a.eventTime, body := .motion a.motionEntry,
              inPool := false } := by
  have h : s.notifyMotion env currentTime a = s.enqueueMotionEntry a := by
    unfold notifyMotion
    rw [if_pos ha, findBatchEntry_eq]
    unfold latestInboundMotion at hp
    rw [hp]
    simp only [hmiss]
    rfl
  rw [h]
  exact enqueueMotionEntry_spec s a

theorem notifyMotion_batching_miss_enqueues_witness :
    Example.downBehindSyncMove.latestInboundMotion 1 = some 1
      ∧ (Example.downBehindSyncMove.notifyMotion (Example.env []) 40
          (Example.motion 40 MOTION_EVENT_ACTION_MOVE)).mInboundQueue = [1, 2] :=
  ⟨by decide,
    (notifyMotion_batching_miss_enqueues (Example.env []) Example.downBehindSyncMove 40
      (Example.motion 40 MOTION_EVENT_ACTION_MOVE) 1 rfl (by decide) (by decide)).2.2.2.1⟩

/-- C8 fails as stated. In the reachable state `Example.downBehindSyncMove` the
latest inbound motion entry of device 1 is a `DOWN`, and the tail dispatch entry of
the active connection 0 is `FLAG_SYNC` for the `MOVE` entry 0 of device 1 with one
pointer; yet a notified `MOVE` of device 1 with one pointer is not appended to entry
0, and a new entry is enqueued. -/
theorem notifyMotion_batching_miss_counterexample :
    Example.downBehindSyncMove.latestInboundMotion 1 = some 1
      ∧ isMoveOf 1 1 (Example.downBehindSyncMove.entry 1) = false
      ∧ 0 ∈ Example.downBehindSyncMove.mActiveConnections
      ∧ ((Example.downBehindSyncMove.conn 0).outboundQueue.getLast?.map
          (fun d => (d.isSync, d.eventEntry))) = some (true, 0)
      ∧ isMoveOf 1 1 (Example.downBehindSyncMove.entry 0) = true
      ∧ (Example.downBehindSyncMove.notifyMotion (Example.env [Example.target 7 1]) 40
          (Example.motion 40 MOTION_EVENT_ACTION_MOVE)).entry 0
          = Example.downBehindSyncMove.entry 0
      ∧ (Example.downBehindSyncMove.notifyMotion (Example.env [Example.target 7 1]) 40
          (Example.motion 40 MOTION_EVENT_ACTION_MOVE)).mInboundQueue
          ≠ Example.downBehindSyncMove.mInboundQueue := by
  decide

end Dispatcher

namespace Dispatcher

open InputDispatcher

/-- An entry of the inbound queue of a reachable state is a live cell. -/
theorem InputDispatcher.live_of_mem_inbound {s : InputDispatcher} (h : Inv none s) {p : Nat}
    (hp : p ∈ s.mInboundQueue) : (s.entry p).inPool = false := by
  apply h.refsOk.live
  have := List.count_pos_iff.mpr hp
  simp only [refs]
  omega

/-- C7. When the latest motion entry for the device in the inbound queue is a `MOVE`
with the same pointer count, `notifyMotion` of a `MOVE` leaves the inbound queue as
it is, makes the sample chain of that entry exactly one sample longer, the new final
sample being the notified one with `lastSample` pointing at it, and modifies no other
entry. -/
theorem notifyMotion_batches (env : Env) (s : InputDispatcher) (h : Reachable s)
    (currentTime : Int) (a : MotionArgs) (p : Nat) (m : MotionEntry)
    (ha : a.action = MOTION_EVENT_ACTION_MOVE)
    (hp : s.latestInboundMotion a.deviceId = some p)
    (hm : (s.entry p).body = .motion m)
    (hmove : isMoveOf a.deviceId a.pointerCount (s.entry p) = true) :
    (s.notifyMotion env currentTime a).mInboundQueue = s.mInboundQueue
      ∧ (s.notifyMotion env currentTime a).heap.length = s.heap.length
      ∧ (s.notifyMotion env currentTime a).entry p
          = { s.entry p with
              body := .motion { m with moreSamples := m.moreSamples ++ [a.sample]
                                       lastSample := m.lastSample + 1 } }
      ∧ ((s.notifyMotion env currentTime a).entry p).asMotion.chain = m.chain ++ [a.sample]
      ∧ ((s.notifyMotion env currentTime a).entry p).asMotion.lastSample = m.chain.length
      ∧ (∀ q, q ≠ p → (s.notifyMotion env currentTime a).entry q = s.entry q) := by
  have hi := inv_of_reachable h
  have hmem : p ∈ s.mInboundQueue :=
    List.mem_reverse.mp (List.mem_of_find?_eq_some hp)
  have hlt := lt_of_live s (live_of_mem_inbound hi hmem)
  have hso := hi.samplesOk p
  simp only [EventEntry.asMotion, hm] at hso
  have h1 : s.notifyMotion env currentTime a
      = s.appendMotionSample p a.eventTime a.pointerCount a.pointerCoords := by
    unfold notifyMotion
    rw [if_pos ha, findBatchEntry_eq]
    unfold latestInboundMotion at hp
    rw [hp]
    simp only [hmove, if_true]
  have h2 : (s.notifyMotion env currentTime a).entry p
      = { s.entry p with
          body := .motion { m with moreSamples := m.moreSamples ++ [a.sample]
                                   lastSample := m.lastSample + 1 } } := by
    rw [h1]
    unfold appendMotionSample
    rw [entry_setEntry_self s _ hlt]
    simp only [EventEntry.asMotion, hm, MotionEntry.appendMotionSample, hso, List.take_length,
      MotionArgs.sample]
  refine ⟨by rw [h1]; rfl, by rw [h1]; simp [appendMotionSample], h2, ?_, ?_, ?_⟩
  · rw [h2]; simp [EventEntry.asMotion, MotionEntry.chain]
  · rw [h2]; simp [EventEntry.asMotion, MotionEntry.chain, hso]
  · intro q hq
    rw [h1]
    unfold appendMotionSample
    exact entry_setEntry_of_ne s _ (Ne.symm hq)

theorem notifyMotion_batches_witness :
    Reachable Example.moveQueued
      ∧ ((Example.moveQueued.notifyMotion (Example.env []) 10
          (Example.motion 10 MOTION_EVENT_ACTION_MOVE)).entry 0).asMotion.chain
        = [(Example.motion 0 MOTION_EVENT_ACTION_MOVE).sample,
           (Example.motion 10 MOTION_EVENT_ACTION_MOVE).sample] :=
  ⟨Example.run_reachable _ _ Reachable.init,
    (notifyMotion_batches (Example.env []) Example.moveQueued
      (Example.run_reachable _ _ Reachable.init) 10
      (Example.motion 10 MOTION_EVENT_ACTION_MOVE) 0
      (Example.motion 0 MOTION_EVENT_ACTION_MOVE).motionEntry rfl (by decide) (by decide)
      (by decide)).2.2.2.1⟩

end Dispatcher

namespace Dispatcher

open InputDispatcher

/-! ## The loop of `dispatchOnce` over the active connections -/

theorem InputDispatcher.timeoutDispatchCycleLocked_of_false (s : InputDispatcher)
    (currentTime : Int) (c : Nat) (h : (s.timeoutDispatchCycleLocked currentTime c).2 = false) :
    (s.timeoutDispatchCycleLocked currentTime c).1 = s := by
  unfold timeoutDispatchCycleLocked at h ⊢
  split
  · rfl
  · rename_i hs
    rw [if_neg hs] at h
    have hs : (s.conn c).status = .NORMAL := by simpa using hs
    have hc := lt_of_status_normal s hs
    simp only [abortDispatchCycleLocked_snd, conn_setConn_self s _ hc] at h
    simp at h

theorem InputDispatcher.timeoutDispatchCycleLocked_of_true (s : InputDispatcher)
    (currentTime : Int) (c : Nat) (h : (s.timeoutDispatchCycleLocked currentTime c).2 = true) :
    (s.timeoutDispatchCycleLocked currentTime c).1.mActiveConnections
      = s.mActiveConnections.erase c := by
  unfold timeoutDispatchCycleLocked at h ⊢
  split
  · rename_i hs
    rw [if_pos hs] at h
    simp at h
  · rename_i hs
    have hs : (s.conn c).status = .NORMAL := by simpa using hs
    have hc := lt_of_status_normal s hs
    simp only [callout_mActiveConnections]
    rw [abortDispatchCycleLocked_active]
    · rfl
    · rw [conn_setConn_self s _ hc]; simp

theorem InputDispatcher.getElem?_erase_of_lt {l : List Nat} (hn : l.Nodup) {i j : Nat} {c : Nat}
    (hc : l[i]? = some c) (hj : j < i) : (l.erase c)[j]? = l[j]? := by
  obtain ⟨hi, hci⟩ := List.getElem?_eq_some.mp hc
  have : l.erase c = l.eraseIdx i := by
    rw [← hci]; exact hn.erase_getElem i hi
  rw [this, List.getElem?_eraseIdx, if_pos hj]

theorem InputDispatcher.ne_of_nodup_getElem? {l : List Nat} (hn : l.Nodup) {i j : Nat}
    {c d : Nat} (hc : l[i]? = some c) (hd : l[j]? = some d) (hij : j < i) : d ≠ c := by
  obtain ⟨hi, hci⟩ := List.getElem?_eq_some.mp hc
  obtain ⟨hj, hdj⟩ := List.getElem?_eq_some.mp hd
  intro hdc
  have := (@List.Nodup.getElem_inj_iff _ l hn j hj i hi).mp (by rw [hdj, hci, hdc])
  omega

/-- When the loop over the active connections ends, the flag is raised if a
connection that is still active has a pending synchronous target. -/
theorem InputDispatcher.processTimeouts_flag {held : Option Nat} (currentTime : Int)
    (fuel i : Nat) (r : TimeoutScan) (h : Inv held r.state)
    (hf : r.state.mActiveConnections.length ≤ fuel + i)
    (hP : ∀ j c, j < i → r.state.mActiveConnections[j]? = some c →
      (r.state.conn c).hasPendingSyncTarget = true → r.hasPendingSyncTarget = true) :
    ∀ c ∈ (processTimeouts currentTime fuel i r).state.mActiveConnections,
      ((processTimeouts currentTime fuel i r).state.conn c).hasPendingSyncTarget = true →
      (processTimeouts currentTime fuel i r).hasPendingSyncTarget = true := by
  have hdone : ∀ (i : Nat) (r : TimeoutScan),
      (∀ j c, j < i → r.state.mActiveConnections[j]? = some c →
        (r.state.conn c).hasPendingSyncTarget = true → r.hasPendingSyncTarget = true) →
      r.state.mActiveConnections.length ≤ i →
      ∀ c ∈ r.state.mActiveConnections, (r.state.conn c).hasPendingSyncTarget = true →
        r.hasPendingSyncTarget = true := by
    intro i r hP hle c hc hp
    obtain ⟨j, hj⟩ := List.getElem?_of_mem hc
    have hjl := (List.getElem?_eq_some.mp hj).1
    exact hP j c (by omega) hj hp
  induction fuel generalizing i r with
  | zero => exact hdone i r hP (by omega)
  | succ fuel ih =>
    simp only [processTimeouts]
    split
    · rename_i hnone
      exact hdone i r hP (List.getElem?_eq_none_iff.mp hnone)
    · rename_i c0 hc0
      have hi0 := (List.getElem?_eq_some.mp hc0).1
      generalize ht : (if (r.state.conn c0).nextTimeoutTime ≤ currentTime
          then r.state.timeoutDispatchCycleLocked currentTime c0 else (r.state, false)) = t
      split
      · rename_i ht2
        have hto : t = r.state.timeoutDispatchCycleLocked currentTime c0 := by
          rw [← ht]
          split
          · rfl
          · rename_i hno
            rw [← ht, if_neg hno] at ht2
            simp at ht2
        have hact : t.1.mActiveConnections = r.state.mActiveConnections.erase c0 := by
          rw [hto]
          exact timeoutDispatchCycleLocked_of_true _ _ _ (by rw [← hto]; exact ht2)
        have hfr : CycleFrame c0 r.state t.1 := by
          rw [hto]; exact timeoutDispatchCycleLocked_frame _ _ _
        have hinv : Inv held t.1 := by
          rw [hto]; exact timeoutDispatchCycleLocked_inv _ _ _ h
        apply ih i { r with state := t.1 } hinv
        · simp only [hact]
          have := List.length_erase_of_mem (List.getElem?_mem hc0)
          rw [this]
          omega
        · intro j c hj hjc hp
          simp only [hact] at hjc
          rw [getElem?_erase_of_lt h.activeNodup hc0 hj] at hjc
          have hne := ne_of_nodup_getElem? h.activeNodup hc0 hjc hj
          have hcc : t.1.conn c = r.state.conn c := hfr.conn c hne
          simp only [hcc] at hp
          exact hP j c hj hjc hp
      · rename_i ht2
        have hst : t.1 = r.state := by
          rw [← ht]
          split
          · apply timeoutDispatchCycleLocked_of_false
            rename_i hyes
            rw [← ht, if_pos hyes] at ht2
            simpa using ht2
          · rfl
        have hinv : Inv held t.1 := by rw [hst]; exact h
        apply ih (i + 1) _ hinv
        · simp only [hst]; omega
        · intro j c hj hjc hp
          simp only [hst] at hjc hp ⊢
          by_cases hji : j < i
          · have := hP j c hji hjc hp
            simp [this]
          · have hji : j = i := by omega
            subst hji
            rw [hc0] at hjc
            simp only [Option.some.injEq] at hjc
            subst hjc
            simp [hp]

theorem InputDispatcher.processTimeouts_inbound (currentTime : Int) (fuel i : Nat)
    (r : TimeoutScan) :
    (processTimeouts currentTime fuel i r).state.mInboundQueue = r.state.mInboundQueue := by
  induction fuel generalizing i r with
  | zero => rfl
  | succ fuel ih =>
    simp only [processTimeouts]
    split
    · rfl
    · rename_i c0 hc0
      generalize ht : (if (r.state.conn c0).nextTimeoutTime ≤ currentTime
          then r.state.timeoutDispatchCycleLocked currentTime c0 else (r.state, false)) = t
      have h1 : t.1.mInboundQueue = r.state.mInboundQueue := by
        rw [← ht]
        split
        · exact (timeoutDispatchCycleLocked_frame _ _ _).inbound
        · rfl
      split
      · rw [ih]; exact h1
      · rw [ih]; exact h1

theorem InputDispatcher.resetKeyRepeatLocked_mInboundQueue (s : InputDispatcher) :
    s.resetKeyRepeatLocked.mInboundQueue = s.mInboundQueue := by
  unfold resetKeyRepeatLocked
  split <;> rfl

theorem InputDispatcher.dispatchOnceTimeouts_inbound (env : Env) (s : InputDispatcher)
    (currentTime : Int) :
    (s.dispatchOnceTimeouts env currentTime).state.mInboundQueue = s.mInboundQueue := by
  unfold dispatchOnceTimeouts
  rw [processTimeouts_inbound]
  simp only
  split
  · exact resetKeyRepeatLocked_mInboundQueue s
  · rfl

/-- C2. Sync gate: when, after the timeouts have been processed, some connection
still has a dispatch entry with `FLAG_SYNC` in its outbound queue, `dispatchOnce` does
nothing more than wait in the poll loop: it dequeues nothing from the inbound queue,
which is unchanged, and it synthesizes no key repeat. -/
theorem dispatchOnce_sync_gate (env : Env) (s : InputDispatcher) (h : Reachable s)
    (currentTime : Int) (c : Nat) (d : DispatchEntry)
    (hd : d ∈ ((s.dispatchOnceTimeouts env currentTime).state.conn c).outboundQueue)
    (hs : d.isSync = true) :
    s.dispatchOnce env currentTime
        = (s.dispatchOnceTimeouts env currentTime).state.pollOnce
            (s.dispatchOnceTimeouts env currentTime).nextWakeupTime currentTime
      ∧ (s.dispatchOnce env currentTime).mInboundQueue = s.mInboundQueue
      ∧ (s.dispatchOnce env currentTime).heap = (s.dispatchOnceTimeouts env currentTime).state.heap
      ∧ (s.dispatchOnce env currentTime).mKeyRepeatState
          = (s.dispatchOnceTimeouts env currentTime).state.mKeyRepeatState
      ∧ (s.dispatchOnce env currentTime).trace
          = (s.dispatchOnceTimeouts env currentTime).state.trace := by
  have hi := inv_of_reachable h
  have hi1 := dispatchOnceTimeouts_inv env currentTime hi
  have hflag : (s.dispatchOnceTimeouts env currentTime).hasPendingSyncTarget = true := by
    have hact : c ∈ (s.dispatchOnceTimeouts env currentTime).state.mActiveConnections :=
      (hi1.connOk c).active.mpr (List.ne_nil_of_mem hd)
    have hpend : ((s.dispatchOnceTimeouts env currentTime).state.conn c).hasPendingSyncTarget
        = true := by
      unfold Connection.hasPendingSyncTarget
      exact List.any_eq_true.mpr ⟨d, hd, hs⟩
    unfold dispatchOnceTimeouts at hact hpend ⊢
    refine @processTimeouts_flag none currentTime _ 0 _ ?_ (by simp) ?_ c hact hpend
    · simp only
      split
      · exact resetKeyRepeatLocked_inv hi
      · exact hi
    · intro j c hj; omega
  have heq : s.dispatchOnce env currentTime
      = (s.dispatchOnceTimeouts env currentTime).state.pollOnce
          (s.dispatchOnceTimeouts env currentTime).nextWakeupTime currentTime := by
    unfold dispatchOnce
    simp only [hflag, Bool.not_true, Bool.false_eq_true, if_false]
  refine ⟨heq, ?_, ?_, ?_, ?_⟩
  · rw [heq]; exact dispatchOnceTimeouts_inbound env s currentTime
  · rw [heq]; rfl
  · rw [heq]; rfl
  · rw [heq]; rfl

theorem dispatchOnce_sync_gate_witness :
    Reachable Example.keyUpWaiting
      ∧ Example.keyUpWaiting.mInboundQueue = [1]
      ∧ (Example.keyUpWaiting.dispatchOnce (Example.env []) 3).mInboundQueue = [1] :=
  ⟨Example.run_reachable _ _ Example.keyDispatched_reachable, by decide,
    (dispatchOnce_sync_gate (Example.env []) Example.keyUpWaiting
      (Example.run_reachable _ _ Example.keyDispatched_reachable) 3 0
      { eventEntry := 0, targetFlags := 1, xOffset := 0, yOffset := 0, timeout := 100,
        inProgress := true, headMotionSample := none, tailMotionSample := none }
      (by decide) (by decide)).2.1.trans (by decide)⟩

end Dispatcher

namespace Dispatcher

open InputDispatcher

/-! ## Delivery of the samples of a motion event under back-pressure -/

theorem InputDispatcher.acceptedSamples_append (r1 r2 : List PublisherRecord) (c : Nat) :
    acceptedSamples (r1 ++ r2) c = acceptedSamples r1 c ++ acceptedSamples r2 c := by
  simp [acceptedSamples, List.filterMap_append]

theorem InputDispatcher.refusedSamples_append (r1 r2 : List PublisherRecord) (c : Nat) :
    refusedSamples (r1 ++ r2) c = refusedSamples r1 c ++ refusedSamples r2 c := by
  simp [refusedSamples, List.filterMap_append]

theorem InputDispatcher.cycleStartSamples_append (r1 r2 : List PublisherRecord) (c : Nat) :
    cycleStartSamples (r1 ++ r2) c = cycleStartSamples r1 c ++ cycleStartSamples r2 c := by
  simp [cycleStartSamples, List.filterMap_append]

/-- The loop that appends the further samples, on a publisher that only exerts
back-pressure: a prefix of the samples is accepted, and the first sample after it,
if there is one, is refused and is the value of `nextMotionSample`. -/
theorem InputDispatcher.appendFurtherSamples_backPressure {env : Env} {c : Nat}
    (hb : BackPressureOnly env c) (xs : List MotionSample) (i : Nat) (s : InputDispatcher) :
    ∃ pre post ext, xs = pre ++ post
      ∧ appendFurtherSamples env c xs i s
        = ({ s with trace := s.trace ++ ext },
            .stopped (if post = [] then none else some (i + pre.length)))
      ∧ acceptedSamples ext c = pre
      ∧ refusedSamples ext c = post.head?.toList
      ∧ cycleStartSamples ext c = [] := by
  induction xs generalizing i s with
  | nil => exact ⟨[], [], [], rfl, by simp [appendFurtherSamples], rfl, rfl, rfl⟩
  | cons x xs ih =>
    simp only [appendFurtherSamples]
    rcases hb.appendMotionSample s.trace x.eventTime x.pointerCoords with hok | hno
    · have h1 : s.publisherStatus env c (.appendMotionSample x.eventTime x.pointerCoords)
          = OK := hok
      obtain ⟨pre, post, ext, hx, hr, ha, hf, hc⟩ := ih (i + 1)
        (s.publisherCalled env c (.appendMotionSample x.eventTime x.pointerCoords))
      refine ⟨x :: pre, post,
        ⟨c, .appendMotionSample x.eventTime x.pointerCoords, OK⟩ :: ext, ?_, ?_, ?_, ?_, ?_⟩
      · rw [hx]; rfl
      · rw [if_neg (by rw [h1]; decide), if_neg (by rw [h1]; decide), hr]
        simp only [publisherCalled_eq, h1, List.append_assoc, List.singleton_append,
          List.length_cons]
        congr 2
        split
        · rfl
        · simp only [Option.some.injEq]; omega
      · rw [← ha]; simp [acceptedSamples, sampleOfCall]
      · rw [← hf]; simp [refusedSamples, OK, NO_MEMORY]
      · rw [← hc]; simp [cycleStartSamples]
    · have h1 : s.publisherStatus env c (.appendMotionSample x.eventTime x.pointerCoords)
          = NO_MEMORY := hno
      refine ⟨[], x :: xs,
        [⟨c, .appendMotionSample x.eventTime x.pointerCoords, NO_MEMORY⟩], rfl, ?_, ?_, ?_, ?_⟩
      · rw [if_pos h1]
        simp [publisherCalled_eq, h1]
      · simp [acceptedSamples, OK, NO_MEMORY]
      · simp [refusedSamples, sampleOfCall]
      · simp [cycleStartSamples]

theorem InputDispatcher.publishEventOf_backPressure {env : Env} {c : Nat}
    (hb : BackPressureOnly env c) (s : InputDispatcher) (d : DispatchEntry) (m : MotionEntry)
    (hm : (s.entry d.eventEntry).body = .motion m) :
    ∃ pre post ext, m.chain.drop (d.headMotionSample.getD 0 + 1) = pre ++ post
      ∧ s.publishEventOf env c d
        = ({ s with trace := s.trace ++ ext },
            some { d with tailMotionSample :=
              if post = [] then none else some (d.headMotionSample.getD 0 + 1 + pre.length) })
      ∧ acceptedSamples ext c = m.chain.getD (d.headMotionSample.getD 0) MotionSample.blank :: pre
      ∧ refusedSamples ext c = post.head?.toList
      ∧ cycleStartSamples ext c
        = [m.chain.getD (d.headMotionSample.getD 0) MotionSample.blank] := by
  have hcall : ∀ (t : InputDispatcher) e, t.publisherStatus env c (.publishMotionEvent e) = 0 :=
    fun t e => hb.publishMotionEvent _ e
  simp only [publishEventOf, hm, hcall, ne_eq, not_true_eq_false, if_false]
  generalize hc : PublisherCall.publishMotionEvent _ = call
  obtain ⟨pre, post, ext, hx, hr, ha, hf, hcs⟩ := appendFurtherSamples_backPressure hb
    (m.chain.drop (d.headMotionSample.getD 0 + 1)) (d.headMotionSample.getD 0 + 1)
    (s.publisherCalled env c call)
  refine ⟨pre, post, ⟨c, call, OK⟩ :: ext, hx, ?_, ?_, ?_, ?_⟩
  · rw [hr]
    simp only [publisherCalled_eq, List.append_assoc, List.singleton_append]
    have hst : s.publisherStatus env c call = OK := by rw [← hc]; exact hcall _ _
    rw [hst]
  · rw [← ha, ← hc]; simp [acceptedSamples, sampleOfCall]
  · rw [← hf, ← hc]; simp [refusedSamples, OK, NO_MEMORY]
  · rw [← hcs, ← hc]; simp [cycleStartSamples]

theorem InputDispatcher.startDispatchCycleLocked_backPressure {env : Env} {c : Nat}
    (hb : BackPressureOnly env c) (currentTime : Int) (s : InputDispatcher)
    (d : DispatchEntry) (rest : List DispatchEntry) (m : MotionEntry)
    (hq : (s.conn c).outboundQueue = d :: rest)
    (hm : (s.entry d.eventEntry).body = .motion m) :
    ∃ pre post ext, m.chain.drop (d.headMotionSample.getD 0 + 1) = pre ++ post
      ∧ (s.startDispatchCycleLocked env currentTime c).trace = s.trace ++ ext
      ∧ (s.startDispatchCycleLocked env currentTime c).heap = s.heap
      ∧ ((s.startDispatchCycleLocked env currentTime c).conn c).outboundQueue
        = { d with
            tailMotionSample :=
              if post = [] then none else some (d.headMotionSample.getD 0 + 1 + pre.length),
            inProgress := true } :: rest
      ∧ ((s.startDispatchCycleLocked env currentTime c).conn c).status = (s.conn c).status
      ∧ acceptedSamples ext c = m.chain.getD (d.headMotionSample.getD 0) MotionSample.blank :: pre
      ∧ refusedSamples ext c = post.head?.toList
      ∧ cycleStartSamples ext c
        = [m.chain.getD (d.headMotionSample.getD 0) MotionSample.blank] := by
  have hc : c < s.conns.length := lt_of_outbound_ne_nil s (by rw [hq]; simp)
  have hsig : ∀ t : InputDispatcher, t.publisherStatus env c .sendDispatchSignal = 0 :=
    fun t => hb.sendDispatchSignal _
  obtain ⟨pre, post, ext, hx, hp, ha, hf, hcs⟩ := publishEventOf_backPressure hb s d m hm
  refine ⟨pre, post, ext ++ [⟨c, .sendDispatchSignal, OK⟩], hx, ?_⟩
  simp only [startDispatchCycleLocked, hq, hp, hsig, ne_eq, not_true_eq_false, if_false]
  refine ⟨?_, ?_, ?_, ?_, ?_, ?_, ?_⟩
  · simp [publisherCalled_eq, hsig, OK]
  · simp
  · rw [callout_conn, conn_setConn_self _ _ (by simpa using hc)]
  · rw [callout_conn, conn_setConn_self _ _ (by simpa using hc)]
    simp [conn]
  · rw [acceptedSamples_append, ha]; simp [acceptedSamples, sampleOfCall]
  · rw [refusedSamples_append, hf]; simp [refusedSamples, sampleOfCall]
  · rw [cycleStartSamples_append, hcs]; simp [cycleStartSamples]

theorem InputDispatcher.finishDispatchCycleLocked_resume {env : Env} {c : Nat}
    (hb : BackPressureOnly env c) (currentTime : Int) (t : InputDispatcher)
    (d : DispatchEntry) (rest : List DispatchEntry) (j : Nat)
    (hq : (t.conn c).outboundQueue = d :: rest) (hs : (t.conn c).status = .NORMAL)
    (hin : d.inProgress = true) (ht : d.tailMotionSample = some j) :
    ∃ t1 : InputDispatcher,
      t.finishDispatchCycleLocked env currentTime c
        = t1.startDispatchCycleLocked env currentTime c
      ∧ t1.trace = t.trace ++ [⟨c, .reset, OK⟩]
      ∧ t1.heap = t.heap
      ∧ (t1.conn c).outboundQueue
        = { d with inProgress := false, headMotionSample := some j,
                   tailMotionSample := none } :: rest
      ∧ (t1.conn c).status = .NORMAL := by
  have hc : c < t.conns.length := lt_of_outbound_ne_nil t (by rw [hq]; simp)
  have hreset : ∀ u : InputDispatcher, u.publisherStatus env c .reset = 0 :=
    fun u => hb.reset _
  have h1 : (t.setConn c { t.conn c with nextTimeoutTime := LONG_LONG_MAX }).conn c
      = { t.conn c with nextTimeoutTime := LONG_LONG_MAX } := conn_setConn_self _ _ hc
  have hs1 : ((t.setConn c { t.conn c with nextTimeoutTime := LONG_LONG_MAX }).conn c).status
      = .NORMAL := by rw [h1]; exact hs
  have hq1 : ((t.setConn c { t.conn c with nextTimeoutTime := LONG_LONG_MAX }).conn c
      ).outboundQueue = d :: rest := by rw [h1]; exact hq
  rw [finishDispatchCycleLocked, if_neg (by rw [hs]; decide)]
  simp only [hs1, hreset, ne_eq, not_true_eq_false, if_false,
    reduceCtorEq, publisherCalled_conn, callout_conn, hq1, finishDispatchLoop, hin, ht,
    Option.isSome_some, if_true]
  refine ⟨_, rfl, ?_, ?_, ?_, ?_⟩
  · simp [setOutbound, publisherCalled_eq, hreset, OK]
  · simp [setOutbound]
  · rw [setOutbound, conn_setConn_self _ _ (by simpa using hc)]
  · rw [setOutbound, conn_setConn_self _ _ (by simpa using hc)]
    simp only [publisherCalled_conn, callout_conn]
    exact hs1

theorem InputDispatcher.drop_eq_getD_cons {α : Type} (l : List α) (k : Nat) (a : α)
    (h : k < l.length) : l.drop k = l.getD k a :: l.drop (k + 1) := by
  rw [List.drop_eq_getElem_cons h]
  simp [List.getD, List.getElem?_eq_getElem h]

theorem InputDispatcher.entry_of_heap {s t : InputDispatcher} (h : t.heap = s.heap) (p : Nat) :
    t.entry p = s.entry p := by
  simp [entry, h]

theorem InputDispatcher.deliverHead_spec {env : Env} {c : Nat}
    (hb : BackPressureOnly env c) (currentTime : Int) :
    ∀ (n fuel : Nat) (s : InputDispatcher) (d : DispatchEntry) (rest : List DispatchEntry)
      (m : MotionEntry), n ≤ fuel →
      (s.conn c).outboundQueue = d :: rest → (s.conn c).status = .NORMAL →
      (s.entry d.eventEntry).body = .motion m →
      d.headMotionSample.getD 0 < m.chain.length →
      m.chain.length - d.headMotionSample.getD 0 ≤ n →
      ∃ ext d1,
        (finishWhilePending env currentTime c fuel
          (s.startDispatchCycleLocked env currentTime c)).trace = s.trace ++ ext
        ∧ acceptedSamples ext c = m.chain.drop (d.headMotionSample.getD 0)
        ∧ cycleStartSamples ext c
          = m.chain.getD (d.headMotionSample.getD 0) MotionSample.blank :: refusedSamples ext c
        ∧ ((finishWhilePending env currentTime c fuel
            (s.startDispatchCycleLocked env currentTime c)).conn c).outboundQueue = d1 :: rest
        ∧ d1.eventEntry = d.eventEntry ∧ d1.inProgress = true
        ∧ d1.tailMotionSample = none := by
  intro n
  induction n with
  | zero => intro fuel s d rest m _ _ _ _ hk hn; omega
  | succ n ih =>
    intro fuel s d rest m hfuel hq hs hm hk hn
    obtain ⟨pre, post, ext, hx, htr, hheap, hq1, hs1, ha, hf, hcs⟩ :=
      startDispatchCycleLocked_backPressure hb currentTime s d rest m hq hm
    have hdrop := drop_eq_getD_cons m.chain _ MotionSample.blank hk
    rw [hx] at hdrop
    by_cases hpost : post = []
    · subst hpost
      have hfin : finishWhilePending env currentTime c fuel
          (s.startDispatchCycleLocked env currentTime c)
          = s.startDispatchCycleLocked env currentTime c := by
        cases fuel with
        | zero => rfl
        | succ f => simp [finishWhilePending, hq1]
      rw [hfin]
      refine ⟨ext, _, htr, ?_, ?_, hq1, rfl, rfl, by simp⟩
      · rw [ha, hdrop]; simp
      · rw [hcs, hf]; simp
    · obtain ⟨f, rfl⟩ : ∃ f, fuel = f + 1 := ⟨fuel - 1, by omega⟩
      have hlen : pre.length + post.length
          = m.chain.length - (d.headMotionSample.getD 0 + 1) := by
        rw [← List.length_append, ← hx, List.length_drop]
      have hpos : 0 < post.length := List.length_pos.mpr hpost
      have hj : d.headMotionSample.getD 0 + 1 + pre.length < m.chain.length := by omega
      have hpostd : m.chain.drop (d.headMotionSample.getD 0 + 1 + pre.length) = post := by
        rw [← List.drop_drop, hx]; simp
      have hhead := drop_eq_getD_cons m.chain _ MotionSample.blank hj
      rw [hpostd] at hhead
      obtain ⟨t1, hfin, htr1, hheap1, hq2, hs2⟩ :=
        finishDispatchCycleLocked_resume hb currentTime _ _ rest
          (d.headMotionSample.getD 0 + 1 + pre.length) hq1 (hs1.trans hs) rfl
          (by simp [hpost])
      have hstep : finishWhilePending env currentTime c (f + 1)
          (s.startDispatchCycleLocked env currentTime c)
          = finishWhilePending env currentTime c f (t1.startDispatchCycleLocked env currentTime c) := by
        rw [← hfin]
        simp [finishWhilePending, hq1, hpost]
      rw [hstep]
      obtain ⟨ext2, d2, htr2, ha2, hcs2, hq3, he2, hin2, ht2⟩ :=
        ih f t1 _ rest m (by omega) hq2 hs2
          (by rw [entry_of_heap (hheap1.trans hheap)]; exact hm)
          (by simpa using hj) (by simp only [Option.getD_some]; omega)
      simp only [Option.getD_some] at ha2 hcs2
      refine ⟨ext ++ [⟨c, .reset, OK⟩] ++ ext2, d2, ?_, ?_, ?_, hq3, he2, hin2, ht2⟩
      · rw [htr2, htr1, htr]; simp
      · rw [acceptedSamples_append, acceptedSamples_append, ha, ha2, hpostd, hdrop]
        simp [acceptedSamples, sampleOfCall]
      · rw [cycleStartSamples_append, cycleStartSamples_append, refusedSamples_append,
          refusedSamples_append, hcs, hcs2, hf, hhead]
        simp [cycleStartSamples, refusedSamples, sampleOfCall]

theorem Example.pressureEnv_backPressureOnly (c : Nat) :
    BackPressureOnly Example.pressureEnv c where
  publishMotionEvent := fun _ _ => rfl
  sendDispatchSignal := fun _ => rfl
  reset := fun _ => rfl
  appendMotionSample := fun tr _ _ => by
    by_cases h : tr.length % 2 = 1
    · right; simp [Example.pressureEnv, h]
    · left; simp [Example.pressureEnv, h]

/-- C6: on a publisher of connection `c` whose `publishMotionEvent`,
`sendDispatchSignal` and `reset` succeed and whose `appendMotionSample` returns only
`OK` or `NO_MEMORY`, for a dispatch entry `d` at the head of the outbound queue of the
NORMAL connection `c` whose event is a motion entry with sample chain `m.chain`, starting
the dispatch cycle and alternating `finishDispatchCycleLocked` and the start of the next
cycle while samples are left over hands the samples of the chain from the start sample
of `d` (`headMotionSample`, else the first sample) on to the publisher, each accepted
exactly once and in chain order; the cycles start with the start sample of `d` and then
with exactly the samples that were refused with `NO_MEMORY`, in that order; and at the
end the dispatch entry is in progress at the head of the queue with no
`tailMotionSample`, so that the next `finishDispatchCycleLocked` releases it. -/
theorem deliverHead_delivers_each_sample_once (env : Env) (c : Nat) (currentTime : Int)
    (fuel : Nat) (s : InputDispatcher) (d : DispatchEntry) (rest : List DispatchEntry)
    (m : MotionEntry) (hb : BackPressureOnly env c)
    (hq : (s.conn c).outboundQueue = d :: rest) (hs : (s.conn c).status = .NORMAL)
    (hm : (s.entry d.eventEntry).body = .motion m)
    (hk : d.headMotionSample.getD 0 < m.chain.length)
    (hfuel : m.chain.length - d.headMotionSample.getD 0 ≤ fuel) :
    acceptedSamples ((s.deliverHead env currentTime c fuel).trace.drop s.trace.length) c
        = m.chain.drop (d.headMotionSample.getD 0)
      ∧ cycleStartSamples ((s.deliverHead env currentTime c fuel).trace.drop s.trace.length) c
        = m.chain.getD (d.headMotionSample.getD 0) MotionSample.blank
          :: refusedSamples ((s.deliverHead env currentTime c fuel).trace.drop s.trace.length) c
      ∧ ∃ d1, ((s.deliverHead env currentTime c fuel).conn c).outboundQueue = d1 :: rest
          ∧ d1.eventEntry = d.eventEntry ∧ d1.inProgress = true
          ∧ d1.tailMotionSample = none := by
  obtain ⟨ext, d1, htr, ha, hcs, hq1, he, hin, ht⟩ :=
    deliverHead_spec hb currentTime fuel fuel s d rest m (Nat.le_refl _) hq hs hm hk hfuel
  rw [deliverHead, htr, List.drop_left]
  exact ⟨ha, hcs, d1, hq1, he, hin, ht⟩

theorem deliverHead_delivers_each_sample_once_witness :
    BackPressureOnly Example.pressureEnv 0
      ∧ (Example.headReady.conn 0).outboundQueue
        = [Example.batchedMoves.newDispatchEntry 0 (Example.target 7 0) false]
      ∧ (Example.headReady.conn 0).status = .NORMAL
      ∧ (Example.headReady.entry 0).asMotion.chain.length = 4
      ∧ refusedSamples ((Example.headReady.deliverHead Example.pressureEnv 5 0 4).trace.drop
          Example.headReady.trace.length) 0
        = (Example.headReady.entry 0).asMotion.chain.drop 2
      ∧ acceptedSamples ((Example.headReady.deliverHead Example.pressureEnv 5 0 4).trace.drop
          Example.headReady.trace.length) 0
        = (Example.headReady.entry 0).asMotion.chain.drop 0
      ∧ cycleStartSamples ((Example.headReady.deliverHead Example.pressureEnv 5 0 4).trace.drop
          Example.headReady.trace.length) 0
        = (Example.headReady.entry 0).asMotion.chain.getD 0 MotionSample.blank
          :: refusedSamples ((Example.headReady.deliverHead Example.pressureEnv 5 0 4).trace.drop
              Example.headReady.trace.length) 0
      ∧ ∃ d1, ((Example.headReady.deliverHead Example.pressureEnv 5 0 4).conn 0).outboundQueue
            = d1 :: []
          ∧ d1.eventEntry = 0 ∧ d1.inProgress = true ∧ d1.tailMotionSample = none :=
  ⟨Example.pressureEnv_backPressureOnly 0, by decide, by decide, by decide, by decide,
    deliverHead_delivers_each_sample_once Example.pressureEnv 0 5 4 Example.headReady
      (Example.batchedMoves.newDispatchEntry 0 (Example.target 7 0) false) []
      (Example.headReady.entry 0).asMotion (Example.pressureEnv_backPressureOnly 0)
      (by decide) (by decide) (by decide) (by decide) (by decide)⟩

end Dispatcher

namespace Dispatcher

namespace InputDispatcher

/-! ## The publisher calls of a dispatch cycle are made on its connection -/

theorem traceFrame_of_eq (c : Nat) {s s1 : InputDispatcher} (h : s1.trace = s.trace) :
    TraceFrame c s s1 :=
  ⟨[], by simp [h], by simp⟩

theorem traceFrame_trans {c : Nat} {s s1 s2 : InputDispatcher} (h1 : TraceFrame c s s1)
    (h2 : TraceFrame c s1 s2) : TraceFrame c s s2 := by
  obtain ⟨e1, ht1, hc1⟩ := h1
  obtain ⟨e2, ht2, hc2⟩ := h2
  refine ⟨e1 ++ e2, by rw [ht2, ht1, List.append_assoc], ?_⟩
  intro r hr
  rcases List.mem_append.mp hr with h | h
  · exact hc1 r h
  · exact hc2 r h

theorem traceFrame_publisherCalled (env : Env) (s : InputDispatcher) (c : Nat)
    (call : PublisherCall) : TraceFrame c s (s.publisherCalled env c call) :=
  ⟨[⟨c, call, s.publisherStatus env c call⟩], rfl, by simp⟩

theorem appendFurtherSamples_traceFrame (env : Env) (c : Nat) (xs : List MotionSample) (i : Nat)
    (s : InputDispatcher) : TraceFrame c s (appendFurtherSamples env c xs i s).1 := by
  induction xs generalizing i s with
  | nil => exact traceFrame_of_eq c rfl
  | cons x xs ih =>
    simp only [appendFurtherSamples]
    split_ifs
    · exact traceFrame_publisherCalled env s c _
    · exact traceFrame_publisherCalled env s c _
    · exact traceFrame_trans (traceFrame_publisherCalled env s c _) (ih _ _)

theorem publishEventOf_traceFrame (env : Env) (s : InputDispatcher) (c : Nat)
    (d : DispatchEntry) : TraceFrame c s (s.publishEventOf env c d).1 := by
  unfold publishEventOf
  cases hb : (s.entry d.eventEntry).body with
  | configurationChanged a b c => simp only [hb]; exact traceFrame_of_eq _ rfl
  | key k =>
    simp only [hb]
    split_ifs <;> exact traceFrame_publisherCalled env s c _
  | motion m =>
    simp only [hb]
    generalize PublisherCall.publishMotionEvent _ = call
    split_ifs
    · exact traceFrame_publisherCalled env s c _
    · have h := appendFurtherSamples_traceFrame env c
        (m.chain.drop (d.headMotionSample.getD 0 + 1)) (d.headMotionSample.getD 0 + 1)
        (s.publisherCalled env c call)
      split
      · rename_i heq
        rw [heq] at h
        exact traceFrame_trans (traceFrame_publisherCalled env s c _) h
      · rename_i heq
        rw [heq] at h
        exact traceFrame_trans (traceFrame_publisherCalled env s c _) h

theorem releaseDispatchEntry_trace (s : InputDispatcher) (d : DispatchEntry) :
    (s.releaseDispatchEntry d).trace = s.trace := by
  unfold releaseDispatchEntry releaseEventEntry
  split <;> rfl

theorem drainOutboundQueue_trace (c : Nat) (q : List DispatchEntry) (s : InputDispatcher) :
    (drainOutboundQueue c q s).trace = s.trace := by
  induction q generalizing s with
  | nil => rfl
  | cons d q ih =>
    simp only [drainOutboundQueue]
    rw [ih, releaseDispatchEntry_trace]
    rfl

theorem abortDispatchCycleLocked_trace (s : InputDispatcher) (c : Nat) (broken : Bool) :
    (s.abortDispatchCycleLocked c broken).1.trace = s.trace := by
  unfold abortDispatchCycleLocked
  split_ifs
  · rfl
  · simp [drainOutboundQueue_trace]
  · simp [drainOutboundQueue_trace]

theorem startDispatchCycleLocked_traceFrame (env : Env) (s : InputDispatcher)
    (currentTime : Int) (c : Nat) :
    TraceFrame c s (s.startDispatchCycleLocked env currentTime c) := by
  unfold startDispatchCycleLocked
  split
  · exact traceFrame_of_eq c rfl
  · rename_i d q hq
    have h := publishEventOf_traceFrame env s c d
    split
    · rename_i s1 heq
      rw [heq] at h
      exact traceFrame_trans h (traceFrame_of_eq c (abortDispatchCycleLocked_trace _ _ _))
    · rename_i s1 d1 heq
      rw [heq] at h
      simp only
      split
      · exact traceFrame_trans h (traceFrame_trans (traceFrame_publisherCalled env s1 c _)
          (traceFrame_of_eq c (abortDispatchCycleLocked_trace _ _ _)))
      · exact traceFrame_trans h (traceFrame_trans (traceFrame_publisherCalled env s1 c _)
          (traceFrame_of_eq c rfl))

theorem prepareDispatchCycleLocked_traceFrame (env : Env) (s : InputDispatcher)
    (currentTime : Int) (c p : Nat) (inputTarget : InputTarget) (resume : Bool) :
    TraceFrame c s (s.prepareDispatchCycleLocked env currentTime c p inputTarget resume) := by
  unfold prepareDispatchCycleLocked
  simp only
  split
  · exact traceFrame_of_eq c rfl
  · split
    · split
      · exact traceFrame_of_eq c rfl
      · split
        · exact traceFrame_of_eq c rfl
        · split
          · exact traceFrame_publisherCalled env s c _
          · exact traceFrame_trans (traceFrame_publisherCalled env s c _)
              (traceFrame_of_eq c rfl)
    · split
      · refine traceFrame_trans (traceFrame_of_eq c ?_)
          (startDispatchCycleLocked_traceFrame env _ currentTime c)
        simp [setOutbound, retainEventEntry]
      · exact traceFrame_of_eq c rfl

/-- The streaming branch of `prepareDispatchCycleLocked` on a dispatch entry that is in
progress with no samples left over: the appended sample is handed to the publisher
in one call. -/
theorem prepareDispatchCycleLocked_streams (env : Env) (s : InputDispatcher)
    (currentTime : Int) (c p : Nat) (inputTarget : InputTarget) (i : Nat) (x : DispatchEntry)
    (hs : (s.conn c).status = .NORMAL)
    (hf : findQueuedDispatchEntryForEvent (s.conn c).outboundQueue p = some i)
    (hx : (s.conn c).outboundQueue[i]? = some x) (hin : x.inProgress = true)
    (ht : x.tailMotionSample = none) :
    ∃ status, (s.prepareDispatchCycleLocked env currentTime c p inputTarget true).trace
      = s.trace ++ [⟨c, .appendMotionSample
          ((s.entry p).asMotion.chain.getD (s.entry p).asMotion.lastSample
            MotionSample.blank).eventTime
          ((s.entry p).asMotion.chain.getD (s.entry p).asMotion.lastSample
            MotionSample.blank).pointerCoords, status⟩] := by
  have hne : (s.conn c).outboundQueue.isEmpty = false := by
    cases hq : (s.conn c).outboundQueue with
    | nil => rw [hq] at hx; simp at hx
    | cons d q => rfl
  have hget : ∀ d0, (s.conn c).outboundQueue.getD i d0 = x := by
    intro d0; simp [List.getD, hx]
  unfold prepareDispatchCycleLocked
  simp only [hs, ne_eq, not_true_eq_false, if_false, hne, Bool.not_false, Bool.and_self,
    if_true, hf, hget, hin, Bool.not_true, ht, Option.isSome_none, Bool.false_eq_true]
  split_ifs
  · exact ⟨_, rfl⟩
  · exact ⟨_, rfl⟩

/-- Targets that name no channel of connection `c` cause no call on the publisher of
`c`. -/
theorem dispatchEventToInputTargets_other (env : Env) (currentTime : Int) (p : Nat)
    (resume : Bool) (c : Nat) :
    ∀ (ts : List InputTarget) (s : InputDispatcher),
      (∀ t ∈ ts, s.connectionByReceiveFd t.inputChannel ≠ some c) →
      ∃ ext, (dispatchEventToInputTargets env currentTime p resume ts s).trace = s.trace ++ ext
        ∧ ∀ r ∈ ext, r.connection ≠ c := by
  intro ts
  induction ts with
  | nil => exact fun s _ => ⟨[], by simp [dispatchEventToInputTargets], by simp⟩
  | cons t ts ih =>
    intro s h
    simp only [dispatchEventToInputTargets]
    split
    · rename_i c1 hc1
      have hne : c1 ≠ c := by
        intro he
        exact h t (List.mem_cons_self _ _) (by rw [hc1, he])
      have hfr := prepareDispatchCycleLocked_frame env s currentTime c1 p t resume
      obtain ⟨e1, ht1, hc⟩ := prepareDispatchCycleLocked_traceFrame env s currentTime c1 p t resume
      obtain ⟨e2, ht2, hc2⟩ := ih (s.prepareDispatchCycleLocked env currentTime c1 p t resume)
        (fun u hu => by
          have := h u (List.mem_cons_of_mem _ hu)
          simpa [connectionByReceiveFd, hfr.map] using this)
      refine ⟨e1 ++ e2, by rw [ht2, ht1, List.append_assoc], ?_⟩
      intro r hr
      rcases List.mem_append.mp hr with hr | hr
      · rw [hc r hr]; exact hne
      · exact hc2 r hr
    · exact ih s (fun u hu => h u (List.mem_cons_of_mem _ hu))

/-- When exactly one of the targets names connection `c`, and the dispatch entry of
`c` for the event is in progress with no samples left over, streaming the appended
sample calls the publisher of `c` exactly once, with that sample. -/
theorem dispatchEventToInputTargets_streams_once (env : Env) (currentTime : Int) (p c : Nat)
    (i : Nat) (x : DispatchEntry) (hin : x.inProgress = true)
    (ht : x.tailMotionSample = none) :
    ∀ (ts : List InputTarget) (s : InputDispatcher),
      (ts.filter (fun t => s.connectionByReceiveFd t.inputChannel = some c)).length = 1 →
      (s.conn c).status = .NORMAL →
      findQueuedDispatchEntryForEvent (s.conn c).outboundQueue p = some i →
      (s.conn c).outboundQueue[i]? = some x →
      ∃ ext, (dispatchEventToInputTargets env currentTime p true ts s).trace = s.trace ++ ext
        ∧ (ext.filter (fun r => r.connection == c)).map (fun r => r.call)
          = [.appendMotionSample
              ((s.entry p).asMotion.chain.getD (s.entry p).asMotion.lastSample
                MotionSample.blank).eventTime
              ((s.entry p).asMotion.chain.getD (s.entry p).asMotion.lastSample
                MotionSample.blank).pointerCoords] := by
  intro ts
  induction ts with
  | nil => intro s h; simp at h
  | cons t ts ih =>
    intro s h hs hf hx
    simp only [dispatchEventToInputTargets]
    rw [List.filter_cons] at h
    split
    · rename_i c1 hc1
      have hfr := prepareDispatchCycleLocked_frame env s currentTime c1 p t true
      have hmap : ∀ u : InputTarget,
          (s.prepareDispatchCycleLocked env currentTime c1 p t true).connectionByReceiveFd
            u.inputChannel = s.connectionByReceiveFd u.inputChannel := by
        intro u; simp [connectionByReceiveFd, hfr.map]
      by_cases he : c1 = c
      · subst he
        simp only [hc1, decide_True, if_true, List.length_cons, Nat.add_left_eq_self,
          List.length_eq_zero] at h
        obtain ⟨st, htr⟩ := prepareDispatchCycleLocked_streams env s currentTime c1 p t i x hs hf
          hx hin ht
        obtain ⟨e2, ht2, hc2⟩ := dispatchEventToInputTargets_other env currentTime p true c1 ts
          (s.prepareDispatchCycleLocked env currentTime c1 p t true)
          (fun u hu => by
            rw [hmap]
            intro hu1
            have : u ∈ ts.filter
                (fun t => decide (s.connectionByReceiveFd t.inputChannel = some c1)) :=
              List.mem_filter.mpr ⟨hu, by simpa using hu1⟩
            rw [h] at this
            simp at this)
        refine ⟨_ :: e2, by rw [ht2, htr, List.append_assoc]; rfl, ?_⟩
        rw [List.filter_cons]
        simp only [beq_self_eq_true, if_true, List.map_cons, List.cons.injEq, true_and,
          List.map_eq_nil_iff, List.filter_eq_nil_iff]
        intro r hr
        simpa using hc2 r hr
      · have hne : ¬ (s.connectionByReceiveFd t.inputChannel = some c) := by
          rw [hc1]; simpa using he
        simp only [hne, decide_False, Bool.false_eq_true, if_false] at h
        obtain ⟨e1, ht1, hce⟩ :=
          prepareDispatchCycleLocked_traceFrame env s currentTime c1 p t true
        have hconn := hfr.conn c (Ne.symm he)
        obtain ⟨e2, ht2, hc2⟩ := ih (s.prepareDispatchCycleLocked env currentTime c1 p t true)
          (by simpa only [hmap] using h) (by rw [hconn]; exact hs) (by rw [hconn]; exact hf)
          (by rw [hconn]; exact hx)
        refine ⟨e1 ++ e2, by rw [ht2, ht1, List.append_assoc], ?_⟩
        have h1 : e1.filter (fun r => r.connection == c) = [] := by
          rw [List.filter_eq_nil_iff]
          intro r hr
          rw [hce r hr]
          simpa using he
        rw [List.filter_append, h1, List.nil_append, hc2]
        simp only [EventEntry.asMotion, hfr.body]
    · rename_i hnone
      have hne : ¬ (s.connectionByReceiveFd t.inputChannel = some c) := by
        rw [hnone]; simp
      simp only [hne, decide_False, Bool.false_eq_true, if_false] at h
      exact ih s h hs hf hx

end InputDispatcher

open InputDispatcher

/-- C9, as the code has it. When the inbound queue holds no motion entry for the
device and the tail dispatch entry `d` of the first active connection whose tail is
`FLAG_SYNC` references a `MOVE` motion entry `M` of the device with the same pointer
count, `notifyMotion` of a `MOVE` leaves the inbound queue as it is, allocates no
entry, makes the sample chain of `M` exactly one sample longer, by the notified
sample, and changes the contents of no other entry; and for every connection that
exactly one current input target names and whose dispatch entry for `M` (the one
nearest the tail of its outbound queue) is in progress with no `tailMotionSample`,
the publisher of the connection is called exactly once, with `appendMotionSample`
of the notified sample. -/
theorem notifyMotion_streams_once_per_target (env : Env) (s : InputDispatcher)
    (h : Reachable s) (currentTime : Int) (a : MotionArgs) (d : DispatchEntry)
    (m : MotionEntry) (ha : a.action = MOTION_EVENT_ACTION_MOVE)
    (hin : s.latestInboundMotion a.deviceId = none)
    (hd : s.firstSyncTail = some d)
    (hm : (s.entry d.eventEntry).body = .motion m)
    (hmove : isMoveOf a.deviceId a.pointerCount (s.entry d.eventEntry) = true) :
    (s.notifyMotion env currentTime a).mInboundQueue = s.mInboundQueue
      ∧ (s.notifyMotion env currentTime a).heap.length = s.heap.length
      ∧ ((s.notifyMotion env currentTime a).entry d.eventEntry).asMotion.chain
          = m.chain ++ [a.sample]
      ∧ (∀ q, q ≠ d.eventEntry →
          ((s.notifyMotion env currentTime a).entry q).body = (s.entry q).body)
      ∧ ∀ c i x, (s.targetsNaming c).length = 1 →
          findQueuedDispatchEntryForEvent (s.conn c).outboundQueue d.eventEntry = some i →
          (s.conn c).outboundQueue[i]? = some x → x.inProgress = true →
          x.tailMotionSample = none →
          (s.notifyMotion env currentTime a).callsSince s.trace c
            = [.appendMotionSample a.eventTime (a.pointerCoords.take a.pointerCount)] := by
  have hi := inv_of_reachable h
  have hlt : d.eventEntry < s.heap.length := by
    by_contra hp
    rw [entry_of_le s (Nat.le_of_not_lt hp)] at hm
    simp [EventEntry.invalid] at hm
  have hso := hi.samplesOk d.eventEntry
  simp only [EventEntry.asMotion, hm] at hso
  have h1 : s.notifyMotion env currentTime a
      = (s.appendMotionSample d.eventEntry a.eventTime a.pointerCount a.pointerCoords
          ).dispatchEventToCurrentInputTargetsLocked env currentTime d.eventEntry true := by
    unfold notifyMotion
    rw [if_pos ha, findBatchEntry_eq]
    unfold latestInboundMotion at hin
    rw [hin]
    simp only
    rw [findStreamEntry_eq]
    unfold firstSyncTail at hd
    rw [hd]
    simp only [hmove, if_true]
  have h2 : (s.appendMotionSample d.eventEntry a.eventTime a.pointerCount a.pointerCoords
      ).entry d.eventEntry
      = { s.entry d.eventEntry with
          body := .motion { m with moreSamples := m.moreSamples ++ [a.sample]
                                   lastSample := m.lastSample + 1 } } := by
    unfold appendMotionSample
    rw [entry_setEntry_self s _ hlt]
    simp only [EventEntry.asMotion, hm, MotionEntry.appendMotionSample, hso, List.take_length,
      MotionArgs.sample]
  have hfr := dispatchEventToInputTargets_frame env currentTime d.eventEntry true
    (s.appendMotionSample d.eventEntry a.eventTime a.pointerCount
      a.pointerCoords).mCurrentInputTargets
    (s.appendMotionSample d.eventEntry a.eventTime a.pointerCount a.pointerCoords)
  rw [h1]
  unfold dispatchEventToCurrentInputTargetsLocked
  refine ⟨?_, ?_, ?_, ?_, ?_⟩
  · rw [hfr.inbound]; rfl
  · rw [hfr.heapLength]; simp [appendMotionSample]
  · simp only [EventEntry.asMotion, hfr.body]
    rw [h2]
    simp [MotionEntry.chain]
  · intro q hq
    rw [hfr.body]
    unfold appendMotionSample
    rw [entry_setEntry_of_ne s _ (Ne.symm hq)]
  · intro c i x hone hf hx hxin hxt
    have hq : (s.conn c).outboundQueue ≠ [] := by
      intro hnil
      rw [hnil] at hx
      simp at hx
    obtain ⟨ext, htr, hcalls⟩ := dispatchEventToInputTargets_streams_once env currentTime
      d.eventEntry c i x hxin hxt
      (s.appendMotionSample d.eventEntry a.eventTime a.pointerCount
        a.pointerCoords).mCurrentInputTargets
      (s.appendMotionSample d.eventEntry a.eventTime a.pointerCount a.pointerCoords)
      hone ((hi.connOk c).normal_of_ne_nil hq) hf hx
    rw [h2] at hcalls
    unfold callsSince
    rw [htr]
    have : (s.appendMotionSample d.eventEntry a.eventTime a.pointerCount
        a.pointerCoords).trace = s.trace := rfl
    rw [this, List.drop_left, hcalls]
    simp [EventEntry.asMotion, MotionEntry.chain, hso, MotionArgs.sample, List.getD]

theorem notifyMotion_streams_once_per_target_witness :
    Reachable Example.moveDelivering
      ∧ Example.moveDelivering.latestInboundMotion 1 = none
      ∧ (Example.moveDelivering.firstSyncTail.map (fun d => d.eventEntry)) = some 0
      ∧ (Example.moveDelivering.targetsNaming 0).length = 1
      ∧ (Example.moveDelivering.notifyMotion (Example.env []) 20
          (Example.motion 20 MOTION_EVENT_ACTION_MOVE)).callsSince
            Example.moveDelivering.trace 0
        = [.appendMotionSample 20 [{ x := 20, y := 20, pressure := 0, size := 0 }]] :=
  ⟨Example.run_reachable _ _ Reachable.init, by decide, by decide, by decide,
    (notifyMotion_streams_once_per_target (Example.env []) Example.moveDelivering
      (Example.run_reachable _ _ Reachable.init) 20
      (Example.motion 20 MOTION_EVENT_ACTION_MOVE)
      ((Example.moveDelivering.conn 0).outboundQueue.getD 0
        (Example.moveDelivering.newDispatchEntry 0 (Example.target 7 1) false))
      (Example.motion 0 MOTION_EVENT_ACTION_MOVE).motionEntry rfl (by decide) (by decide)
      (by decide) (by decide)).2.2.2.2 0 0
      ((Example.moveDelivering.conn 0).outboundQueue.getD 0
        (Example.moveDelivering.newDispatchEntry 0 (Example.target 7 1) false))
      (by decide) (by decide) (by decide) (by decide) (by decide)⟩

/-- C9 fails as stated. The state `Example.moveDeliveringTwice` is reachable; its
inbound queue is empty, the tail dispatch entry of the only active connection 0 is
`FLAG_SYNC` for the `MOVE` entry 0 of device 1 with one pointer, and that dispatch
entry is in progress with no `tailMotionSample`; the current input targets name
connection 0 twice.  A notified `MOVE` of device 1 with one pointer lengthens the
chain of entry 0 by one sample, but `appendMotionSample` is called twice on the
publisher of connection 0. -/
theorem notifyMotion_streams_twice_counterexample :
    Reachable Example.moveDeliveringTwice
      ∧ Example.moveDeliveringTwice.mInboundQueue = []
      ∧ Example.moveDeliveringTwice.mActiveConnections = [0]
      ∧ ((Example.moveDeliveringTwice.conn 0).outboundQueue.map
          (fun d => (d.eventEntry, d.isSync, d.inProgress, d.tailMotionSample)))
        = [(0, true, true, none)]
      ∧ isMoveOf 1 1 (Example.moveDeliveringTwice.entry 0) = true
      ∧ (Example.moveDeliveringTwice.targetsNaming 0).length = 2
      ∧ ((Example.moveDeliveringTwice.notifyMotion (Example.env []) 20
          (Example.motion 20 MOTION_EVENT_ACTION_MOVE)).entry 0).asMotion.chain.length = 2
      ∧ (Example.moveDeliveringTwice.notifyMotion (Example.env []) 20
          (Example.motion 20 MOTION_EVENT_ACTION_MOVE)).callsSince
            Example.moveDeliveringTwice.trace 0
        = [.appendMotionSample 20 [{ x := 20, y := 20, pressure := 0, size := 0 }],
           .appendMotionSample 20 [{ x := 20, y := 20, pressure := 0, size := 0 }]] :=
  ⟨Example.run_reachable _ _ Reachable.init, by decide⟩

end Dispatcher

namespace Dispatcher

namespace InputDispatcher

/-! ## The synchronous tail -/

theorem conn_of_conns {s s1 : InputDispatcher} (h : s1.conns = s.conns) (c : Nat) :
    s1.conn c = s.conn c := by
  simp [conn, h]

theorem syncSignature_congr {s s1 : InputDispatcher} {c : Nat} (h : s1.conn c = s.conn c) :
    s1.syncSignature c = s.syncSignature c := by
  simp [syncSignature, h]

theorem syncSignature_of_conns {s s1 : InputDispatcher} (h : s1.conns = s.conns) (c : Nat) :
    s1.syncSignature c = s.syncSignature c :=
  syncSignature_congr (conn_of_conns h c)

theorem syncTailOk_of_conns {s s1 : InputDispatcher} (h : s1.conns = s.conns)
    (hs : SyncTailOk s) : SyncTailOk s1 := by
  intro c
  rw [syncSignature_of_conns h]
  exact hs c

theorem syncOf_of_conns {s s1 : InputDispatcher} {p : Nat} (h : s1.conns = s.conns)
    (hs : SyncOf p s) : SyncOf p s1 := by
  intro c
  rw [syncSignature_of_conns h]
  exact hs c

theorem noSync_of_conns {s s1 : InputDispatcher} (h : s1.conns = s.conns)
    (hs : NoSync s) : NoSync s1 := by
  intro c
  rw [syncSignature_of_conns h]
  exact hs c

theorem syncInv_of_conns {s s1 : InputDispatcher} (h : s1.conns = s.conns)
    (hm : s1.mConnectionsByReceiveFd = s.mConnectionsByReceiveFd) (hs : SyncInv s) :
    SyncInv s1 := by
  obtain ⟨p, hp⟩ := hs.same
  exact ⟨syncTailOk_of_conns h hs.tail, ⟨p, syncOf_of_conns h hp⟩, by rw [hm]; exact hs.channels⟩

theorem mem_dropLast_of_suffix {α : Type} {l1 l : List α} (h : l1 <:+ l) {x : α}
    (hx : x ∈ l1.dropLast) : x ∈ l.dropLast := by
  obtain ⟨pre, rfl⟩ := h
  cases l1 with
  | nil => simp at hx
  | cons a l1 =>
    rw [List.dropLast_append_of_ne_nil _ (by simp)]
    exact List.mem_append_right _ hx

/-- An operation on connection `c` after which the signature of `c` is a suffix of
what it was keeps the tail property. -/
theorem syncTailOk_of_suffix {c : Nat} {s s1 : InputDispatcher}
    (hc : ∀ c1, c1 ≠ c → s1.conn c1 = s.conn c1)
    (hs : s1.syncSignature c <:+ s.syncSignature c) (h : SyncTailOk s) : SyncTailOk s1 := by
  intro c1 x hx
  by_cases he : c1 = c
  · subst he
    exact h c1 x (mem_dropLast_of_suffix hs hx)
  · rw [syncSignature_congr (hc c1 he)] at hx
    exact h c1 x hx

theorem syncOf_of_suffix {c p : Nat} {s s1 : InputDispatcher}
    (hc : ∀ c1, c1 ≠ c → s1.conn c1 = s.conn c1)
    (hs : s1.syncSignature c <:+ s.syncSignature c) (h : SyncOf p s) : SyncOf p s1 := by
  intro c1 x hx
  by_cases he : c1 = c
  · subst he
    exact h c1 x (hs.subset hx)
  · rw [syncSignature_congr (hc c1 he)] at hx
    exact h c1 x hx

theorem noSync_of_suffix {c : Nat} {s s1 : InputDispatcher}
    (hc : ∀ c1, c1 ≠ c → s1.conn c1 = s.conn c1)
    (hs : s1.syncSignature c <:+ s.syncSignature c) (h : NoSync s) : NoSync s1 := by
  intro c1 x hx
  by_cases he : c1 = c
  · subst he
    exact h c1 x (hs.subset hx)
  · rw [syncSignature_congr (hc c1 he)] at hx
    exact h c1 x hx

/-- Appending one dispatch entry to a queue without marked entries keeps the tail
property. -/
theorem syncTailOk_of_append {c : Nat} {s s1 : InputDispatcher} {x : Nat × Bool}
    (hc : ∀ c1, c1 ≠ c → s1.conn c1 = s.conn c1)
    (hs : s1.syncSignature c <:+ s.syncSignature c ++ [x])
    (hno : ∀ y ∈ s.syncSignature c, y.2 = false) (h : SyncTailOk s) : SyncTailOk s1 := by
  intro c1 y hy
  by_cases he : c1 = c
  · subst he
    have := mem_dropLast_of_suffix hs hy
    rw [List.dropLast_concat] at this
    exact hno y this
  · rw [syncSignature_congr (hc c1 he)] at hy
    exact h c1 y hy

theorem syncOf_of_append {c p : Nat} {s s1 : InputDispatcher} {b : Bool}
    (hc : ∀ c1, c1 ≠ c → s1.conn c1 = s.conn c1)
    (hs : s1.syncSignature c <:+ s.syncSignature c ++ [(p, b)]) (h : SyncOf p s) :
    SyncOf p s1 := by
  intro c1 y hy
  by_cases he : c1 = c
  · subst he
    rcases List.mem_append.mp (hs.subset hy) with hy1 | hy1
    · exact h c1 y hy1
    · intro _
      simp at hy1
      rw [hy1]
  · rw [syncSignature_congr (hc c1 he)] at hy
    exact h c1 y hy

theorem syncSignature_of_outbound {s s1 : InputDispatcher} {c : Nat}
    (h : (s1.conn c).outboundQueue = (s.conn c).outboundQueue) :
    s1.syncSignature c = s.syncSignature c := by
  simp [syncSignature, h]

theorem suffix_of_outbound {s t : InputDispatcher} {c : Nat} {l : List (Nat × Bool)}
    (h1 : l <:+ t.syncSignature c)
    (h2 : (t.conn c).outboundQueue = (s.conn c).outboundQueue) : l <:+ s.syncSignature c := by
  rw [← syncSignature_of_outbound h2]
  exact h1

theorem abortDispatchCycleLocked_suffix (s : InputDispatcher) (c : Nat) (broken : Bool) :
    (s.abortDispatchCycleLocked c broken).1.syncSignature c <:+ s.syncSignature c := by
  by_cases hb : (s.conn c).status = .BROKEN
  · rw [abortDispatchCycleLocked_broken s c broken hb]
  · simp [syncSignature, abortDispatchCycleLocked_outbound s c broken hb]

theorem outbound_setConn_of_eq (s : InputDispatcher) (c : Nat) (x : Connection)
    (h : x.outboundQueue = (s.conn c).outboundQueue) :
    ((s.setConn c x).conn c).outboundQueue = (s.conn c).outboundQueue := by
  by_cases hc : c < s.conns.length
  · rw [conn_setConn_self s x hc, h]
  · rw [setConn_of_le s x (Nat.le_of_not_lt hc)]

theorem startDispatchCycleLocked_suffix (env : Env) (s : InputDispatcher) (currentTime : Int)
    (c : Nat) :
    (s.startDispatchCycleLocked env currentTime c).syncSignature c <:+ s.syncSignature c := by
  rcases startDispatchCycleLocked_cases env s currentTime c with
    ⟨_, h⟩ | ⟨tr, h⟩ | ⟨tr, d, q, t, x, hq, hx, _, h⟩
  · rw [h]
  · rw [h]
    exact abortDispatchCycleLocked_suffix { s with trace := tr } c true
  · rw [h]
    have hc : c < s.conns.length := lt_of_outbound_ne_nil s (by rw [hq]; simp)
    have : ((InputDispatcher.setConn { s with trace := tr } c x).callout
        (.onDispatchCycleStarted c)).conn c = x := by
      rw [callout_conn]
      exact conn_setConn_self _ x hc
    simp only [syncSignature, this, hx, hq, List.map_cons]
    exact List.suffix_refl _

theorem finishDispatchLoop_suffix (env : Env) (currentTime : Int) (c : Nat)
    (q : List DispatchEntry) (s : InputDispatcher) (hq : (s.conn c).outboundQueue = q) :
    (finishDispatchLoop env currentTime c q s).syncSignature c <:+ s.syncSignature c := by
  induction q generalizing s with
  | nil => exact List.suffix_refl _
  | cons d q ih =>
    have hc : c < s.conns.length := lt_of_outbound_ne_nil s (by simp [hq])
    simp only [finishDispatchLoop]
    split
    · split
      · refine (startDispatchCycleLocked_suffix env _ currentTime c).trans ?_
        simp only [syncSignature, outbound_setOutbound_self s _ hc, hq, List.map_cons]
        exact List.suffix_refl _
      · refine (ih _ (by simp [outbound_setOutbound_self s q hc])).trans ?_
        have : ((s.setOutbound c q).releaseDispatchEntry d).syncSignature c
            = q.map (fun d => (d.eventEntry, d.isSync)) := by
          simp [syncSignature, outbound_setOutbound_self s q hc]
        rw [this, syncSignature, hq]
        exact List.suffix_cons _ _
    · exact startDispatchCycleLocked_suffix env s currentTime c

theorem finishDispatchCycleLocked_suffix (env : Env) (s : InputDispatcher) (currentTime : Int)
    (c : Nat) :
    (s.finishDispatchCycleLocked env currentTime c).syncSignature c <:+ s.syncSignature c := by
  unfold finishDispatchCycleLocked
  split
  · exact List.suffix_refl _
  · have h1 := outbound_setConn_of_eq s c { s.conn c with nextTimeoutTime := LONG_LONG_MAX } rfl
    have h2 := outbound_setConn_of_eq
      (s.setConn c { s.conn c with nextTimeoutTime := LONG_LONG_MAX }) c
      { (s.setConn c { s.conn c with nextTimeoutTime := LONG_LONG_MAX }).conn c with
        status := .NORMAL } rfl
    simp only
    split
    · split
      · refine suffix_of_outbound (abortDispatchCycleLocked_suffix _ c true) ?_
        simp only [publisherCalled_conn, callout_conn]
        rw [h2, h1]
      · refine suffix_of_outbound (finishDispatchLoop_suffix env currentTime c _ _ rfl) ?_
        simp only [publisherCalled_conn, callout_conn]
        rw [h2, h1]
    · split
      · refine suffix_of_outbound (abortDispatchCycleLocked_suffix _ c true) ?_
        simp only [publisherCalled_conn, callout_conn]
        rw [h1]
      · refine suffix_of_outbound (finishDispatchLoop_suffix env currentTime c _ _ rfl) ?_
        simp only [publisherCalled_conn, callout_conn]
        rw [h1]

theorem timeoutDispatchCycleLocked_suffix (s : InputDispatcher) (currentTime : Int) (c : Nat) :
    (s.timeoutDispatchCycleLocked currentTime c).1.syncSignature c <:+ s.syncSignature c := by
  unfold timeoutDispatchCycleLocked
  split
  · exact List.suffix_refl _
  · simp only
    rw [syncSignature_congr (callout_conn _ _ _)]
    exact suffix_of_outbound (abortDispatchCycleLocked_suffix _ c false)
      (outbound_setConn_of_eq s c _ rfl)

theorem findQueuedDispatchEntryForEvent_none {q : List DispatchEntry} {p : Nat}
    (h : findQueuedDispatchEntryForEvent q p = none) : ∀ d ∈ q, d.eventEntry ≠ p := by
  induction q with
  | nil => simp
  | cons a q ih =>
    simp only [findQueuedDispatchEntryForEvent] at h
    cases hq : findQueuedDispatchEntryForEvent q p with
    | some i => rw [hq] at h; simp at h
    | none =>
      rw [hq] at h
      simp only at h
      intro d hd
      rcases List.mem_cons.mp hd with rfl | hd
      · intro he
        rw [if_pos he] at h
        simp at h
      · exact ih hq d hd

theorem outbound_setOutbound (s : InputDispatcher) (c : Nat) (q : List DispatchEntry)
    (h : q.map (fun d => (d.eventEntry, d.isSync))
      = (s.conn c).outboundQueue.map (fun d => (d.eventEntry, d.isSync))) :
    (s.setOutbound c q).syncSignature c = s.syncSignature c := by
  by_cases hc : c < s.conns.length
  · simp [syncSignature, outbound_setOutbound_self s q hc, h]
  · rw [setOutbound, setConn_of_le s _ (Nat.le_of_not_lt hc)]

/-- What `prepareDispatchCycleLocked` does to the signature of the connection: it
leaves a suffix, or it appends the new dispatch entry and leaves a suffix of that;
when it appends for a resumed motion event, the queue held no entry for the
event. -/
theorem prepareDispatchCycleLocked_signature (env : Env) (s : InputDispatcher)
    (currentTime : Int) (c p : Nat) (inputTarget : InputTarget) (resume : Bool) :
    (s.prepareDispatchCycleLocked env currentTime c p inputTarget resume).syncSignature c
        <:+ s.syncSignature c
      ∨ ((s.prepareDispatchCycleLocked env currentTime c p inputTarget resume).syncSignature c
          <:+ s.syncSignature c ++ [(p, (s.newDispatchEntry p inputTarget resume).isSync)]
        ∧ (resume = true → ∀ x ∈ s.syncSignature c, x.1 ≠ p)) := by
  unfold prepareDispatchCycleLocked
  simp only
  split
  · exact Or.inl (List.suffix_refl _)
  · rename_i hs
    split
    · rename_i i _
      left
      split
      · exact List.suffix_refl _
      · split
        · exact List.suffix_refl _
        · split
          · exact List.suffix_refl _
          · have hmap := map_set_getD (fun d : DispatchEntry => (d.eventEntry, d.isSync))
              (fun d : DispatchEntry =>
                { d with tailMotionSample := some (s.entry p).asMotion.lastSample })
              (s.conn c).outboundQueue i
              { eventEntry := p, targetFlags := 0, xOffset := 0, yOffset := 0, timeout := 0,
                inProgress := false, headMotionSample := none, tailMotionSample := none }
              (fun _ => rfl)
            exact Eq.subst (motive := fun l => l <:+ s.syncSignature c)
              (outbound_setOutbound (s.publisherCalled env c _) c _ hmap).symm
              (List.suffix_refl _)
    · rename_i hnone
      right
      have hc1 : (s.retainEventEntry p).conn c = s.conn c := retainEventEntry_conn s p c
      have hsig : (((s.retainEventEntry p).setOutbound c
          ((s.conn c).outboundQueue ++ [s.newDispatchEntry p inputTarget resume])
          ).syncSignature c)
          <:+ s.syncSignature c ++ [(p, (s.newDispatchEntry p inputTarget resume).isSync)] := by
        have hc : c < s.conns.length := lt_of_status_normal s (by simpa using hs)
        simp only [syncSignature, outbound_setOutbound_self _ _
          (show c < (s.retainEventEntry p).conns.length by simpa using hc), List.map_append,
          List.map_cons, List.map_nil]
        exact List.suffix_refl _
      refine ⟨?_, ?_⟩
      · split
        · refine (startDispatchCycleLocked_suffix env _ currentTime c).trans ?_
          rw [syncSignature_congr (activateConnectionLocked_conn _ _ _)]
          exact hsig
        · exact hsig
      · intro hr x hx
        subst hr
        cases hq : (s.conn c).outboundQueue with
        | nil => simp [syncSignature, hq] at hx
        | cons a q =>
          rw [hq] at hnone
          simp only [List.isEmpty_cons, Bool.not_false, Bool.and_self, if_true] at hnone
          rw [← hq] at hnone
          obtain ⟨d, hd, rfl⟩ := List.mem_map.mp hx
          exact findQueuedDispatchEntryForEvent_none hnone d hd

/-- One `prepareDispatchCycleLocked` for the event of the marked dispatch entries
keeps the tail property, when the queue holds no marked entry or the event is
resumed. -/
theorem prepareDispatchCycleLocked_sync (env : Env) (s : InputDispatcher) (currentTime : Int)
    (c p : Nat) (inputTarget : InputTarget) (resume : Bool) (h1 : SyncTailOk s)
    (h2 : SyncOf p s) (h3 : resume = true ∨ ∀ x ∈ s.syncSignature c, x.2 = false) :
    SyncTailOk (s.prepareDispatchCycleLocked env currentTime c p inputTarget resume)
      ∧ SyncOf p (s.prepareDispatchCycleLocked env currentTime c p inputTarget resume) := by
  have hfr := (prepareDispatchCycleLocked_frame env s currentTime c p inputTarget resume).conn
  rcases prepareDispatchCycleLocked_signature env s currentTime c p inputTarget resume with
    hs | ⟨hs, hr⟩
  · exact ⟨syncTailOk_of_suffix hfr hs h1, syncOf_of_suffix hfr hs h2⟩
  · have hno : ∀ x ∈ s.syncSignature c, x.2 = false := by
      rcases h3 with h3 | h3
      · intro x hx
        cases hb : x.2 with
        | false => rfl
        | true => exact absurd (h2 c x hx hb) (hr h3 x hx)
      · exact h3
    exact ⟨syncTailOk_of_append hfr hs hno h1, syncOf_of_append hfr hs h2⟩

theorem dispatchEventToInputTargets_sync_resume (env : Env) (currentTime : Int) (p : Nat) :
    ∀ (ts : List InputTarget) (s : InputDispatcher), SyncTailOk s → SyncOf p s →
      SyncTailOk (dispatchEventToInputTargets env currentTime p true ts s)
        ∧ SyncOf p (dispatchEventToInputTargets env currentTime p true ts s) := by
  intro ts
  induction ts with
  | nil => exact fun s h1 h2 => ⟨h1, h2⟩
  | cons t ts ih =>
    intro s h1 h2
    simp only [dispatchEventToInputTargets]
    split
    · rename_i c _
      obtain ⟨h3, h4⟩ := prepareDispatchCycleLocked_sync env s currentTime c p t true h1 h2
        (Or.inl rfl)
      exact ih _ h3 h4
    · exact ih s h1 h2

theorem lookup_inj {l : List (Int × Nat)} (hn : (l.map Prod.snd).Nodup) {a b : Int} {c : Nat}
    (ha : l.lookup a = some c) (hb : l.lookup b = some c) : a = b := by
  have := List.inj_on_of_nodup_map hn (mem_of_lookup ha) (mem_of_lookup hb) rfl
  exact congrArg Prod.fst this

theorem dispatchEventToInputTargets_sync_fresh (env : Env) (currentTime : Int) (p : Nat) :
    ∀ (ts : List InputTarget) (s : InputDispatcher),
      (ts.map (fun t => t.inputChannel)).Nodup →
      (s.mConnectionsByReceiveFd.map Prod.snd).Nodup → SyncTailOk s → SyncOf p s →
      (∀ t ∈ ts, ∀ c, s.connectionByReceiveFd t.inputChannel = some c →
        ∀ x ∈ s.syncSignature c, x.2 = false) →
      SyncTailOk (dispatchEventToInputTargets env currentTime p false ts s)
        ∧ SyncOf p (dispatchEventToInputTargets env currentTime p false ts s) := by
  intro ts
  induction ts with
  | nil => exact fun s _ _ h1 h2 _ => ⟨h1, h2⟩
  | cons t ts ih =>
    intro s hts hv h1 h2 hno
    simp only [dispatchEventToInputTargets]
    rw [List.map_cons, List.nodup_cons] at hts
    split
    · rename_i c hc
      have hfr := prepareDispatchCycleLocked_frame env s currentTime c p t false
      obtain ⟨h3, h4⟩ := prepareDispatchCycleLocked_sync env s currentTime c p t false h1 h2
        (Or.inr (hno t (List.mem_cons_self _ _) c hc))
      refine ih _ hts.2 (by rw [hfr.map]; exact hv) h3 h4 ?_
      intro u hu c1 hc1 x hx
      rw [connectionByReceiveFd_of_frame hfr] at hc1
      have hne : c1 ≠ c := by
        intro he
        subst he
        have := lookup_inj hv hc hc1
        exact hts.1 (List.mem_map.mpr ⟨u, hu, this.symm⟩)
      rw [syncSignature_congr (hfr.conn c1 hne)] at hx
      exact hno u (List.mem_cons_of_mem _ hu) c1 hc1 x hx
    · exact ih s hts.2 hv h1 h2 (fun u hu => hno u (List.mem_cons_of_mem _ hu))

/-! ### Operations that leave the connections alone -/

theorem sameConnections_refl (s : InputDispatcher) : SameConnections s s := ⟨rfl, rfl⟩

theorem sameConnections_trans {s s1 s2 : InputDispatcher} (h1 : SameConnections s s1)
    (h2 : SameConnections s1 s2) : SameConnections s s2 :=
  ⟨h2.1.trans h1.1, h2.2.trans h1.2⟩

theorem syncInv_of_same {s s1 : InputDispatcher} (h : SameConnections s s1) (hs : SyncInv s) :
    SyncInv s1 :=
  syncInv_of_conns h.1 h.2 hs

theorem sameConnections_setEntry (s : InputDispatcher) (p : Nat) (e : EventEntry) :
    SameConnections s (s.setEntry p e) := ⟨rfl, rfl⟩

theorem sameConnections_releaseKeyEntry (s : InputDispatcher) (p : Nat) :
    SameConnections s (s.releaseKeyEntry p) := ⟨rfl, rfl⟩

theorem sameConnections_resetKeyRepeatLocked (s : InputDispatcher) :
    SameConnections s s.resetKeyRepeatLocked := by
  unfold resetKeyRepeatLocked
  split
  · exact ⟨rfl, rfl⟩
  · exact ⟨rfl, rfl⟩

theorem sameConnections_trackKeyRepeat (env : Env) (s : InputDispatcher) (p : Nat) :
    SameConnections s (s.trackKeyRepeat env p) := by
  unfold trackKeyRepeat
  split
  · simp only
    refine sameConnections_trans ?_ ⟨rfl, rfl⟩
    refine sameConnections_trans ?_ ⟨rfl, rfl⟩
    split
    · split
      · exact sameConnections_trans (sameConnections_trans (sameConnections_setEntry s _ _)
          (sameConnections_resetKeyRepeatLocked _)) ⟨rfl, rfl⟩
      · exact sameConnections_trans (sameConnections_resetKeyRepeatLocked _) ⟨rfl, rfl⟩
    · exact sameConnections_trans (sameConnections_resetKeyRepeatLocked _) ⟨rfl, rfl⟩
  · exact sameConnections_resetKeyRepeatLocked s

theorem sameConnections_obtainRepeatEntry (s : InputDispatcher) (l : Nat) :
    SameConnections s (s.obtainRepeatEntry l).1 := by
  unfold obtainRepeatEntry
  simp only
  split
  · exact ⟨rfl, rfl⟩
  · exact ⟨rfl, rfl⟩

theorem sameConnections_processConfigurationChangedLocked (s : InputDispatcher)
    (currentTime : Int) (p : Nat) :
    SameConnections s (s.processConfigurationChangedLocked currentTime p) := by
  unfold processConfigurationChangedLocked
  split <;> exact ⟨rfl, rfl⟩

theorem sameConnections_enqueueInboundEntry (s : InputDispatcher) (eventTime : Int)
    (body : EntryBody) : SameConnections s (s.enqueueInboundEntry eventTime body) := by
  unfold enqueueInboundEntry
  simp only
  split <;> exact ⟨rfl, rfl⟩

theorem sameConnections_dropMovementKeys (l : List Nat) (s : InputDispatcher) :
    SameConnections s (dropMovementKeys l s) := by
  induction l generalizing s with
  | nil => exact ⟨rfl, rfl⟩
  | cons p l ih =>
    simp only [dropMovementKeys]
    split
    · split
      · exact sameConnections_trans ⟨rfl, rfl⟩ (ih _)
      · exact ⟨rfl, rfl⟩
    · exact ih s

theorem syncInv_of_suffix {c : Nat} {s s1 : InputDispatcher} (hf : CycleFrame c s s1)
    (hs : s1.syncSignature c <:+ s.syncSignature c) (h : SyncInv s) : SyncInv s1 := by
  obtain ⟨p, hp⟩ := h.same
  exact ⟨syncTailOk_of_suffix hf.conn hs h.tail, ⟨p, syncOf_of_suffix hf.conn hs hp⟩,
    by rw [hf.map]; exact h.channels⟩

theorem noSync_of_same {s s1 : InputDispatcher} (h : SameConnections s s1) (hs : NoSync s) :
    NoSync s1 :=
  noSync_of_conns h.1 hs

theorem SyncInv.keep {s s1 : InputDispatcher} (hs : SyncInv s) (h : SameConnections s s1) :
    SyncInv s1 :=
  syncInv_of_same h hs

theorem NoSync.keepNo {s s1 : InputDispatcher} (hs : NoSync s) (h : SameConnections s s1) :
    NoSync s1 :=
  noSync_of_conns h.1 hs

theorem noSync_syncOf {s : InputDispatcher} (h : NoSync s) (p : Nat) : SyncOf p s := by
  intro c x hx hb
  rw [h c x hx] at hb
  exact absurd hb (by simp)

/-- Dispatching a new event to targets on distinct channels, when no dispatch entry
is marked, keeps the invariant. -/
theorem dispatchEventToInputTargets_syncInv (env : Env) (currentTime : Int) (p : Nat)
    (ts : List InputTarget) (s : InputDispatcher)
    (hts : (ts.map (fun t => t.inputChannel)).Nodup) (hs : SyncInv s) (hn : NoSync s) :
    SyncInv (dispatchEventToInputTargets env currentTime p false ts s) := by
  obtain ⟨h1, h2⟩ := dispatchEventToInputTargets_sync_fresh env currentTime p ts s hts
    hs.channels hs.tail (noSync_syncOf hn p) (fun _ _ c _ => hn c)
  exact ⟨h1, ⟨p, h2⟩,
    by rw [(dispatchEventToInputTargets_frame env currentTime p false ts s).map]
       exact hs.channels⟩

theorem identifyInputTargetsAndDispatchKeyLocked_syncInv (env : Env) (hd : DistinctTargets env)
    (s : InputDispatcher) (currentTime : Int) (p : Nat) (hs : SyncInv s) (hn : NoSync s) :
    SyncInv (s.identifyInputTargetsAndDispatchKeyLocked env currentTime p) := by
  unfold identifyInputTargetsAndDispatchKeyLocked dispatchEventToCurrentInputTargetsLocked
  exact dispatchEventToInputTargets_syncInv env currentTime p _ _ (hd.1 _ _)
    (hs.keep ⟨rfl, rfl⟩) (hn.keepNo ⟨rfl, rfl⟩)

theorem identifyInputTargetsAndDispatchMotionLocked_syncInv (env : Env)
    (hd : DistinctTargets env) (s : InputDispatcher) (currentTime : Int) (p : Nat)
    (hs : SyncInv s) (hn : NoSync s) :
    SyncInv (s.identifyInputTargetsAndDispatchMotionLocked env currentTime p) := by
  unfold identifyInputTargetsAndDispatchMotionLocked dispatchEventToCurrentInputTargetsLocked
  exact dispatchEventToInputTargets_syncInv env currentTime p _ _ (hd.2 _ _)
    (hs.keep ⟨rfl, rfl⟩) (hn.keepNo ⟨rfl, rfl⟩)

theorem processKeyLocked_syncInv (env : Env) (hd : DistinctTargets env) (s : InputDispatcher)
    (currentTime : Int) (p : Nat) (hs : SyncInv s) (hn : NoSync s) :
    SyncInv (s.processKeyLocked env currentTime p) := by
  unfold processKeyLocked
  have h := sameConnections_trackKeyRepeat env s p
  exact identifyInputTargetsAndDispatchKeyLocked_syncInv env hd _ currentTime p
    (syncInv_of_same h hs) (noSync_of_conns h.1 hn)

theorem processKeyRepeatLocked_syncInv (env : Env) (hd : DistinctTargets env)
    (s : InputDispatcher) (currentTime : Int) (hs : SyncInv s) (hn : NoSync s) :
    SyncInv (s.processKeyRepeatLocked env currentTime) := by
  unfold processKeyRepeatLocked
  split
  · exact hs
  · rename_i l _
    have h := sameConnections_obtainRepeatEntry s l
    simp only
    exact identifyInputTargetsAndDispatchKeyLocked_syncInv env hd _ currentTime _
      (syncInv_of_conns h.1 h.2 hs) (noSync_of_conns h.1 hn)

theorem dispatchInboundEntry_syncInv (env : Env) (hd : DistinctTargets env)
    (s : InputDispatcher) (currentTime : Int) (p : Nat) (hs : SyncInv s) (hn : NoSync s) :
    SyncInv (s.dispatchInboundEntry env currentTime p) := by
  unfold dispatchInboundEntry
  split
  · exact syncInv_of_same (sameConnections_trans
      (sameConnections_processConfigurationChangedLocked s currentTime p) ⟨rfl, rfl⟩) hs
  · exact syncInv_of_same (sameConnections_releaseKeyEntry _ p)
      (processKeyLocked_syncInv env hd s currentTime p hs hn)
  · exact syncInv_of_same (sameConnections_releaseKeyEntry _ p)
      (identifyInputTargetsAndDispatchMotionLocked_syncInv env hd s currentTime p hs hn)

theorem processTimeouts_syncInv (currentTime : Int) (fuel i : Nat) (r : TimeoutScan)
    (h : SyncInv r.state) : SyncInv (processTimeouts currentTime fuel i r).state := by
  induction fuel generalizing i r with
  | zero => exact h
  | succ fuel ih =>
    simp only [processTimeouts]
    split
    · exact h
    · rename_i c _
      generalize ht : (if (r.state.conn c).nextTimeoutTime ≤ currentTime
          then r.state.timeoutDispatchCycleLocked currentTime c else (r.state, false)) = t
      have h1 : SyncInv t.1 := by
        rw [← ht]
        split
        · exact syncInv_of_suffix (timeoutDispatchCycleLocked_frame _ currentTime c)
            (timeoutDispatchCycleLocked_suffix _ currentTime c) h
        · exact h
      split
      · exact ih _ _ h1
      · exact ih _ _ h1

theorem dispatchOnceTimeouts_syncInv (env : Env) (s : InputDispatcher) (currentTime : Int)
    (h : SyncInv s) : SyncInv (s.dispatchOnceTimeouts env currentTime).state := by
  unfold dispatchOnceTimeouts
  apply processTimeouts_syncInv
  simp only
  split
  · exact syncInv_of_same (sameConnections_resetKeyRepeatLocked s) h
  · exact h

/-- When the loop over the active connections of `dispatchOnce` ends without the
flag raised, no dispatch entry of any connection is marked `FLAG_SYNC`. -/
theorem dispatchOnceTimeouts_noSync (env : Env) {s : InputDispatcher} (currentTime : Int)
    (hi : Inv none s) (hf : (s.dispatchOnceTimeouts env currentTime).hasPendingSyncTarget = false) :
    NoSync (s.dispatchOnceTimeouts env currentTime).state := by
  have hi1 := dispatchOnceTimeouts_inv env currentTime hi
  intro c x hx
  obtain ⟨d, hd, rfl⟩ := List.mem_map.mp hx
  have hact : c ∈ (s.dispatchOnceTimeouts env currentTime).state.mActiveConnections :=
    (hi1.connOk c).active.mpr (List.ne_nil_of_mem hd)
  cases hb : d.isSync with
  | false => rfl
  | true =>
    have hpend : ((s.dispatchOnceTimeouts env currentTime).state.conn c).hasPendingSyncTarget
        = true := by
      unfold Connection.hasPendingSyncTarget
      exact List.any_eq_true.mpr ⟨d, hd, hb⟩
    have : (s.dispatchOnceTimeouts env currentTime).hasPendingSyncTarget = true := by
      unfold dispatchOnceTimeouts at hact hpend ⊢
      refine @processTimeouts_flag none currentTime _ 0 _ ?_ (by simp) ?_ c hact hpend
      · simp only
        split
        · exact resetKeyRepeatLocked_inv hi
        · exact hi
      · intro j c hj; omega
    rw [hf] at this
    exact absurd this (by simp)

theorem dispatchOnce_syncInv (env : Env) (hd : DistinctTargets env) {s : InputDispatcher}
    (currentTime : Int) (hi : Inv none s) (hs : SyncInv s) :
    SyncInv (s.dispatchOnce env currentTime) := by
  have h1 := dispatchOnceTimeouts_syncInv env s currentTime hs
  unfold dispatchOnce
  simp only
  split
  · rename_i hflag
    have hn := dispatchOnceTimeouts_noSync env currentTime hi (by simpa using hflag)
    split
    · split
      · split
        · exact processKeyRepeatLocked_syncInv env hd _ currentTime h1 hn
        · exact h1.keep ⟨rfl, rfl⟩
      · exact h1.keep ⟨rfl, rfl⟩
    · exact dispatchInboundEntry_syncInv env hd _ currentTime _
        (h1.keep ⟨rfl, rfl⟩) (hn.keepNo ⟨rfl, rfl⟩)
  · exact h1.keep ⟨rfl, rfl⟩

theorem findStreamEntry_found_sync (s : InputDispatcher) (deviceId : Int) (pointerCount : Nat)
    (l : List Nat) (p : Nat) (h : findStreamEntry s deviceId pointerCount l = .found p) :
    ∃ c, (p, true) ∈ s.syncSignature c := by
  rw [findStreamEntry_eq] at h
  cases hf : (l.filterMap (fun c => (s.conn c).outboundQueue.getLast?)).find?
      DispatchEntry.isSync with
  | none => rw [hf] at h; simp at h
  | some d =>
    rw [hf] at h
    simp only at h
    split at h
    · have hp : d.eventEntry = p := by simpa using h
      have hd := List.find?_some hf
      obtain ⟨c, _, hcd⟩ := List.mem_filterMap.mp (List.mem_of_find?_eq_some hf)
      refine ⟨c, List.mem_map.mpr ⟨d, List.mem_of_getLast?_eq_some hcd, ?_⟩⟩
      rw [hp, hd]
    · simp at h

theorem notifyMotion_syncInv (env : Env) (s : InputDispatcher) (currentTime : Int)
    (a : MotionArgs) (hs : SyncInv s) : SyncInv (s.notifyMotion env currentTime a) := by
  unfold notifyMotion
  split
  · split
    · exact hs.keep (sameConnections_setEntry s _ _)
    · exact hs.keep (sameConnections_enqueueInboundEntry s _ _)
    · split
      · rename_i p hfound
        obtain ⟨c, hc⟩ := findStreamEntry_found_sync s _ _ _ p hfound
        obtain ⟨q, hq⟩ := hs.same
        have hqp : q = p := (hq c _ hc rfl).symm
        subst hqp
        have h0 := hs.keep (sameConnections_setEntry s q
          { s.entry q with body := .motion ((s.entry q).asMotion.appendMotionSample a.eventTime
              a.pointerCount a.pointerCoords) })
        obtain ⟨h1, h2⟩ := dispatchEventToInputTargets_sync_resume env currentTime q
          (s.appendMotionSample q a.eventTime a.pointerCount a.pointerCoords).mCurrentInputTargets
          (s.appendMotionSample q a.eventTime a.pointerCount a.pointerCoords) h0.tail
          (syncOf_of_conns rfl hq)
        refine ⟨h1, ⟨q, h2⟩, ?_⟩
        unfold dispatchEventToCurrentInputTargetsLocked
        rw [(dispatchEventToInputTargets_frame env currentTime q true _ _).map]
        exact hs.channels
      · exact hs.keep (sameConnections_enqueueInboundEntry s _ _)
  · exact hs.keep (sameConnections_enqueueInboundEntry s _ _)

theorem syncInv_append {s t : InputDispatcher} {x : Connection} {fd : Int} (hi : Inv none s)
    (hs : SyncInv s) (hc : t.conns = s.conns ++ [x]) (hx : x.outboundQueue = [])
    (hm : t.mConnectionsByReceiveFd = s.mConnectionsByReceiveFd ++ [(fd, s.conns.length)]) :
    SyncInv t := by
  have hsig : ∀ c, t.syncSignature c = s.syncSignature c ∨ t.syncSignature c = [] := by
    intro c
    by_cases hlt : c < s.conns.length
    · left
      simp only [syncSignature, conn, hc]
      rw [List.getElem?_append_left hlt]
    · right
      rcases Nat.lt_or_ge s.conns.length c with h | h
      · have : (s.conns ++ [x])[c]? = none :=
          List.getElem?_eq_none (by simp; omega)
        simp [syncSignature, conn, hc, this, Connection.invalid]
      · have : c = s.conns.length := by omega
        subst this
        simp [syncSignature, conn, hc, hx]
  obtain ⟨q, hq⟩ := hs.same
  refine ⟨?_, ⟨q, ?_⟩, ?_⟩
  · intro c y hy
    rcases hsig c with h | h
    · rw [h] at hy; exact hs.tail c y hy
    · rw [h] at hy; simp at hy
  · intro c y hy
    rcases hsig c with h | h
    · rw [h] at hy; exact hq c y hy
    · rw [h] at hy; simp at hy
  · rw [hm, List.map_append, List.nodup_append]
    refine ⟨hs.channels, by simp, ?_⟩
    intro a ha hb
    simp only [List.map_cons, List.map_nil, List.mem_singleton] at hb
    subst hb
    obtain ⟨⟨k, v⟩, hkv, hv⟩ := List.mem_map.mp ha
    have := hi.mapValid k v hkv
    simp only at hv
    omega

theorem registerInputChannel_syncInv (env : Env) {s : InputDispatcher} (hi : Inv none s)
    (hs : SyncInv s) (fd : Int) : SyncInv (s.registerInputChannel env fd).1 := by
  unfold registerInputChannel
  split
  · exact hs
  · simp only
    split
    · exact hs.keep ⟨rfl, rfl⟩
    · exact syncInv_append hi hs rfl rfl rfl

theorem unregisterInputChannel_syncInv {s : InputDispatcher} (hs : SyncInv s) (fd : Int) :
    SyncInv (s.unregisterInputChannel fd).1 := by
  unfold unregisterInputChannel
  split
  · exact hs
  · rename_i c _
    obtain ⟨q, hq⟩ := hs.same
    have h1 : SyncInv { s with
        mConnectionsByReceiveFd := s.mConnectionsByReceiveFd.eraseP (fun kv => kv.1 == fd) } :=
      ⟨syncTailOk_of_conns rfl hs.tail, ⟨q, syncOf_of_conns rfl hq⟩,
        hs.channels.sublist ((List.eraseP_sublist _).map _)⟩
    have h2 := syncInv_of_suffix (CycleFrame.frame_setConn c _
      { (InputDispatcher.conn { s with
          mConnectionsByReceiveFd := s.mConnectionsByReceiveFd.eraseP (fun kv => kv.1 == fd) }
          c) with status := .ZOMBIE })
      (suffix_of_outbound (List.suffix_refl _) (outbound_setConn_of_eq _ c _ rfl)) h1
    have h3 := syncInv_of_suffix (abortDispatchCycleLocked_frame _ c true)
      (abortDispatchCycleLocked_suffix _ c true) h2
    exact h3.keep ⟨rfl, rfl⟩

theorem handleReceiveCallback_syncInv (env : Env) {s : InputDispatcher} (hs : SyncInv s)
    (currentTime : Int) (fd : Int) (events : Nat) :
    SyncInv (s.handleReceiveCallback env currentTime fd events).1 := by
  unfold handleReceiveCallback
  split
  · exact hs
  · rename_i c _
    split
    · exact syncInv_of_suffix (abortDispatchCycleLocked_frame _ c true)
        (abortDispatchCycleLocked_suffix _ c true) hs
    · split
      · exact hs
      · simp only
        have h1 : SyncInv (s.publisherCalled env c .receiveFinishedSignal) :=
          hs.keep ⟨rfl, rfl⟩
        split
        · exact syncInv_of_suffix (abortDispatchCycleLocked_frame _ c true)
            (abortDispatchCycleLocked_suffix _ c true) h1
        · exact syncInv_of_suffix (finishDispatchCycleLocked_frame env _ currentTime c)
            (finishDispatchCycleLocked_suffix env _ currentTime c) h1

theorem init_syncInv : SyncInv init := by
  have h : ∀ c, init.syncSignature c = [] := by
    intro c
    simp [syncSignature, conn_of_le init (Nat.zero_le _), Connection.invalid]
  refine ⟨?_, ⟨0, ?_⟩, by simp [init]⟩
  · intro c x hx
    rw [h] at hx
    simp at hx
  · intro c x hx
    rw [h] at hx
    simp at hx

theorem step_syncInv (env : Env) (hd : DistinctTargets env) (currentTime : Int)
    {s : InputDispatcher} (op : Operation) (hi : Inv none s) (hs : SyncInv s) :
    SyncInv (s.step env currentTime op) := by
  cases op with
  | notifyConfigurationChanged t a b c =>
    exact hs.keep (sameConnections_enqueueInboundEntry s _ _)
  | notifyLidSwitchChanged t o => exact hs.keep ⟨rfl, rfl⟩
  | notifyAppSwitchComing t => exact hs.keep (sameConnections_dropMovementKeys _ s)
  | notifyKey t deviceId nature policyFlags action flags keyCode scanCode metaState downTime =>
    exact hs.keep (sameConnections_enqueueInboundEntry s _ _)
  | notifyMotion a => exact notifyMotion_syncInv env s currentTime a hs
  | registerInputChannel fd => exact registerInputChannel_syncInv env hi hs fd
  | unregisterInputChannel fd => exact unregisterInputChannel_syncInv hs fd
  | dispatchOnce => exact dispatchOnce_syncInv env hd currentTime hi hs
  | handleReceiveCallback fd events =>
    exact handleReceiveCallback_syncInv env hs currentTime fd events

theorem reachable_of_reachableDistinct {s : InputDispatcher} (h : ReachableDistinct s) :
    Reachable s := by
  induction h with
  | init => exact Reachable.init
  | step env _ currentTime op _ ih => exact Reachable.step env currentTime op ih

theorem syncInv_of_reachableDistinct {s : InputDispatcher} (h : ReachableDistinct s) :
    SyncInv s := by
  induction h with
  | init => exact init_syncInv
  | step env hd currentTime op hr ih =>
    exact step_syncInv env hd currentTime op
      (inv_of_reachable (reachable_of_reachableDistinct hr)) ih

end InputDispatcher

open InputDispatcher

theorem Example.run_reachableDistinct (e : Env) (he : DistinctTargets e)
    (ops : List (Int × Operation)) {s : InputDispatcher} (h : ReachableDistinct s) :
    ReachableDistinct (Example.run e ops s) := by
  induction ops generalizing s with
  | nil => exact h
  | cons o ops ih => exact ih (ReachableDistinct.step e he o.1 o.2 h)

theorem Example.distinctTargets_env (t : InputTarget) : DistinctTargets (Example.env [t]) :=
  ⟨fun _ _ => by simp [Example.env], fun _ _ => by simp [Example.env]⟩

/-- The sync-tail invariant where the code keeps it: in every state reachable by the
public operations when each policy answer to a target query names every channel at
most once, the outbound queue of each connection holds at most one dispatch entry
marked `FLAG_SYNC`, and if there is one it is the tail of the queue. -/
theorem sync_entry_only_at_tail (s : InputDispatcher) (h : ReachableDistinct s) (c : Nat) :
    (s.conn c).outboundQueue.countP DispatchEntry.isSync ≤ 1
      ∧ ∀ d ∈ (s.conn c).outboundQueue, d.isSync = true →
          (s.conn c).outboundQueue.getLast? = some d := by
  have ht := (syncInv_of_reachableDistinct h).tail c
  unfold syncSignature at ht
  generalize (s.conn c).outboundQueue = q at ht
  rcases List.eq_nil_or_concat q with rfl | ⟨l, b, rfl⟩
  · simp
  · rw [List.concat_eq_append] at ht ⊢
    have hl : ∀ d ∈ l, d.isSync = false := by
      intro d hd
      have := ht (d.eventEntry, d.isSync) (by
        rw [List.map_append, List.map_cons, List.map_nil, List.dropLast_concat]
        exact List.mem_map.mpr ⟨d, hd, rfl⟩)
      exact this
    constructor
    · rw [List.countP_append]
      have h0 : l.countP DispatchEntry.isSync = 0 := by
        rw [List.countP_eq_zero]
        intro d hd
        rw [hl d hd]
        simp
      have h1 : [b].countP DispatchEntry.isSync ≤ 1 := by
        simpa using List.countP_le_length DispatchEntry.isSync (l := [b])
      omega
    · intro d hd hs
      rcases List.mem_append.mp hd with hd1 | hd1
      · rw [hl d hd1] at hs
        exact absurd hs (by simp)
      · simp only [List.mem_singleton] at hd1
        subst hd1
        simp

theorem sync_entry_only_at_tail_witness :
    ReachableDistinct Example.moveDelivering
      ∧ ((Example.moveDelivering.conn 0).outboundQueue.map DispatchEntry.isSync) = [true]
      ∧ (Example.moveDelivering.conn 0).outboundQueue.countP DispatchEntry.isSync ≤ 1 :=
  ⟨Example.run_reachableDistinct _ (Example.distinctTargets_env _) _ ReachableDistinct.init,
    by decide,
    (sync_entry_only_at_tail Example.moveDelivering
      (Example.run_reachableDistinct _ (Example.distinctTargets_env _) _
        ReachableDistinct.init) 0).1⟩

/-- C5 fails in the code. The comment in `notifyMotion` says that the streaming code
"crucially depends on the invariant that an outbound queue always contains at most
one synchronous event and it is always last", yet nothing keeps it when the policy
names a channel twice in one answer.  The state `Example.moveDispatchedTwice` is
reached by public operations (channel 7 is registered, a move is notified and
`dispatchOnce` gets the answer `[7 sync, 7 sync]`); the outbound queue of connection
0 then holds two dispatch entries marked `FLAG_SYNC`, the first of which, the one in
progress, is not the tail. -/
theorem sync_entry_twice_counterexample :
    Reachable Example.moveDispatchedTwice
      ∧ ((Example.moveDispatchedTwice.conn 0).outboundQueue.map
          (fun d => (d.isSync, d.inProgress))) = [(true, true), (true, false)]
      ∧ (Example.moveDispatchedTwice.conn 0).outboundQueue.countP DispatchEntry.isSync = 2 :=
  ⟨Example.run_reachable _ _ Reachable.init, by decide, by decide⟩

end Dispatcher

namespace Dispatcher

open InputDispatcher

/-! ## A broken connection -/

/-- C17. A `BROKEN` connection is inert: `finishDispatchCycleLocked` returns the state
as it is (no field of the connection and no queue changes),
`abortDispatchCycleLocked` with either value of `broken` returns `false` and the state
as it is, so that applying it twice is applying it once, and
`timeoutDispatchCycleLocked` returns `false` and the state as it is; the status is
still `BROKEN` after each of them. -/
theorem broken_connection_inert (env : Env) (s : InputDispatcher) (currentTime : Int)
    (c : Nat) (broken : Bool) (h : (s.conn c).status = .BROKEN) :
    s.finishDispatchCycleLocked env currentTime c = s
      ∧ s.abortDispatchCycleLocked c broken = (s, false)
      ∧ (s.abortDispatchCycleLocked c broken).1.abortDispatchCycleLocked c broken
          = s.abortDispatchCycleLocked c broken
      ∧ s.timeoutDispatchCycleLocked currentTime c = (s, false)
      ∧ ((s.finishDispatchCycleLocked env currentTime c).conn c).status = .BROKEN
      ∧ ((s.abortDispatchCycleLocked c broken).1.conn c).status = .BROKEN
      ∧ ((s.timeoutDispatchCycleLocked currentTime c).1.conn c).status = .BROKEN := by
  have hf : s.finishDispatchCycleLocked env currentTime c = s := by
    simp [finishDispatchCycleLocked, h]
  have ha : s.abortDispatchCycleLocked c broken = (s, false) :=
    abortDispatchCycleLocked_broken s c broken h
  have ht : s.timeoutDispatchCycleLocked currentTime c = (s, false) := by
    simp [timeoutDispatchCycleLocked, h]
  refine ⟨hf, ha, ?_, ht, ?_, ?_, ?_⟩
  · rw [ha]; exact ha
  · rw [hf]; exact h
  · rw [ha]; exact h
  · rw [ht]; exact h

theorem broken_connection_inert_witness :
    (Example.keyBroken.conn 0).status = .BROKEN
      ∧ Example.keyBroken.finishDispatchCycleLocked (Example.env []) 5 0 = Example.keyBroken
      ∧ Example.keyBroken.abortDispatchCycleLocked 0 true = (Example.keyBroken, false) :=
  ⟨by decide,
    (broken_connection_inert (Example.env []) Example.keyBroken 5 0 true (by decide)).1,
    (broken_connection_inert (Example.env []) Example.keyBroken 5 0 true (by decide)).2.1⟩

end Dispatcher

namespace Dispatcher

open InputDispatcher

/-! ## The app-switch trim -/

theorem InputDispatcher.isOtherKeyEntry_congr {e1 e2 : EventEntry} (h : e1.body = e2.body) :
    isOtherKeyEntry e1 = isOtherKeyEntry e2 := by
  simp [isOtherKeyEntry, h]

theorem InputDispatcher.isMovementKeyEntry_congr {e1 e2 : EventEntry} (h : e1.body = e2.body) :
    isMovementKeyEntry e1 = isMovementKeyEntry e2 := by
  simp [isMovementKeyEntry, h]

theorem InputDispatcher.releaseKeyEntry_body (s : InputDispatcher) (p q : Nat) :
    ((s.releaseKeyEntry p).entry q).body = (s.entry q).body := by
  rw [releaseKeyEntry_eq, entry_setEntry]
  split
  · rename_i h
    rw [EventEntry.release_body, h.1]
  · rfl

/-- The loop of `notifyAppSwitchComing`: of the entries still to be visited, those
before the first non-movement key (seen from the tail) lose their movement keys, and
the rest of the queue stays. -/
theorem InputDispatcher.dropMovementKeys_queue (s0 : InputDispatcher) :
    ∀ (l : List Nat) (s : InputDispatcher) (kept : List Nat),
      s.mInboundQueue = l.reverse ++ kept → s.mInboundQueue.Nodup →
      (∀ p, (s.entry p).body = (s0.entry p).body) →
      (dropMovementKeys l s).mInboundQueue
        = (l.dropWhile (fun p => !isOtherKeyEntry (s0.entry p))).reverse
          ++ ((l.takeWhile (fun p => !isOtherKeyEntry (s0.entry p))).reverse.filter
              (fun p => !isMovementKeyEntry (s0.entry p)))
          ++ kept := by
  intro l
  induction l with
  | nil => intro s kept hq _ _; simpa [dropMovementKeys] using hq
  | cons p l ih =>
    intro s kept hq hn hb
    have hbp := hb p
    simp only [dropMovementKeys]
    cases hbody : (s.entry p).body with
    | key k =>
      rw [hbody] at hbp
      simp only
      by_cases hmv : isMovementKey k.keyCode = true
      · rw [if_pos hmv]
        have hf : (!isOtherKeyEntry (s0.entry p)) = true := by
          simp [isOtherKeyEntry, ← hbp, hmv]
        have hg : (!isMovementKeyEntry (s0.entry p)) = false := by
          simp [isMovementKeyEntry, ← hbp, hmv]
        have hpl : p ∉ l.reverse := by
          rw [hq, List.reverse_cons, List.append_assoc] at hn
          have := (List.nodup_append.mp hn).2.2
          intro hp
          exact this hp (by simp)
        have hq1 : s.mInboundQueue.erase p = l.reverse ++ kept := by
          rw [hq, List.reverse_cons, List.append_assoc, List.erase_append_right _ hpl]
          simp
        rw [ih _ kept (by simpa [releaseKeyEntry] using hq1)
          (by simpa [releaseKeyEntry] using hn.erase p)
          (fun q => by rw [releaseKeyEntry_body]; exact hb q)]
        simp [List.dropWhile_cons, List.takeWhile_cons, hf, hg, List.filter_append]
      · rw [if_neg hmv]
        have hf : (!isOtherKeyEntry (s0.entry p)) = false := by
          simp [isOtherKeyEntry, ← hbp, hmv]
        rw [hq]
        simp [List.dropWhile_cons, List.takeWhile_cons, hf]
    | motion m =>
      rw [hbody] at hbp
      have hf : (!isOtherKeyEntry (s0.entry p)) = true := by
        simp [isOtherKeyEntry, ← hbp]
      have hg : (!isMovementKeyEntry (s0.entry p)) = true := by
        simp [isMovementKeyEntry, ← hbp]
      simp only
      rw [ih s (p :: kept) (by rw [hq]; simp) hn hb]
      simp [List.dropWhile_cons, List.takeWhile_cons, hf, hg, List.filter_append]
    | configurationChanged a b c =>
      rw [hbody] at hbp
      have hf : (!isOtherKeyEntry (s0.entry p)) = true := by
        simp [isOtherKeyEntry, ← hbp]
      have hg : (!isMovementKeyEntry (s0.entry p)) = true := by
        simp [isMovementKeyEntry, ← hbp]
      simp only
      rw [ih s (p :: kept) (by rw [hq]; simp) hn hb]
      simp [List.dropWhile_cons, List.takeWhile_cons, hf, hg, List.filter_append]

theorem InputDispatcher.upto_append_after (s : InputDispatcher) (q : List Nat) :
    uptoLastOtherKey s q ++ afterLastOtherKey s q = q := by
  unfold uptoLastOtherKey afterLastOtherKey
  rw [← List.reverse_append, List.takeWhile_append_dropWhile, List.reverse_reverse]

/-- C11. App-switch trim: on an inbound queue `q` (a list without repetition, as a
linked list is), `notifyAppSwitchComing` leaves `q` with exactly those entries removed
that are key entries with a movement key code and lie after the last non-movement key
entry of `q` (all movement key entries if there is none); what is kept, which includes
every motion and configuration change entry and every entry up to that last
non-movement key entry, keeps its order. -/
theorem notifyAppSwitchComing_trims (s : InputDispatcher) (eventTime : Int)
    (hn : s.mInboundQueue.Nodup) :
    (s.notifyAppSwitchComing eventTime).mInboundQueue = appSwitchTrim s s.mInboundQueue
      ∧ (s.notifyAppSwitchComing eventTime).mInboundQueue.Sublist s.mInboundQueue
      ∧ ∀ p ∈ s.mInboundQueue,
          (p ∉ (s.notifyAppSwitchComing eventTime).mInboundQueue
            ↔ isMovementKeyEntry (s.entry p) = true
              ∧ p ∈ afterLastOtherKey s s.mInboundQueue) := by
  have h1 : (s.notifyAppSwitchComing eventTime).mInboundQueue
      = appSwitchTrim s s.mInboundQueue := by
    unfold notifyAppSwitchComing
    rw [dropMovementKeys_queue s s.mInboundQueue.reverse s [] (by simp) hn (fun _ => rfl)]
    simp [appSwitchTrim, uptoLastOtherKey, afterLastOtherKey]
  have hsplit := upto_append_after s s.mInboundQueue
  refine ⟨h1, ?_, ?_⟩
  · rw [h1, appSwitchTrim]
    nth_rewrite 3 [← hsplit]
    exact List.Sublist.append (List.Sublist.refl _) (List.filter_sublist _)
  · intro p hp
    rw [h1, appSwitchTrim]
    rw [← hsplit] at hp hn
    have hdis := (List.nodup_append.mp hn).2.2
    simp only [List.mem_append, List.mem_filter, not_or, not_and, Bool.not_eq_true,
      Bool.not_eq_false', Bool.not_eq_eq_eq_not, Bool.not_true, Bool.not_false]
    constructor
    · rintro ⟨hnf, hmv⟩
      rcases List.mem_append.mp hp with hpf | hpt
      · exact absurd hpf hnf
      · refine ⟨?_, hpt⟩
        have := hmv hpt
        simpa using this
    · rintro ⟨hmv, hpt⟩
      refine ⟨fun hpf => hdis hpf hpt, fun _ => ?_⟩
      simp [hmv]

theorem notifyAppSwitchComing_trims_witness :
    Example.keysQueued.mInboundQueue = [0, 1, 2, 3, 4, 5]
      ∧ (Example.keysQueued.notifyAppSwitchComing 6).mInboundQueue = [0, 1, 2, 4] :=
  ⟨by decide,
    (notifyAppSwitchComing_trims Example.keysQueued 6 (by decide)).1.trans (by decide)⟩

end Dispatcher

namespace Dispatcher

namespace InputDispatcher

/-! ## What `abortDispatchCycleLocked` leaves behind -/

theorem entry_releaseDispatchEntry (s : InputDispatcher) (d : DispatchEntry) (p : Nat)
    (hp : p < s.heap.length) :
    (s.releaseDispatchEntry d).entry p
      = if d.eventEntry = p then EventEntry.release (s.entry p) else s.entry p := by
  rw [releaseDispatchEntry_eq, entry_setEntry]
  by_cases he : d.eventEntry = p
  · subst he
    simp [hp]
  · simp [he]

theorem releaseDispatchEntry_heap_length (s : InputDispatcher) (d : DispatchEntry) :
    (s.releaseDispatchEntry d).heap.length = s.heap.length := by
  rw [releaseDispatchEntry_eq, setEntry_heap_length]

/-- Draining a queue releases each event entry once per dispatch entry that
references it. -/
theorem drainOutboundQueue_entry (c : Nat) (q : List DispatchEntry) (s : InputDispatcher)
    (p : Nat) (hp : p < s.heap.length) :
    (drainOutboundQueue c q s).entry p = EventEntry.release^[queueRefs q p] (s.entry p) := by
  induction q generalizing s with
  | nil => rfl
  | cons d q ih =>
    simp only [drainOutboundQueue]
    have hp1 : p < (s.setOutbound c q).heap.length := hp
    rw [ih _ (by rw [releaseDispatchEntry_heap_length]; exact hp1),
      entry_releaseDispatchEntry _ _ _ hp1, setOutbound_entry, queueRefs_cons]
    by_cases he : d.eventEntry = p
    · simp only [he, if_true]
      rw [Function.iterate_succ_apply]
    · simp [he]

theorem drainOutboundQueue_entry_of_le (c : Nat) (q : List DispatchEntry) (s : InputDispatcher)
    (p : Nat) (hp : s.heap.length ≤ p) : (drainOutboundQueue c q s).entry p = s.entry p := by
  have := (drainOutboundQueue_frame c q s).heapLength
  rw [entry_of_le s hp, entry_of_le _ (by omega)]

theorem iterate_release_refCount (n : Nat) (e : EventEntry) :
    (EventEntry.release^[n] e).refCount = e.refCount - n := by
  induction n generalizing e with
  | zero => simp
  | succ n ih =>
    rw [Function.iterate_succ_apply, ih, EventEntry.release_refCount]
    push_cast
    omega

theorem iterate_release_body (n : Nat) (e : EventEntry) :
    (EventEntry.release^[n] e).body = e.body := by
  induction n generalizing e with
  | zero => rfl
  | succ n ih => rw [Function.iterate_succ_apply, ih, EventEntry.release_body]

theorem drainOutboundQueue_callouts (c : Nat) (q : List DispatchEntry) (s : InputDispatcher) :
    (drainOutboundQueue c q s).callouts = s.callouts := by
  induction q generalizing s with
  | nil => rfl
  | cons d q ih =>
    simp only [drainOutboundQueue]
    rw [ih, releaseDispatchEntry_eq]
    rfl

/-- The connection after `abortDispatchCycleLocked`, when it was not `BROKEN`. -/
theorem abortDispatchCycleLocked_conn (s : InputDispatcher) (c : Nat) (broken : Bool)
    (hc : c < s.conns.length) (hs : (s.conn c).status ≠ .BROKEN) :
    (s.abortDispatchCycleLocked c broken).1.conn c
      = { s.conn c with
          nextTimeoutTime := LONG_LONG_MAX, outboundQueue := [],
          status := if broken then .BROKEN else (s.conn c).status } := by
  have h1 : (s.setConn c { s.conn c with nextTimeoutTime := LONG_LONG_MAX }).conn c
      = { s.conn c with nextTimeoutTime := LONG_LONG_MAX } := conn_setConn_self _ _ hc
  have h2 : (drainOutboundQueue c (s.conn c).outboundQueue
      (s.setConn c { s.conn c with nextTimeoutTime := LONG_LONG_MAX })).conn c
      = { s.conn c with nextTimeoutTime := LONG_LONG_MAX, outboundQueue := [] } := by
    rw [drainOutboundQueue_conn c _ _ (by rw [h1]), h1]
  have hlen2 : c < (drainOutboundQueue c (s.conn c).outboundQueue
      (s.setConn c { s.conn c with nextTimeoutTime := LONG_LONG_MAX })).conns.length := by
    rw [(drainOutboundQueue_frame c _ _).connsLength]
    simpa using hc
  simp only [abortDispatchCycleLocked, hs, if_false, h1]
  cases broken with
  | true =>
    simp only [if_true, callout_conn]
    rw [conn_setConn_self _ _ (by simpa using hlen2)]
    simp only [deactivateConnectionLocked_conn, h2]
  | false =>
    simp only [Bool.false_eq_true, if_false, deactivateConnectionLocked_conn, h2]

theorem abortDispatchCycleLocked_entry (s : InputDispatcher) (c : Nat) (broken : Bool)
    (hs : (s.conn c).status ≠ .BROKEN) (p : Nat) (hp : p < s.heap.length) :
    (s.abortDispatchCycleLocked c broken).1.entry p
      = EventEntry.release^[queueRefs (s.conn c).outboundQueue p] (s.entry p) := by
  have hq : ((s.setConn c { s.conn c with nextTimeoutTime := LONG_LONG_MAX }).conn c
      ).outboundQueue = (s.conn c).outboundQueue := outbound_setConn_of_eq s c _ rfl
  have h2 := drainOutboundQueue_entry c
    ((s.setConn c { s.conn c with nextTimeoutTime := LONG_LONG_MAX }).conn c).outboundQueue
    (s.setConn c { s.conn c with nextTimeoutTime := LONG_LONG_MAX }) p hp
  rw [hq] at h2
  simp only [abortDispatchCycleLocked, hs, if_false]
  split
  · simp only [callout_entry, setConn_entry, deactivateConnectionLocked_entry]
    rw [hq]
    exact h2
  · simp only [deactivateConnectionLocked_entry]
    rw [hq]
    exact h2

theorem abortDispatchCycleLocked_callouts (s : InputDispatcher) (c : Nat) (broken : Bool)
    (hs : (s.conn c).status ≠ .BROKEN) :
    (s.abortDispatchCycleLocked c broken).1.callouts
      = s.callouts ++ (if broken then [.onDispatchCycleBroken c] else []) := by
  simp only [abortDispatchCycleLocked, hs, if_false]
  cases broken with
  | true => simp [callout, deactivateConnectionLocked, drainOutboundQueue_callouts]
  | false => simp [deactivateConnectionLocked, drainOutboundQueue_callouts]

theorem queueRefs_eq_zero {q : List DispatchEntry} {p : Nat}
    (h : ∀ d ∈ q, d.eventEntry ≠ p) : queueRefs q p = 0 := by
  unfold queueRefs
  rw [List.countP_eq_zero]
  intro d hd
  simpa using h d hd

/-- The reference counts after `abortDispatchCycleLocked`, when every dispatch entry
of the queue references a cell of the heap. -/
theorem abortDispatchCycleLocked_refCount (s : InputDispatcher) (c : Nat) (broken : Bool)
    (hs : (s.conn c).status ≠ .BROKEN)
    (hq : ∀ d ∈ (s.conn c).outboundQueue, d.eventEntry < s.heap.length) (p : Nat) :
    ((s.abortDispatchCycleLocked c broken).1.entry p).refCount
      = (s.entry p).refCount - queueRefs (s.conn c).outboundQueue p := by
  by_cases hp : p < s.heap.length
  · rw [abortDispatchCycleLocked_entry s c broken hs p hp, iterate_release_refCount]
  · have h0 : queueRefs (s.conn c).outboundQueue p = 0 :=
      queueRefs_eq_zero (fun d hd he => hp (he ▸ hq d hd))
    have hlen := (abortDispatchCycleLocked_frame s c broken).heapLength
    rw [h0, entry_of_le s (Nat.le_of_not_lt hp), entry_of_le _ (by omega)]
    simp

end InputDispatcher

open InputDispatcher

/-- C18. Abort postcondition: on a connection whose status is not `BROKEN` (in a state
whose active set has no repetition and whose dispatch entries reference cells of the
heap), `abortDispatchCycleLocked` returns `true` and leaves `nextTimeoutTime =
LONG_LONG_MAX`, the outbound queue empty, the connection outside the active set, and
the reference count of each event entry reduced by the number of drained dispatch
entries that referenced it; the status is `BROKEN` if `broken` is `true` and is
unchanged if it is `false`. -/
theorem abortDispatchCycleLocked_postcondition (s : InputDispatcher) (c : Nat)
    (broken : Bool) (hc : c < s.conns.length) (hs : (s.conn c).status ≠ .BROKEN)
    (hn : s.mActiveConnections.Nodup)
    (hq : ∀ d ∈ (s.conn c).outboundQueue, d.eventEntry < s.heap.length) :
    (s.abortDispatchCycleLocked c broken).2 = true
      ∧ ((s.abortDispatchCycleLocked c broken).1.conn c).nextTimeoutTime = LONG_LONG_MAX
      ∧ ((s.abortDispatchCycleLocked c broken).1.conn c).outboundQueue = []
      ∧ c ∉ (s.abortDispatchCycleLocked c broken).1.mActiveConnections
      ∧ (∀ p, ((s.abortDispatchCycleLocked c broken).1.entry p).refCount
          = (s.entry p).refCount - queueRefs (s.conn c).outboundQueue p)
      ∧ ((s.abortDispatchCycleLocked c broken).1.conn c).status
          = if broken then .BROKEN else (s.conn c).status := by
  have hconn := abortDispatchCycleLocked_conn s c broken hc hs
  refine ⟨?_, ?_, ?_, ?_, ?_, ?_⟩
  · rw [abortDispatchCycleLocked_snd]; simpa using hs
  · rw [hconn]
  · rw [hconn]
  · rw [abortDispatchCycleLocked_active s c broken hs]
    exact fun hm => (hn.mem_erase_iff.mp hm).1 rfl
  · exact abortDispatchCycleLocked_refCount s c broken hs hq
  · rw [hconn]

theorem abortDispatchCycleLocked_postcondition_witness :
    (Example.keyDispatched.conn 0).outboundQueue.length = 1
      ∧ (Example.keyDispatched.entry 0).refCount = 2
      ∧ ((Example.keyDispatched.abortDispatchCycleLocked 0 false).1.entry 0).refCount = 1
      ∧ ((Example.keyDispatched.abortDispatchCycleLocked 0 false).1.conn 0).status = .NORMAL :=
  ⟨by decide, by decide,
    ((abortDispatchCycleLocked_postcondition Example.keyDispatched 0 false (by decide)
      (by decide) (by decide) (by decide)).2.2.2.2.1 0).trans (by decide),
    (abortDispatchCycleLocked_postcondition Example.keyDispatched 0 false (by decide)
      (by decide) (by decide) (by decide)).2.2.2.2.2⟩

end Dispatcher

namespace Dispatcher

open InputDispatcher

/-! ## The ANR timeout -/

/-- C15. ANR timeout: on a connection whose status is not `NORMAL`,
`timeoutDispatchCycleLocked` returns `false` and the state as it is; on a `NORMAL`
connection (in a state whose active set has no repetition and whose dispatch entries
reference cells of the heap) it returns `true` and leaves the status
`NOT_RESPONDING`, `lastANRTime` the current time, `nextTimeoutTime = LONG_LONG_MAX`, the
outbound queue empty with each of its dispatch entries released (the reference count
of each event entry is reduced by the number of entries that referenced it), and the
connection outside the active set. -/
theorem timeoutDispatchCycleLocked_spec (s : InputDispatcher) (currentTime : Int) (c : Nat) :
    ((s.conn c).status ≠ .NORMAL → s.timeoutDispatchCycleLocked currentTime c = (s, false))
      ∧ ((s.conn c).status = .NORMAL → s.mActiveConnections.Nodup →
          (∀ d ∈ (s.conn c).outboundQueue, d.eventEntry < s.heap.length) →
          (s.timeoutDispatchCycleLocked currentTime c).2 = true
            ∧ ((s.timeoutDispatchCycleLocked currentTime c).1.conn c).status = .NOT_RESPONDING
            ∧ ((s.timeoutDispatchCycleLocked currentTime c).1.conn c).lastANRTime = currentTime
            ∧ ((s.timeoutDispatchCycleLocked currentTime c).1.conn c).nextTimeoutTime
                = LONG_LONG_MAX
            ∧ ((s.timeoutDispatchCycleLocked currentTime c).1.conn c).outboundQueue = []
            ∧ c ∉ (s.timeoutDispatchCycleLocked currentTime c).1.mActiveConnections
            ∧ ∀ p, ((s.timeoutDispatchCycleLocked currentTime c).1.entry p).refCount
                = (s.entry p).refCount - queueRefs (s.conn c).outboundQueue p) := by
  constructor
  · intro hs
    simp [timeoutDispatchCycleLocked, hs]
  · intro hs hn hq
    have hc : c < s.conns.length := lt_of_status_normal s hs
    have h1 : (s.setConn c { s.conn c with
        status := .NOT_RESPONDING, lastANRTime := currentTime }).conn c
        = { s.conn c with status := .NOT_RESPONDING, lastANRTime := currentTime } :=
      conn_setConn_self _ _ hc
    have hs1 : ((s.setConn c { s.conn c with
        status := .NOT_RESPONDING, lastANRTime := currentTime }).conn c).status ≠ .BROKEN := by
      rw [h1]; simp
    have hconn := abortDispatchCycleLocked_conn (s.setConn c { s.conn c with
        status := .NOT_RESPONDING, lastANRTime := currentTime }) c false (by simpa using hc) hs1
    have href := abortDispatchCycleLocked_refCount (s.setConn c { s.conn c with
        status := .NOT_RESPONDING, lastANRTime := currentTime }) c false hs1
        (by rw [h1]; exact hq)
    have hact := abortDispatchCycleLocked_active (s.setConn c { s.conn c with
        status := .NOT_RESPONDING, lastANRTime := currentTime }) c false hs1
    have hsnd := abortDispatchCycleLocked_snd (s.setConn c { s.conn c with
        status := .NOT_RESPONDING, lastANRTime := currentTime }) c false
    rw [h1] at hconn hsnd href
    have heq : s.timeoutDispatchCycleLocked currentTime c
        = (((s.setConn c { s.conn c with
              status := .NOT_RESPONDING, lastANRTime := currentTime }
            ).abortDispatchCycleLocked c false).1.callout (.onDispatchCycleANR c),
           ((s.setConn c { s.conn c with
              status := .NOT_RESPONDING, lastANRTime := currentTime }
            ).abortDispatchCycleLocked c false).2) := by
      simp [timeoutDispatchCycleLocked, hs]
    rw [heq]
    simp only [callout_conn, callout_entry, callout_mActiveConnections]
    refine ⟨?_, ?_, ?_, ?_, ?_, ?_, ?_⟩
    · rw [hsnd]; rfl
    · rw [hconn]; rfl
    · rw [hconn]
    · rw [hconn]
    · rw [hconn]
    · rw [hact]
      exact fun hm => (List.Nodup.mem_erase_iff (by simpa using hn)).mp hm |>.1 rfl
    · intro p
      rw [href p]
      rfl

theorem timeoutDispatchCycleLocked_spec_witness :
    (Example.keyDispatched.conn 0).status = .NORMAL
      ∧ (Example.keyBroken.conn 0).status ≠ .NORMAL
      ∧ Example.keyBroken.timeoutDispatchCycleLocked 200 0 = (Example.keyBroken, false)
      ∧ ((Example.keyDispatched.timeoutDispatchCycleLocked 200 0).1.conn 0).status
          = .NOT_RESPONDING
      ∧ ((Example.keyDispatched.timeoutDispatchCycleLocked 200 0).1.conn 0).outboundQueue = [] :=
  ⟨by decide, by decide,
    (timeoutDispatchCycleLocked_spec Example.keyBroken 200 0).1 (by decide),
    ((timeoutDispatchCycleLocked_spec Example.keyDispatched 200 0).2 (by decide) (by decide)
      (by decide)).2.1,
    ((timeoutDispatchCycleLocked_spec Example.keyDispatched 200 0).2 (by decide) (by decide)
      (by decide)).2.2.2.2.1⟩

end Dispatcher

namespace Dispatcher

namespace InputDispatcher

/-! ## Transport failures -/

theorem brokenIdle_abort (s : InputDispatcher) (c : Nat) (hc : c < s.conns.length)
    (hs : (s.conn c).status ≠ .BROKEN) (hn : s.mActiveConnections.Nodup) :
    BrokenIdle (s.abortDispatchCycleLocked c true).1 c := by
  have hconn := abortDispatchCycleLocked_conn s c true hc hs
  refine ⟨by rw [hconn]; rfl, by rw [hconn], ?_, by rw [hconn]⟩
  rw [abortDispatchCycleLocked_active s c true hs]
  exact fun hm => (hn.mem_erase_iff.mp hm).1 rfl

/-- The records that an operation without transport failure adds. -/
theorem appendFurtherSamples_records (env : Env) (c : Nat) (xs : List MotionSample) (i : Nat)
    (s : InputDispatcher) (t : Option Nat)
    (h : (appendFurtherSamples env c xs i s).2 = .stopped t) :
    ∃ ext, (appendFurtherSamples env c xs i s).1.trace = s.trace ++ ext
      ∧ ∀ r ∈ ext, isTransportFailure r = false := by
  induction xs generalizing i s with
  | nil => exact ⟨[], by simp [appendFurtherSamples], by simp⟩
  | cons x xs ih =>
    simp only [appendFurtherSamples] at h ⊢
    split_ifs at h ⊢ with h1 h2
    · refine ⟨[⟨c, _, _⟩], rfl, ?_⟩
      intro r hr
      simp only [List.mem_singleton] at hr
      subst hr
      simp [isTransportFailure, h1]
    · obtain ⟨ext, htr, hext⟩ := ih _ _ h
      refine ⟨_ :: ext, by rw [htr, publisherCalled_eq, List.append_assoc]; rfl, ?_⟩
      intro r hr
      rcases List.mem_cons.mp hr with rfl | hr
      · have : s.publisherStatus env c
            (.appendMotionSample x.eventTime x.pointerCoords) = OK := by simpa using h2
        simp [isTransportFailure, this]
      · exact hext r hr

theorem publishEventOf_records (env : Env) (s : InputDispatcher) (c : Nat)
    (d d1 : DispatchEntry) (h : (s.publishEventOf env c d).2 = some d1) :
    ∃ ext, (s.publishEventOf env c d).1.trace = s.trace ++ ext
      ∧ ∀ r ∈ ext, isTransportFailure r = false := by
  unfold publishEventOf at h ⊢
  cases hb : (s.entry d.eventEntry).body with
  | configurationChanged a b e => simp only [hb]; exact ⟨[], by simp, by simp⟩
  | key k =>
    simp only [hb] at h ⊢
    generalize hcall : PublisherCall.publishKeyEvent _ = call at h ⊢
    split_ifs at h ⊢ with h1
    refine ⟨[⟨c, call, _⟩], rfl, ?_⟩
    intro r hr
    simp only [List.mem_singleton] at hr
    subst hr
    have h0 : s.publisherStatus env c call = 0 := by simpa using h1
    obtain ⟨ev, rfl⟩ : ∃ ev, call = PublisherCall.publishKeyEvent ev := ⟨_, hcall.symm⟩
    simp [isTransportFailure, h0, OK]
  | motion m =>
    simp only [hb] at h ⊢
    generalize hcall : PublisherCall.publishMotionEvent _ = call at h ⊢
    split_ifs at h ⊢ with h1
    have h0 : s.publisherStatus env c call = 0 := by simpa using h1
    cases hr : appendFurtherSamples env c (m.chain.drop (d.headMotionSample.getD 0 + 1))
        (d.headMotionSample.getD 0 + 1) (s.publisherCalled env c call) with
    | mk s2 o =>
      rw [hr] at h
      cases o with
      | failed => simp at h
      | stopped t =>
        obtain ⟨ext, htr, hext⟩ := appendFurtherSamples_records env c _ _ _ t
          (by rw [hr])
        rw [hr] at htr
        refine ⟨⟨c, call, s.publisherStatus env c call⟩ :: ext, ?_, ?_⟩
        · simp only
          rw [htr, publisherCalled_eq, List.append_assoc]
          rfl
        · intro r hr
          rcases List.mem_cons.mp hr with rfl | hr
          · obtain ⟨ev, rfl⟩ : ∃ ev, call = PublisherCall.publishMotionEvent ev :=
              ⟨_, hcall.symm⟩
            simp [isTransportFailure, h0, OK]
          · exact hext r hr

/-- The outcome of `startDispatchCycleLocked` on a connection that is not `BROKEN`:
the connection is broken and idle, or no call of the publisher failed. -/
theorem startDispatchCycleLocked_outcome (env : Env) (s : InputDispatcher) (currentTime : Int)
    (c : Nat) (hs : (s.conn c).status ≠ .BROKEN) (hn : s.mActiveConnections.Nodup) :
    BrokenIdle (s.startDispatchCycleLocked env currentTime c) c
      ∨ ∃ ext, (s.startDispatchCycleLocked env currentTime c).trace = s.trace ++ ext
          ∧ ∀ r ∈ ext, isTransportFailure r = false := by
  unfold startDispatchCycleLocked
  split
  · exact Or.inr ⟨[], by simp, by simp⟩
  · rename_i d q hq
    have hc : c < s.conns.length := lt_of_outbound_ne_nil s (by rw [hq]; simp)
    obtain ⟨tr, htr⟩ := publishEventOf_state env s c d
    split
    · rename_i s1 heq
      rw [heq] at htr
      simp only at htr
      subst htr
      exact Or.inl (brokenIdle_abort _ c hc hs hn)
    · rename_i s1 d1 heq
      obtain ⟨ext, hext, hok⟩ := publishEventOf_records env s c d d1 (by rw [heq])
      rw [heq] at htr hext
      simp only at htr hext
      simp only
      split
      · left
        subst htr
        exact brokenIdle_abort _ c hc hs hn
      · rename_i hsig
        right
        refine ⟨ext ++ [⟨c, .sendDispatchSignal, s1.publisherStatus env c .sendDispatchSignal⟩],
          ?_, ?_⟩
        · simp only [callout_trace, setConn_trace, publisherCalled_eq, hext, List.append_assoc]
        · intro r hr
          rcases List.mem_append.mp hr with hr | hr
          · exact hok r hr
          · simp only [List.mem_singleton] at hr
            subst hr
            have h0 : s1.publisherStatus env c .sendDispatchSignal = 0 := by simpa using hsig
            simp [isTransportFailure, h0, OK]

theorem finishDispatchLoop_outcome (env : Env) (currentTime : Int) (c : Nat)
    (q : List DispatchEntry) (s : InputDispatcher) (hq : (s.conn c).outboundQueue = q)
    (hs : (s.conn c).status ≠ .BROKEN) (hn : s.mActiveConnections.Nodup) :
    BrokenIdle (finishDispatchLoop env currentTime c q s) c
      ∨ ∃ ext, (finishDispatchLoop env currentTime c q s).trace = s.trace ++ ext
          ∧ ∀ r ∈ ext, isTransportFailure r = false := by
  induction q generalizing s with
  | nil => exact Or.inr ⟨[], by simp [finishDispatchLoop], by simp⟩
  | cons d q ih =>
    have hc : c < s.conns.length := lt_of_outbound_ne_nil s (by simp [hq])
    simp only [finishDispatchLoop]
    split
    · split
      · exact startDispatchCycleLocked_outcome env _ currentTime c
          (by rw [conn_setOutbound_self s _ hc]; exact hs) hn
      · have hconn : ((s.setOutbound c q).releaseDispatchEntry d).conn c
            = { s.conn c with outboundQueue := q } := by
          rw [releaseDispatchEntry_conn, conn_setOutbound_self s _ hc]
        have htr : ((s.setOutbound c q).releaseDispatchEntry d).trace = s.trace :=
          releaseDispatchEntry_trace _ d
        have := ih _ (by rw [hconn]) (by rw [hconn]; exact hs) (by simpa using hn)
        rw [htr] at this
        exact this
    · exact startDispatchCycleLocked_outcome env s currentTime c hs hn

theorem finishDispatchCycleLocked_outcome (env : Env) (s : InputDispatcher)
    (currentTime : Int) (c : Nat) (hc : c < s.conns.length)
    (hn : s.mActiveConnections.Nodup) :
    BrokenIdle (s.finishDispatchCycleLocked env currentTime c) c
      ∨ ∃ ext, (s.finishDispatchCycleLocked env currentTime c).trace = s.trace ++ ext
          ∧ ∀ r ∈ ext, isTransportFailure r = false := by
  unfold finishDispatchCycleLocked
  split
  · exact Or.inr ⟨[], by simp, by simp⟩
  · rename_i hs
    · have h1 : (s.setConn c { s.conn c with nextTimeoutTime := LONG_LONG_MAX }).conn c
          = { s.conn c with nextTimeoutTime := LONG_LONG_MAX } := conn_setConn_self _ _ hc
      have key : ∀ s2 : InputDispatcher, s2.trace = s.trace → c < s2.conns.length →
          (s2.conn c).status ≠ .BROKEN → s2.mActiveConnections.Nodup →
          BrokenIdle (if s2.publisherStatus env c .reset ≠ 0
              then ((s2.publisherCalled env c .reset).abortDispatchCycleLocked c true).1
              else finishDispatchLoop env currentTime c
                ((s2.publisherCalled env c .reset).conn c).outboundQueue
                (s2.publisherCalled env c .reset)) c
            ∨ ∃ ext, (if s2.publisherStatus env c .reset ≠ 0
              then ((s2.publisherCalled env c .reset).abortDispatchCycleLocked c true).1
              else finishDispatchLoop env currentTime c
                ((s2.publisherCalled env c .reset).conn c).outboundQueue
                (s2.publisherCalled env c .reset)).trace = s.trace ++ ext
              ∧ ∀ r ∈ ext, isTransportFailure r = false := by
        intro s2 htr hc2 hs2 hn2
        split
        · exact Or.inl (brokenIdle_abort _ c hc2 hs2 hn2)
        · rename_i hreset
          rcases finishDispatchLoop_outcome env currentTime c _
            (s2.publisherCalled env c .reset) rfl hs2 hn2 with hb | ⟨ext, hext, hok⟩
          · exact Or.inl hb
          · refine Or.inr ⟨⟨c, .reset, s2.publisherStatus env c .reset⟩ :: ext, ?_, ?_⟩
            · rw [hext, publisherCalled_eq, htr, List.append_assoc]
              rfl
            · intro r hr
              rcases List.mem_cons.mp hr with rfl | hr
              · have h0 : s2.publisherStatus env c .reset = 0 := by simpa using hreset
                simp [isTransportFailure, h0, OK]
              · exact hok r hr
      simp only
      split
      · exact key _ rfl (by simpa using hc)
          (by rw [callout_conn, conn_setConn_self _ _ (by simpa using hc)]; simp) hn
      · exact key _ rfl (by simpa using hc)
          (by rw [callout_conn, h1]; exact hs) hn

end InputDispatcher

open InputDispatcher

/-- C19. Transport failure breaks the connection. If during
`startDispatchCycleLocked` on a connection that is not yet `BROKEN` a call of the
publisher fails (`publishKeyEvent`, `publishMotionEvent` or `sendDispatchSignal` returns
another status than `OK`, or `appendMotionSample` returns neither `OK` nor `NO_MEMORY`),
or if during `finishDispatchCycleLocked` the `reset` of the publisher (or a call of the
dispatch cycle it starts) fails, then afterwards the status of the connection is
`BROKEN`, its outbound queue is empty, it is not in the active set, and
`nextTimeoutTime` is `LONG_LONG_MAX`. -/
theorem transport_failure_breaks_connection (env : Env) (s : InputDispatcher)
    (currentTime : Int) (c : Nat) (hc : c < s.conns.length)
    (hn : s.mActiveConnections.Nodup) :
    ((s.conn c).status ≠ .BROKEN →
        (∃ r ∈ (s.startDispatchCycleLocked env currentTime c).recordsSince s.trace,
          isTransportFailure r = true) →
        BrokenIdle (s.startDispatchCycleLocked env currentTime c) c)
      ∧ ((∃ r ∈ (s.finishDispatchCycleLocked env currentTime c).recordsSince s.trace,
          isTransportFailure r = true) →
        BrokenIdle (s.finishDispatchCycleLocked env currentTime c) c) := by
  constructor
  · intro hs ⟨r, hr, hf⟩
    rcases startDispatchCycleLocked_outcome env s currentTime c hs hn with
      hb | ⟨ext, hext, hok⟩
    · exact hb
    · rw [recordsSince, hext, List.drop_left] at hr
      rw [hok r hr] at hf
      exact absurd hf (by simp)
  · intro ⟨r, hr, hf⟩
    rcases finishDispatchCycleLocked_outcome env s currentTime c hc hn with
      hb | ⟨ext, hext, hok⟩
    · exact hb
    · rw [recordsSince, hext, List.drop_left] at hr
      rw [hok r hr] at hf
      exact absurd hf (by simp)

theorem transport_failure_breaks_connection_witness :
    ((Example.headReady.startDispatchCycleLocked (Example.brokenEnv []) 5 0).recordsSince
        Example.headReady.trace).map (fun r => (isTransportFailure r, r.status))
        = [(true, FAILED_TRANSACTION)]
      ∧ BrokenIdle (Example.headReady.startDispatchCycleLocked (Example.brokenEnv []) 5 0) 0
      ∧ BrokenIdle
          (Example.keyDispatched.finishDispatchCycleLocked (Example.brokenEnv []) 5 0) 0 :=
  ⟨by decide,
    (transport_failure_breaks_connection (Example.brokenEnv []) Example.headReady 5 0
      (by decide) (by decide)).1 (by decide) (by decide),
    (transport_failure_breaks_connection (Example.brokenEnv []) Example.keyDispatched 5 0
      (by decide) (by decide)).2 (by decide)⟩

end Dispatcher

namespace Dispatcher

open InputDispatcher

/-! ## Unregistration -/

/-- What `unregisterInputChannel` leaves of a registered connection: the `ZOMBIE`
status it writes is overwritten by `abortDispatchCycleLocked`, which finds a status
other than `BROKEN` and sets `BROKEN`. -/
theorem InputDispatcher.unregisterInputChannel_conn (s : InputDispatcher) (fd : Int) (c : Nat)
    (h : s.connectionByReceiveFd fd = some c) (hc : c < s.conns.length) :
    (s.unregisterInputChannel fd).2 = OK
      ∧ (s.unregisterInputChannel fd).1.conn c
        = { s.conn c with
            status := .BROKEN, outboundQueue := [], nextTimeoutTime := LONG_LONG_MAX } := by
  have h1 : (InputDispatcher.setConn { s with
      mConnectionsByReceiveFd := s.mConnectionsByReceiveFd.eraseP (fun kv => kv.1 == fd) } c
      { s.conn c with status := .ZOMBIE }).conn c = { s.conn c with status := .ZOMBIE } :=
    conn_setConn_self _ _ hc
  have h2 := abortDispatchCycleLocked_conn (InputDispatcher.setConn { s with
      mConnectionsByReceiveFd := s.mConnectionsByReceiveFd.eraseP (fun kv => kv.1 == fd) } c
      { s.conn c with status := .ZOMBIE }) c true (by simpa using hc) (by rw [h1]; simp)
  rw [h1] at h2
  unfold unregisterInputChannel
  simp only [h]
  refine ⟨trivial, ?_⟩
  rw [wake_conn]
  exact h2

/-- C20, what the code does. Channel 7 is registered for connection 0, whose dispatch
cycle is in progress; `unregisterInputChannel` returns `OK`, removes the channel from
the table, empties the outbound queue and deactivates the connection, but the status
it leaves is `BROKEN`, not `ZOMBIE`. -/
theorem unregisterInputChannel_leaves_broken :
    Reachable Example.keyDispatched
      ∧ Example.keyDispatched.connectionByReceiveFd 7 = some 0
      ∧ (Example.keyDispatched.unregisterInputChannel 7).2 = OK
      ∧ (Example.keyDispatched.unregisterInputChannel 7).1.connectionByReceiveFd 7 = none
      ∧ ((Example.keyDispatched.unregisterInputChannel 7).1.conn 0).outboundQueue = []
      ∧ 0 ∉ (Example.keyDispatched.unregisterInputChannel 7).1.mActiveConnections
      ∧ ((Example.keyDispatched.unregisterInputChannel 7).1.conn 0).status = .BROKEN
      ∧ ((Example.registered.unregisterInputChannel 7).1.conn 0).status = .BROKEN :=
  ⟨Example.run_reachable _ _ Reachable.init, by decide, by decide, by decide, by decide,
    by decide, by decide, by decide⟩

end Dispatcher

namespace Dispatcher

namespace InputDispatcher

/-! ## Recovery from an ANR -/

theorem calloutFrame_of_eq (c : Nat) {s s1 : InputDispatcher} (h : s1.callouts = s.callouts) :
    CalloutFrame c s s1 :=
  ⟨[], by simp [h], by simp⟩

theorem calloutFrame_trans {c : Nat} {s s1 s2 : InputDispatcher} (h1 : CalloutFrame c s s1)
    (h2 : CalloutFrame c s1 s2) : CalloutFrame c s s2 := by
  obtain ⟨e1, ht1, hc1⟩ := h1
  obtain ⟨e2, ht2, hc2⟩ := h2
  refine ⟨e1 ++ e2, by rw [ht2, ht1, List.append_assoc], ?_⟩
  intro r hr
  rcases List.mem_append.mp hr with h | h
  · exact hc1 r h
  · exact hc2 r h

theorem abortDispatchCycleLocked_calloutFrame (s : InputDispatcher) (c : Nat) (broken : Bool) :
    CalloutFrame c s (s.abortDispatchCycleLocked c broken).1 := by
  by_cases hs : (s.conn c).status = .BROKEN
  · rw [abortDispatchCycleLocked_broken s c broken hs]
    exact calloutFrame_of_eq c rfl
  · refine ⟨_, abortDispatchCycleLocked_callouts s c broken hs, ?_⟩
    intro x hx
    cases broken with
    | true => simp at hx; exact Or.inr hx
    | false => simp at hx

theorem startDispatchCycleLocked_calloutFrame (env : Env) (s : InputDispatcher)
    (currentTime : Int) (c : Nat) :
    CalloutFrame c s (s.startDispatchCycleLocked env currentTime c) := by
  rcases startDispatchCycleLocked_cases env s currentTime c with
    ⟨_, h⟩ | ⟨tr, h⟩ | ⟨tr, d, q, t, x, _, _, _, h⟩
  · rw [h]; exact calloutFrame_of_eq c rfl
  · rw [h]
    exact calloutFrame_trans (calloutFrame_of_eq c rfl)
      (abortDispatchCycleLocked_calloutFrame { s with trace := tr } c true)
  · rw [h]
    exact ⟨[.onDispatchCycleStarted c], rfl, by simp⟩

theorem finishDispatchLoop_calloutFrame (env : Env) (currentTime : Int) (c : Nat)
    (q : List DispatchEntry) (s : InputDispatcher) :
    CalloutFrame c s (finishDispatchLoop env currentTime c q s) := by
  induction q generalizing s with
  | nil => exact calloutFrame_of_eq c rfl
  | cons d q ih =>
    simp only [finishDispatchLoop]
    split
    · split
      · exact calloutFrame_trans (calloutFrame_of_eq c rfl)
          (startDispatchCycleLocked_calloutFrame env _ currentTime c)
      · refine calloutFrame_trans (calloutFrame_of_eq c ?_) (ih _)
        rw [releaseDispatchEntry_eq]
        rfl
    · exact startDispatchCycleLocked_calloutFrame env s currentTime c

end InputDispatcher

open InputDispatcher

/-- C16. ANR recovery: in a state that satisfies the invariant of the dispatcher,
`finishDispatchCycleLocked` on a connection whose status is `NOT_RESPONDING`, with a
publisher whose `reset` succeeds, leaves the status `NORMAL` and `nextTimeoutTime =
LONG_LONG_MAX`, notifies `onDispatchCycleFinished` with `recoveredFromANR = true` (and
nothing else), and leaves the connection with an empty outbound queue and outside the
active set; on a `NORMAL` connection the notification it sends is
`onDispatchCycleFinished` with `recoveredFromANR = false`, followed only by
notifications of the start or the break of a cycle. -/
theorem finishDispatchCycleLocked_anr_recovery {held : Option Nat} (env : Env)
    (s : InputDispatcher) (h : Inv held s) (currentTime : Int) (c : Nat) :
    ((s.conn c).status = .NOT_RESPONDING → env.publisher s.trace c .reset = OK →
        ((s.finishDispatchCycleLocked env currentTime c).conn c).status = .NORMAL
          ∧ ((s.finishDispatchCycleLocked env currentTime c).conn c).nextTimeoutTime
              = LONG_LONG_MAX
          ∧ (s.finishDispatchCycleLocked env currentTime c).callouts
              = s.callouts ++ [.onDispatchCycleFinished c true]
          ∧ ((s.finishDispatchCycleLocked env currentTime c).conn c).outboundQueue = []
          ∧ c ∉ (s.finishDispatchCycleLocked env currentTime c).mActiveConnections)
      ∧ ((s.conn c).status = .NORMAL →
          ∃ rest, (s.finishDispatchCycleLocked env currentTime c).callouts
              = s.callouts ++ .onDispatchCycleFinished c false :: rest
            ∧ ∀ x ∈ rest, x = .onDispatchCycleStarted c ∨ x = .onDispatchCycleBroken c) := by
  constructor
  · intro hs hreset
    have hc : c < s.conns.length := by
      by_contra hlt
      rw [conn_of_le s (Nat.le_of_not_lt hlt)] at hs
      simp [Connection.invalid] at hs
    have hq : (s.conn c).outboundQueue = [] := by
      cases hq : (s.conn c).outboundQueue with
      | nil => rfl
      | cons d q =>
        have := ((h.connOk c).delivering d q hq).1
        rw [hs] at this
        exact absurd this (by simp)
    have h1 : (s.setConn c { s.conn c with nextTimeoutTime := LONG_LONG_MAX }).conn c
        = { s.conn c with nextTimeoutTime := LONG_LONG_MAX } := conn_setConn_self _ _ hc
    have hs1 : ((s.setConn c { s.conn c with nextTimeoutTime := LONG_LONG_MAX }).conn c).status
        = .NOT_RESPONDING := by rw [h1]; exact hs
    have h2 : ((s.setConn c { s.conn c with nextTimeoutTime := LONG_LONG_MAX }).setConn c
          { (s.setConn c { s.conn c with nextTimeoutTime := LONG_LONG_MAX }).conn c with
            status := .NORMAL }).conn c
        = { s.conn c with nextTimeoutTime := LONG_LONG_MAX, status := .NORMAL } := by
      rw [conn_setConn_self _ _ (by simpa using hc), h1]
    have hr : env.publisher s.trace c .reset = 0 := hreset
    have heq : s.finishDispatchCycleLocked env currentTime c
        = ((((s.setConn c { s.conn c with nextTimeoutTime := LONG_LONG_MAX }).setConn c
            { (s.setConn c { s.conn c with nextTimeoutTime := LONG_LONG_MAX }).conn c with
              status := .NORMAL }).callout (.onDispatchCycleFinished c true)).publisherCalled
            env c .reset).deactivateConnectionLocked c := by
      rw [finishDispatchCycleLocked, if_neg (by rw [hs]; decide)]
      simp only [hs1, if_true, publisherStatus, callout_trace, setConn_trace, hr, ne_eq,
        not_true_eq_false, if_false, publisherCalled_conn, callout_conn, h2]
      rw [hq]
      rfl
    rw [heq]
    simp only [deactivateConnectionLocked_conn, publisherCalled_conn, callout_conn, h2]
    refine ⟨trivial, trivial, rfl, hq, ?_⟩
    simp only [deactivateConnectionLocked]
    exact fun hm => (List.Nodup.mem_erase_iff h.activeNodup).mp hm |>.1 rfl
  · intro hs
    have hc : c < s.conns.length := lt_of_status_normal s hs
    have h1 : (s.setConn c { s.conn c with nextTimeoutTime := LONG_LONG_MAX }).conn c
        = { s.conn c with nextTimeoutTime := LONG_LONG_MAX } := conn_setConn_self _ _ hc
    have hs1 : ((s.setConn c { s.conn c with nextTimeoutTime := LONG_LONG_MAX }).conn c).status
        = .NORMAL := by rw [h1]; exact hs
    rw [finishDispatchCycleLocked, if_neg (by rw [hs]; decide)]
    simp only [hs1, reduceCtorEq, if_false]
    have key : ∀ u : InputDispatcher,
        CalloutFrame c u (if u.publisherStatus env c .reset ≠ 0
          then ((u.publisherCalled env c .reset).abortDispatchCycleLocked c true).1
          else finishDispatchLoop env currentTime c
            ((u.publisherCalled env c .reset).conn c).outboundQueue
            (u.publisherCalled env c .reset)) := by
      intro u
      split
      · exact calloutFrame_trans (calloutFrame_of_eq c rfl)
          (abortDispatchCycleLocked_calloutFrame _ c true)
      · exact calloutFrame_trans (calloutFrame_of_eq c rfl)
          (finishDispatchLoop_calloutFrame env currentTime c _ _)
    obtain ⟨rest, hrest, hall⟩ := key
      ((s.setConn c { s.conn c with nextTimeoutTime := LONG_LONG_MAX }).callout
        (.onDispatchCycleFinished c false))
    refine ⟨rest, ?_, hall⟩
    rw [hrest]
    simp [callout]

theorem finishDispatchCycleLocked_anr_recovery_witness :
    Reachable Example.keyTimedOut
      ∧ (Example.keyTimedOut.conn 0).status = .NOT_RESPONDING
      ∧ ((Example.keyTimedOut.finishDispatchCycleLocked (Example.env []) 500 0).conn 0).status
          = .NORMAL
      ∧ (Example.keyTimedOut.finishDispatchCycleLocked (Example.env []) 500 0).callouts
          = Example.keyTimedOut.callouts ++ [.onDispatchCycleFinished 0 true]
      ∧ ∃ rest, (Example.keyDispatched.finishDispatchCycleLocked (Example.env []) 5 0).callouts
          = Example.keyDispatched.callouts ++ .onDispatchCycleFinished 0 false :: rest
        ∧ ∀ x ∈ rest, x = .onDispatchCycleStarted 0 ∨ x = .onDispatchCycleBroken 0 :=
  ⟨Example.run_reachable _ _ Example.keyDispatched_reachable, by decide,
    ((finishDispatchCycleLocked_anr_recovery (Example.env []) Example.keyTimedOut
      (inv_of_reachable (Example.run_reachable _ _ Example.keyDispatched_reachable)) 500 0).1
      (by decide) rfl).1,
    ((finishDispatchCycleLocked_anr_recovery (Example.env []) Example.keyTimedOut
      (inv_of_reachable (Example.run_reachable _ _ Example.keyDispatched_reachable)) 500 0).1
      (by decide) rfl).2.2.1,
    (finishDispatchCycleLocked_anr_recovery (Example.env []) Example.keyDispatched
      (inv_of_reachable Example.keyDispatched_reachable) 5 0).2 (by decide)⟩

end Dispatcher

namespace Dispatcher

namespace InputDispatcher

/-! ## The key repeat state -/

theorem asKey_of_body {e : EventEntry} {k : KeyEntry} (h : e.body = .key k) : e.asKey = k := by
  simp [EventEntry.asKey, h]

theorem lt_of_body_key (s : InputDispatcher) {p : Nat} {k : KeyEntry}
    (h : (s.entry p).body = .key k) : p < s.heap.length := by
  by_contra hp
  rw [entry_of_le s (Nat.le_of_not_lt hp)] at h
  simp [EventEntry.invalid] at h

theorem resetKeyRepeatLocked_nextRepeatTime (s : InputDispatcher) :
    s.resetKeyRepeatLocked.mKeyRepeatState.nextRepeatTime = s.mKeyRepeatState.nextRepeatTime := by
  unfold resetKeyRepeatLocked
  split <;> rfl

theorem resetKeyRepeatLocked_body (s : InputDispatcher) (q : Nat) :
    (s.resetKeyRepeatLocked.entry q).body = (s.entry q).body := by
  unfold resetKeyRepeatLocked
  split
  · rename_i l _
    exact releaseKeyEntry_body s l q
  · rfl

theorem resetKeyRepeatLocked_eventTime (s : InputDispatcher) (q : Nat) :
    (s.resetKeyRepeatLocked.entry q).eventTime = (s.entry q).eventTime := by
  unfold resetKeyRepeatLocked
  split
  · rename_i l _
    show ((s.releaseKeyEntry l).entry q).eventTime = _
    rw [releaseKeyEntry_eq, entry_setEntry]
    split
    · rename_i h
      rw [EventEntry.release_eventTime, h.1]
    · rfl
  · rfl

/-- Dispatching a key keeps the key repeat state and the contents of the cells. -/
theorem identifyInputTargetsAndDispatchKeyLocked_keeps (env : Env) (s : InputDispatcher)
    (currentTime : Int) (p : Nat) :
    (s.identifyInputTargetsAndDispatchKeyLocked env currentTime p).mKeyRepeatState
        = s.mKeyRepeatState
      ∧ (∀ q, ((s.identifyInputTargetsAndDispatchKeyLocked env currentTime p).entry q).body
          = (s.entry q).body)
      ∧ (∀ q, ((s.identifyInputTargetsAndDispatchKeyLocked env currentTime p).entry q).eventTime
          = (s.entry q).eventTime)
      ∧ (s.identifyInputTargetsAndDispatchKeyLocked env currentTime p).heap.length
          = s.heap.length := by
  unfold identifyInputTargetsAndDispatchKeyLocked dispatchEventToCurrentInputTargetsLocked
  simp only
  have h := dispatchEventToInputTargets_frame env currentTime p false
  exact ⟨(h _ _).keyRepeat, (h _ _).body, (h _ _).eventTime, (h _ _).heapLength⟩

theorem identifyInputTargetsAndDispatchMotionLocked_keeps (env : Env) (s : InputDispatcher)
    (currentTime : Int) (p : Nat) :
    (s.identifyInputTargetsAndDispatchMotionLocked env currentTime p).mKeyRepeatState
        = s.mKeyRepeatState := by
  unfold identifyInputTargetsAndDispatchMotionLocked dispatchEventToCurrentInputTargetsLocked
  simp only
  exact (dispatchEventToInputTargets_frame env currentTime p false _ _).keyRepeat

theorem entry_retainEventEntry_self (s : InputDispatcher) (p : Nat) (hp : p < s.heap.length) :
    (s.retainEventEntry p).entry p = { s.entry p with refCount := (s.entry p).refCount + 1 } := by
  unfold retainEventEntry
  rw [entry_setEntry_self s _ hp]

theorem retainEventEntry_body (s : InputDispatcher) (p q : Nat) :
    ((s.retainEventEntry p).entry q).body = (s.entry q).body := by
  unfold retainEventEntry
  rw [entry_setEntry]
  split
  · rename_i h
    rw [h.1]
  · rfl

/-- The bookkeeping of `processKeyLocked` for a down with the key code of
`lastKeyEntry`. -/
theorem trackKeyRepeat_driver_repeat (env : Env) (s : InputDispatcher) (p l : Nat)
    (k : KeyEntry) (hk : (s.entry p).body = .key k) (hdown : k.action = KEY_EVENT_ACTION_DOWN)
    (hl : s.mKeyRepeatState.lastKeyEntry = some l)
    (hcode : (s.entry l).asKey.keyCode = k.keyCode) :
    (s.trackKeyRepeat env p).mKeyRepeatState
        = { lastKeyEntry := some p, nextRepeatTime := LONG_LONG_MAX }
      ∧ ((s.trackKeyRepeat env p).entry p).body
        = .key { k with repeatCount := (s.entry l).asKey.repeatCount + 1 } := by
  have hp := lt_of_body_key s hk
  have ha : (s.entry p).asKey.action = KEY_EVENT_ACTION_DOWN := by
    rw [asKey_of_body hk]; exact hdown
  have hc : (s.entry l).asKey.keyCode = (s.entry p).asKey.keyCode := by
    rw [asKey_of_body hk]; exact hcode
  have key : s.trackKeyRepeat env p
      = InputDispatcher.retainEventEntry
          { (s.setKey p { (s.entry p).asKey with
                repeatCount := (s.entry l).asKey.repeatCount + 1 }).resetKeyRepeatLocked with
            mKeyRepeatState := { lastKeyEntry := some p, nextRepeatTime := LONG_LONG_MAX } }
          p := by
    unfold trackKeyRepeat
    rw [if_pos ha]
    simp only [hl, hc, if_true]
  rw [key]
  refine ⟨rfl, ?_⟩
  rw [retainEventEntry_body]
  show ((s.setKey p { (s.entry p).asKey with
    repeatCount := (s.entry l).asKey.repeatCount + 1 }).resetKeyRepeatLocked.entry p).body = _
  rw [resetKeyRepeatLocked_body]
  unfold setKey
  rw [entry_setEntry_self s _ hp, asKey_of_body hk]

end InputDispatcher

open InputDispatcher

end Dispatcher

namespace Dispatcher

namespace InputDispatcher

/-! ## Operations that keep the key repeat timer -/

theorem enqueueInboundEntry_mKeyRepeatState (s : InputDispatcher) (eventTime : Int)
    (body : EntryBody) :
    (s.enqueueInboundEntry eventTime body).mKeyRepeatState = s.mKeyRepeatState := by
  unfold enqueueInboundEntry
  simp only
  split <;> rfl

theorem dropMovementKeys_mKeyRepeatState (l : List Nat) (s : InputDispatcher) :
    (dropMovementKeys l s).mKeyRepeatState = s.mKeyRepeatState := by
  induction l generalizing s with
  | nil => rfl
  | cons p l ih =>
    simp only [dropMovementKeys]
    split
    · split
      · rw [ih]; rfl
      · rfl
    · exact ih s

theorem notifyMotion_mKeyRepeatState (env : Env) (s : InputDispatcher) (currentTime : Int)
    (a : MotionArgs) : (s.notifyMotion env currentTime a).mKeyRepeatState = s.mKeyRepeatState := by
  unfold notifyMotion
  split
  · split
    · rfl
    · exact enqueueInboundEntry_mKeyRepeatState s _ _
    · split
      · unfold dispatchEventToCurrentInputTargetsLocked
        rw [(dispatchEventToInputTargets_frame env currentTime _ true _ _).keyRepeat]
        rfl
      · exact enqueueInboundEntry_mKeyRepeatState s _ _
  · exact enqueueInboundEntry_mKeyRepeatState s _ _

theorem registerInputChannel_mKeyRepeatState (env : Env) (s : InputDispatcher) (fd : Int) :
    (s.registerInputChannel env fd).1.mKeyRepeatState = s.mKeyRepeatState := by
  unfold registerInputChannel
  split
  · rfl
  · simp only
    split <;> rfl

theorem unregisterInputChannel_mKeyRepeatState (s : InputDispatcher) (fd : Int) :
    (s.unregisterInputChannel fd).1.mKeyRepeatState = s.mKeyRepeatState := by
  unfold unregisterInputChannel
  split
  · rfl
  · rename_i c _
    simp only
    show ((InputDispatcher.abortDispatchCycleLocked _ c true).1).mKeyRepeatState = _
    rw [(abortDispatchCycleLocked_frame _ c true).keyRepeat]
    rfl

theorem handleReceiveCallback_mKeyRepeatState (env : Env) (s : InputDispatcher)
    (currentTime : Int) (fd : Int) (events : Nat) :
    (s.handleReceiveCallback env currentTime fd events).1.mKeyRepeatState
      = s.mKeyRepeatState := by
  unfold handleReceiveCallback
  split
  · rfl
  · rename_i c _
    split
    · exact (abortDispatchCycleLocked_frame _ c true).keyRepeat
    · split
      · rfl
      · simp only
        split
        · rw [(abortDispatchCycleLocked_frame _ c true).keyRepeat]; rfl
        · rw [(finishDispatchCycleLocked_frame env _ currentTime c).keyRepeat]; rfl

theorem processTimeouts_mKeyRepeatState (currentTime : Int) (fuel i : Nat) (r : TimeoutScan) :
    (processTimeouts currentTime fuel i r).state.mKeyRepeatState = r.state.mKeyRepeatState := by
  induction fuel generalizing i r with
  | zero => rfl
  | succ fuel ih =>
    simp only [processTimeouts]
    split
    · rfl
    · rename_i c0 hc0
      generalize ht : (if (r.state.conn c0).nextTimeoutTime ≤ currentTime
          then r.state.timeoutDispatchCycleLocked currentTime c0 else (r.state, false)) = t
      have h1 : t.1.mKeyRepeatState = r.state.mKeyRepeatState := by
        rw [← ht]
        split
        · exact (timeoutDispatchCycleLocked_frame _ currentTime c0).keyRepeat
        · rfl
      split
      · rw [ih]; exact h1
      · rw [ih]; exact h1

theorem dispatchOnceTimeouts_nextRepeatTime (env : Env) (s : InputDispatcher)
    (currentTime : Int) :
    (s.dispatchOnceTimeouts env currentTime).state.mKeyRepeatState.nextRepeatTime
      = s.mKeyRepeatState.nextRepeatTime := by
  unfold dispatchOnceTimeouts
  rw [processTimeouts_mKeyRepeatState]
  simp only
  split
  · exact resetKeyRepeatLocked_nextRepeatTime s
  · rfl

/-- What `synthesizesKeyRepeat` says of `dispatchOnce`: when it holds, `dispatchOnce` is
`processKeyRepeatLocked` after the timeouts; when it does not, `dispatchOnce` waits in
the poll loop or dispatches the head of the inbound queue. -/
theorem dispatchOnce_by_synthesis (env : Env) (s : InputDispatcher) (currentTime : Int) :
    (s.synthesizesKeyRepeat env currentTime = true →
        s.dispatchOnce env currentTime
          = (s.dispatchOnceTimeouts env currentTime).state.processKeyRepeatLocked env
              currentTime)
      ∧ (s.synthesizesKeyRepeat env currentTime = false →
          (∃ w, s.dispatchOnce env currentTime
              = (s.dispatchOnceTimeouts env currentTime).state.pollOnce w currentTime)
            ∨ ∃ p rest, (s.dispatchOnceTimeouts env currentTime).state.mInboundQueue = p :: rest
                ∧ s.dispatchOnce env currentTime
                  = InputDispatcher.dispatchInboundEntry env
                      { (s.dispatchOnceTimeouts env currentTime).state with
                        mInboundQueue := rest } currentTime p) := by
  unfold synthesizesKeyRepeat dispatchOnce
  simp only
  generalize s.dispatchOnceTimeouts env currentTime = r
  cases hf : r.hasPendingSyncTarget with
  | true =>
    refine ⟨fun h => by simp at h, fun _ => Or.inl ⟨r.nextWakeupTime, ?_⟩⟩
    simp only [Bool.not_true, Bool.false_eq_true, if_false]
  | false =>
    simp only [Bool.not_false, if_true, Bool.true_and]
    cases hq : r.state.mInboundQueue with
    | cons p rest =>
      refine ⟨fun h => by simp at h, fun _ => Or.inr ⟨p, rest, rfl, rfl⟩⟩
    | nil =>
      cases hl : r.state.mKeyRepeatState.lastKeyEntry with
      | none => exact ⟨fun h => by simp at h, fun _ => Or.inl ⟨_, rfl⟩⟩
      | some l =>
        by_cases ht : currentTime ≥ r.state.mKeyRepeatState.nextRepeatTime
        · refine ⟨fun _ => ?_, fun h => by simp [ht] at h⟩
          simp only [ht, if_true]
        · refine ⟨fun h => by simp [ht] at h, fun _ => Or.inl
            ⟨if r.state.mKeyRepeatState.nextRepeatTime < r.nextWakeupTime
              then r.state.mKeyRepeatState.nextRepeatTime else r.nextWakeupTime, ?_⟩⟩
          simp only [ht, if_false]

theorem dispatchInboundEntry_nextRepeatTime (env : Env) (s : InputDispatcher)
    (currentTime : Int) (p : Nat) (hk : ∀ k, (s.entry p).body ≠ .key k) :
    (s.dispatchInboundEntry env currentTime p).mKeyRepeatState = s.mKeyRepeatState := by
  unfold dispatchInboundEntry
  split
  · unfold processConfigurationChangedLocked
    split <;> rfl
  · rename_i k hb
    exact absurd hb (hk k)
  · show (s.processMotionLocked env currentTime p).mKeyRepeatState = _
    exact identifyInputTargetsAndDispatchMotionLocked_keeps env s currentTime p

/-- A `dispatchOnce` at a finite time that processes no key event leaves a disabled
key repeat timer disabled, and synthesizes no key repeat. -/
theorem dispatchOnce_quiet (env : Env) (s : InputDispatcher) (currentTime : Int)
    (hN : s.mKeyRepeatState.nextRepeatTime = LONG_LONG_MAX) (ht : currentTime < LONG_LONG_MAX)
    (hq : s.processesKeyEvent env currentTime = false) :
    (s.dispatchOnce env currentTime).mKeyRepeatState.nextRepeatTime = LONG_LONG_MAX
      ∧ s.synthesizesKeyRepeat env currentTime = false := by
  have hr := dispatchOnceTimeouts_nextRepeatTime env s currentTime
  rw [hN] at hr
  have hsyn : s.synthesizesKeyRepeat env currentTime = false := by
    unfold synthesizesKeyRepeat
    simp only [hr]
    have : ¬ currentTime ≥ LONG_LONG_MAX := by omega
    simp [this]
  refine ⟨?_, hsyn⟩
  rcases (dispatchOnce_by_synthesis env s currentTime).2 hsyn with ⟨w, hw⟩ | ⟨p, rest, hpq, hd⟩
  · rw [hw]; exact hr
  · by_cases hflag : (s.dispatchOnceTimeouts env currentTime).hasPendingSyncTarget = true
    · unfold dispatchOnce
      simp only [hflag, Bool.not_true, Bool.false_eq_true, if_false]
      exact hr
    · rw [hd, dispatchInboundEntry_nextRepeatTime]
      · exact hr
      · intro k hk
        have hk2 : ((s.dispatchOnceTimeouts env currentTime).state.entry p).body = .key k := hk
        unfold processesKeyEvent at hq
        simp only [hpq, hk2] at hq
        simp at hq
        exact hflag hq

/-- One quiet step keeps a disabled key repeat timer disabled. -/
theorem step_quiet (env : Env) (s : InputDispatcher) (currentTime : Int) (op : Operation)
    (hN : s.mKeyRepeatState.nextRepeatTime = LONG_LONG_MAX)
    (hq : op = .dispatchOnce →
      currentTime < LONG_LONG_MAX ∧ s.processesKeyEvent env currentTime = false) :
    (s.step env currentTime op).mKeyRepeatState.nextRepeatTime = LONG_LONG_MAX := by
  cases op with
  | notifyConfigurationChanged t a b c =>
    show (s.enqueueInboundEntry _ _).mKeyRepeatState.nextRepeatTime = _
    rw [enqueueInboundEntry_mKeyRepeatState]; exact hN
  | notifyLidSwitchChanged t o => exact hN
  | notifyAppSwitchComing t =>
    show (dropMovementKeys _ s).mKeyRepeatState.nextRepeatTime = _
    rw [dropMovementKeys_mKeyRepeatState]; exact hN
  | notifyKey t deviceId nature policyFlags action flags keyCode scanCode metaState downTime =>
    show (s.enqueueInboundEntry _ _).mKeyRepeatState.nextRepeatTime = _
    rw [enqueueInboundEntry_mKeyRepeatState]; exact hN
  | notifyMotion a =>
    show (s.notifyMotion env currentTime a).mKeyRepeatState.nextRepeatTime = _
    rw [notifyMotion_mKeyRepeatState]; exact hN
  | registerInputChannel fd =>
    show (s.registerInputChannel env fd).1.mKeyRepeatState.nextRepeatTime = _
    rw [registerInputChannel_mKeyRepeatState]; exact hN
  | unregisterInputChannel fd =>
    show (s.unregisterInputChannel fd).1.mKeyRepeatState.nextRepeatTime = _
    rw [unregisterInputChannel_mKeyRepeatState]; exact hN
  | dispatchOnce => exact (dispatchOnce_quiet env s currentTime hN (hq rfl).1 (hq rfl).2).1
  | handleReceiveCallback fd events =>
    show (s.handleReceiveCallback env currentTime fd events).1.mKeyRepeatState.nextRepeatTime = _
    rw [handleReceiveCallback_mKeyRepeatState]; exact hN

/-- A quiet run from a state whose key repeat timer is disabled synthesizes no key
repeat and leaves the timer disabled. -/
theorem quietRun_noSynthesis (ops : List (Env × Int × Operation)) (s : InputDispatcher)
    (hN : s.mKeyRepeatState.nextRepeatTime = LONG_LONG_MAX) (hq : QuietRun ops s) :
    NoSynthesis ops s ∧ (runSteps ops s).mKeyRepeatState.nextRepeatTime = LONG_LONG_MAX := by
  induction ops generalizing s with
  | nil => exact ⟨trivial, hN⟩
  | cons x ops ih =>
    obtain ⟨env, currentTime, op⟩ := x
    obtain ⟨hk, hrest⟩ := hq
    have h1 := step_quiet env s currentTime op hN hk
    obtain ⟨h2, h3⟩ := ih _ h1 hrest
    refine ⟨⟨fun hop => ?_, h2⟩, h3⟩
    exact (dispatchOnce_quiet env s currentTime hN (hk hop).1 (hk hop).2).2

end InputDispatcher

open InputDispatcher

/-- C12. Driver auto-repeat suppression. When `processKeyLocked` handles a down whose
key code is that of the existing `lastKeyEntry`, the repeat count of the entry becomes
that of the prior entry plus one, the entry becomes `lastKeyEntry` and `nextRepeatTime`
becomes `LONG_LONG_MAX`. From then on (from any state with the key repeat state that
`processKeyLocked` left), in a run of operations in which every `dispatchOnce` happens
at a finite time and processes no key event, no `dispatchOnce` synthesizes a key
repeat, and `nextRepeatTime` is still `LONG_LONG_MAX` at the end of the run. -/
theorem processKeyLocked_driver_repeat_suppresses_synthesis (env : Env) (s : InputDispatcher)
    (currentTime : Int) (p l : Nat) (k kl : KeyEntry)
    (hk : (s.entry p).body = .key k) (hdown : k.action = KEY_EVENT_ACTION_DOWN)
    (hl : s.mKeyRepeatState.lastKeyEntry = some l) (hkl : (s.entry l).body = .key kl)
    (hcode : kl.keyCode = k.keyCode) :
    ((s.processKeyLocked env currentTime p).entry p).body
        = .key { k with repeatCount := kl.repeatCount + 1 }
      ∧ (s.processKeyLocked env currentTime p).mKeyRepeatState.lastKeyEntry = some p
      ∧ (s.processKeyLocked env currentTime p).mKeyRepeatState.nextRepeatTime = LONG_LONG_MAX
      ∧ ∀ (s0 : InputDispatcher) (ops : List (Env × Int × Operation)),
          s0.mKeyRepeatState = (s.processKeyLocked env currentTime p).mKeyRepeatState →
          QuietRun ops s0 →
          NoSynthesis ops s0
            ∧ (runSteps ops s0).mKeyRepeatState.nextRepeatTime = LONG_LONG_MAX := by
  have hcode2 : (s.entry l).asKey.keyCode = k.keyCode := by
    rw [asKey_of_body hkl]; exact hcode
  obtain ⟨h1, h2⟩ := trackKeyRepeat_driver_repeat env s p l k hk hdown hl hcode2
  rw [asKey_of_body hkl] at h2
  obtain ⟨h3, h4, _, _⟩ :=
    identifyInputTargetsAndDispatchKeyLocked_keeps env (s.trackKeyRepeat env p) currentTime p
  have hstate : (s.processKeyLocked env currentTime p).mKeyRepeatState
      = { lastKeyEntry := some p, nextRepeatTime := LONG_LONG_MAX } := by
    unfold processKeyLocked
    rw [h3, h1]
  refine ⟨?_, ?_, ?_, ?_⟩
  · unfold processKeyLocked
    rw [h4, h2]
  · rw [hstate]
  · rw [hstate]
  · intro s0 ops h0 hq
    refine quietRun_noSynthesis ops s0 ?_ hq
    rw [h0, hstate]

theorem processKeyLocked_driver_repeat_suppresses_synthesis_witness :
    (Example.secondDownDequeued.entry 1).asKey.action = KEY_EVENT_ACTION_DOWN
      ∧ Example.secondDownDequeued.mKeyRepeatState.lastKeyEntry = some 0
      ∧ (Example.secondDownDequeued.entry 0).asKey.keyCode = 29
      ∧ (Example.secondDownDequeued.entry 1).asKey.keyCode = 29
      ∧ (Example.secondDownDequeued.entry 0).asKey.repeatCount = 0
      ∧ ((Example.secondDownDequeued.processKeyLocked (Example.env []) 11 1).entry
          1).asKey.repeatCount = 1
      ∧ (Example.secondDownDequeued.processKeyLocked (Example.env []) 11
          1).mKeyRepeatState.lastKeyEntry = some 1
      ∧ (Example.secondDownDequeued.processKeyLocked (Example.env []) 11
          1).mKeyRepeatState.nextRepeatTime = LONG_LONG_MAX
      ∧ NoSynthesis
          [(Example.env [], 100, .dispatchOnce), (Example.env [], 5000, .dispatchOnce)]
          ((Example.secondDownDequeued.processKeyLocked (Example.env []) 11 1).releaseKeyEntry
            1) :=
  have h := processKeyLocked_driver_repeat_suppresses_synthesis (Example.env [])
    Example.secondDownDequeued 11 1 0 (Example.secondDownDequeued.entry 1).asKey
    (Example.secondDownDequeued.entry 0).asKey rfl (by decide) (by decide) rfl (by decide)
  ⟨by decide, by decide, by decide, by decide, by decide,
    (congrArg KeyEntry.repeatCount (asKey_of_body h.1)).trans
      (show (Example.secondDownDequeued.entry 0).asKey.repeatCount + 1 = 1 by decide),
    h.2.1, h.2.2.1,
    (h.2.2.2
      ((Example.secondDownDequeued.processKeyLocked (Example.env []) 11 1).releaseKeyEntry 1)
      [(Example.env [], 100, .dispatchOnce), (Example.env [], 5000, .dispatchOnce)]
      (by decide)
      (show (_ → 100 < LONG_LONG_MAX ∧ _ = false) ∧ (_ → 5000 < LONG_LONG_MAX ∧ _ = false) ∧ True
        from ⟨fun _ => ⟨by decide, by decide⟩, fun _ => ⟨by decide, by decide⟩, trivial⟩)).1⟩

end Dispatcher

namespace Dispatcher

namespace InputDispatcher

/-! ## Key repeat synthesis -/

/-- The entry that carries the repeat: the previous one if its reference count is 1,
else a fresh one; it is the `lastKeyEntry`, and its key fields are those of the
previous entry with the repeat count increased by one (up to the down time and the
policy flags, which `processKeyRepeatLocked` overwrites). -/
theorem obtainRepeatEntry_spec (s : InputDispatcher) (l : Nat) (k : KeyEntry)
    (hl : s.mKeyRepeatState.lastKeyEntry = some l) (hk : (s.entry l).body = .key k) :
    (s.obtainRepeatEntry l).2 = (if (s.entry l).refCount = 1 then l else s.heap.length)
      ∧ (s.obtainRepeatEntry l).2 < (s.obtainRepeatEntry l).1.heap.length
      ∧ (s.obtainRepeatEntry l).1.mKeyRepeatState.lastKeyEntry = some (s.obtainRepeatEntry l).2
      ∧ ∀ now : Int,
          ({ ((s.obtainRepeatEntry l).1.entry (s.obtainRepeatEntry l).2).asKey with
              downTime := now, policyFlags := 0 } : KeyEntry)
            = { k with repeatCount := k.repeatCount + 1, downTime := now, policyFlags := 0 } := by
  have hp := lt_of_body_key s hk
  have ha := asKey_of_body hk
  unfold obtainRepeatEntry
  simp only
  split
  · refine ⟨rfl, ?_, ?_, ?_⟩
    · show l < (s.setKey l _).heap.length
      unfold setKey
      rw [setEntry_heap_length]; exact hp
    · exact hl
    · intro now
      show ({ ((s.setKey l _).entry l).asKey with downTime := now, policyFlags := 0 } : KeyEntry)
        = _
      unfold setKey
      rw [entry_setEntry_self s _ hp, ha]
      rfl
  · refine ⟨rfl, ?_, ?_, ?_⟩
    · rw [releaseKeyEntry_eq, setEntry_heap_length]
      simp [obtainEntry]
    · rw [releaseKeyEntry_eq, setEntry_mKeyRepeatState]
    · intro now
      rw [releaseKeyEntry_eq, entry_setEntry_of_ne _ _ (Nat.ne_of_lt hp)]
      show ({ ((s.obtainEntry 0 _).entry s.heap.length).asKey with
        downTime := now, policyFlags := 0 } : KeyEntry) = _
      rw [entry_obtainEntry, if_pos rfl, ha]
      rfl

/-- The function `processKeyRepeatLocked` with a `lastKeyEntry`: the state in which
`identifyInputTargetsAndDispatchKeyLocked` is called, and the entry it is called on. -/
theorem processKeyRepeatLocked_prepared (env : Env) (s : InputDispatcher) (now : Int)
    (l : Nat) (k : KeyEntry)
    (hl : s.mKeyRepeatState.lastKeyEntry = some l) (hk : (s.entry l).body = .key k) :
    ∃ s3 : InputDispatcher,
      s.processKeyRepeatLocked env now
          = s3.identifyInputTargetsAndDispatchKeyLocked env now
              (if (s.entry l).refCount = 1 then l else s.heap.length)
        ∧ s3.mKeyRepeatState
          = { lastKeyEntry := some (if (s.entry l).refCount = 1 then l else s.heap.length),
              nextRepeatTime := now + env.policy.getKeyRepeatTimeout }
        ∧ (s3.entry (if (s.entry l).refCount = 1 then l else s.heap.length)).body
          = .key { k with repeatCount := k.repeatCount + 1, downTime := now, policyFlags := 0 }
        ∧ (s3.entry (if (s.entry l).refCount = 1 then l else s.heap.length)).eventTime
          = now := by
  obtain ⟨h1, h2, h3, h4⟩ := obtainRepeatEntry_spec s l k hl hk
  unfold processKeyRepeatLocked
  simp only [hl]
  generalize s.obtainRepeatEntry l = r at h1 h2 h3 h4 ⊢
  obtain ⟨s1, p⟩ := r
  simp only at h1 h2 h3 h4 ⊢
  rw [← h1]
  refine ⟨_, rfl, ?_, ?_, ?_⟩
  · simp only [setEntry_mKeyRepeatState, h3]
  · show ((s1.setEntry p _).entry p).body = _
    rw [entry_setEntry_self s1 _ h2]
    simp only [h4 now]
  · show ((s1.setEntry p _).entry p).eventTime = _
    rw [entry_setEntry_self s1 _ h2]

/-- One key repeat synthesis, seen from the state after it. -/
theorem processKeyRepeatLocked_result (env : Env) (s : InputDispatcher) (now : Int)
    (l : Nat) (k : KeyEntry)
    (hl : s.mKeyRepeatState.lastKeyEntry = some l) (hk : (s.entry l).body = .key k) :
    (s.processKeyRepeatLocked env now).mKeyRepeatState
        = { lastKeyEntry := some (if (s.entry l).refCount = 1 then l else s.heap.length),
            nextRepeatTime := now + env.policy.getKeyRepeatTimeout }
      ∧ ((s.processKeyRepeatLocked env now).entry
            (if (s.entry l).refCount = 1 then l else s.heap.length)).body
          = .key { k with repeatCount := k.repeatCount + 1, downTime := now, policyFlags := 0 }
      ∧ ((s.processKeyRepeatLocked env now).entry
            (if (s.entry l).refCount = 1 then l else s.heap.length)).eventTime = now := by
  obtain ⟨s3, h0, h1, h2, h3⟩ := processKeyRepeatLocked_prepared env s now l k hl hk
  obtain ⟨h4, h5, h6, _⟩ := identifyInputTargetsAndDispatchKeyLocked_keeps env s3 now
    (if (s.entry l).refCount = 1 then l else s.heap.length)
  rw [h0]
  exact ⟨h4.trans h1, (h5 _).trans h2, (h6 _).trans h3⟩

end InputDispatcher

open InputDispatcher

end Dispatcher

namespace Dispatcher

open InputDispatcher

/-- C23. Events are never queued to an unhealthy connection: `prepareDispatchCycleLocked`
on a connection whose status is not `NORMAL` returns the state it was given; in
particular the outbound queue of the connection, the active connections, every event
entry (with its reference count) and the log of the publisher calls are unchanged. -/
theorem prepareDispatchCycleLocked_skips_unhealthy (env : Env) (s : InputDispatcher)
    (currentTime : Int) (c : Nat) (eventEntry : Nat) (inputTarget : InputTarget)
    (resumeWithAppendedMotionSample : Bool) (h : (s.conn c).status ≠ .NORMAL) :
    s.prepareDispatchCycleLocked env currentTime c eventEntry inputTarget
        resumeWithAppendedMotionSample = s
      ∧ ((s.prepareDispatchCycleLocked env currentTime c eventEntry inputTarget
          resumeWithAppendedMotionSample).conn c).outboundQueue = (s.conn c).outboundQueue
      ∧ (s.prepareDispatchCycleLocked env currentTime c eventEntry inputTarget
          resumeWithAppendedMotionSample).mActiveConnections = s.mActiveConnections
      ∧ ((s.prepareDispatchCycleLocked env currentTime c eventEntry inputTarget
          resumeWithAppendedMotionSample).entry eventEntry).refCount
        = (s.entry eventEntry).refCount
      ∧ (s.prepareDispatchCycleLocked env currentTime c eventEntry inputTarget
          resumeWithAppendedMotionSample).trace = s.trace := by
  have key : s.prepareDispatchCycleLocked env currentTime c eventEntry inputTarget
      resumeWithAppendedMotionSample = s := by
    unfold prepareDispatchCycleLocked
    simp only [h, ne_eq, not_false_eq_true, if_true]
  rw [key]
  exact ⟨rfl, rfl, rfl, rfl, rfl⟩

theorem prepareDispatchCycleLocked_skips_unhealthy_witness :
    (Example.keyBroken.conn 0).status = .BROKEN
      ∧ Example.keyBroken.prepareDispatchCycleLocked (Example.env []) 5 0 0
          (Example.target 7 0) false = Example.keyBroken :=
  ⟨by decide,
    (prepareDispatchCycleLocked_skips_unhealthy (Example.env []) Example.keyBroken 5 0 0
      (Example.target 7 0) false (by decide)).1⟩

end Dispatcher

namespace Dispatcher

open InputDispatcher

/-- C21 fails as stated. No channel is registered and the publisher of the new
connection fails to initialize with `BAD_VALUE`: `registerInputChannel` returns
`BAD_VALUE` although no connection with the receive fd 7 is registered. -/
theorem registerInputChannel_bad_value_counterexample :
    InputDispatcher.init.connectionByReceiveFd 7 = none
      ∧ (InputDispatcher.init.registerInputChannel Example.refusingEnv 7).2 = BAD_VALUE := by
  decide

/-- C21, as the code has it. `registerInputChannel` returns `BAD_VALUE` exactly when a
connection with the receive fd is already registered or, none being registered, the
publisher of the new connection fails to initialize with `BAD_VALUE`;
`unregisterInputChannel` returns `BAD_VALUE` exactly when no connection with the fd is
registered. When the fd is already registered, and when an unknown fd is unregistered,
the state is returned as it was; whenever `registerInputChannel` returns `BAD_VALUE`
the state is unchanged but for the log of the publisher calls. -/
theorem registration_misuse (env : Env) (s : InputDispatcher) (receiveFd : Int) :
    ((s.registerInputChannel env receiveFd).2 = BAD_VALUE ↔
        (s.connectionByReceiveFd receiveFd).isSome
          ∨ (s.connectionByReceiveFd receiveFd = none
              ∧ env.publisher s.trace s.conns.length .init = BAD_VALUE))
      ∧ ((s.connectionByReceiveFd receiveFd).isSome →
          s.registerInputChannel env receiveFd = (s, BAD_VALUE))
      ∧ ((s.registerInputChannel env receiveFd).2 = BAD_VALUE →
          { (s.registerInputChannel env receiveFd).1 with trace := s.trace } = s)
      ∧ ((s.unregisterInputChannel receiveFd).2 = BAD_VALUE ↔
          s.connectionByReceiveFd receiveFd = none)
      ∧ (s.connectionByReceiveFd receiveFd = none →
          s.unregisterInputChannel receiveFd = (s, BAD_VALUE)) := by
  refine ⟨?_, ?_, ?_, ?_, ?_⟩
  · unfold registerInputChannel
    cases hl : s.connectionByReceiveFd receiveFd with
    | some c => simp
    | none =>
      simp only [Option.isSome_none, Bool.false_eq_true, false_or, true_and, publisherStatus]
      by_cases h0 : env.publisher s.trace s.conns.length .init = 0
      · simp [h0, BAD_VALUE, OK]
      · simp [h0]
  · intro h
    unfold registerInputChannel
    cases hl : s.connectionByReceiveFd receiveFd with
    | some c => rfl
    | none => rw [hl] at h; simp at h
  · unfold registerInputChannel
    cases hl : s.connectionByReceiveFd receiveFd with
    | some c => intro _; rfl
    | none =>
      simp only [publisherStatus]
      by_cases h0 : env.publisher s.trace s.conns.length .init = 0
      · simp [h0, BAD_VALUE, OK]
      · simp only [h0, ne_eq, not_false_eq_true, if_true]
        intro _; rfl
  · unfold unregisterInputChannel
    cases hl : s.connectionByReceiveFd receiveFd with
    | some c => simp [BAD_VALUE, OK]
    | none => simp
  · intro h
    unfold unregisterInputChannel
    rw [h]

theorem registration_misuse_witness :
    (Example.registered.connectionByReceiveFd 7).isSome
      ∧ Example.registered.registerInputChannel (Example.env []) 7
        = (Example.registered, BAD_VALUE)
      ∧ Example.registered.connectionByReceiveFd 8 = none
      ∧ Example.registered.unregisterInputChannel 8 = (Example.registered, BAD_VALUE) :=
  ⟨by decide,
    (registration_misuse (Example.env []) Example.registered 7).2.1 (by decide),
    by decide,
    (registration_misuse (Example.env []) Example.registered 8).2.2.2.2 (by decide)⟩

end Dispatcher

namespace Dispatcher

namespace InputDispatcher

/-- After `abortDispatchCycleLocked` with `broken = true` the connection is `BROKEN`
and idle. -/
theorem abortDispatchCycleLocked_breaks {held : Option Nat} (u : InputDispatcher) (c : Nat)
    (h : Inv held u) (hc : c < u.conns.length) :
    ((u.abortDispatchCycleLocked c true).1.conn c).status = .BROKEN
      ∧ ((u.abortDispatchCycleLocked c true).1.conn c).outboundQueue = []
      ∧ c ∉ (u.abortDispatchCycleLocked c true).1.mActiveConnections := by
  have hi := abortDispatchCycleLocked_inv u c true h
  have hout : ((u.abortDispatchCycleLocked c true).1.conn c).outboundQueue = [] := by
    by_cases hs : (u.conn c).status = .BROKEN
    · rw [abortDispatchCycleLocked_broken u c true hs]
      cases hq : (u.conn c).outboundQueue with
      | nil => rfl
      | cons d q =>
        have := ((h.connOk c).delivering d q hq).1
        rw [hs] at this
        exact absurd this (by simp)
    · exact abortDispatchCycleLocked_outbound u c true hs
  refine ⟨?_, hout, ?_⟩
  · by_cases hs : (u.conn c).status = .BROKEN
    · rw [abortDispatchCycleLocked_broken u c true hs]; exact hs
    · rw [abortDispatchCycleLocked_conn u c true hc hs]
      rfl
  · intro hact
    exact ((hi.connOk c).active.mp hact) hout

end InputDispatcher

open InputDispatcher

/-- C22. Receive-callback verdict. `handleReceiveCallback` returns `false` exactly when
the fd is not that of a registered connection, or the events contain `POLLERR`,
`POLLHUP` or `POLLNVAL`, or (the fd being registered and `POLLIN` present)
`receiveFinishedSignal` fails. For an unknown fd the state is unchanged. For the fd of
connection `c`: with an error bit (whether or not `POLLIN` is present) the state is that
after `abortDispatchCycleLocked` with `broken = true`; without an error bit and without
`POLLIN` the result is `true` and the state is unchanged; with `POLLIN` and a failing
`receiveFinishedSignal` the state is that after the logged call and
`abortDispatchCycleLocked` with `broken = true`; otherwise the result is `true` and the
state is that after the logged call and `finishDispatchCycleLocked`. After each of the
two aborts, in a state that the dispatcher can reach, the connection is `BROKEN`, its
outbound queue is empty and it is not active. -/
theorem handleReceiveCallback_verdict (env : Env) (s : InputDispatcher) (currentTime : Int)
    (receiveFd : Int) (events : Nat) :
    ((s.handleReceiveCallback env currentTime receiveFd events).2 = false ↔
        s.connectionByReceiveFd receiveFd = none
          ∨ events &&& (POLLERR ||| POLLHUP ||| POLLNVAL) ≠ 0
          ∨ ∃ c, s.connectionByReceiveFd receiveFd = some c ∧ events &&& POLLIN ≠ 0
              ∧ env.publisher s.trace c .receiveFinishedSignal ≠ OK)
      ∧ (s.connectionByReceiveFd receiveFd = none →
          (s.handleReceiveCallback env currentTime receiveFd events).1 = s)
      ∧ ∀ c, s.connectionByReceiveFd receiveFd = some c →
          (events &&& (POLLERR ||| POLLHUP ||| POLLNVAL) ≠ 0 →
              s.handleReceiveCallback env currentTime receiveFd events
                = ((s.abortDispatchCycleLocked c true).1, false))
            ∧ (events &&& (POLLERR ||| POLLHUP ||| POLLNVAL) = 0 → events &&& POLLIN = 0 →
              s.handleReceiveCallback env currentTime receiveFd events = (s, true))
            ∧ (events &&& (POLLERR ||| POLLHUP ||| POLLNVAL) = 0 → events &&& POLLIN ≠ 0 →
              env.publisher s.trace c .receiveFinishedSignal ≠ OK →
              s.handleReceiveCallback env currentTime receiveFd events
                = (((s.publisherCalled env c .receiveFinishedSignal).abortDispatchCycleLocked
                    c true).1, false))
            ∧ (events &&& (POLLERR ||| POLLHUP ||| POLLNVAL) = 0 → events &&& POLLIN ≠ 0 →
              env.publisher s.trace c .receiveFinishedSignal = OK →
              s.handleReceiveCallback env currentTime receiveFd events
                = ((s.publisherCalled env c .receiveFinishedSignal).finishDispatchCycleLocked
                    env currentTime c, true))
            ∧ (Reachable s →
              (s.handleReceiveCallback env currentTime receiveFd events).2 = false →
              ((s.handleReceiveCallback env currentTime receiveFd events).1.conn c).status
                  = .BROKEN
                ∧ ((s.handleReceiveCallback env currentTime receiveFd events).1.conn
                    c).outboundQueue = []
                ∧ c ∉ (s.handleReceiveCallback env currentTime receiveFd
                    events).1.mActiveConnections) := by
  have hcases : ∀ c, s.connectionByReceiveFd receiveFd = some c →
      (events &&& (POLLERR ||| POLLHUP ||| POLLNVAL) ≠ 0 →
          s.handleReceiveCallback env currentTime receiveFd events
            = ((s.abortDispatchCycleLocked c true).1, false))
        ∧ (events &&& (POLLERR ||| POLLHUP ||| POLLNVAL) = 0 → events &&& POLLIN = 0 →
          s.handleReceiveCallback env currentTime receiveFd events = (s, true))
        ∧ (events &&& (POLLERR ||| POLLHUP ||| POLLNVAL) = 0 → events &&& POLLIN ≠ 0 →
          env.publisher s.trace c .receiveFinishedSignal ≠ OK →
          s.handleReceiveCallback env currentTime receiveFd events
            = (((s.publisherCalled env c .receiveFinishedSignal).abortDispatchCycleLocked
                c true).1, false))
        ∧ (events &&& (POLLERR ||| POLLHUP ||| POLLNVAL) = 0 → events &&& POLLIN ≠ 0 →
          env.publisher s.trace c .receiveFinishedSignal = OK →
          s.handleReceiveCallback env currentTime receiveFd events
            = ((s.publisherCalled env c .receiveFinishedSignal).finishDispatchCycleLocked
                env currentTime c, true)) := by
    intro c hl
    unfold handleReceiveCallback
    simp only [hl, publisherStatus]
    refine ⟨?_, ?_, ?_, ?_⟩
    · intro he; rw [if_pos he]
    · intro he hp; rw [if_neg (by simpa using he), if_pos hp]
    · intro he hp hst
      rw [if_neg (by simpa using he), if_neg hp, if_pos (show _ ≠ (0 : Int) from hst)]
    · intro he hp hst
      rw [if_neg (by simpa using he), if_neg hp,
        if_neg (show ¬ _ ≠ (0 : Int) from fun h => h hst)]
  refine ⟨?_, ?_, ?_⟩
  · cases hl : s.connectionByReceiveFd receiveFd with
    | none => simp [handleReceiveCallback, hl]
    | some c =>
      obtain ⟨h1, h2, h3, h4⟩ := hcases c hl
      simp only [false_or, Option.some.injEq, exists_eq_left', reduceCtorEq]
      by_cases he : events &&& (POLLERR ||| POLLHUP ||| POLLNVAL) = 0
      · by_cases hp : events &&& POLLIN = 0
        · rw [h2 he hp]; simp [he, hp]
        · by_cases hst : env.publisher s.trace c .receiveFinishedSignal = OK
          · rw [h4 he hp hst]; simp [he, hst]
          · rw [h3 he hp hst]; simp [hp, hst]
      · rw [h1 he]; simp [he]
  · intro hl
    simp [handleReceiveCallback, hl]
  · intro c hl
    obtain ⟨h1, h2, h3, h4⟩ := hcases c hl
    refine ⟨h1, h2, h3, h4, ?_⟩
    intro hr hfalse
    have hi := inv_of_reachable hr
    have hc := hi.lookupValid hl
    by_cases he : events &&& (POLLERR ||| POLLHUP ||| POLLNVAL) = 0
    · by_cases hp : events &&& POLLIN = 0
      · rw [h2 he hp] at hfalse; simp at hfalse
      · by_cases hst : env.publisher s.trace c .receiveFinishedSignal = OK
        · rw [h4 he hp hst] at hfalse; simp at hfalse
        · rw [h3 he hp hst]
          exact abortDispatchCycleLocked_breaks _ c (hi.withTrace _) hc
    · rw [h1 he]
      exact abortDispatchCycleLocked_breaks s c hi hc

theorem handleReceiveCallback_verdict_witness :
    Reachable Example.keyDispatched
      ∧ Example.keyDispatched.connectionByReceiveFd 7 = some 0
      ∧ (POLLIN ||| POLLHUP) &&& (POLLERR ||| POLLHUP ||| POLLNVAL) ≠ 0
      ∧ Example.keyDispatched.handleReceiveCallback (Example.env []) 5 7 (POLLIN ||| POLLHUP)
        = ((Example.keyDispatched.abortDispatchCycleLocked 0 true).1, false)
      ∧ ((Example.keyDispatched.handleReceiveCallback (Example.env []) 5 7
          (POLLIN ||| POLLHUP)).1.conn 0).status = .BROKEN :=
  ⟨Example.keyDispatched_reachable, by decide, by decide,
    ((handleReceiveCallback_verdict (Example.env []) Example.keyDispatched 5 7
      (POLLIN ||| POLLHUP)).2.2 0 (by decide)).1 (by decide),
    (((handleReceiveCallback_verdict (Example.env []) Example.keyDispatched 5 7
      (POLLIN ||| POLLHUP)).2.2 0 (by decide)).2.2.2.2 Example.keyDispatched_reachable
        (by decide)).1⟩

end Dispatcher

namespace Dispatcher

namespace InputDispatcher

/-- The loop over the active connections when none of them has a timeout armed: nothing
times out and the wakeup time stays `LONG_LONG_MAX`. -/
theorem processTimeouts_idle (currentTime : Int) (ht : currentTime < LONG_LONG_MAX)
    (fuel i : Nat) (r : TimeoutScan)
    (hidle : ∀ c ∈ r.state.mActiveConnections, (r.state.conn c).nextTimeoutTime = LONG_LONG_MAX)
    (hw : r.nextWakeupTime = LONG_LONG_MAX) :
    (processTimeouts currentTime fuel i r).state = r.state
      ∧ (processTimeouts currentTime fuel i r).nextWakeupTime = LONG_LONG_MAX := by
  induction fuel generalizing i r with
  | zero => exact ⟨rfl, hw⟩
  | succ fuel ih =>
    simp only [processTimeouts]
    cases hi : r.state.mActiveConnections[i]? with
    | none => exact ⟨rfl, hw⟩
    | some c =>
      have hc : (r.state.conn c).nextTimeoutTime = LONG_LONG_MAX :=
        hidle c (List.getElem?_mem hi)
      have hnot : ¬ LONG_LONG_MAX ≤ currentTime := by omega
      simp only [hc, hnot, if_false, Bool.false_eq_true, hw, lt_irrefl]
      exact ih (i + 1) _ hidle rfl

theorem resetKeyRepeatLocked_conns (s : InputDispatcher) :
    s.resetKeyRepeatLocked.conns = s.conns ∧
      s.resetKeyRepeatLocked.mActiveConnections = s.mActiveConnections
      ∧ s.resetKeyRepeatLocked.mPollLoop = s.mPollLoop := by
  unfold resetKeyRepeatLocked
  split
  · exact ⟨rfl, rfl, rfl⟩
  · exact ⟨rfl, rfl, rfl⟩

/-- When `dispatchOnce` neither dispatches an inbound entry nor synthesizes a key
repeat, it ends in the poll loop. -/
theorem dispatchOnce_polls (env : Env) (s : InputDispatcher) (currentTime : Int)
    (h : (s.dispatchOnceTimeouts env currentTime).hasPendingSyncTarget = true
      ∨ (s.mInboundQueue = [] ∧ s.synthesizesKeyRepeat env currentTime = false)) :
    ∃ w, s.dispatchOnce env currentTime
      = (s.dispatchOnceTimeouts env currentTime).state.pollOnce w currentTime := by
  rcases (dispatchOnce_by_synthesis env s currentTime) with ⟨_, h2⟩
  rcases h with hp | ⟨hq, hs⟩
  · refine ⟨(s.dispatchOnceTimeouts env currentTime).nextWakeupTime, ?_⟩
    unfold dispatchOnce
    simp only [hp, Bool.not_true, Bool.false_eq_true, if_false]
  · rcases h2 hs with hw | ⟨p, rest, hpq, _⟩
    · exact hw
    · rw [dispatchOnceTimeouts_inbound, hq] at hpq
      exact absurd hpq (by simp)

/-- An idle dispatcher waits with the wakeup time `LONG_LONG_MAX`. -/
theorem dispatchOnce_idle (env : Env) (s : InputDispatcher) (currentTime : Int)
    (ht : currentTime < LONG_LONG_MAX) (hq : s.mInboundQueue = [])
    (hidle : ∀ c ∈ s.mActiveConnections, (s.conn c).nextTimeoutTime = LONG_LONG_MAX)
    (hk : s.mKeyRepeatState.lastKeyEntry = none
      ∨ s.mKeyRepeatState.nextRepeatTime = LONG_LONG_MAX) :
    (s.dispatchOnce env currentTime).mPollLoop
      = (s.pollOnce LONG_LONG_MAX currentTime).mPollLoop := by
  have hreset := resetKeyRepeatLocked_conns s
  have hscan : (s.dispatchOnceTimeouts env currentTime).state
        = (if !env.policy.allowKeyRepeat then s.resetKeyRepeatLocked else s)
      ∧ (s.dispatchOnceTimeouts env currentTime).nextWakeupTime = LONG_LONG_MAX := by
    unfold dispatchOnceTimeouts
    refine processTimeouts_idle currentTime ht _ 0 _ ?_ rfl
    simp only
    split
    · intro c hc
      rw [hreset.2.1] at hc
      have := hidle c hc
      unfold conn at this ⊢
      rw [hreset.1]; exact this
    · exact hidle
  have hpoll : (s.dispatchOnceTimeouts env currentTime).state.mPollLoop = s.mPollLoop := by
    rw [hscan.1]
    split
    · exact hreset.2.2
    · rfl
  have hinb := dispatchOnceTimeouts_inbound env s currentTime
  have hnrt := dispatchOnceTimeouts_nextRepeatTime env s currentTime
  have hlast : (s.dispatchOnceTimeouts env currentTime).state.mKeyRepeatState.lastKeyEntry = none
      ∨ (s.dispatchOnceTimeouts env currentTime).state.mKeyRepeatState.nextRepeatTime
        = LONG_LONG_MAX := by
    rcases hk with hk | hk
    · left
      rw [hscan.1]
      split
      · unfold resetKeyRepeatLocked
        rw [hk]; exact hk
      · exact hk
    · right; rw [hnrt, hk]
  unfold dispatchOnce
  simp only [hinb, hq, hscan.2]
  generalize s.dispatchOnceTimeouts env currentTime = r at hpoll hlast ⊢
  have key : ∀ u : InputDispatcher, u.mPollLoop = s.mPollLoop →
      (u.pollOnce LONG_LONG_MAX currentTime).mPollLoop
        = (s.pollOnce LONG_LONG_MAX currentTime).mPollLoop := by
    intro u hu
    unfold pollOnce
    simp only [hu]
  split
  · cases hl : r.state.mKeyRepeatState.lastKeyEntry with
    | none => exact key _ hpoll
    | some l =>
      have hn : r.state.mKeyRepeatState.nextRepeatTime = LONG_LONG_MAX := by
        rcases hlast with h | h
        · rw [hl] at h; simp at h
        · exact h
      have hnot : ¬ currentTime ≥ LONG_LONG_MAX := by omega
      simp only [hn, hnot, if_false, lt_irrefl]
      exact key _ hpoll
  · exact key _ hpoll

/-- The difference of two `nsecs_t` is the difference of the numbers whenever that is
in the range of `int64_t`. -/
theorem subNsecs_eq (a b : Int) (h1 : -LONG_LONG_MAX - 1 ≤ a - b)
    (h2 : a - b ≤ LONG_LONG_MAX) : subNsecs a b = a - b := by
  have h : LONG_LONG_MAX = 9223372036854775807 := rfl
  rw [h] at h1 h2
  unfold subNsecs
  omega

end InputDispatcher

open InputDispatcher

/-- At the end of the range of `nsecs_t`: one nanosecond before `LONG_LONG_MAX`, which
the monotonic clock reaches some 292 years after boot, an idle dispatcher calls
`pollOnce` with 0, since the wakeup time `LONG_LONG_MAX` is then less than a
millisecond away. -/
theorem pollOnce_timeout_at_range_end :
    Example.registered.mInboundQueue = []
      ∧ Example.registered.mActiveConnections = []
      ∧ Example.registered.mKeyRepeatState.lastKeyEntry = none
      ∧ (Example.registered.dispatchOnce (Example.env []) (LONG_LONG_MAX - 1)
          ).mPollLoop.pollTimeouts = [0] := by
  decide

/-- C28. Poll timeout clamp. The difference between the wakeup time and the current
time is taken in `nsecs_t`, where it is the difference of the numbers whenever that
is in the range of `int64_t`.  With `ms` this difference in milliseconds, `pollOnce`
is called with -1 when `ms > INT_MAX`, with `ms` when `0 < ms ≤ INT_MAX` and with 0
when `ms ≤ 0`; `dispatchOnce` ends in this call whenever it neither dispatches an
inbound entry nor synthesizes a key repeat.  In particular, when the inbound queue is
empty, no active connection has a timeout armed and no key repeat is pending (the
wakeup time is `LONG_LONG_MAX`), `dispatchOnce` calls `pollOnce` with -1, at every
reading of the monotonic clock: a current time that is not negative and is at least
`INT_MAX + 1` milliseconds (2147483648000000 ns, about 25 days) before
`LONG_LONG_MAX` (about 292 years after boot). -/
theorem dispatchOnce_poll_timeout (env : Env) (s : InputDispatcher) (currentTime : Int) :
    (∀ nextWakeupTime : Int, -LONG_LONG_MAX - 1 ≤ nextWakeupTime - currentTime →
        nextWakeupTime - currentTime ≤ LONG_LONG_MAX →
        subNsecs nextWakeupTime currentTime = nextWakeupTime - currentTime)
      ∧ (∀ (u : InputDispatcher) (nextWakeupTime : Int),
        (nanoseconds_to_milliseconds (subNsecs nextWakeupTime currentTime) > INT_MAX →
            (u.pollOnce nextWakeupTime currentTime).mPollLoop.pollTimeouts
              = u.mPollLoop.pollTimeouts ++ [-1])
          ∧ (0 < nanoseconds_to_milliseconds (subNsecs nextWakeupTime currentTime) →
              nanoseconds_to_milliseconds (subNsecs nextWakeupTime currentTime) ≤ INT_MAX →
              (u.pollOnce nextWakeupTime currentTime).mPollLoop.pollTimeouts
                = u.mPollLoop.pollTimeouts
                  ++ [nanoseconds_to_milliseconds (subNsecs nextWakeupTime currentTime)])
          ∧ (nanoseconds_to_milliseconds (subNsecs nextWakeupTime currentTime) ≤ 0 →
              (u.pollOnce nextWakeupTime currentTime).mPollLoop.pollTimeouts
                = u.mPollLoop.pollTimeouts ++ [0]))
      ∧ ((s.dispatchOnceTimeouts env currentTime).hasPendingSyncTarget = true
            ∨ (s.mInboundQueue = [] ∧ s.synthesizesKeyRepeat env currentTime = false) →
          ∃ w, s.dispatchOnce env currentTime
            = (s.dispatchOnceTimeouts env currentTime).state.pollOnce w currentTime)
      ∧ (s.mInboundQueue = [] →
          (∀ c ∈ s.mActiveConnections, (s.conn c).nextTimeoutTime = LONG_LONG_MAX) →
          (s.mKeyRepeatState.lastKeyEntry = none
            ∨ s.mKeyRepeatState.nextRepeatTime = LONG_LONG_MAX) →
          0 ≤ currentTime →
          currentTime ≤ LONG_LONG_MAX - 2147483648000000 →
          (s.dispatchOnce env currentTime).mPollLoop.pollTimeouts
            = s.mPollLoop.pollTimeouts ++ [-1]) := by
  have hclamp : ∀ (u : InputDispatcher) (nextWakeupTime : Int),
      (nanoseconds_to_milliseconds (subNsecs nextWakeupTime currentTime) > INT_MAX →
          (u.pollOnce nextWakeupTime currentTime).mPollLoop.pollTimeouts
            = u.mPollLoop.pollTimeouts ++ [-1])
        ∧ (0 < nanoseconds_to_milliseconds (subNsecs nextWakeupTime currentTime) →
            nanoseconds_to_milliseconds (subNsecs nextWakeupTime currentTime) ≤ INT_MAX →
            (u.pollOnce nextWakeupTime currentTime).mPollLoop.pollTimeouts
              = u.mPollLoop.pollTimeouts
                ++ [nanoseconds_to_milliseconds (subNsecs nextWakeupTime currentTime)])
        ∧ (nanoseconds_to_milliseconds (subNsecs nextWakeupTime currentTime) ≤ 0 →
            (u.pollOnce nextWakeupTime currentTime).mPollLoop.pollTimeouts
              = u.mPollLoop.pollTimeouts ++ [0]) := by
    intro u w
    unfold pollOnce
    simp only
    refine ⟨fun h => ?_, fun h1 h2 => ?_, fun h => ?_⟩
    · rw [if_pos h]
    · rw [if_neg (by omega), if_pos h1]
    · have h3 : INT_MAX = 2147483647 := rfl
      rw [if_neg (by omega), if_neg (by omega)]
  refine ⟨fun w h1 h2 => subNsecs_eq w currentTime h1 h2, hclamp,
    dispatchOnce_polls env s currentTime, ?_⟩
  intro hq hidle hk h0 ht
  have h1 : LONG_LONG_MAX = 9223372036854775807 := rfl
  have h2 : INT_MAX = 2147483647 := rfl
  have hlt : currentTime < LONG_LONG_MAX := by
    rw [h1] at ht ⊢
    omega
  rw [dispatchOnce_idle env s currentTime hlt hq hidle hk]
  refine (hclamp s LONG_LONG_MAX).1 ?_
  rw [subNsecs_eq LONG_LONG_MAX currentTime (by rw [h1]; omega) (by omega)]
  unfold nanoseconds_to_milliseconds
  rw [h1, h2]
  rw [h1] at ht
  have hnn : (0 : Int) ≤ 9223372036854775807 - currentTime := by omega
  rw [Int.tdiv_eq_ediv hnn (by norm_num)]
  omega

theorem dispatchOnce_poll_timeout_witness :
    Example.registered.mInboundQueue = []
      ∧ (∀ c ∈ Example.registered.mActiveConnections,
          (Example.registered.conn c).nextTimeoutTime = LONG_LONG_MAX)
      ∧ Example.registered.mKeyRepeatState.lastKeyEntry = none
      ∧ (0 : Int) ≤ 5
      ∧ (5 : Int) ≤ LONG_LONG_MAX - 2147483648000000
      ∧ (Example.registered.dispatchOnce (Example.env []) 5).mPollLoop.pollTimeouts = [-1] :=
  ⟨by decide, by decide, by decide, by decide, by decide,
    (dispatchOnce_poll_timeout (Example.env []) Example.registered 5).2.2.2 (by decide)
      (by decide) (Or.inl (by decide)) (by decide) (by decide)⟩

end Dispatcher

namespace Dispatcher

namespace InputDispatcher

/-- The end of a notification that enqueues a new entry: the entry goes to the tail of
the inbound queue, and the poll loop is woken exactly if the queue was empty. -/
theorem enqueueInboundEntry_wake (s : InputDispatcher) (eventTime : Int) (body : EntryBody) :
    (s.enqueueInboundEntry eventTime body).mInboundQueue = s.mInboundQueue ++ [s.heap.length]
      ∧ (s.enqueueInboundEntry eventTime body).mPollLoop.wakeCount
        = s.mPollLoop.wakeCount + (if s.mInboundQueue = [] then 1 else 0)
      ∧ (s.enqueueInboundEntry eventTime body).entry s.heap.length
        = { refCount := 1, eventTime := eventTime, body := body, inPool := false } := by
  have he : ∀ u : InputDispatcher, u.heap = (s.obtainEntry eventTime body).heap →
      u.entry s.heap.length
        = { refCount := 1, eventTime := eventTime, body := body, inPool := false } := by
    intro u hu
    have : u.entry s.heap.length = (s.obtainEntry eventTime body).entry s.heap.length := by
      unfold entry; rw [hu]
    rw [this, entry_obtainEntry, if_pos rfl]
  unfold enqueueInboundEntry
  simp only
  cases hq : s.mInboundQueue with
  | nil =>
    have h1 : (s.obtainEntry eventTime body).mInboundQueue.isEmpty = true := by
      show s.mInboundQueue.isEmpty = true
      rw [hq]; rfl
    rw [if_pos h1]
    refine ⟨?_, ?_, he _ rfl⟩
    · show s.mInboundQueue ++ [s.heap.length] = _
      rw [hq]
    · show s.mPollLoop.wakeCount + 1 = _
      simp
  | cons p q =>
    have h1 : ¬ (s.obtainEntry eventTime body).mInboundQueue.isEmpty = true := by
      show ¬ s.mInboundQueue.isEmpty = true
      rw [hq]; simp
    rw [if_neg h1]
    refine ⟨?_, ?_, he _ rfl⟩
    · show s.mInboundQueue ++ [s.heap.length] = _
      rw [hq]
    · show s.mPollLoop.wakeCount = _
      simp

theorem dropMovementKeys_mPollLoop (l : List Nat) (s : InputDispatcher) :
    (dropMovementKeys l s).mPollLoop = s.mPollLoop := by
  induction l generalizing s with
  | nil => rfl
  | cons p l ih =>
    simp only [dropMovementKeys]
    split
    · split
      · rw [ih]; rfl
      · rfl
    · exact ih s

/-- What `notifyMotion` does to the inbound queue and to the poll loop, by the outcome
of its two searches. -/
theorem notifyMotion_wake (env : Env) (s : InputDispatcher) (currentTime : Int)
    (a : MotionArgs) :
    (∀ p, a.action = MOTION_EVENT_ACTION_MOVE →
        findBatchEntry s a.deviceId a.pointerCount s.mInboundQueue.reverse = .found p →
        (s.notifyMotion env currentTime a).mInboundQueue = s.mInboundQueue
          ∧ (s.notifyMotion env currentTime a).mPollLoop = s.mPollLoop)
      ∧ (∀ p, a.action = MOTION_EVENT_ACTION_MOVE →
        findBatchEntry s a.deviceId a.pointerCount s.mInboundQueue.reverse = .exhausted →
        findStreamEntry s a.deviceId a.pointerCount s.mActiveConnections = .found p →
        (s.notifyMotion env currentTime a).mInboundQueue = s.mInboundQueue
          ∧ (s.notifyMotion env currentTime a).mPollLoop = s.mPollLoop)
      ∧ ((∀ p, a.action = MOTION_EVENT_ACTION_MOVE →
            findBatchEntry s a.deviceId a.pointerCount s.mInboundQueue.reverse ≠ .found p) →
          (∀ p, a.action = MOTION_EVENT_ACTION_MOVE →
            findBatchEntry s a.deviceId a.pointerCount s.mInboundQueue.reverse = .exhausted →
            findStreamEntry s a.deviceId a.pointerCount s.mActiveConnections ≠ .found p) →
          s.notifyMotion env currentTime a = s.enqueueMotionEntry a) := by
  refine ⟨?_, ?_, ?_⟩
  · intro p ha hb
    unfold notifyMotion
    rw [if_pos ha, hb]
    exact ⟨rfl, rfl⟩
  · intro p ha hb hs
    unfold notifyMotion
    rw [if_pos ha, hb]
    simp only [hs]
    unfold dispatchEventToCurrentInputTargetsLocked
    have h := dispatchEventToInputTargets_frame env currentTime p true
      (s.appendMotionSample p a.eventTime a.pointerCount a.pointerCoords).mCurrentInputTargets
      (s.appendMotionSample p a.eventTime a.pointerCount a.pointerCoords)
    exact ⟨h.inbound, h.pollLoop⟩
  · intro hb hs
    unfold notifyMotion
    split
    · rename_i ha
      split
      · rename_i p hf
        exact absurd hf (hb p ha)
      · rfl
      · rename_i he
        split
        · rename_i p hf
          exact absurd hf (hs p ha he)
        · rfl
    · rfl

end InputDispatcher

open InputDispatcher

/-- C29. Wake discipline. `notifyConfigurationChanged` and `notifyKey` append their new
entry to the inbound queue and wake the poll loop exactly if the queue was empty. A
`notifyMotion` that batches or streams leaves the inbound queue and the poll loop as
they were; any other `notifyMotion` appends its new entry to the inbound queue and
wakes the poll loop exactly if the queue was empty; so `notifyMotion` wakes the poll
loop exactly when it has enqueued a new entry onto an empty inbound queue.
`notifyAppSwitchComing` never wakes the poll loop. -/
theorem wake_discipline (env : Env) (s : InputDispatcher) (currentTime : Int) :
    (∀ eventTime touchScreenConfig keyboardConfig navigationConfig : Int,
        (s.notifyConfigurationChanged eventTime touchScreenConfig keyboardConfig
            navigationConfig).mInboundQueue = s.mInboundQueue ++ [s.heap.length]
          ∧ (s.notifyConfigurationChanged eventTime touchScreenConfig keyboardConfig
              navigationConfig).mPollLoop.wakeCount
            = s.mPollLoop.wakeCount + (if s.mInboundQueue = [] then 1 else 0))
      ∧ (∀ (eventTime deviceId nature : Int) (policyFlags : Nat) (action : Int) (flags : Nat)
          (keyCode scanCode metaState downTime : Int),
        (s.notifyKey eventTime deviceId nature policyFlags action flags keyCode scanCode
            metaState downTime).mInboundQueue = s.mInboundQueue ++ [s.heap.length]
          ∧ (s.notifyKey eventTime deviceId nature policyFlags action flags keyCode scanCode
              metaState downTime).mPollLoop.wakeCount
            = s.mPollLoop.wakeCount + (if s.mInboundQueue = [] then 1 else 0))
      ∧ (∀ a : MotionArgs,
          (∀ p, a.action = MOTION_EVENT_ACTION_MOVE →
            findBatchEntry s a.deviceId a.pointerCount s.mInboundQueue.reverse = .found p →
            (s.notifyMotion env currentTime a).mInboundQueue = s.mInboundQueue
              ∧ (s.notifyMotion env currentTime a).mPollLoop.wakeCount
                = s.mPollLoop.wakeCount)
          ∧ (∀ p, a.action = MOTION_EVENT_ACTION_MOVE →
            findBatchEntry s a.deviceId a.pointerCount s.mInboundQueue.reverse = .exhausted →
            findStreamEntry s a.deviceId a.pointerCount s.mActiveConnections = .found p →
            (s.notifyMotion env currentTime a).mInboundQueue = s.mInboundQueue
              ∧ (s.notifyMotion env currentTime a).mPollLoop.wakeCount
                = s.mPollLoop.wakeCount)
          ∧ ((∀ p, a.action = MOTION_EVENT_ACTION_MOVE →
                findBatchEntry s a.deviceId a.pointerCount s.mInboundQueue.reverse
                  ≠ .found p) →
              (∀ p, a.action = MOTION_EVENT_ACTION_MOVE →
                findBatchEntry s a.deviceId a.pointerCount s.mInboundQueue.reverse
                  = .exhausted →
                findStreamEntry s a.deviceId a.pointerCount s.mActiveConnections
                  ≠ .found p) →
              (s.notifyMotion env currentTime a).mInboundQueue
                  = s.mInboundQueue ++ [s.heap.length]
                ∧ (s.notifyMotion env currentTime a).mPollLoop.wakeCount
                  = s.mPollLoop.wakeCount + (if s.mInboundQueue = [] then 1 else 0))
          ∧ ((s.notifyMotion env currentTime a).mPollLoop.wakeCount
                = s.mPollLoop.wakeCount + 1
              ↔ s.mInboundQueue = []
                ∧ (s.notifyMotion env currentTime a).mInboundQueue = [s.heap.length])
          ∧ ((s.notifyMotion env currentTime a).mPollLoop.wakeCount
                = s.mPollLoop.wakeCount
              ↔ ¬ (s.mInboundQueue = []
                ∧ (s.notifyMotion env currentTime a).mInboundQueue = [s.heap.length])))
      ∧ ∀ eventTime : Int,
          (s.notifyAppSwitchComing eventTime).mPollLoop.wakeCount = s.mPollLoop.wakeCount := by
  refine ⟨?_, ?_, ?_, ?_⟩
  · intro t a b c
    exact ⟨(enqueueInboundEntry_wake s _ _).1, (enqueueInboundEntry_wake s _ _).2.1⟩
  · intro t d n pf ac fl kc sc ms dt
    exact ⟨(enqueueInboundEntry_wake s _ _).1, (enqueueInboundEntry_wake s _ _).2.1⟩
  · intro a
    obtain ⟨h1, h2, h3⟩ := notifyMotion_wake env s currentTime a
    have henq : s.notifyMotion env currentTime a = s.enqueueMotionEntry a →
        (s.notifyMotion env currentTime a).mInboundQueue = s.mInboundQueue ++ [s.heap.length]
          ∧ (s.notifyMotion env currentTime a).mPollLoop.wakeCount
            = s.mPollLoop.wakeCount + (if s.mInboundQueue = [] then 1 else 0) := by
      intro h
      rw [h]
      exact ⟨(enqueueInboundEntry_wake s _ _).1, (enqueueInboundEntry_wake s _ _).2.1⟩
    have hcases : ((s.notifyMotion env currentTime a).mInboundQueue = s.mInboundQueue
          ∧ (s.notifyMotion env currentTime a).mPollLoop = s.mPollLoop)
        ∨ s.notifyMotion env currentTime a = s.enqueueMotionEntry a := by
      by_cases hb : ∃ p, a.action = MOTION_EVENT_ACTION_MOVE ∧
          findBatchEntry s a.deviceId a.pointerCount s.mInboundQueue.reverse = .found p
      · obtain ⟨p, ha, hf⟩ := hb
        exact Or.inl (h1 p ha hf)
      · by_cases hs : ∃ p, a.action = MOTION_EVENT_ACTION_MOVE ∧
            findBatchEntry s a.deviceId a.pointerCount s.mInboundQueue.reverse = .exhausted ∧
            findStreamEntry s a.deviceId a.pointerCount s.mActiveConnections = .found p
        · obtain ⟨p, ha, he, hf⟩ := hs
          exact Or.inl (h2 p ha he hf)
        · refine Or.inr (h3 ?_ ?_)
          · intro p ha hf; exact hb ⟨p, ha, hf⟩
          · intro p ha he hf; exact hs ⟨p, ha, he, hf⟩
    have hcount : (s.notifyMotion env currentTime a).mPollLoop.wakeCount
        = s.mPollLoop.wakeCount
          + (if s.mInboundQueue = []
              ∧ (s.notifyMotion env currentTime a).mInboundQueue = [s.heap.length]
            then 1 else 0) := by
      rcases hcases with ⟨hq, hp⟩ | he
      · rw [hp, hq]
        have : ¬ (s.mInboundQueue = [] ∧ s.mInboundQueue = [s.heap.length]) := by
          rintro ⟨h, h'⟩; rw [h] at h'; simp at h'
        rw [if_neg this]; rfl
      · obtain ⟨hq, hw⟩ := henq he
        rw [hw, hq]
        by_cases hn : s.mInboundQueue = []
        · simp [hn]
        · simp [hn]
    refine ⟨fun p ha hf => ?_, fun p ha he hf => ?_, fun hb hs => henq (h3 hb hs), ?_, ?_⟩
    · obtain ⟨hq, hp⟩ := h1 p ha hf
      exact ⟨hq, by rw [hp]⟩
    · obtain ⟨hq, hp⟩ := h2 p ha he hf
      exact ⟨hq, by rw [hp]⟩
    · rw [hcount]
      split <;> simp [*]
    · rw [hcount]
      split <;> simp [*]
  · intro t
    unfold notifyAppSwitchComing
    rw [dropMovementKeys_mPollLoop]

theorem wake_discipline_witness :
    Example.registered.mInboundQueue = []
      ∧ (Example.registered.notifyMotion (Example.env []) 0
          (Example.motion 0 MOTION_EVENT_ACTION_MOVE)).mPollLoop.wakeCount
        = Example.registered.mPollLoop.wakeCount + 1
      ∧ findBatchEntry Example.moveQueued 1 1 Example.moveQueued.mInboundQueue.reverse
        = .found 0
      ∧ (Example.moveQueued.notifyMotion (Example.env []) 1
          (Example.motion 1 MOTION_EVENT_ACTION_MOVE)).mPollLoop.wakeCount
        = Example.moveQueued.mPollLoop.wakeCount :=
  ⟨by decide,
    ((wake_discipline (Example.env []) Example.registered 0).2.2.1
      (Example.motion 0 MOTION_EVENT_ACTION_MOVE)).2.2.2.1.mpr ⟨by decide, by decide⟩,
    by decide,
    (((wake_discipline (Example.env []) Example.moveQueued 1).2.2.1
      (Example.motion 1 MOTION_EVENT_ACTION_MOVE)).1 0 (by decide) (by decide)).2⟩

end Dispatcher

namespace Dispatcher

namespace InputDispatcher

/-! ## What `dispatchOnce` leaves alone -/

theorem processTimeouts_frame (currentTime : Int) (fuel i : Nat) (r : TimeoutScan) :
    DispatchFrame r.state (processTimeouts currentTime fuel i r).state := by
  induction fuel generalizing i r with
  | zero => exact DispatchFrame.dframe_refl _
  | succ fuel ih =>
    simp only [processTimeouts]
    split
    · exact DispatchFrame.dframe_refl _
    · rename_i c0 hc0
      generalize ht : (if (r.state.conn c0).nextTimeoutTime ≤ currentTime
          then r.state.timeoutDispatchCycleLocked currentTime c0 else (r.state, false)) = t
      have h1 : DispatchFrame r.state t.1 := by
        rw [← ht]
        split
        · exact (timeoutDispatchCycleLocked_frame _ currentTime c0).dispatchFrame
        · exact DispatchFrame.dframe_refl _
      split
      · exact h1.dframe_trans (ih i { r with state := t.1 })
      · exact h1.dframe_trans (ih (i + 1)
          { state := t.1
            nextWakeupTime :=
              if (r.state.conn c0).nextTimeoutTime < r.nextWakeupTime
              then (r.state.conn c0).nextTimeoutTime else r.nextWakeupTime
            hasPendingSyncTarget :=
              if (t.1.conn c0).hasPendingSyncTarget then true else r.hasPendingSyncTarget })

theorem dispatchOnceTimeouts_body (env : Env) (s : InputDispatcher) (currentTime : Int)
    (p : Nat) :
    ((s.dispatchOnceTimeouts env currentTime).state.entry p).body = (s.entry p).body := by
  unfold dispatchOnceTimeouts
  rw [(processTimeouts_frame currentTime _ 0 _).body]
  simp only
  split
  · exact resetKeyRepeatLocked_body s p
  · rfl

theorem trackKeyRepeat_mInboundQueue (env : Env) (s : InputDispatcher) (p : Nat) :
    (s.trackKeyRepeat env p).mInboundQueue = s.mInboundQueue := by
  unfold trackKeyRepeat
  split
  · simp only [retainEventEntry_mInboundQueue]
    split
    · split
      · show (resetKeyRepeatLocked _).mInboundQueue = _
        rw [resetKeyRepeatLocked_mInboundQueue]
        rfl
      · exact resetKeyRepeatLocked_mInboundQueue s
    · exact resetKeyRepeatLocked_mInboundQueue s
  · exact resetKeyRepeatLocked_mInboundQueue s

theorem dispatchInboundEntry_mInboundQueue (env : Env) (s : InputDispatcher)
    (currentTime : Int) (p : Nat) :
    (s.dispatchInboundEntry env currentTime p).mInboundQueue = s.mInboundQueue := by
  unfold dispatchInboundEntry
  split
  · unfold processConfigurationChangedLocked
    split <;> rfl
  · show (s.processKeyLocked env currentTime p).mInboundQueue = _
    unfold processKeyLocked identifyInputTargetsAndDispatchKeyLocked
      dispatchEventToCurrentInputTargetsLocked
    simp only
    rw [(dispatchEventToInputTargets_frame env currentTime p false _ _).inbound]
    exact trackKeyRepeat_mInboundQueue env s p
  · show (s.processMotionLocked env currentTime p).mInboundQueue = _
    unfold processMotionLocked identifyInputTargetsAndDispatchMotionLocked
      dispatchEventToCurrentInputTargetsLocked
    simp only
    rw [(dispatchEventToInputTargets_frame env currentTime p false _ _).inbound]

end InputDispatcher

open InputDispatcher

/-- C24. One inbound event per iteration, in FIFO order. When `dispatchOnce` finds no
pending synchronous target and the inbound queue is `e1 :: rest`, it takes `e1` off the
queue, processes it by its type (`processConfigurationChangedLocked`,
`processKeyLocked` or `processMotionLocked`), releases it, and leaves the inbound queue
equal to `rest`. `notifyConfigurationChanged`, `notifyKey` and a `notifyMotion` that
neither batches nor streams append their new entry, which holds the notified event,
after all the entries already queued. -/
theorem dispatchOnce_fifo (env : Env) (s : InputDispatcher) (currentTime : Int) :
    (∀ e1 rest, (s.dispatchOnceTimeouts env currentTime).hasPendingSyncTarget = false →
        s.mInboundQueue = e1 :: rest →
        (s.dispatchOnce env currentTime).mInboundQueue = rest
          ∧ (∀ a b c, (s.entry e1).body = .configurationChanged a b c →
              s.dispatchOnce env currentTime
                = (InputDispatcher.processConfigurationChangedLocked
                    { (s.dispatchOnceTimeouts env currentTime).state with mInboundQueue := rest }
                    currentTime e1).releaseConfigurationChangedEntry e1)
          ∧ (∀ k, (s.entry e1).body = .key k →
              s.dispatchOnce env currentTime
                = (InputDispatcher.processKeyLocked env
                    { (s.dispatchOnceTimeouts env currentTime).state with mInboundQueue := rest }
                    currentTime e1).releaseKeyEntry e1)
          ∧ (∀ m, (s.entry e1).body = .motion m →
              s.dispatchOnce env currentTime
                = (InputDispatcher.processMotionLocked env
                    { (s.dispatchOnceTimeouts env currentTime).state with mInboundQueue := rest }
                    currentTime e1).releaseMotionEntry e1))
      ∧ (∀ eventTime touchScreenConfig keyboardConfig navigationConfig : Int,
          (s.notifyConfigurationChanged eventTime touchScreenConfig keyboardConfig
              navigationConfig).mInboundQueue = s.mInboundQueue ++ [s.heap.length]
            ∧ ((s.notifyConfigurationChanged eventTime touchScreenConfig keyboardConfig
                navigationConfig).entry s.heap.length).body
              = .configurationChanged touchScreenConfig keyboardConfig navigationConfig)
      ∧ (∀ (eventTime deviceId nature : Int) (policyFlags : Nat) (action : Int) (flags : Nat)
          (keyCode scanCode metaState downTime : Int),
          (s.notifyKey eventTime deviceId nature policyFlags action flags keyCode scanCode
              metaState downTime).mInboundQueue = s.mInboundQueue ++ [s.heap.length]
            ∧ ((s.notifyKey eventTime deviceId nature policyFlags action flags keyCode scanCode
                metaState downTime).entry s.heap.length).body
              = .key { deviceId := deviceId, nature := nature, policyFlags := policyFlags,
                       action := action, flags := flags, keyCode := keyCode,
                       scanCode := scanCode, metaState := metaState, repeatCount := 0,
                       downTime := downTime })
      ∧ ∀ a : MotionArgs,
          (∀ p, a.action = MOTION_EVENT_ACTION_MOVE →
            findBatchEntry s a.deviceId a.pointerCount s.mInboundQueue.reverse ≠ .found p) →
          (∀ p, a.action = MOTION_EVENT_ACTION_MOVE →
            findBatchEntry s a.deviceId a.pointerCount s.mInboundQueue.reverse = .exhausted →
            findStreamEntry s a.deviceId a.pointerCount s.mActiveConnections ≠ .found p) →
          (s.notifyMotion env currentTime a).mInboundQueue = s.mInboundQueue ++ [s.heap.length]
            ∧ ((s.notifyMotion env currentTime a).entry s.heap.length).body
              = .motion a.motionEntry := by
  refine ⟨?_, ?_, ?_, ?_⟩
  · intro e1 rest hflag hq
    have hinb := dispatchOnceTimeouts_inbound env s currentTime
    have hbody := dispatchOnceTimeouts_body env s currentTime e1
    have key : s.dispatchOnce env currentTime
        = InputDispatcher.dispatchInboundEntry env
            { (s.dispatchOnceTimeouts env currentTime).state with mInboundQueue := rest }
            currentTime e1 := by
      unfold dispatchOnce
      simp only [hflag, hinb, hq, Bool.not_false, if_true]
    have hb2 : ((InputDispatcher.entry
        { (s.dispatchOnceTimeouts env currentTime).state with mInboundQueue := rest } e1).body)
        = (s.entry e1).body := hbody
    refine ⟨?_, ?_, ?_, ?_⟩
    · rw [key, dispatchInboundEntry_mInboundQueue]
    · intro a b c hb
      rw [key]
      unfold dispatchInboundEntry
      simp only [hb2, hb]
    · intro k hb
      rw [key]
      unfold dispatchInboundEntry
      simp only [hb2, hb]
    · intro m hb
      rw [key]
      unfold dispatchInboundEntry
      simp only [hb2, hb]
  · intro t a b c
    obtain ⟨h1, _, h3⟩ := enqueueInboundEntry_wake s t (.configurationChanged a b c)
    exact ⟨h1, by unfold notifyConfigurationChanged; rw [h3]⟩
  · intro t d n pf ac fl kc sc ms dt
    obtain ⟨h1, _, h3⟩ := enqueueInboundEntry_wake s t
      (.key { deviceId := d, nature := n, policyFlags := pf, action := ac, flags := fl,
              keyCode := kc, scanCode := sc, metaState := ms, repeatCount := 0,
              downTime := dt })
    exact ⟨h1, by unfold notifyKey; rw [h3]⟩
  · intro a hb hs
    rw [(notifyMotion_wake env s currentTime a).2.2 hb hs]
    obtain ⟨h1, _, h3⟩ := enqueueInboundEntry_wake s a.eventTime (.motion a.motionEntry)
    exact ⟨h1, by unfold enqueueMotionEntry; rw [h3]⟩

theorem dispatchOnce_fifo_witness :
    (Example.keysQueued.dispatchOnceTimeouts (Example.env []) 10).hasPendingSyncTarget = false
      ∧ Example.keysQueued.mInboundQueue = [0, 1, 2, 3, 4, 5]
      ∧ (Example.keysQueued.dispatchOnce (Example.env []) 10).mInboundQueue = [1, 2, 3, 4, 5] :=
  ⟨by decide, by decide,
    ((dispatchOnce_fifo (Example.env []) Example.keysQueued 10).1 0 [1, 2, 3, 4, 5]
      (by decide) (by decide)).1⟩

end Dispatcher

namespace Dispatcher

namespace InputDispatcher

/-! ## The event that `startDispatchCycleLocked` publishes -/

/-- After the event has been published, `startDispatchCycleLocked` only adds calls to
the log. -/
theorem startDispatchCycleLocked_trace_after (env : Env) (s : InputDispatcher)
    (currentTime : Int) (c : Nat) (d : DispatchEntry) (q : List DispatchEntry)
    (hq : (s.conn c).outboundQueue = d :: q) :
    ∃ ext, (s.startDispatchCycleLocked env currentTime c).trace
      = (s.publishEventOf env c d).1.trace ++ ext := by
  unfold startDispatchCycleLocked
  simp only [hq]
  split
  · rename_i s1 heq
    rw [heq]
    exact ⟨[], by rw [abortDispatchCycleLocked_trace]; simp⟩
  · rename_i s1 d1 heq
    rw [heq]
    simp only
    split
    · exact ⟨_, by rw [abortDispatchCycleLocked_trace, publisherCalled_eq]⟩
    · exact ⟨[⟨c, .sendDispatchSignal, s1.publisherStatus env c .sendDispatchSignal⟩],
        by simp only [callout_trace, setConn_trace, publisherCalled_eq]⟩

/-- The call with which `publishEventOf` publishes a key event. -/
theorem publishEventOf_key_trace (env : Env) (s : InputDispatcher) (c : Nat) (d : DispatchEntry)
    (k : KeyEntry) (hb : (s.entry d.eventEntry).body = .key k) :
    (s.publishEventOf env c d).1.trace
      = s.trace ++ [⟨c, .publishKeyEvent
          { deviceId := k.deviceId, nature := k.nature, action := k.action,
            flags := if d.targetFlags &&& InputTarget.FLAG_CANCEL ≠ 0
              then k.flags ||| KEY_EVENT_FLAG_CANCELED else k.flags,
            keyCode := k.keyCode, scanCode := k.scanCode, metaState := k.metaState,
            repeatCount := k.repeatCount, downTime := k.downTime,
            eventTime := (s.entry d.eventEntry).eventTime },
          env.publisher s.trace c (.publishKeyEvent
            { deviceId := k.deviceId, nature := k.nature, action := k.action,
              flags := if d.targetFlags &&& InputTarget.FLAG_CANCEL ≠ 0
                then k.flags ||| KEY_EVENT_FLAG_CANCELED else k.flags,
              keyCode := k.keyCode, scanCode := k.scanCode, metaState := k.metaState,
              repeatCount := k.repeatCount, downTime := k.downTime,
              eventTime := (s.entry d.eventEntry).eventTime })⟩] := by
  unfold publishEventOf
  simp only [hb]
  split_ifs <;> rfl

/-- The call with which `publishEventOf` publishes a motion event: the first call it
logs. -/
theorem publishEventOf_motion_trace (env : Env) (s : InputDispatcher) (c : Nat)
    (d : DispatchEntry) (m : MotionEntry) (hb : (s.entry d.eventEntry).body = .motion m) :
    ∃ (e : PublishedMotion) (ext : List PublisherRecord),
      (s.publishEventOf env c d).1.trace
          = s.trace ++ ⟨c, .publishMotionEvent e,
              env.publisher s.trace c (.publishMotionEvent e)⟩ :: ext
        ∧ e.action = (if d.targetFlags &&& InputTarget.FLAG_CANCEL ≠ 0
            then MOTION_EVENT_ACTION_CANCEL
            else if d.targetFlags &&& InputTarget.FLAG_OUTSIDE ≠ 0
              then MOTION_EVENT_ACTION_OUTSIDE else m.action)
        ∧ e.deviceId = m.deviceId ∧ e.nature = m.nature ∧ e.edgeFlags = m.edgeFlags
        ∧ e.metaState = m.metaState ∧ e.xOffset = d.xOffset ∧ e.yOffset = d.yOffset
        ∧ e.downTime = m.downTime ∧ e.pointerCount = m.pointerCount
        ∧ e.pointerIds = m.pointerIds := by
  unfold publishEventOf
  simp only [hb]
  refine ⟨{ deviceId := m.deviceId, nature := m.nature,
            action := (if d.targetFlags &&& InputTarget.FLAG_CANCEL ≠ 0
                        then MOTION_EVENT_ACTION_CANCEL
                        else if d.targetFlags &&& InputTarget.FLAG_OUTSIDE ≠ 0
                          then MOTION_EVENT_ACTION_OUTSIDE else m.action),
            edgeFlags := m.edgeFlags, metaState := m.metaState,
            xOffset := d.xOffset, yOffset := d.yOffset,
            xPrecision := m.xPrecision, yPrecision := m.yPrecision,
            downTime := m.downTime,
            eventTime := (m.chain.getD (d.headMotionSample.getD 0) MotionSample.blank).eventTime,
            pointerCount := m.pointerCount, pointerIds := m.pointerIds,
            pointerCoords := (m.chain.getD (d.headMotionSample.getD 0)
                                MotionSample.blank).pointerCoords }, ?_⟩
  generalize hcall : PublisherCall.publishMotionEvent _ = call
  by_cases hst : s.publisherStatus env c call ≠ 0
  · rw [if_pos hst]
    exact ⟨[], rfl, rfl, rfl, rfl, rfl, rfl, rfl, rfl, rfl, rfl, rfl⟩
  · rw [if_neg hst]
    obtain ⟨ext, hext, _⟩ := appendFurtherSamples_traceFrame env c
      (m.chain.drop (d.headMotionSample.getD 0 + 1)) (d.headMotionSample.getD 0 + 1)
      (s.publisherCalled env c call)
    have htr : (appendFurtherSamples env c (m.chain.drop (d.headMotionSample.getD 0 + 1))
        (d.headMotionSample.getD 0 + 1) (s.publisherCalled env c call)).1.trace
        = s.trace ++ ⟨c, call, env.publisher s.trace c call⟩ :: ext := by
      rw [hext, publisherCalled_eq]
      simp only [List.append_assoc, List.singleton_append]
      rfl
    cases hr : appendFurtherSamples env c (m.chain.drop (d.headMotionSample.getD 0 + 1))
        (d.headMotionSample.getD 0 + 1) (s.publisherCalled env c call) with
    | mk s2 o =>
      rw [hr] at htr
      cases o with
      | failed => exact ⟨ext, htr, rfl, rfl, rfl, rfl, rfl, rfl, rfl, rfl, rfl, rfl⟩
      | stopped n => exact ⟨ext, htr, rfl, rfl, rfl, rfl, rfl, rfl, rfl, rfl, rfl, rfl⟩

end InputDispatcher

open InputDispatcher

/-- C25. Target flags applied at publish time. `startDispatchCycleLocked` on a
connection whose head dispatch entry is `d` first calls the publisher as follows. For a
key entry it calls `publishKeyEvent` with the fields of the entry, the flags being
those of the entry with `KEY_EVENT_FLAG_CANCELED` set when the target flags of `d` have
`FLAG_CANCEL`, and those of the entry otherwise. For a motion entry it calls
`publishMotionEvent` with the action `MOTION_EVENT_ACTION_CANCEL` when the target flags
have `FLAG_CANCEL`, else `MOTION_EVENT_ACTION_OUTSIDE` when they have `FLAG_OUTSIDE`,
else the action of the entry, and with the offsets of `d`. The contents of every event
entry are as before. -/
theorem startDispatchCycleLocked_applies_target_flags (env : Env) (s : InputDispatcher)
    (currentTime : Int) (c : Nat) (d : DispatchEntry) (q : List DispatchEntry)
    (hq : (s.conn c).outboundQueue = d :: q) :
    (∀ k, (s.entry d.eventEntry).body = .key k →
        ∃ ext, (s.startDispatchCycleLocked env currentTime c).trace
          = s.trace ++ ⟨c, .publishKeyEvent
              { deviceId := k.deviceId, nature := k.nature, action := k.action,
                flags := if d.targetFlags &&& InputTarget.FLAG_CANCEL ≠ 0
                  then k.flags ||| KEY_EVENT_FLAG_CANCELED else k.flags,
                keyCode := k.keyCode, scanCode := k.scanCode, metaState := k.metaState,
                repeatCount := k.repeatCount, downTime := k.downTime,
                eventTime := (s.entry d.eventEntry).eventTime },
              env.publisher s.trace c (.publishKeyEvent
                { deviceId := k.deviceId, nature := k.nature, action := k.action,
                  flags := if d.targetFlags &&& InputTarget.FLAG_CANCEL ≠ 0
                    then k.flags ||| KEY_EVENT_FLAG_CANCELED else k.flags,
                  keyCode := k.keyCode, scanCode := k.scanCode, metaState := k.metaState,
                  repeatCount := k.repeatCount, downTime := k.downTime,
                  eventTime := (s.entry d.eventEntry).eventTime })⟩ :: ext)
      ∧ (∀ m, (s.entry d.eventEntry).body = .motion m →
        ∃ (e : PublishedMotion) (ext : List PublisherRecord),
          (s.startDispatchCycleLocked env currentTime c).trace
              = s.trace ++ ⟨c, .publishMotionEvent e,
                  env.publisher s.trace c (.publishMotionEvent e)⟩ :: ext
            ∧ e.action = (if d.targetFlags &&& InputTarget.FLAG_CANCEL ≠ 0
                then MOTION_EVENT_ACTION_CANCEL
                else if d.targetFlags &&& InputTarget.FLAG_OUTSIDE ≠ 0
                  then MOTION_EVENT_ACTION_OUTSIDE else m.action)
            ∧ e.deviceId = m.deviceId ∧ e.nature = m.nature ∧ e.edgeFlags = m.edgeFlags
            ∧ e.metaState = m.metaState ∧ e.xOffset = d.xOffset ∧ e.yOffset = d.yOffset
            ∧ e.downTime = m.downTime ∧ e.pointerCount = m.pointerCount
            ∧ e.pointerIds = m.pointerIds)
      ∧ ∀ p, ((s.startDispatchCycleLocked env currentTime c).entry p).body = (s.entry p).body
          ∧ ((s.startDispatchCycleLocked env currentTime c).entry p).eventTime
            = (s.entry p).eventTime := by
  obtain ⟨ext1, h1⟩ := startDispatchCycleLocked_trace_after env s currentTime c d q hq
  refine ⟨?_, ?_, ?_⟩
  · intro k hb
    rw [h1, publishEventOf_key_trace env s c d k hb]
    exact ⟨ext1, by simp only [List.append_assoc, List.singleton_append]⟩
  · intro m hb
    obtain ⟨e, ext, htr, hrest⟩ := publishEventOf_motion_trace env s c d m hb
    refine ⟨e, ext ++ ext1, ?_, hrest⟩
    rw [h1, htr]
    simp only [List.append_assoc, List.cons_append]
  · intro p
    have hf := startDispatchCycleLocked_frame env s currentTime c
    exact ⟨hf.body p, hf.eventTime p⟩

theorem startDispatchCycleLocked_applies_target_flags_witness :
    (Example.cancelReady.conn 0).outboundQueue
        = [Example.keyDequeued.newDispatchEntry 0 (Example.target 7 InputTarget.FLAG_CANCEL)
            false]
      ∧ (Example.cancelReady.entry 0).asKey.flags = 0
      ∧ publishedKeys (Example.cancelReady.startDispatchCycleLocked (Example.env []) 1 0).trace
        = [{ deviceId := 1, nature := 0, action := KEY_EVENT_ACTION_DOWN,
             flags := KEY_EVENT_FLAG_CANCELED, keyCode := 29, scanCode := 0, metaState := 0,
             repeatCount := 0, downTime := 0, eventTime := 0 }]
      ∧ (Example.outsideCancelReady.startDispatchCycleLocked (Example.env []) 1
          0).trace.filterMap
          (fun r => match r.call with
            | .publishMotionEvent e => some e.action
            | _ => none)
        = [MOTION_EVENT_ACTION_CANCEL]
      ∧ ((Example.cancelReady.startDispatchCycleLocked (Example.env []) 1 0).entry 0).body
        = (Example.cancelReady.entry 0).body :=
  ⟨by decide, by decide, by decide, by decide,
    ((startDispatchCycleLocked_applies_target_flags (Example.env []) Example.cancelReady 1 0
      (Example.keyDequeued.newDispatchEntry 0 (Example.target 7 InputTarget.FLAG_CANCEL) false)
      [] (by decide)).2.2 0).1⟩

end Dispatcher

namespace Dispatcher

open InputDispatcher

/-- C30. New dispatch entry. On a `NORMAL` connection `c`, when the streaming branch is
not taken (the outbound queue is empty, or `resumeWithAppendedMotionSample` is false, or
the queue holds no dispatch entry for the event), `prepareDispatchCycleLocked` first
reaches a state `s2` in which the reference count of the event entry is one more than
before, every other event entry and the contents of the event entry are as before, and
the outbound queue of `c` is the old queue followed by one dispatch entry for the event
with the flags, offsets and timeout of the target, not in progress, without a tail
sample, and with the `lastSample` of the event as head sample when
`resumeWithAppendedMotionSample` is true and none otherwise. The log of publisher calls
and the active connections of `s2` are those of the old state. If the old queue was
empty, the result is `startDispatchCycleLocked` on `s2` after `c` has been activated,
and `c` is then active; otherwise the result is `s2` and no cycle is started. -/
theorem prepareDispatchCycleLocked_new_entry (env : Env) (s : InputDispatcher)
    (currentTime : Int) (c : Nat) (eventEntry : Nat) (inputTarget : InputTarget)
    (resumeWithAppendedMotionSample : Bool)
    (hs : (s.conn c).status = .NORMAL) (he : eventEntry < s.heap.length)
    (hnew : (s.conn c).outboundQueue = [] ∨ resumeWithAppendedMotionSample = false
      ∨ findQueuedDispatchEntryForEvent (s.conn c).outboundQueue eventEntry = none) :
    ∃ s2 : InputDispatcher,
      (s2.entry eventEntry).refCount = (s.entry eventEntry).refCount + 1
        ∧ (s2.entry eventEntry).body = (s.entry eventEntry).body
        ∧ (s2.entry eventEntry).eventTime = (s.entry eventEntry).eventTime
        ∧ (∀ p, p ≠ eventEntry → s2.entry p = s.entry p)
        ∧ (s2.conn c).outboundQueue
          = (s.conn c).outboundQueue
            ++ [{ eventEntry := eventEntry, targetFlags := inputTarget.flags,
                  xOffset := inputTarget.xOffset, yOffset := inputTarget.yOffset,
                  timeout := inputTarget.timeout, inProgress := false,
                  headMotionSample :=
                    if resumeWithAppendedMotionSample
                    then some (s.entry eventEntry).asMotion.lastSample else none,
                  tailMotionSample := none }]
        ∧ (∀ c1, c1 ≠ c → s2.conn c1 = s.conn c1)
        ∧ s2.mActiveConnections = s.mActiveConnections
        ∧ s2.trace = s.trace
        ∧ ((s.conn c).outboundQueue = [] →
            s.prepareDispatchCycleLocked env currentTime c eventEntry inputTarget
                resumeWithAppendedMotionSample
              = (s2.activateConnectionLocked c).startDispatchCycleLocked env currentTime c
            ∧ c ∈ (s2.activateConnectionLocked c).mActiveConnections
            ∧ ((s2.activateConnectionLocked c).conn c).outboundQueue
              = (s2.conn c).outboundQueue)
        ∧ ((s.conn c).outboundQueue ≠ [] →
            s.prepareDispatchCycleLocked env currentTime c eventEntry inputTarget
                resumeWithAppendedMotionSample = s2) := by
  have hc : c < s.conns.length := lt_of_status_normal s hs
  have hbranch : (if (!(s.conn c).outboundQueue.isEmpty && resumeWithAppendedMotionSample)
      then findQueuedDispatchEntryForEvent (s.conn c).outboundQueue eventEntry
      else none) = none := by
    rcases hnew with h | h | h
    · rw [h]; rfl
    · rw [h]; simp
    · rw [h]; simp
  refine ⟨(s.retainEventEntry eventEntry).setOutbound c
    ((s.conn c).outboundQueue
      ++ [s.newDispatchEntry eventEntry inputTarget resumeWithAppendedMotionSample]),
    ?_, ?_, ?_, ?_, ?_, ?_, rfl, rfl, ?_, ?_⟩
  · rw [setOutbound_entry, entry_retainEventEntry_self s eventEntry he]
  · rw [setOutbound_entry, retainEventEntry_body]
  · rw [setOutbound_entry, entry_retainEventEntry_self s eventEntry he]
  · intro p hp
    rw [setOutbound_entry]
    unfold retainEventEntry
    exact entry_setEntry_of_ne s _ (Ne.symm hp)
  · rw [outbound_setOutbound_self _ _ (by simpa using hc)]
    rfl
  · intro c1 hc1
    unfold setOutbound
    rw [conn_setConn_of_ne _ _ (Ne.symm hc1)]
    rfl
  · intro hq
    refine ⟨?_, ?_, ?_⟩
    · unfold prepareDispatchCycleLocked
      simp only [hs, ne_eq, not_true_eq_false, if_false, hbranch]
      rw [if_pos (by rw [hq]; rfl)]
    · unfold activateConnectionLocked
      split
      · assumption
      · simp
    · rw [activateConnectionLocked_conn]
  · intro hq
    unfold prepareDispatchCycleLocked
    simp only [hs, ne_eq, not_true_eq_false, if_false, hbranch]
    rw [if_neg (by simpa using hq)]

theorem prepareDispatchCycleLocked_new_entry_witness :
    (Example.keyDispatched.conn 0).status = .NORMAL
      ∧ (Example.keyDispatched.conn 0).outboundQueue.length = 1
      ∧ (Example.keyDispatched.entry 0).refCount = 2
      ∧ ((Example.keyDispatched.prepareDispatchCycleLocked (Example.env []) 5 0 0
          (Example.target 7 0) false).entry 0).refCount = 3
      ∧ ((Example.keyDispatched.prepareDispatchCycleLocked (Example.env []) 5 0 0
          (Example.target 7 0) false).conn 0).outboundQueue.length = 2 := by
  obtain ⟨s2, h1, _, _, _, h5, _, _, _, _, h10⟩ :=
    prepareDispatchCycleLocked_new_entry (Example.env []) Example.keyDispatched 5 0 0
      (Example.target 7 0) false (by decide) (by decide) (Or.inr (Or.inl rfl))
  have hne : (Example.keyDispatched.conn 0).outboundQueue ≠ [] := by decide
  rw [h10 hne]
  refine ⟨by decide, by decide, by decide, ?_, ?_⟩
  · rw [h1]; decide
  · rw [h5, List.length_append]; decide

end Dispatcher

namespace Dispatcher

namespace InputDispatcher

/-- The function `processKeyLocked` on a key entry whose action is not a down leaves
no `lastKeyEntry`. -/
theorem processKeyLocked_not_down (env : Env) (s : InputDispatcher) (currentTime : Int)
    (p : Nat) (h : (s.entry p).asKey.action ≠ KEY_EVENT_ACTION_DOWN) :
    (s.processKeyLocked env currentTime p).mKeyRepeatState.lastKeyEntry = none := by
  unfold processKeyLocked
  rw [(identifyInputTargetsAndDispatchKeyLocked_keeps env _ currentTime p).1]
  unfold trackKeyRepeat
  rw [if_neg h]
  exact resetKeyRepeatLocked_lastKeyEntry s

end InputDispatcher

open InputDispatcher

set_option maxHeartbeats 4000000 in
set_option maxRecDepth 10000 in
/-- C27. Simple key scenario. Channel 7 is registered and is the only target of key
events, with a timeout of 500 ms; a down and an up of a key are notified, whatever the
device, the key code and the other fields of the key are. When `dispatchOnce` has
processed both and the consumer has finished each dispatch cycle (for a synchronous
target and for one that is not, and also when the two are processed before the
consumer finishes either), the publisher has received exactly two `publishKeyEvent`
calls, the down and then the up; there is no `lastKeyEntry`; both key entries are back
in their pool, with a reference count of 0; the inbound queue is empty; and the
connection is `NORMAL`, with an empty outbound queue, and not active. More generally
`processKeyLocked` on a key entry whose action is not a down leaves no
`lastKeyEntry`. -/
theorem simple_key_scenario (deviceId nature : Int) (policyFlags keyFlags : Nat)
    (keyCode scanCode metaState : Int) :
    (∀ s ∈ [Example.simpleKey InputTarget.FLAG_SYNC deviceId nature policyFlags keyFlags
              keyCode scanCode metaState,
            Example.simpleKey 0 deviceId nature policyFlags keyFlags keyCode scanCode
              metaState,
            Example.simpleKeyPipelined deviceId nature policyFlags keyFlags keyCode scanCode
              metaState],
        publishedKeys s.trace
            = [{ deviceId := deviceId, nature := nature, action := KEY_EVENT_ACTION_DOWN,
                 flags := keyFlags, keyCode := keyCode, scanCode := scanCode,
                 metaState := metaState, repeatCount := 0, downTime := 1000000000,
                 eventTime := 1000000000 },
               { deviceId := deviceId, nature := nature, action := KEY_EVENT_ACTION_UP,
                 flags := keyFlags, keyCode := keyCode, scanCode := scanCode,
                 metaState := metaState, repeatCount := 0, downTime := 1000000000,
                 eventTime := 1020000000 }]
          ∧ s.mKeyRepeatState.lastKeyEntry = none
          ∧ s.heap.map (fun e => (e.refCount, e.inPool)) = [(0, true), (0, true)]
          ∧ s.mInboundQueue = []
          ∧ s.conns.map (fun x => (x.status, x.outboundQueue)) = [(.NORMAL, [])]
          ∧ s.mActiveConnections = [])
      ∧ ∀ (env : Env) (s : InputDispatcher) (currentTime : Int) (p : Nat),
          (s.entry p).asKey.action ≠ KEY_EVENT_ACTION_DOWN →
          (s.processKeyLocked env currentTime p).mKeyRepeatState.lastKeyEntry = none := by
  refine ⟨?_, fun env s currentTime p h => processKeyLocked_not_down env s currentTime p h⟩
  simp +decide [Example.simpleKey, Example.simpleKeyPipelined, Example.run,
    InputDispatcher.step, registerInputChannel, notifyKey,
    enqueueInboundEntry, obtainEntry, wake, InputDispatcher.init, connectionByReceiveFd,
    publisherStatus, publisherCalled, Example.env, Example.window, Connection.new,
    dispatchOnce, dispatchOnceTimeouts, processTimeouts, dispatchInboundEntry, entry,
    processKeyLocked, trackKeyRepeat, resetKeyRepeatLocked, releaseKeyEntry,
    EventEntry.release, EventEntry.asKey, setKey, setEntry, retainEventEntry,
    identifyInputTargetsAndDispatchKeyLocked, dispatchEventToCurrentInputTargetsLocked,
    dispatchEventToInputTargets, prepareDispatchCycleLocked, conn, setConn, setOutbound,
    newDispatchEntry, activateConnectionLocked, startDispatchCycleLocked, publishEventOf,
    callout, KEY_EVENT_ACTION_DOWN, KEY_EVENT_ACTION_UP,
    InputTarget.FLAG_SYNC, InputTarget.FLAG_CANCEL, LONG_LONG_MAX, List.lookup,
    handleReceiveCallback, finishDispatchCycleLocked, finishDispatchLoop,
    releaseDispatchEntry, releaseEventEntry, deactivateConnectionLocked,
    timeoutDispatchCycleLocked, abortDispatchCycleLocked, Connection.hasPendingSyncTarget,
    DispatchEntry.isSync, POLLIN, POLLERR, POLLHUP, POLLNVAL, publishedKeys,
    findQueuedDispatchEntryForEvent, pollOnce]

theorem simple_key_scenario_witness :
    (Example.keyUpWaiting.entry 1).asKey.action ≠ KEY_EVENT_ACTION_DOWN
      ∧ Example.keyUpWaiting.mKeyRepeatState.lastKeyEntry = some 0
      ∧ (Example.keyUpWaiting.processKeyLocked (Example.env []) 3 1).mKeyRepeatState.lastKeyEntry
        = none
      ∧ (Example.simpleKey InputTarget.FLAG_SYNC 1 0 0 0 29 0 0).mKeyRepeatState.lastKeyEntry
        = none :=
  ⟨by decide, by decide,
    (simple_key_scenario 1 0 0 0 29 0 0).2 (Example.env []) Example.keyUpWaiting 3 1 (by decide),
    ((simple_key_scenario 1 0 0 0 29 0 0).1 _ (List.mem_cons_self _ _)).2.1⟩

end Dispatcher

namespace Dispatcher

namespace InputDispatcher

/-! ## Operations that neither make nor change a motion entry -/

theorem motionsKept_refl (s : InputDispatcher) : MotionsKept s s := fun _ _ h => h

theorem motionsKept_trans {s s1 s2 : InputDispatcher} (h1 : MotionsKept s s1)
    (h2 : MotionsKept s1 s2) : MotionsKept s s2 :=
  fun p m h => h1 p m (h2 p m h)

theorem motionsKept_of_body {s s1 : InputDispatcher}
    (h : ∀ p, (s1.entry p).body = (s.entry p).body) : MotionsKept s s1 :=
  fun p m hm => by rw [← h p]; exact hm

theorem motionsKept_of_heap {s s1 : InputDispatcher} (h : s1.heap = s.heap) :
    MotionsKept s s1 :=
  motionsKept_of_body (fun p => by unfold entry; rw [h])

theorem motionsKept_setKey (s : InputDispatcher) (p : Nat) (k : KeyEntry) :
    MotionsKept s (s.setKey p k) := by
  intro q m hm
  unfold setKey at hm
  rw [entry_setEntry] at hm
  split at hm
  · simp at hm
  · exact hm

/-- Writing a key body into a cell keeps the motion entries. -/
theorem motionsKept_setEntry_key (s : InputDispatcher) (p : Nat) (e : EventEntry) (k : KeyEntry)
    (he : e.body = .key k) : MotionsKept s (s.setEntry p e) := by
  intro q m hm
  rw [entry_setEntry] at hm
  split at hm
  · rw [he] at hm; simp at hm
  · exact hm

theorem motionsKept_obtainEntry (s : InputDispatcher) (t : Int) (b : EntryBody)
    (hb : ∀ m, b ≠ .motion m) : MotionsKept s (s.obtainEntry t b) := by
  intro q m hm
  rw [entry_obtainEntry] at hm
  split at hm
  · exact absurd hm (hb m)
  · exact hm

theorem motionsKept_enqueueInboundEntry (s : InputDispatcher) (t : Int) (b : EntryBody)
    (hb : ∀ m, b ≠ .motion m) : MotionsKept s (s.enqueueInboundEntry t b) := by
  refine motionsKept_trans (motionsKept_obtainEntry s t b hb) (motionsKept_of_heap ?_)
  unfold enqueueInboundEntry
  simp only
  split <;> rfl

theorem releaseEntry_body (s : InputDispatcher) (p q : Nat) :
    ((s.setEntry p (EventEntry.release (s.entry p))).entry q).body = (s.entry q).body := by
  rw [entry_setEntry]
  split
  · rename_i h
    rw [EventEntry.release_body, h.1]
  · rfl

theorem motionsKept_resetKeyRepeatLocked (s : InputDispatcher) :
    MotionsKept s s.resetKeyRepeatLocked :=
  motionsKept_of_body (resetKeyRepeatLocked_body s)

theorem motionsKept_trackKeyRepeat (env : Env) (s : InputDispatcher) (p : Nat) :
    MotionsKept s (s.trackKeyRepeat env p) := by
  unfold trackKeyRepeat
  split
  · refine motionsKept_trans ?_ (motionsKept_of_body (retainEventEntry_body _ p))
    refine motionsKept_trans ?_ (motionsKept_of_heap rfl)
    split
    · split
      · exact motionsKept_trans (motionsKept_trans (motionsKept_setKey s p _)
          (motionsKept_resetKeyRepeatLocked _)) (motionsKept_of_heap rfl)
      · exact motionsKept_trans (motionsKept_resetKeyRepeatLocked _) (motionsKept_of_heap rfl)
    · exact motionsKept_trans (motionsKept_resetKeyRepeatLocked _) (motionsKept_of_heap rfl)
  · exact motionsKept_resetKeyRepeatLocked s

theorem motionsKept_dispatchInboundEntry (env : Env) (s : InputDispatcher) (currentTime : Int)
    (p : Nat) : MotionsKept s (s.dispatchInboundEntry env currentTime p) := by
  unfold dispatchInboundEntry
  split
  · refine motionsKept_trans (motionsKept_of_heap ?_)
      (motionsKept_of_body (releaseEntry_body _ p))
    unfold processConfigurationChangedLocked
    split <;> rfl
  · refine motionsKept_trans ?_ (motionsKept_of_body (releaseEntry_body _ p))
    unfold processKeyLocked
    exact motionsKept_trans (motionsKept_trackKeyRepeat env s p)
      (motionsKept_of_body (identifyInputTargetsAndDispatchKeyLocked_keeps env _ currentTime
        p).2.1)
  · refine motionsKept_trans ?_ (motionsKept_of_body (releaseEntry_body _ p))
    unfold processMotionLocked identifyInputTargetsAndDispatchMotionLocked
      dispatchEventToCurrentInputTargetsLocked
    exact motionsKept_of_body (dispatchEventToInputTargets_frame env currentTime p false _ _).body

theorem motionsKept_obtainRepeatEntry (s : InputDispatcher) (l : Nat) :
    MotionsKept s (s.obtainRepeatEntry l).1 := by
  unfold obtainRepeatEntry
  simp only
  split
  · exact motionsKept_setKey s l _
  · refine motionsKept_trans (motionsKept_obtainEntry s 0
      (.key { deviceId := (s.entry l).asKey.deviceId, nature := (s.entry l).asKey.nature,
              policyFlags := (s.entry l).asKey.policyFlags,
              action := (s.entry l).asKey.action, flags := (s.entry l).asKey.flags,
              keyCode := (s.entry l).asKey.keyCode, scanCode := (s.entry l).asKey.scanCode,
              metaState := (s.entry l).asKey.metaState,
              repeatCount := (s.entry l).asKey.repeatCount + 1, downTime := 0 })
      (by simp)) ?_
    refine motionsKept_trans (motionsKept_of_heap rfl) ?_
    exact motionsKept_of_body (releaseEntry_body _ l)

theorem motionsKept_processKeyRepeatLocked (env : Env) (s : InputDispatcher)
    (currentTime : Int) : MotionsKept s (s.processKeyRepeatLocked env currentTime) := by
  unfold processKeyRepeatLocked
  split
  · exact motionsKept_refl s
  · rename_i l hl
    have h1 := motionsKept_obtainRepeatEntry s l
    generalize s.obtainRepeatEntry l = r at h1
    obtain ⟨s1, p⟩ := r
    simp only at h1 ⊢
    refine motionsKept_trans h1 ?_
    refine motionsKept_trans (motionsKept_setEntry_key s1 p
      { s1.entry p with
        eventTime := currentTime
        body := .key { (s1.entry p).asKey with downTime := currentTime, policyFlags := 0 } }
      { (s1.entry p).asKey with downTime := currentTime, policyFlags := 0 } rfl) ?_
    refine motionsKept_trans (motionsKept_of_heap rfl) ?_
    exact motionsKept_of_body
      (identifyInputTargetsAndDispatchKeyLocked_keeps env _ currentTime p).2.1

theorem motionsKept_dispatchOnce (env : Env) (s : InputDispatcher) (currentTime : Int) :
    MotionsKept s (s.dispatchOnce env currentTime) := by
  have h0 : MotionsKept s (s.dispatchOnceTimeouts env currentTime).state :=
    motionsKept_of_body (dispatchOnceTimeouts_body env s currentTime)
  rcases (dispatchOnce_by_synthesis env s currentTime) with ⟨h1, h2⟩
  cases hs : s.synthesizesKeyRepeat env currentTime with
  | true =>
    rw [h1 hs]
    exact motionsKept_trans h0 (motionsKept_processKeyRepeatLocked env _ currentTime)
  | false =>
    rcases h2 hs with ⟨w, hw⟩ | ⟨p, rest, _, hd⟩
    · rw [hw]
      exact motionsKept_trans h0 (motionsKept_of_heap rfl)
    · rw [hd]
      refine motionsKept_trans h0 ?_
      exact motionsKept_trans (motionsKept_of_heap rfl)
        (motionsKept_dispatchInboundEntry env _ currentTime p)

theorem motionsKept_dropMovementKeys (l : List Nat) (s : InputDispatcher) :
    MotionsKept s (dropMovementKeys l s) := by
  induction l generalizing s with
  | nil => exact motionsKept_refl s
  | cons p l ih =>
    simp only [dropMovementKeys]
    split
    · split
      · refine motionsKept_trans ?_ (ih _)
        exact motionsKept_trans (motionsKept_of_heap rfl)
          (motionsKept_of_body (releaseEntry_body _ p))
      · exact motionsKept_refl s
    · exact ih s

theorem motionsKept_registerInputChannel (env : Env) (s : InputDispatcher) (fd : Int) :
    MotionsKept s (s.registerInputChannel env fd).1 := by
  unfold registerInputChannel
  split
  · exact motionsKept_refl s
  · simp only
    split <;> exact motionsKept_of_heap rfl

theorem motionsKept_unregisterInputChannel (s : InputDispatcher) (fd : Int) :
    MotionsKept s (s.unregisterInputChannel fd).1 := by
  unfold unregisterInputChannel
  split
  · exact motionsKept_refl s
  · rename_i c hc
    simp only
    refine motionsKept_trans ?_ (motionsKept_of_heap rfl)
    refine motionsKept_trans (motionsKept_of_heap rfl) ?_
    exact motionsKept_of_body (abortDispatchCycleLocked_frame _ c true).body

theorem motionsKept_handleReceiveCallback (env : Env) (s : InputDispatcher) (currentTime : Int)
    (fd : Int) (events : Nat) :
    MotionsKept s (s.handleReceiveCallback env currentTime fd events).1 := by
  unfold handleReceiveCallback
  split
  · exact motionsKept_refl s
  · rename_i c hc
    split
    · exact motionsKept_of_body (abortDispatchCycleLocked_frame s c true).body
    · split
      · exact motionsKept_refl s
      · simp only
        split
        · exact motionsKept_trans (motionsKept_of_heap rfl)
            (motionsKept_of_body (abortDispatchCycleLocked_frame _ c true).body)
        · exact motionsKept_trans (motionsKept_of_heap rfl)
            (motionsKept_of_body (finishDispatchCycleLocked_frame env _ currentTime c).body)

/-- Every operation but `notifyMotion` keeps the motion entries. -/
theorem motionsKept_step (env : Env) (s : InputDispatcher) (currentTime : Int)
    (op : Operation) (hop : ∀ a, op ≠ .notifyMotion a) :
    MotionsKept s (s.step env currentTime op) := by
  cases op with
  | notifyConfigurationChanged t a b c =>
    exact motionsKept_enqueueInboundEntry s _ _ (by simp)
  | notifyLidSwitchChanged t o => exact motionsKept_of_heap rfl
  | notifyAppSwitchComing t => exact motionsKept_dropMovementKeys _ s
  | notifyKey t deviceId nature policyFlags action flags keyCode scanCode metaState downTime =>
    exact motionsKept_enqueueInboundEntry s _ _ (by simp)
  | notifyMotion a => exact absurd rfl (hop a)
  | registerInputChannel fd => exact motionsKept_registerInputChannel env s fd
  | unregisterInputChannel fd => exact motionsKept_unregisterInputChannel s fd
  | dispatchOnce => exact motionsKept_dispatchOnce env s currentTime
  | handleReceiveCallback fd events =>
    exact motionsKept_handleReceiveCallback env s currentTime fd events

/-! ## Sample times -/

theorem timesOk_of_kept {calls : List MotionArgs} {s s1 : InputDispatcher}
    (hk : MotionsKept s s1) (h : TimesOk calls s) : TimesOk calls s1 :=
  fun p m hm => h p m (hk p m hm)

theorem timesOk_append {calls : List MotionArgs} {s : InputDispatcher} (h : TimesOk calls s)
    (a : MotionArgs) : TimesOk (calls ++ [a]) s := by
  intro p m hm
  obtain ⟨h1, h2⟩ := h p m hm
  refine ⟨h1, fun x hx => ?_⟩
  obtain ⟨b, hb, hbd⟩ := h2 x hx
  exact ⟨b, List.mem_append_left _ hb, hbd⟩

theorem findBatchEntry_found_motion (s : InputDispatcher) (deviceId : Int) (pointerCount : Nat)
    (l : List Nat) (p : Nat) (h : findBatchEntry s deviceId pointerCount l = .found p) :
    ∃ m, (s.entry p).body = .motion m ∧ m.deviceId = deviceId := by
  induction l with
  | nil => simp [findBatchEntry] at h
  | cons q l ih =>
    simp only [findBatchEntry] at h
    split at h
    · rename_i m hm
      split at h
      · exact ih h
      · rename_i hd
        split at h
        · simp at h
        · simp only [MotionSearch.found.injEq] at h
          subst h
          exact ⟨m, hm, by simpa using hd⟩
    · exact ih h

theorem findStreamEntry_found_motion (s : InputDispatcher) (deviceId : Int) (pointerCount : Nat)
    (l : List Nat) (p : Nat) (h : findStreamEntry s deviceId pointerCount l = .found p) :
    ∃ m, (s.entry p).body = .motion m ∧ m.deviceId = deviceId := by
  induction l with
  | nil => simp [findStreamEntry] at h
  | cons c l ih =>
    simp only [findStreamEntry] at h
    split at h
    · exact ih h
    · rename_i d hd
      split at h
      · split at h
        · rename_i m hm
          split at h
          · simp at h
          · rename_i hc
            simp only [MotionSearch.found.injEq] at h
            subst h
            refine ⟨m, hm, ?_⟩
            simp only [not_or, not_not] at hc
            exact hc.2.1
        · simp at h
      · exact ih h

/-- Appending the sample of a `notifyMotion` call to a motion entry of its device keeps
the sample times in order, when the calls so far for the device are not later. -/
theorem timesOk_appendMotionSample {calls : List MotionArgs} {s : InputDispatcher}
    (h : TimesOk calls s) (a : MotionArgs) (p : Nat) (m : MotionEntry)
    (hm : (s.entry p).body = .motion m) (hd : m.deviceId = a.deviceId)
    (hle : ∀ b ∈ calls, b.deviceId = a.deviceId → b.eventTime ≤ a.eventTime) :
    TimesOk (calls ++ [a])
      (s.appendMotionSample p a.eventTime a.pointerCount a.pointerCoords) := by
  intro q m1 hm1
  unfold appendMotionSample at hm1
  rw [entry_setEntry] at hm1
  split at hm1
  · have hasm : (s.entry p).asMotion = m := by simp [EventEntry.asMotion, hm]
    simp only [hasm, EntryBody.motion.injEq] at hm1
    subst hm1
    obtain ⟨h1, h2⟩ := h p m hm
    have hold : ∀ x ∈ m.firstSample :: m.moreSamples.take m.lastSample,
        x.eventTime ≤ a.eventTime := by
      intro x hx
      have hx2 : x ∈ m.chain := by
        rcases List.mem_cons.mp hx with rfl | hx
        · exact List.mem_cons_self _ _
        · exact List.mem_cons_of_mem _ (List.mem_of_mem_take hx)
      obtain ⟨b, hb, hbd, hbt⟩ := h2 x hx2
      rw [← hbt]
      exact hle b hb (hbd.trans hd)
    constructor
    · unfold sampleTimes MotionEntry.chain MotionEntry.appendMotionSample at *
      simp only [List.map_cons, List.map_append, List.map_nil, List.pairwise_cons,
        List.mem_append, List.mem_map, List.mem_singleton, List.pairwise_append,
        List.Pairwise.nil, and_true, true_and, List.not_mem_nil, false_implies,
        implies_true] at h1 ⊢
      refine ⟨?_, ?_, ?_⟩
      · rintro y (⟨x, hx, rfl⟩ | rfl)
        · exact h1.1 _ ⟨x, List.mem_of_mem_take hx, rfl⟩
        · exact hold _ (List.mem_cons_self _ _)
      · exact h1.2.sublist ((List.take_sublist _ _).map _)
      · rintro y ⟨x, hx, rfl⟩ z rfl
        exact hold _ (List.mem_cons_of_mem _ hx)
    · intro x hx
      unfold MotionEntry.chain MotionEntry.appendMotionSample at hx
      simp only [List.mem_cons, List.mem_append, List.mem_singleton, List.not_mem_nil,
        or_false] at hx
      rcases hx with rfl | hx | rfl
      · obtain ⟨b, hb, hbd⟩ := h2 _ (List.mem_cons_self _ _)
        exact ⟨b, List.mem_append_left _ hb, hbd⟩
      · obtain ⟨b, hb, hbd⟩ := h2 _ (List.mem_cons_of_mem _ (List.mem_of_mem_take hx))
        exact ⟨b, List.mem_append_left _ hb, hbd⟩
      · exact ⟨a, by simp, hd.symm, rfl⟩
  · exact timesOk_append h a q m1 hm1

theorem timesOk_enqueueMotionEntry {calls : List MotionArgs} {s : InputDispatcher}
    (h : TimesOk calls s) (a : MotionArgs) :
    TimesOk (calls ++ [a]) (s.enqueueMotionEntry a) := by
  intro q m hm
  have he : (s.enqueueMotionEntry a).entry q
      = (s.obtainEntry a.eventTime (.motion a.motionEntry)).entry q := by
    unfold enqueueMotionEntry enqueueInboundEntry
    simp only
    split <;> rfl
  rw [he, entry_obtainEntry] at hm
  split at hm
  · simp only [EntryBody.motion.injEq] at hm
    subst hm
    constructor
    · simp [sampleTimes, MotionEntry.chain, MotionArgs.motionEntry]
    · intro x hx
      simp only [MotionEntry.chain, MotionArgs.motionEntry, List.mem_singleton] at hx
      subst hx
      exact ⟨a, by simp, rfl, rfl⟩
  · exact timesOk_append h a q m hm

theorem timesOk_notifyMotion {calls : List MotionArgs} {s : InputDispatcher}
    (h : TimesOk calls s) (env : Env) (currentTime : Int) (a : MotionArgs)
    (hle : ∀ b ∈ calls, b.deviceId = a.deviceId → b.eventTime ≤ a.eventTime) :
    TimesOk (calls ++ [a]) (s.notifyMotion env currentTime a) := by
  unfold notifyMotion
  split
  · split
    · rename_i p hf
      obtain ⟨m, hm, hd⟩ := findBatchEntry_found_motion s _ _ _ p hf
      exact timesOk_appendMotionSample h a p m hm hd hle
    · exact timesOk_enqueueMotionEntry h a
    · split
      · rename_i p hf
        obtain ⟨m, hm, hd⟩ := findStreamEntry_found_motion s _ _ _ p hf
        refine timesOk_of_kept ?_ (timesOk_appendMotionSample h a p m hm hd hle)
        unfold dispatchEventToCurrentInputTargetsLocked
        exact motionsKept_of_body (dispatchEventToInputTargets_frame env currentTime p true _
          _).body
      · exact timesOk_enqueueMotionEntry h a
  · exact timesOk_enqueueMotionEntry h a

theorem runSteps_reachable (ops : List (Env × Int × Operation)) (s : InputDispatcher)
    (h : Reachable s) : Reachable (runSteps ops s) := by
  induction ops generalizing s with
  | nil => exact h
  | cons x ops ih =>
    obtain ⟨env, currentTime, op⟩ := x
    exact ih _ (Reachable.step env currentTime op h)

theorem motionCalls_cons_of_ne (env : Env) (currentTime : Int) (op : Operation)
    (rest : List (Env × Int × Operation)) (hop : ∀ a, op ≠ .notifyMotion a) :
    motionCalls ((env, currentTime, op) :: rest) = motionCalls rest := by
  cases op with
  | notifyMotion a => exact absurd rfl (hop a)
  | _ => rfl

/-- A run whose `notifyMotion` calls are in order for each device, after earlier calls
that are in order too, keeps the sample times in order. -/
theorem timesOk_runSteps (ops : List (Env × Int × Operation)) (s : InputDispatcher)
    (calls : List MotionArgs) (h : TimesOk calls s)
    (hord : (calls ++ motionCalls ops).Pairwise
      (fun a b => a.deviceId = b.deviceId → a.eventTime ≤ b.eventTime)) :
    TimesOk (calls ++ motionCalls ops) (runSteps ops s) := by
  induction ops generalizing s calls with
  | nil => simpa [motionCalls, runSteps] using h
  | cons x ops ih =>
    obtain ⟨env, currentTime, op⟩ := x
    by_cases hop : ∃ a, op = .notifyMotion a
    · obtain ⟨a, rfl⟩ := hop
      have hmc : motionCalls ((env, currentTime, Operation.notifyMotion a) :: ops)
          = a :: motionCalls ops := rfl
      rw [hmc] at hord ⊢
      have happ : calls ++ a :: motionCalls ops = (calls ++ [a]) ++ motionCalls ops := by simp
      rw [happ] at hord ⊢
      have hle : ∀ b ∈ calls, b.deviceId = a.deviceId → b.eventTime ≤ a.eventTime := by
        intro b hb
        have h1 := (List.pairwise_append.mp hord).1
        exact (List.pairwise_append.mp h1).2.2 b hb a (by simp)
      exact ih _ _ (timesOk_notifyMotion h env currentTime a hle) hord
    · have hne : ∀ a, op ≠ .notifyMotion a := fun a ha => hop ⟨a, ha⟩
      rw [motionCalls_cons_of_ne env currentTime op ops hne] at hord ⊢
      exact ih _ _ (timesOk_of_kept (motionsKept_step env s currentTime op hne) h) hord

theorem timesOk_init : TimesOk [] InputDispatcher.init := by
  intro p m hm
  have : InputDispatcher.init.entry p = EventEntry.invalid := by
    unfold entry; rfl
  rw [this] at hm
  simp [EventEntry.invalid] at hm

end InputDispatcher

open InputDispatcher

/-- C26 fails as stated. Two moves of device 1 are notified, the first with the event
time 10 and the second with the event time 5; the second is batched onto the first,
so the motion entry 0 of this reachable state has the sample times 10, 5, which
decrease. -/
theorem sample_times_counterexample :
    Reachable Example.movesOutOfOrder
      ∧ (Example.movesOutOfOrder.entry 0).body
        = .motion (Example.movesOutOfOrder.entry 0).asMotion
      ∧ sampleTimes (Example.movesOutOfOrder.entry 0).asMotion = [10, 5]
      ∧ ¬ (sampleTimes (Example.movesOutOfOrder.entry 0).asMotion).Chain' (fun x y => x ≤ y) :=
  ⟨Example.run_reachable _ _ Reachable.init, by decide, by decide, by
    rw [show sampleTimes (Example.movesOutOfOrder.entry 0).asMotion = [10, 5] by decide]
    simp⟩

/-- C26, as the code has it. In the state after any run of operations from the initial
state, whatever the `notifyMotion` calls of the run, every motion entry has its
`lastSample` at the last link of its sample chain (the walk from `firstSample` by
`next` reaches it once, as the final link); and if the event times passed to
`notifyMotion` in the run do not decrease for any one device, the event times of the
samples do not decrease along the chain. -/
theorem sample_times_monotone (ops : List (Env × Int × Operation)) (p : Nat) (m : MotionEntry)
    (hm : ((runSteps ops InputDispatcher.init).entry p).body = .motion m) :
    m.lastSample + 1 = m.chain.length
      ∧ m.chain.get? m.lastSample = m.chain.getLast?
      ∧ (∀ i, i < m.lastSample → m.chain.get? i ≠ none ∧ i + 1 < m.chain.length)
      ∧ (MotionTimesOrdered ops → (sampleTimes m).Chain' (fun x y => x ≤ y)) := by
  have hinv := inv_of_reachable (runSteps_reachable ops _ Reachable.init)
  have hs := hinv.samplesOk p
  have hasm : ((runSteps ops InputDispatcher.init).entry p).asMotion = m := by
    simp [EventEntry.asMotion, hm]
  rw [hasm] at hs
  have hlen : m.lastSample + 1 = m.chain.length := by
    simp [MotionEntry.chain, hs]
  refine ⟨hlen, ?_, ?_, ?_⟩
  · rw [List.getLast?_eq_getElem?, List.get?_eq_getElem?, ← hlen]
    simp
  · intro i hi
    refine ⟨?_, by omega⟩
    rw [List.get?_eq_getElem?]
    intro hnone
    have := List.getElem?_eq_none_iff.mp hnone
    omega
  · intro hord
    have ht := timesOk_runSteps ops InputDispatcher.init [] timesOk_init
      (by simpa [MotionTimesOrdered] using hord)
    exact List.Pairwise.chain' (ht p m hm).1

theorem sample_times_monotone_witness :
    MotionTimesOrdered Example.orderedMoves
      ∧ ((runSteps Example.orderedMoves InputDispatcher.init).entry 0).body
        = .motion ((runSteps Example.orderedMoves InputDispatcher.init).entry 0).asMotion
      ∧ sampleTimes ((runSteps Example.orderedMoves InputDispatcher.init).entry 0).asMotion
        = [0, 10, 20]
      ∧ (sampleTimes ((runSteps Example.orderedMoves InputDispatcher.init).entry
          0).asMotion).Chain' (fun x y => x ≤ y) :=
  ⟨by unfold MotionTimesOrdered; decide, by decide, by decide,
    (sample_times_monotone Example.orderedMoves 0
      ((runSteps Example.orderedMoves InputDispatcher.init).entry 0).asMotion
      (by decide)).2.2.2 (by unfold MotionTimesOrdered; decide)⟩

end Dispatcher

namespace Dispatcher

open InputDispatcher

/-- C35. Every queued entry is being delivered: in every state reachable by the public
operations, a connection whose outbound queue is not empty has status `NORMAL` and the
head of its queue has `inProgress = true`; a connection whose status is
`NOT_RESPONDING`, `BROKEN` or `ZOMBIE` has an empty outbound queue; and no connection
is left with a queue that is not empty and whose head is not in progress. -/
theorem queued_entries_are_delivering (s : InputDispatcher) (h : Reachable s) (c : Nat) :
    (∀ d q, (s.conn c).outboundQueue = d :: q →
        (s.conn c).status = .NORMAL ∧ d.inProgress = true)
      ∧ ((s.conn c).status = .NOT_RESPONDING ∨ (s.conn c).status = .BROKEN
          ∨ (s.conn c).status = .ZOMBIE → (s.conn c).outboundQueue = [])
      ∧ ¬ ∃ d q, (s.conn c).outboundQueue = d :: q ∧ d.inProgress = false := by
  have hc := (inv_of_reachable h).connOk c
  refine ⟨hc.delivering, ?_, ?_⟩
  · intro hst
    cases hq : (s.conn c).outboundQueue with
    | nil => rfl
    | cons d q =>
      have hn := (hc.delivering d q hq).1
      rw [hn] at hst
      simp at hst
  · rintro ⟨d, q, hq, hd⟩
    have := (hc.delivering d q hq).2
    rw [hd] at this
    exact absurd this (by decide)

theorem queued_entries_are_delivering_witness :
    Reachable Example.keyDispatched
      ∧ (Example.keyDispatched.conn 0).outboundQueue ≠ []
      ∧ (∀ d q, (Example.keyDispatched.conn 0).outboundQueue = d :: q →
          (Example.keyDispatched.conn 0).status = .NORMAL ∧ d.inProgress = true) :=
  ⟨Example.run_reachable _ _ Reachable.init, by decide,
    (queued_entries_are_delivering Example.keyDispatched
      (Example.run_reachable _ _ Reachable.init) 0).1⟩

end Dispatcher

namespace Dispatcher

open InputDispatcher

theorem InputDispatcher.enqueueInboundEntry_heap (s : InputDispatcher) (eventTime : Int)
    (body : EntryBody) :
    (s.enqueueInboundEntry eventTime body).heap
      = s.heap ++ [{ refCount := 1, eventTime := eventTime, body := body, inPool := false }] := by
  unfold enqueueInboundEntry
  simp only
  split <;> rfl

/-- C34. Fresh motion entry: whenever `notifyMotion` neither batches nor streams (the
action is not `MOVE`, or the batching search ends at `NoBatchingOrStreaming`, or it is
exhausted and the streaming search finds no entry), the heap grows by exactly one
cell, whose address is appended at the tail of the inbound queue; the new cell is a
motion entry with `refCount = 1`, the header fields of the arguments, the first
`pointerCount` pointer ids, a sample chain of length one whose sample holds the event
time and the first `pointerCount` pointer coordinates, and `lastSample` pointing at
`firstSample`; every existing entry (with its sample chain), every connection (with
its outbound queue) and the log of the publisher calls are unchanged. -/
theorem notifyMotion_fresh_entry (env : Env) (s : InputDispatcher) (currentTime : Int)
    (a : MotionArgs)
    (h : a.action ≠ MOTION_EVENT_ACTION_MOVE
      ∨ findBatchEntry s a.deviceId a.pointerCount s.mInboundQueue.reverse
          = .noBatchingOrStreaming
      ∨ (findBatchEntry s a.deviceId a.pointerCount s.mInboundQueue.reverse = .exhausted
          ∧ ∀ p, findStreamEntry s a.deviceId a.pointerCount s.mActiveConnections
              ≠ .found p)) :
    (s.notifyMotion env currentTime a).heap.length = s.heap.length + 1
      ∧ (s.notifyMotion env currentTime a).mInboundQueue = s.mInboundQueue ++ [s.heap.length]
      ∧ ((s.notifyMotion env currentTime a).entry s.heap.length).refCount = 1
      ∧ ((s.notifyMotion env currentTime a).entry s.heap.length).eventTime = a.eventTime
      ∧ ((s.notifyMotion env currentTime a).entry s.heap.length).inPool = false
      ∧ (∃ m, ((s.notifyMotion env currentTime a).entry s.heap.length).body = .motion m
          ∧ m.deviceId = a.deviceId ∧ m.nature = a.nature ∧ m.policyFlags = a.policyFlags
          ∧ m.action = a.action ∧ m.metaState = a.metaState ∧ m.edgeFlags = a.edgeFlags
          ∧ m.xPrecision = a.xPrecision ∧ m.yPrecision = a.yPrecision
          ∧ m.downTime = a.downTime ∧ m.pointerCount = a.pointerCount
          ∧ m.pointerIds = a.pointerIds.take a.pointerCount
          ∧ m.chain = [{ eventTime := a.eventTime,
                         pointerCoords := a.pointerCoords.take a.pointerCount }]
          ∧ m.chain[m.lastSample]? = some m.firstSample)
      ∧ (∀ q, q < s.heap.length → (s.notifyMotion env currentTime a).entry q = s.entry q)
      ∧ (s.notifyMotion env currentTime a).conns = s.conns
      ∧ (s.notifyMotion env currentTime a).mActiveConnections = s.mActiveConnections
      ∧ (s.notifyMotion env currentTime a).trace = s.trace := by
  have key : s.notifyMotion env currentTime a = s.enqueueMotionEntry a := by
    apply (notifyMotion_wake env s currentTime a).2.2
    · intro p ha hb
      rcases h with h | h | h
      · exact h ha
      · rw [h] at hb; exact MotionSearch.noConfusion hb
      · rw [h.1] at hb; exact MotionSearch.noConfusion hb
    · intro p ha hb hs
      rcases h with h | h | h
      · exact h ha
      · rw [h] at hb; exact MotionSearch.noConfusion hb
      · exact h.2 p hs
  rw [key]
  obtain ⟨h1, h2, h3, h4, h5⟩ := enqueueMotionEntry_spec s a
  have hact : (s.enqueueMotionEntry a).mActiveConnections = s.mActiveConnections := by
    unfold enqueueMotionEntry enqueueInboundEntry
    simp only
    split <;> rfl
  refine ⟨?_, h4, ?_, ?_, ?_, ⟨a.motionEntry, ?_, rfl, rfl, rfl, rfl, rfl, rfl, rfl, rfl, rfl,
    rfl, rfl, rfl, rfl⟩, h1, h3, hact, h2⟩
  · unfold enqueueMotionEntry
    rw [enqueueInboundEntry_heap]
    simp
  · rw [h5]
  · rw [h5]
  · rw [h5]
  · rw [h5]

theorem notifyMotion_fresh_entry_witness :
    Example.motion 30 MOTION_EVENT_ACTION_DOWN
        = { eventTime := 30, deviceId := 1, nature := 0, policyFlags := 0,
            action := MOTION_EVENT_ACTION_DOWN, metaState := 0, edgeFlags := 0,
            pointerCount := 1, pointerIds := [0],
            pointerCoords := [{ x := 30, y := 30, pressure := 0, size := 0 }],
            xPrecision := 0, yPrecision := 0, downTime := 0 }
      ∧ Example.moveDelivering.mInboundQueue = []
      ∧ (Example.moveDelivering.notifyMotion (Example.env []) 30
          (Example.motion 30 MOTION_EVENT_ACTION_DOWN)).mInboundQueue = [] ++ [1]
      ∧ (Example.moveDelivering.notifyMotion (Example.env []) 30
          (Example.motion 30 MOTION_EVENT_ACTION_DOWN)).conns = Example.moveDelivering.conns :=
  ⟨rfl, by decide,
    (notifyMotion_fresh_entry (Example.env []) Example.moveDelivering 30
      (Example.motion 30 MOTION_EVENT_ACTION_DOWN) (Or.inl (by decide))).2.1,
    (notifyMotion_fresh_entry (Example.env []) Example.moveDelivering 30
      (Example.motion 30 MOTION_EVENT_ACTION_DOWN) (Or.inl (by decide))).2.2.2.2.2.2.2.1⟩

end Dispatcher

namespace Dispatcher

open InputDispatcher

end Dispatcher

namespace Dispatcher

open InputDispatcher

/-- The entry that `findQueuedDispatchEntryForEvent` finds is for the event, and no
entry nearer the tail is. -/
theorem findQueuedDispatchEntryForEvent_some {q : List DispatchEntry} {p i : Nat}
    (h : findQueuedDispatchEntryForEvent q p = some i) :
    ∃ x, q[i]? = some x ∧ x.eventEntry = p
      ∧ ∀ j y, i < j → q[j]? = some y → y.eventEntry ≠ p := by
  induction q generalizing i with
  | nil => simp [findQueuedDispatchEntryForEvent] at h
  | cons d q ih =>
    simp only [findQueuedDispatchEntryForEvent] at h
    cases hq : findQueuedDispatchEntryForEvent q p with
    | some k =>
      rw [hq] at h
      simp only [Option.some.injEq] at h
      subst h
      obtain ⟨x, hx, hp, hlast⟩ := ih hq
      refine ⟨x, by simpa using hx, hp, ?_⟩
      intro j y hj hy
      obtain ⟨j1, rfl⟩ : ∃ j1, j = j1 + 1 := ⟨j - 1, by omega⟩
      exact hlast j1 y (by omega) (by simpa using hy)
    | none =>
      rw [hq] at h
      simp only at h
      split_ifs at h with hd
      simp only [Option.some.injEq] at h
      subst h
      refine ⟨d, by simp, hd, ?_⟩
      intro j y hj hy
      obtain ⟨j1, rfl⟩ : ∃ j1, j = j1 + 1 := ⟨j - 1, by omega⟩
      have hy1 : q[j1]? = some y := by simpa using hy
      exact findQueuedDispatchEntryForEvent_none hq y (List.getElem?_mem hy1)

/-- If a dispatch entry for the event is queued, `findQueuedDispatchEntryForEvent` finds
one. -/
theorem findQueuedDispatchEntryForEvent_of_mem {q : List DispatchEntry} {p : Nat}
    (h : ∃ d ∈ q, d.eventEntry = p) : ∃ i, findQueuedDispatchEntryForEvent q p = some i := by
  cases hq : findQueuedDispatchEntryForEvent q p with
  | some i => exact ⟨i, rfl⟩
  | none =>
    obtain ⟨d, hd, hp⟩ := h
    exact absurd hp (findQueuedDispatchEntryForEvent_none hq d hd)

/-- C31. Streaming branch of `prepareDispatchCycleLocked`: on a `NORMAL` connection
with `resumeWithAppendedMotionSample = true` on whose outbound queue a dispatch entry
for the event entry is queued, let `x` at position `i` be the one nearest the tail.
No dispatch entry is enqueued (the queue keeps its length and every dispatch entry
keeps all its fields but `tailMotionSample`), no cell of the heap changes, so the
reference count of the event is unchanged, and the status stays `NORMAL`.  If `x` is in
progress and has no `tailMotionSample`, the publisher's `appendMotionSample` is called
exactly once, with the sample `lastSample` of the event points at; if the call returns
`OK` the queue is unchanged, and if it returns any other status the `tailMotionSample`
of `x` is set to that sample and nothing else in the queue changes.  Otherwise the
publisher is not called and the state is unchanged. -/
theorem prepareDispatchCycleLocked_streaming (env : Env) (s : InputDispatcher)
    (currentTime : Int) (c p : Nat) (inputTarget : InputTarget)
    (hs : (s.conn c).status = .NORMAL)
    (hq : ∃ d ∈ (s.conn c).outboundQueue, d.eventEntry = p) :
    ∃ i x, (s.conn c).outboundQueue[i]? = some x ∧ x.eventEntry = p
      ∧ (∀ j y, i < j → (s.conn c).outboundQueue[j]? = some y → y.eventEntry ≠ p)
      ∧ ((s.prepareDispatchCycleLocked env currentTime c p inputTarget true).conn
            c).outboundQueue.length = (s.conn c).outboundQueue.length
      ∧ (((s.prepareDispatchCycleLocked env currentTime c p inputTarget true).conn
            c).outboundQueue.map (fun d => { d with tailMotionSample := none }))
          = (s.conn c).outboundQueue.map (fun d => { d with tailMotionSample := none })
      ∧ (s.prepareDispatchCycleLocked env currentTime c p inputTarget true).heap = s.heap
      ∧ ((s.prepareDispatchCycleLocked env currentTime c p inputTarget true).conn c).status
          = .NORMAL
      ∧ (x.inProgress = true ∧ x.tailMotionSample = none →
          (s.prepareDispatchCycleLocked env currentTime c p inputTarget true).trace
              = s.trace ++ [⟨c, .appendMotionSample
                  ((s.entry p).asMotion.chain.getD (s.entry p).asMotion.lastSample
                    MotionSample.blank).eventTime
                  ((s.entry p).asMotion.chain.getD (s.entry p).asMotion.lastSample
                    MotionSample.blank).pointerCoords,
                  env.publisher s.trace c (.appendMotionSample
                    ((s.entry p).asMotion.chain.getD (s.entry p).asMotion.lastSample
                      MotionSample.blank).eventTime
                    ((s.entry p).asMotion.chain.getD (s.entry p).asMotion.lastSample
                      MotionSample.blank).pointerCoords)⟩]
            ∧ (env.publisher s.trace c (.appendMotionSample
                  ((s.entry p).asMotion.chain.getD (s.entry p).asMotion.lastSample
                    MotionSample.blank).eventTime
                  ((s.entry p).asMotion.chain.getD (s.entry p).asMotion.lastSample
                    MotionSample.blank).pointerCoords) = OK →
                ((s.prepareDispatchCycleLocked env currentTime c p inputTarget true).conn
                  c).outboundQueue = (s.conn c).outboundQueue)
            ∧ (env.publisher s.trace c (.appendMotionSample
                  ((s.entry p).asMotion.chain.getD (s.entry p).asMotion.lastSample
                    MotionSample.blank).eventTime
                  ((s.entry p).asMotion.chain.getD (s.entry p).asMotion.lastSample
                    MotionSample.blank).pointerCoords) ≠ OK →
                ((s.prepareDispatchCycleLocked env currentTime c p inputTarget true).conn
                  c).outboundQueue
                  = (s.conn c).outboundQueue.set i
                      { x with tailMotionSample := some (s.entry p).asMotion.lastSample }))
      ∧ (¬ (x.inProgress = true ∧ x.tailMotionSample = none) →
          s.prepareDispatchCycleLocked env currentTime c p inputTarget true = s) := by
  obtain ⟨i, hf⟩ := findQueuedDispatchEntryForEvent_of_mem hq
  obtain ⟨x, hx, hxp, hlast⟩ := findQueuedDispatchEntryForEvent_some hf
  have hne0 : (s.conn c).outboundQueue ≠ [] := by
    obtain ⟨d, hd, -⟩ := hq
    exact List.ne_nil_of_mem hd
  have hc : c < s.conns.length := lt_of_outbound_ne_nil s hne0
  have hne : (s.conn c).outboundQueue.isEmpty = false := by
    cases hq1 : (s.conn c).outboundQueue with
    | nil => exact absurd hq1 hne0
    | cons d q => rfl
  have hget : ∀ d0, (s.conn c).outboundQueue.getD i d0 = x := by
    intro d0; simp [List.getD, hx]
  refine ⟨i, x, hx, hxp, hlast, ?_⟩
  generalize hcall : PublisherCall.appendMotionSample
    ((s.entry p).asMotion.chain.getD (s.entry p).asMotion.lastSample MotionSample.blank).eventTime
    ((s.entry p).asMotion.chain.getD (s.entry p).asMotion.lastSample
      MotionSample.blank).pointerCoords = call
  have key : s.prepareDispatchCycleLocked env currentTime c p inputTarget true
      = if x.inProgress = true ∧ x.tailMotionSample = none then
          (if s.publisherStatus env c call = OK then s.publisherCalled env c call
           else (s.publisherCalled env c call).setOutbound c
            ((s.conn c).outboundQueue.set i
              { x with tailMotionSample := some (s.entry p).asMotion.lastSample }))
        else s := by
    unfold prepareDispatchCycleLocked
    simp only [hs, ne_eq, not_true_eq_false, if_false, hne, Bool.not_false, Bool.and_self,
      if_true, hf, hget, hcall]
    cases hin : x.inProgress with
    | false => simp
    | true =>
      cases ht : x.tailMotionSample with
      | some t => simp
      | none =>
        simp only [Bool.not_true, Bool.false_eq_true, if_false, Option.isSome_none, and_self,
          if_true]
  rw [key]
  by_cases hopen : x.inProgress = true ∧ x.tailMotionSample = none
  · rw [if_pos hopen]
    by_cases hst : s.publisherStatus env c call = OK
    · rw [if_pos hst]
      refine ⟨rfl, rfl, rfl, hs, fun _ => ⟨rfl, fun _ => rfl, fun h => absurd hst h⟩,
        fun h => absurd hopen h⟩
    · rw [if_neg hst]
      have hcs : ∀ newq, ((s.publisherCalled env c call).setOutbound c newq).conn c
          = { s.conn c with outboundQueue := newq } := by
        intro newq
        unfold setOutbound
        rw [conn_setConn_self _ _ (show c < (s.publisherCalled env c call).conns.length from hc)]
        rfl
      rw [hcs]
      refine ⟨by simp, ?_, rfl, hs, fun _ => ⟨rfl, fun h => absurd h hst, fun _ => rfl⟩,
        fun h => absurd hopen h⟩
      simp only
      apply List.ext_getElem?
      intro j
      simp only [List.getElem?_map, List.getElem?_set]
      by_cases hj : i = j
      · subst hj
        rw [if_pos rfl]
        have hi : i < (s.conn c).outboundQueue.length := by
          by_contra hcon
          rw [List.getElem?_eq_none (Nat.le_of_not_lt hcon)] at hx
          exact Option.noConfusion hx
        simp [hi, hx]
      · rw [if_neg hj]
  · rw [if_neg hopen]
    exact ⟨rfl, rfl, rfl, hs, fun h => absurd h hopen, fun _ => rfl⟩

theorem prepareDispatchCycleLocked_streaming_witness :
    (Example.moveDelivering.conn 0).outboundQueue
        = [{ eventEntry := 0, targetFlags := InputTarget.FLAG_SYNC, xOffset := 0, yOffset := 0,
             timeout := 100, inProgress := true, headMotionSample := none,
             tailMotionSample := none }]
      ∧ Example.pressureEnv.publisher Example.moveDelivering.trace 0
          (.appendMotionSample 0 [{ x := 0, y := 0, pressure := 0, size := 0 }]) = NO_MEMORY
      ∧ ((Example.moveDelivering.prepareDispatchCycleLocked Example.pressureEnv 5 0 0
            (Example.target 7 InputTarget.FLAG_SYNC) true).conn 0).outboundQueue
          = [{ eventEntry := 0, targetFlags := InputTarget.FLAG_SYNC, xOffset := 0, yOffset := 0,
               timeout := 100, inProgress := true, headMotionSample := none,
               tailMotionSample := some 0 }]
      ∧ ∃ (i : Nat) (x : DispatchEntry), (Example.moveDelivering.conn 0).outboundQueue[i]? = some x
          ∧ (Example.moveDelivering.prepareDispatchCycleLocked Example.pressureEnv 5 0 0
              (Example.target 7 InputTarget.FLAG_SYNC) true).heap = Example.moveDelivering.heap := by
  obtain ⟨i, x, h1, -, -, -, -, h2, -⟩ :=
    prepareDispatchCycleLocked_streaming Example.pressureEnv Example.moveDelivering 5 0 0
      (Example.target 7 InputTarget.FLAG_SYNC) (by decide) (by decide)
  exact ⟨by decide, by decide, by decide, i, x, h1, h2⟩

end Dispatcher

namespace Dispatcher

open InputDispatcher

/-- An event entry that a queued dispatch entry references has outbound
references. -/
theorem InputDispatcher.outboundRefs_pos_of_mem (s : InputDispatcher) (c : Nat)
    (d : DispatchEntry) (hd : d ∈ (s.conn c).outboundQueue) : 0 < s.outboundRefs d.eventEntry := by
  have h1 : 0 < queueRefs (s.conn c).outboundQueue d.eventEntry :=
    List.countP_pos_iff.mpr ⟨d, hd, by simp⟩
  exact Nat.lt_of_lt_of_le h1 (queueRefs_le_outboundRefs s c d.eventEntry)

/-- The only cell whose contents `processKeyRepeatLocked` writes is the one that
carries the repeat: the `lastKeyEntry` if its reference count is one, and else the
cell that is obtained. -/
theorem InputDispatcher.processKeyRepeatLocked_writes (env : Env) (s : InputDispatcher)
    (now : Int) (l : Nat) (hl : s.mKeyRepeatState.lastKeyEntry = some l) (q : Nat)
    (hq : q ≠ (if (s.entry l).refCount = 1 then l else s.heap.length)) :
    ((s.processKeyRepeatLocked env now).entry q).body = (s.entry q).body
      ∧ ((s.processKeyRepeatLocked env now).entry q).eventTime = (s.entry q).eventTime := by
  obtain ⟨-, h5, h6, -⟩ : _ ∧ _ ∧ _ ∧ _ := identifyInputTargetsAndDispatchKeyLocked_keeps env
    ({ ((s.obtainRepeatEntry l).1.setEntry (s.obtainRepeatEntry l).2
          { (s.obtainRepeatEntry l).1.entry (s.obtainRepeatEntry l).2 with
            eventTime := now
            body := .key { ((s.obtainRepeatEntry l).1.entry (s.obtainRepeatEntry l).2).asKey with
              downTime := now, policyFlags := 0 } }) with
        mKeyRepeatState := { ((s.obtainRepeatEntry l).1.setEntry (s.obtainRepeatEntry l).2
          { (s.obtainRepeatEntry l).1.entry (s.obtainRepeatEntry l).2 with
            eventTime := now
            body := .key { ((s.obtainRepeatEntry l).1.entry (s.obtainRepeatEntry l).2).asKey with
              downTime := now, policyFlags := 0 } }).mKeyRepeatState with
          nextRepeatTime := now + env.policy.getKeyRepeatTimeout } }) now
    (s.obtainRepeatEntry l).2
  have hp : (s.obtainRepeatEntry l).2 = if (s.entry l).refCount = 1 then l else s.heap.length := by
    unfold obtainRepeatEntry
    simp only
    split <;> rfl
  have h1 : ((s.obtainRepeatEntry l).1.entry q).body = (s.entry q).body
      ∧ ((s.obtainRepeatEntry l).1.entry q).eventTime = (s.entry q).eventTime := by
    unfold obtainRepeatEntry
    simp only
    by_cases hr : (s.entry l).refCount = 1
    · rw [if_pos hr] at hq ⊢
      simp only
      unfold setKey
      rw [entry_setEntry_of_ne _ _ (Ne.symm hq)]
      exact ⟨rfl, rfl⟩
    · rw [if_neg hr] at hq ⊢
      simp only
      rw [releaseKeyEntry_eq]
      have h2 : ∀ (b : EntryBody) (u : InputDispatcher), u.heap = (s.obtainEntry 0 b).heap →
          ((u.setEntry l (EventEntry.release (u.entry l))).entry q).body = (s.entry q).body
          ∧ ((u.setEntry l (EventEntry.release (u.entry l))).entry q).eventTime
            = (s.entry q).eventTime := by
        intro b u hu
        have hu1 : u.entry q = s.entry q := by
          have : u.entry q = (s.obtainEntry 0 b).entry q := by
            simp only [entry, hu]
          rw [this, entry_obtainEntry, if_neg hq]
        rw [entry_setEntry]
        split
        · rename_i h
          rw [EventEntry.release_body, EventEntry.release_eventTime, h.1, hu1]
          exact ⟨rfl, rfl⟩
        · rw [hu1]
          exact ⟨rfl, rfl⟩
      exact h2 _ _ rfl
  have hs2 : ∀ e, (((s.obtainRepeatEntry l).1.setEntry (s.obtainRepeatEntry l).2 e).entry q)
      = (s.obtainRepeatEntry l).1.entry q := by
    intro e
    rw [entry_setEntry_of_ne _ _ (by rw [hp]; exact Ne.symm hq)]
  have key : s.processKeyRepeatLocked env now
      = ({ ((s.obtainRepeatEntry l).1.setEntry (s.obtainRepeatEntry l).2
          { (s.obtainRepeatEntry l).1.entry (s.obtainRepeatEntry l).2 with
            eventTime := now
            body := .key { ((s.obtainRepeatEntry l).1.entry (s.obtainRepeatEntry l).2).asKey with
              downTime := now, policyFlags := 0 } }) with
        mKeyRepeatState := { ((s.obtainRepeatEntry l).1.setEntry (s.obtainRepeatEntry l).2
          { (s.obtainRepeatEntry l).1.entry (s.obtainRepeatEntry l).2 with
            eventTime := now
            body := .key { ((s.obtainRepeatEntry l).1.entry (s.obtainRepeatEntry l).2).asKey with
              downTime := now, policyFlags := 0 } }).mKeyRepeatState with
          nextRepeatTime := now + env.policy.getKeyRepeatTimeout } }
          ).identifyInputTargetsAndDispatchKeyLocked env now (s.obtainRepeatEntry l).2 := by
    unfold processKeyRepeatLocked
    simp only [hl]
  rw [key, h5 q, h6 q]
  exact ⟨(congrArg EventEntry.body (hs2 _)).trans h1.1,
    (congrArg EventEntry.eventTime (hs2 _)).trans h1.2⟩

/-- C37. Key repeat never rewrites an in-flight event: in every reachable state with a
`lastKeyEntry`, `processKeyRepeatLocked` changes neither the key fields nor the event
time (the contents of the cell other than its reference count) of any event entry that
a dispatch entry of some outbound queue references.  It
writes the previous `lastKeyEntry` in place only when its reference count is one, and
then the key repeat state is its sole holder: it is not in the inbound queue and no
dispatch entry references it.  Otherwise it writes only to the cell it has just
obtained, which no dispatch entry references, and the fields and the event time of
every cell that was there before are unchanged. -/
theorem processKeyRepeatLocked_keeps_in_flight (env : Env) (s : InputDispatcher) (now : Int)
    (h : Reachable s) (l : Nat) (hl : s.mKeyRepeatState.lastKeyEntry = some l) :
    (∀ c d, d ∈ (s.conn c).outboundQueue →
        ((s.processKeyRepeatLocked env now).entry d.eventEntry).body
            = (s.entry d.eventEntry).body
          ∧ ((s.processKeyRepeatLocked env now).entry d.eventEntry).eventTime
            = (s.entry d.eventEntry).eventTime)
      ∧ ((s.entry l).refCount = 1 →
          l ∉ s.mInboundQueue ∧ s.outboundRefs l = 0
            ∧ (∀ c d, d ∈ (s.conn c).outboundQueue → d.eventEntry ≠ l)
            ∧ (s.processKeyRepeatLocked env now).mKeyRepeatState.lastKeyEntry = some l
            ∧ ∀ q, q ≠ l →
                ((s.processKeyRepeatLocked env now).entry q).body = (s.entry q).body
                  ∧ ((s.processKeyRepeatLocked env now).entry q).eventTime
                    = (s.entry q).eventTime)
      ∧ ((s.entry l).refCount ≠ 1 →
          (s.processKeyRepeatLocked env now).mKeyRepeatState.lastKeyEntry
              = some s.heap.length
            ∧ (∀ c d, d ∈ (s.conn c).outboundQueue → d.eventEntry ≠ s.heap.length)
            ∧ ∀ q, q < s.heap.length →
                ((s.processKeyRepeatLocked env now).entry q).body = (s.entry q).body
                  ∧ ((s.processKeyRepeatLocked env now).entry q).eventTime
                    = (s.entry q).eventTime) := by
  have hinv := inv_of_reachable h
  have hlast : (s.processKeyRepeatLocked env now).mKeyRepeatState.lastKeyEntry
      = some (if (s.entry l).refCount = 1 then l else s.heap.length) := by
    have h4 := (identifyInputTargetsAndDispatchKeyLocked_keeps env
      ({ ((s.obtainRepeatEntry l).1.setEntry (s.obtainRepeatEntry l).2
          { (s.obtainRepeatEntry l).1.entry (s.obtainRepeatEntry l).2 with
            eventTime := now
            body := .key { ((s.obtainRepeatEntry l).1.entry (s.obtainRepeatEntry l).2).asKey with
              downTime := now, policyFlags := 0 } }) with
        mKeyRepeatState := { ((s.obtainRepeatEntry l).1.setEntry (s.obtainRepeatEntry l).2
          { (s.obtainRepeatEntry l).1.entry (s.obtainRepeatEntry l).2 with
            eventTime := now
            body := .key { ((s.obtainRepeatEntry l).1.entry (s.obtainRepeatEntry l).2).asKey with
              downTime := now, policyFlags := 0 } }).mKeyRepeatState with
          nextRepeatTime := now + env.policy.getKeyRepeatTimeout } }) now
      (s.obtainRepeatEntry l).2).1
    have key : (s.processKeyRepeatLocked env now).mKeyRepeatState.lastKeyEntry
        = (s.obtainRepeatEntry l).1.mKeyRepeatState.lastKeyEntry := by
      unfold processKeyRepeatLocked
      simp only [hl]
      rw [h4]
      rfl
    rw [key]
    unfold obtainRepeatEntry
    simp only
    split
    · exact hl
    · rfl
  -- the reference count of the last key entry counts its holders
  have hsole : (s.entry l).refCount = 1 → l ∉ s.mInboundQueue ∧ s.outboundRefs l = 0 := by
    intro h1
    have hcell := hinv.refsOk l
    have hheld : heldRefs s.mKeyRepeatState.lastKeyEntry l = 1 := by
      rw [hl, heldRefs_some, if_pos rfl]
    have hlive : (s.entry l).inPool = false := by
      cases hp : (s.entry l).inPool with
      | false => rfl
      | true =>
        have := hcell.pool.mp hp
        unfold refs at this
        omega
    have hcount := hcell.count hlive
    rw [h1] at hcount
    unfold refs at hcount
    simp only [heldRefs_none, Nat.add_zero, hheld] at hcount
    have h2 : s.mInboundQueue.count l + s.outboundRefs l = 0 := by omega
    exact ⟨fun hm => by
      have := List.count_pos_iff.mpr hm
      omega, by omega⟩
  have hfresh : ∀ c d, d ∈ (s.conn c).outboundQueue → d.eventEntry ≠ s.heap.length := by
    intro c d hd he
    have hpos := outboundRefs_pos_of_mem s c d hd
    rw [he] at hpos
    have hcell := hinv.refsOk s.heap.length
    rw [entry_of_le s (Nat.le_refl _)] at hcell
    have := hcell.pool.mp rfl
    unfold refs at this
    omega
  have hnot : (s.entry l).refCount = 1 →
      ∀ c d, d ∈ (s.conn c).outboundQueue → d.eventEntry ≠ l := by
    intro h1 c d hd he
    have hpos := outboundRefs_pos_of_mem s c d hd
    rw [he, (hsole h1).2] at hpos
    exact Nat.lt_irrefl _ hpos
  refine ⟨?_, ?_, ?_⟩
  · intro c d hd
    apply processKeyRepeatLocked_writes env s now l hl
    by_cases h1 : (s.entry l).refCount = 1
    · rw [if_pos h1]; exact hnot h1 c d hd
    · rw [if_neg h1]; exact hfresh c d hd
  · intro h1
    refine ⟨(hsole h1).1, (hsole h1).2, hnot h1, by rw [hlast, if_pos h1], ?_⟩
    intro q hq
    exact processKeyRepeatLocked_writes env s now l hl q (by rw [if_pos h1]; exact hq)
  · intro h1
    refine ⟨by rw [hlast, if_neg h1], hfresh, ?_⟩
    intro q hq
    exact processKeyRepeatLocked_writes env s now l hl q
      (by rw [if_neg h1]; exact Nat.ne_of_lt hq)

theorem processKeyRepeatLocked_keeps_in_flight_witness :
    Reachable Example.keyDispatched
      ∧ Example.keyDispatched.mKeyRepeatState.lastKeyEntry = some 0
      ∧ (Example.keyDispatched.conn 0).outboundQueue.map (fun d => d.eventEntry) = [0]
      ∧ (Example.keyDispatched.entry 0).refCount = 2
      ∧ (Example.keyDispatched.processKeyRepeatLocked (Example.env []) 60
          ).mKeyRepeatState.lastKeyEntry = some 1
      ∧ ((Example.keyDispatched.processKeyRepeatLocked (Example.env []) 60).entry 0).body
          = (Example.keyDispatched.entry 0).body :=
  ⟨Example.run_reachable _ _ Reachable.init, by decide, by decide, by decide,
    ((processKeyRepeatLocked_keeps_in_flight (Example.env []) Example.keyDispatched 60
      (Example.run_reachable _ _ Reachable.init) 0 (by decide)).2.2 (by decide)).1,
    (((processKeyRepeatLocked_keeps_in_flight (Example.env []) Example.keyDispatched 60
      (Example.run_reachable _ _ Reachable.init) 0 (by decide)).2.2 (by decide)).2.2 0
        (by decide)).1⟩

end Dispatcher

namespace Dispatcher

open InputDispatcher

/-- The arguments of the `releaseEventEntry` calls of the drain loop on a queue that is
not empty: every entry but the first, and then the `tail` sentinel. -/
theorem InputDispatcher.drainInboundQueue_log (q : List Nat) (e : Nat)
    (r : InputDispatcher × List QueueNode) :
    (drainInboundQueue (e :: q) r).2 = r.2 ++ q.map QueueNode.entry ++ [QueueNode.tail] := by
  induction q generalizing e r with
  | nil => simp [drainInboundQueue]
  | cons next rest ih =>
    rw [drainInboundQueue, ih]
    simp

/-- The drain loop releases nothing on an empty queue. -/
theorem InputDispatcher.drainInboundQueue_nil (r : InputDispatcher × List QueueNode) :
    drainInboundQueue [] r = r := rfl

theorem InputDispatcher.lookup_isSome_of_mem (m : List (Int × Nat)) (fd : Int)
    (h : fd ∈ m.map Prod.fst) : ∃ c, m.lookup fd = some c := by
  induction m with
  | nil => simp at h
  | cons kv m ih =>
    obtain ⟨k, v⟩ := kv
    by_cases hk : fd = k
    · subst hk
      exact ⟨v, by simp [List.lookup]⟩
    · have hm : fd ∈ m.map Prod.fst := by
        simp only [List.map_cons, List.mem_cons] at h
        rcases h with h | h
        · exact absurd h hk
        · exact h
      obtain ⟨c, hc⟩ := ih hm
      refine ⟨c, ?_⟩
      rw [List.lookup_cons]
      have : (fd == k) = false := by simpa using hk
      rw [this]
      exact hc

/-- Unregistering a registered channel takes one connection out of the table. -/
theorem InputDispatcher.unregisterInputChannel_map_length (s : InputDispatcher) (fd : Int)
    (h : fd ∈ s.mConnectionsByReceiveFd.map Prod.fst) :
    (s.unregisterInputChannel fd).1.mConnectionsByReceiveFd.length + 1
      = s.mConnectionsByReceiveFd.length := by
  obtain ⟨c, hc⟩ := lookup_isSome_of_mem _ fd h
  obtain ⟨kv, hkv, hfd⟩ := List.mem_map.mp h
  unfold unregisterInputChannel connectionByReceiveFd
  rw [hc]
  simp only
  have hmap := (abortDispatchCycleLocked_frame
    (InputDispatcher.setConn { s with
        mConnectionsByReceiveFd := s.mConnectionsByReceiveFd.eraseP (fun kv => kv.1 == fd) } c
      { InputDispatcher.conn { s with
          mConnectionsByReceiveFd := s.mConnectionsByReceiveFd.eraseP (fun kv => kv.1 == fd) } c
        with status := .ZOMBIE }) c true).map
  show (InputDispatcher.abortDispatchCycleLocked _ c true).1.mConnectionsByReceiveFd.length + 1 = _
  rw [hmap]
  show (s.mConnectionsByReceiveFd.eraseP (fun kv => kv.1 == fd)).length + 1 = _
  rw [List.length_eraseP_of_mem hkv (by simp [hfd])]
  have : 0 < s.mConnectionsByReceiveFd.length := List.length_pos_of_mem hkv
  omega

/-- The loop of the destructor that unregisters the channels has enough fuel: it
leaves no connection registered. -/
theorem InputDispatcher.unregisterAll_done (fuel : Nat) (s : InputDispatcher)
    (h : s.mConnectionsByReceiveFd.length ≤ fuel) :
    (unregisterAll fuel s).mConnectionsByReceiveFd = [] := by
  induction fuel generalizing s with
  | zero =>
    simp only [unregisterAll]
    exact List.length_eq_zero.mp (Nat.le_zero.mp h)
  | succ fuel ih =>
    simp only [unregisterAll]
    cases hf : s.firstReceiveFd with
    | none =>
      simp only
      unfold firstReceiveFd at hf
      have := List.min?_eq_none_iff.mp hf
      simpa using this
    | some fd =>
      simp only
      apply ih
      have hm : fd ∈ s.mConnectionsByReceiveFd.map Prod.fst := by
        unfold firstReceiveFd at hf
        exact List.min?_mem (fun a b => by omega) hf
      have := unregisterInputChannel_map_length s fd hm
      omega

/-- C36, as the code has it. Six entries `0, ..., 5` wait in the inbound queue when
the dispatcher is destroyed.  The drain loop calls `releaseEventEntry` on the entries
`1, ..., 5` and then on the `tail` sentinel, where the `switch` takes its
`assert(false)` default branch; it never calls it on entry `0`, which keeps its
reference count of one and stays out of its pool. -/
theorem destroy_releases_next_of_entry :
    Example.keysQueued.mInboundQueue = [0, 1, 2, 3, 4, 5]
      ∧ Example.keysQueued.destroy.2
          = [.entry 1, .entry 2, .entry 3, .entry 4, .entry 5, .tail]
      ∧ (Example.keysQueued.destroy.1.releaseQueueNode .tail).2 = true
      ∧ QueueNode.entry 0 ∉ Example.keysQueued.destroy.2
      ∧ (Example.keysQueued.destroy.1.entry 0).refCount = 1
      ∧ (Example.keysQueued.destroy.1.entry 0).inPool = false
      ∧ (Example.keysQueued.destroy.1.entry 1).inPool = true := by
  decide

end Dispatcher

namespace Dispatcher

open InputDispatcher

/-! ## The walk over the active connections -/

theorem InputDispatcher.drop_erase_of_getElem? {l : List Nat} (hn : l.Nodup) {i c : Nat}
    (hc : l[i]? = some c) : (l.erase c).drop i = l.drop (i + 1) := by
  induction l generalizing i with
  | nil => simp at hc
  | cons x l ih =>
    cases i with
    | zero =>
      simp only [List.getElem?_cons_zero, Option.some.injEq] at hc
      subst hc
      simp
    | succ j =>
      simp only [List.getElem?_cons_succ] at hc
      have hne : x ≠ c := by
        intro hxc
        subst hxc
        exact (List.nodup_cons.mp hn).1 (List.getElem?_mem hc)
      rw [List.erase_cons_tail (by simpa using hne)]
      simp only [List.drop_succ_cons]
      exact ih (List.nodup_cons.mp hn).2 hc

/-- A timeout on a `NORMAL` connection: the connection leaves the active set, the ANR
is notified, and the connection is left not responding with an empty queue. -/
theorem InputDispatcher.timeoutDispatchCycleLocked_normal (s : InputDispatcher) (now : Int)
    (c : Nat) (hs : (s.conn c).status = .NORMAL) :
    (s.timeoutDispatchCycleLocked now c).2 = true
      ∧ (s.timeoutDispatchCycleLocked now c).1.mActiveConnections = s.mActiveConnections.erase c
      ∧ (s.timeoutDispatchCycleLocked now c).1.callouts
          = s.callouts ++ [.onDispatchCycleANR c]
      ∧ ((s.timeoutDispatchCycleLocked now c).1.conn c).status = .NOT_RESPONDING
      ∧ ((s.timeoutDispatchCycleLocked now c).1.conn c).outboundQueue = []
      ∧ ((s.timeoutDispatchCycleLocked now c).1.conn c).lastANRTime = now
      ∧ ((s.timeoutDispatchCycleLocked now c).1.conn c).nextTimeoutTime = LONG_LONG_MAX := by
  have hc : c < s.conns.length := lt_of_status_normal s hs
  have h1 : (s.setConn c { s.conn c with
      status := .NOT_RESPONDING, lastANRTime := now }).conn c
      = { s.conn c with status := .NOT_RESPONDING, lastANRTime := now } :=
    conn_setConn_self _ _ hc
  have hs1 : ((s.setConn c { s.conn c with
      status := .NOT_RESPONDING, lastANRTime := now }).conn c).status ≠ .BROKEN := by
    rw [h1]; simp
  have hconn := abortDispatchCycleLocked_conn (s.setConn c { s.conn c with
      status := .NOT_RESPONDING, lastANRTime := now }) c false (by simpa using hc) hs1
  have hact := abortDispatchCycleLocked_active (s.setConn c { s.conn c with
      status := .NOT_RESPONDING, lastANRTime := now }) c false hs1
  have hsnd := abortDispatchCycleLocked_snd (s.setConn c { s.conn c with
      status := .NOT_RESPONDING, lastANRTime := now }) c false
  have hcall := abortDispatchCycleLocked_callouts (s.setConn c { s.conn c with
      status := .NOT_RESPONDING, lastANRTime := now }) c false hs1
  rw [h1] at hconn hsnd
  have heq : s.timeoutDispatchCycleLocked now c
      = (((s.setConn c { s.conn c with
            status := .NOT_RESPONDING, lastANRTime := now }
          ).abortDispatchCycleLocked c false).1.callout (.onDispatchCycleANR c),
         ((s.setConn c { s.conn c with
            status := .NOT_RESPONDING, lastANRTime := now }
          ).abortDispatchCycleLocked c false).2) := by
    simp [timeoutDispatchCycleLocked, hs]
  rw [heq]
  simp only [callout_conn, callout_mActiveConnections]
  refine ⟨?_, ?_, ?_, ?_, ?_, ?_, ?_⟩
  · rw [hsnd]; rfl
  · rw [hact]; rfl
  · show (InputDispatcher.abortDispatchCycleLocked _ c false).1.callouts ++ _ = _
    rw [hcall]
    simp
  · rw [hconn]; rfl
  · rw [hconn]
  · rw [hconn]
  · rw [hconn]

/-- An active connection of a state that satisfies the invariant is `NORMAL`. -/
theorem InputDispatcher.Inv.active_normal {held : Option Nat} {s : InputDispatcher}
    (h : Inv held s) {c : Nat} (hc : c ∈ s.mActiveConnections) : (s.conn c).status = .NORMAL := by
  have hne := ((h.connOk c).active).mp hc
  cases hq : (s.conn c).outboundQueue with
  | nil => exact absurd hq hne
  | cons d q => exact ((h.connOk c).delivering d q hq).1

/-- The loop of `dispatchOnce` over the active connections, run from index `i` with
enough fuel, examines the connections from position `i` on once each, in order. -/
theorem InputDispatcher.processTimeouts_eq_timeoutWalk {held : Option Nat} (now : Int)
    (fuel i : Nat) (r : TimeoutScan) (h : Inv held r.state)
    (hf : r.state.mActiveConnections.length ≤ fuel + i) :
    processTimeouts now fuel i r = timeoutWalk now (r.state.mActiveConnections.drop i) r := by
  induction fuel generalizing i r with
  | zero =>
    rw [List.drop_eq_nil_of_le (by omega)]
    rfl
  | succ fuel ih =>
    simp only [processTimeouts]
    cases hget : r.state.mActiveConnections[i]? with
    | none =>
      rw [List.drop_eq_nil_of_le (List.getElem?_eq_none_iff.mp hget)]
      rfl
    | some c =>
      obtain ⟨hi, hci⟩ := List.getElem?_eq_some.mp hget
      have hdrop : r.state.mActiveConnections.drop i
          = c :: r.state.mActiveConnections.drop (i + 1) := by
        rw [← hci]
        exact List.drop_eq_getElem_cons hi
      have hmem : c ∈ r.state.mActiveConnections := List.getElem?_mem hget
      rw [hdrop]
      simp only [timeoutWalk]
      by_cases ht : (r.state.conn c).nextTimeoutTime ≤ now
      · obtain ⟨h2, hact, -⟩ := timeoutDispatchCycleLocked_normal r.state now c
          (h.active_normal hmem)
        simp only [ht, if_true, h2]
        have hinv : Inv held (r.state.timeoutDispatchCycleLocked now c).1 :=
          timeoutDispatchCycleLocked_inv _ now c h
        have hlen : (r.state.timeoutDispatchCycleLocked now c).1.mActiveConnections.length
            ≤ fuel + i := by
          rw [hact, List.length_erase_of_mem hmem]
          omega
        rw [ih i { r with state := (r.state.timeoutDispatchCycleLocked now c).1 } hinv hlen]
        show timeoutWalk now
          ((r.state.timeoutDispatchCycleLocked now c).1.mActiveConnections.drop i) _ = _
        rw [hact, drop_erase_of_getElem? h.activeNodup hget]
      · simp only [ht, if_false, Bool.false_eq_true]
        have hw : (if (r.state.conn c).nextTimeoutTime < r.nextWakeupTime
            then (r.state.conn c).nextTimeoutTime else r.nextWakeupTime)
            = min (r.state.conn c).nextTimeoutTime r.nextWakeupTime := by
          rw [min_def]
          split_ifs <;> omega
        have hp : (if (r.state.conn c).hasPendingSyncTarget = true then true
            else r.hasPendingSyncTarget)
            = ((r.state.conn c).hasPendingSyncTarget || r.hasPendingSyncTarget) := by
          cases (r.state.conn c).hasPendingSyncTarget <;> simp
        rw [hw, hp]
        exact ih (i + 1) _ h (by show r.state.mActiveConnections.length ≤ _; omega)

/-- The fuel that `dispatchOnceTimeouts` gives the loop is enough: more fuel does not
change the result. -/
theorem InputDispatcher.processTimeouts_fuel {held : Option Nat} (now : Int) (k : Nat)
    (r : TimeoutScan) (h : Inv held r.state) :
    processTimeouts now (r.state.mActiveConnections.length + k) 0 r
      = processTimeouts now r.state.mActiveConnections.length 0 r := by
  rw [processTimeouts_eq_timeoutWalk now _ 0 r h (by omega),
    processTimeouts_eq_timeoutWalk now _ 0 r h (by omega)]

/-- What the walk over the connections `l`, which are active and distinct, does. -/
theorem InputDispatcher.timeoutWalk_spec {held : Option Nat} (now : Int) (l : List Nat)
    (r : TimeoutScan) (h : Inv held r.state) (hl : l.Nodup)
    (hsub : ∀ c ∈ l, c ∈ r.state.mActiveConnections) :
    (timeoutWalk now l r).state.mActiveConnections
        = r.state.mActiveConnections.filter
            (fun c => !(decide (c ∈ l) && hasTimedOut r.state now c))
      ∧ (timeoutWalk now l r).state.callouts
        = r.state.callouts
            ++ (l.filter (fun c => hasTimedOut r.state now c)).map Callout.onDispatchCycleANR
      ∧ (∀ c, ¬ (c ∈ l ∧ hasTimedOut r.state now c = true) →
          (timeoutWalk now l r).state.conn c = r.state.conn c)
      ∧ (∀ c, c ∈ l → hasTimedOut r.state now c = true →
          ((timeoutWalk now l r).state.conn c).status = .NOT_RESPONDING
            ∧ ((timeoutWalk now l r).state.conn c).outboundQueue = []
            ∧ ((timeoutWalk now l r).state.conn c).lastANRTime = now
            ∧ ((timeoutWalk now l r).state.conn c).nextTimeoutTime = LONG_LONG_MAX)
      ∧ (timeoutWalk now l r).nextWakeupTime
        = ((l.filter (fun c => !hasTimedOut r.state now c)).map
            (fun c => (r.state.conn c).nextTimeoutTime)).foldl (fun w t => min t w)
            r.nextWakeupTime
      ∧ (timeoutWalk now l r).hasPendingSyncTarget
        = (r.hasPendingSyncTarget
            || (l.filter (fun c => !hasTimedOut r.state now c)).any
                (fun c => (r.state.conn c).hasPendingSyncTarget)) := by
  induction l generalizing r with
  | nil =>
    simp only [timeoutWalk, List.not_mem_nil, decide_False, Bool.false_and, Bool.not_false,
      List.filter_true, List.filter_nil, List.map_nil, List.append_nil, List.foldl_nil,
      List.any_nil, Bool.or_false, false_and, not_false_eq_true, forall_const, true_and,
      implies_true, and_true]
    simp
  | cons c rest ih =>
    have hcr : c ∉ rest := (List.nodup_cons.mp hl).1
    have hrn : rest.Nodup := (List.nodup_cons.mp hl).2
    have hmem : c ∈ r.state.mActiveConnections := hsub c (List.mem_cons_self _ _)
    have hner : ∀ x, x ∈ rest → x ≠ c := by
      intro x hx hxc
      subst hxc
      exact hcr hx
    simp only [timeoutWalk]
    by_cases ht : (r.state.conn c).nextTimeoutTime ≤ now
    · have hto : hasTimedOut r.state now c = true := by simpa [hasTimedOut] using ht
      obtain ⟨-, hact, hcall, hst, hq, hanr, hnt⟩ := timeoutDispatchCycleLocked_normal r.state
        now c (h.active_normal hmem)
      have hfr := timeoutDispatchCycleLocked_frame r.state now c
      have hinv : Inv held (r.state.timeoutDispatchCycleLocked now c).1 :=
        timeoutDispatchCycleLocked_inv _ now c h
      have hsub1 : ∀ x ∈ rest, x ∈ (r.state.timeoutDispatchCycleLocked now c).1.mActiveConnections := by
        intro x hx
        rw [hact]
        exact (List.mem_erase_of_ne (hner x hx)).mpr
          (hsub x (List.mem_cons_of_mem _ hx))
      have hsame : ∀ x, x ≠ c →
          hasTimedOut (r.state.timeoutDispatchCycleLocked now c).1 now x
            = hasTimedOut r.state now x := by
        intro x hx
        unfold hasTimedOut
        rw [hfr.conn x hx]
      have hsameq : ∀ x ∈ rest,
          hasTimedOut (r.state.timeoutDispatchCycleLocked now c).1 now x
            = hasTimedOut r.state now x :=
        fun x hx => hsame x (hner x hx)
      obtain ⟨i1, i2, i3, i4, i5, i6⟩ :=
        ih { r with state := (r.state.timeoutDispatchCycleLocked now c).1 } hinv hrn hsub1
      simp only [ht, if_true]
      simp only at i1 i2 i3 i4 i5 i6
      refine ⟨?_, ?_, ?_, ?_, ?_, ?_⟩
      · rw [i1, hact, h.activeNodup.erase_eq_filter, List.filter_filter]
        apply List.filter_congr
        intro x _
        by_cases hxc : x = c
        · subst hxc
          simp [hto]
        · have hne : (x != c) = true := by simpa using hxc
          rw [hne, hsame x hxc]
          simp [hxc]
      · rw [i2, hcall, List.filter_cons, if_pos hto, List.map_cons, List.append_assoc,
          List.filter_congr (fun x hx => hsameq x hx)]
        rfl
      · intro x hx
        have hxc : x ≠ c := by
          intro hxc
          subst hxc
          exact hx ⟨List.mem_cons_self _ _, hto⟩
        rw [i3 x (fun hcon => hx ⟨List.mem_cons_of_mem _ hcon.1, by
          rw [← hsame x hxc]; exact hcon.2⟩)]
        exact hfr.conn x hxc
      · intro x hx hxto
        rcases List.mem_cons.mp hx with hxc | hxr
        · subst hxc
          rw [i3 x (fun hcon => hcr hcon.1)]
          exact ⟨hst, hq, hanr, hnt⟩
        · exact i4 x hxr (by rw [hsameq x hxr]; exact hxto)
      · rw [i5, List.filter_cons, if_neg (by simp [hto])]
        congr 1
        rw [List.filter_congr (fun x hx => by rw [hsameq x hx])]
        apply List.map_congr_left
        intro x hx
        have hxr : x ∈ rest := (List.mem_filter.mp hx).1
        rw [hfr.conn x (hner x hxr)]
      · rw [i6, List.filter_cons, if_neg (by simp [hto])]
        congr 1
        rw [List.filter_congr (fun x hx => by rw [hsameq x hx])]
        rw [List.any_eq, List.any_eq]
        apply decide_eq_decide.mpr
        constructor
        · rintro ⟨x, hx, hp⟩
          have hxr : x ∈ rest := (List.mem_filter.mp hx).1
          exact ⟨x, hx, by rw [← hfr.conn x (hner x hxr)]; exact hp⟩
        · rintro ⟨x, hx, hp⟩
          have hxr : x ∈ rest := (List.mem_filter.mp hx).1
          exact ⟨x, hx, by rw [hfr.conn x (hner x hxr)]; exact hp⟩
    · have hto : hasTimedOut r.state now c = false := by simpa [hasTimedOut] using ht
      obtain ⟨i1, i2, i3, i4, i5, i6⟩ :=
        ih { state := r.state
             nextWakeupTime := min (r.state.conn c).nextTimeoutTime r.nextWakeupTime
             hasPendingSyncTarget :=
               (r.state.conn c).hasPendingSyncTarget || r.hasPendingSyncTarget }
          h hrn (fun x hx => hsub x (List.mem_cons_of_mem _ hx))
      simp only [ht, if_false]
      simp only at i1 i2 i3 i4 i5 i6
      refine ⟨?_, ?_, ?_, ?_, ?_, ?_⟩
      · rw [i1]
        apply List.filter_congr
        intro x _
        by_cases hxc : x = c
        · subst hxc
          simp [hto, hcr]
        · simp [hxc]
      · rw [i2, List.filter_cons, if_neg (by simp [hto])]
      · intro x hx
        apply i3 x
        exact fun hcon => hx ⟨List.mem_cons_of_mem _ hcon.1, hcon.2⟩
      · intro x hx hxto
        rcases List.mem_cons.mp hx with hxc | hxr
        · subst hxc
          rw [hto] at hxto
          exact Bool.noConfusion hxto
        · exact i4 x hxr hxto
      · rw [i5, List.filter_cons, if_pos (by simp [hto]), List.map_cons, List.foldl_cons]
      · rw [i6, List.filter_cons, if_pos (by simp [hto]), List.any_cons]
        cases (r.state.conn c).hasPendingSyncTarget <;> cases r.hasPendingSyncTarget <;> simp

theorem InputDispatcher.resetKeyRepeatLocked_mActiveConnections (s : InputDispatcher) :
    s.resetKeyRepeatLocked.mActiveConnections = s.mActiveConnections := by
  unfold resetKeyRepeatLocked
  split <;> rfl

theorem InputDispatcher.resetKeyRepeatLocked_callouts (s : InputDispatcher) :
    s.resetKeyRepeatLocked.callouts = s.callouts := by
  unfold resetKeyRepeatLocked
  split <;> rfl

theorem InputDispatcher.resetKeyRepeatLocked_conn (s : InputDispatcher) (c : Nat) :
    s.resetKeyRepeatLocked.conn c = s.conn c := by
  unfold conn
  rw [(resetKeyRepeatLocked_conns s).1]

/-- C38. The timeout walk terminates and is complete: in every reachable state the loop
of `dispatchOnce` over the active connections ends within the fuel it is given (the
number of active connections at entry): more fuel gives the same result.  It
examines every connection that was active at entry exactly once, in the order of the
set; it times out exactly those whose `nextTimeoutTime` is not after the current
time, notifying the ANR of each once, in that order, and leaving it `NOT_RESPONDING`
with an empty outbound queue; it leaves in the active set exactly the connections
that did not time out, in their original relative order, and leaves every connection
that did not time out as it was. -/
theorem dispatchOnce_timeout_walk (env : Env) (s : InputDispatcher) (now : Int)
    (h : Reachable s) :
    (∀ k, processTimeouts now (s.mActiveConnections.length + k) 0
          { state := if !env.policy.allowKeyRepeat then s.resetKeyRepeatLocked else s,
            nextWakeupTime := LONG_LONG_MAX, hasPendingSyncTarget := false }
        = s.dispatchOnceTimeouts env now)
      ∧ s.dispatchOnceTimeouts env now
        = timeoutWalk now s.mActiveConnections
            { state := if !env.policy.allowKeyRepeat then s.resetKeyRepeatLocked else s,
              nextWakeupTime := LONG_LONG_MAX, hasPendingSyncTarget := false }
      ∧ (s.dispatchOnceTimeouts env now).state.callouts
        = s.callouts
            ++ (s.mActiveConnections.filter (fun c => hasTimedOut s now c)).map
                Callout.onDispatchCycleANR
      ∧ (s.dispatchOnceTimeouts env now).state.mActiveConnections
        = s.mActiveConnections.filter (fun c => !hasTimedOut s now c)
      ∧ (∀ c, c ∈ s.mActiveConnections → (s.conn c).nextTimeoutTime ≤ now →
          ((s.dispatchOnceTimeouts env now).state.conn c).status = .NOT_RESPONDING
            ∧ ((s.dispatchOnceTimeouts env now).state.conn c).outboundQueue = []
            ∧ ((s.dispatchOnceTimeouts env now).state.conn c).lastANRTime = now)
      ∧ (∀ c, ¬ (c ∈ s.mActiveConnections ∧ (s.conn c).nextTimeoutTime ≤ now) →
          (s.dispatchOnceTimeouts env now).state.conn c = s.conn c) := by
  have hinv0 := inv_of_reachable h
  have key : ∀ s1 : InputDispatcher, Inv none s1 → s1.mActiveConnections = s.mActiveConnections →
      s1.callouts = s.callouts → (∀ c, s1.conn c = s.conn c) →
      (∀ k, processTimeouts now (s.mActiveConnections.length + k) 0
            { state := s1, nextWakeupTime := LONG_LONG_MAX, hasPendingSyncTarget := false }
          = processTimeouts now s1.mActiveConnections.length 0
            { state := s1, nextWakeupTime := LONG_LONG_MAX, hasPendingSyncTarget := false })
        ∧ processTimeouts now s1.mActiveConnections.length 0
            { state := s1, nextWakeupTime := LONG_LONG_MAX, hasPendingSyncTarget := false }
          = timeoutWalk now s.mActiveConnections
              { state := s1, nextWakeupTime := LONG_LONG_MAX, hasPendingSyncTarget := false }
        ∧ (processTimeouts now s1.mActiveConnections.length 0
            { state := s1, nextWakeupTime := LONG_LONG_MAX, hasPendingSyncTarget := false }
            ).state.callouts
          = s.callouts
              ++ (s.mActiveConnections.filter (fun c => hasTimedOut s now c)).map
                  Callout.onDispatchCycleANR
        ∧ (processTimeouts now s1.mActiveConnections.length 0
            { state := s1, nextWakeupTime := LONG_LONG_MAX, hasPendingSyncTarget := false }
            ).state.mActiveConnections
          = s.mActiveConnections.filter (fun c => !hasTimedOut s now c)
        ∧ (∀ c, c ∈ s.mActiveConnections → (s.conn c).nextTimeoutTime ≤ now →
            ((processTimeouts now s1.mActiveConnections.length 0
              { state := s1, nextWakeupTime := LONG_LONG_MAX, hasPendingSyncTarget := false }
              ).state.conn c).status = .NOT_RESPONDING
            ∧ ((processTimeouts now s1.mActiveConnections.length 0
              { state := s1, nextWakeupTime := LONG_LONG_MAX, hasPendingSyncTarget := false }
              ).state.conn c).outboundQueue = []
            ∧ ((processTimeouts now s1.mActiveConnections.length 0
              { state := s1, nextWakeupTime := LONG_LONG_MAX, hasPendingSyncTarget := false }
              ).state.conn c).lastANRTime = now)
        ∧ (∀ c, ¬ (c ∈ s.mActiveConnections ∧ (s.conn c).nextTimeoutTime ≤ now) →
            (processTimeouts now s1.mActiveConnections.length 0
              { state := s1, nextWakeupTime := LONG_LONG_MAX, hasPendingSyncTarget := false }
              ).state.conn c = s.conn c) := by
    intro s1 hinv hact hcall hconn
    have hto : ∀ c, hasTimedOut s1 now c = hasTimedOut s now c := by
      intro c
      unfold hasTimedOut
      rw [hconn]
    have hwalk := processTimeouts_eq_timeoutWalk now s1.mActiveConnections.length 0
      { state := s1, nextWakeupTime := LONG_LONG_MAX, hasPendingSyncTarget := false } hinv
      (Nat.le_refl _)
    simp only [List.drop_zero] at hwalk
    obtain ⟨w1, w2, w3, w4, -, -⟩ := timeoutWalk_spec now s1.mActiveConnections
      { state := s1, nextWakeupTime := LONG_LONG_MAX, hasPendingSyncTarget := false } hinv
      hinv.activeNodup (fun c hc => hc)
    simp only at w1 w2 w3 w4
    refine ⟨?_, ?_, ?_, ?_, ?_, ?_⟩
    · intro k
      rw [← hact]
      exact processTimeouts_fuel now k
        { state := s1, nextWakeupTime := LONG_LONG_MAX, hasPendingSyncTarget := false } hinv
    · rw [hwalk, hact]
    · rw [hwalk, w2, hcall, hact]
      simp only [hto]
    · rw [hwalk, w1, hact]
      apply List.filter_congr
      intro x hx
      rw [hto]
      simp [hx]
    · intro c hc ht
      rw [hwalk]
      obtain ⟨a1, a2, a3, -⟩ := w4 c (by rw [hact]; exact hc)
        (by rw [hto]; simpa [hasTimedOut] using ht)
      exact ⟨a1, a2, a3⟩
    · intro c hc
      rw [hwalk, w3 c, hconn]
      rw [hact, hto]
      intro hcon
      exact hc ⟨hcon.1, by simpa [hasTimedOut] using hcon.2⟩
  unfold dispatchOnceTimeouts
  simp only
  cases hallow : env.policy.allowKeyRepeat with
  | true =>
    simp only [Bool.not_true, Bool.false_eq_true, if_false]
    exact key s hinv0 rfl rfl (fun _ => rfl)
  | false =>
    simp only [Bool.not_false, if_true]
    exact key s.resetKeyRepeatLocked (resetKeyRepeatLocked_inv hinv0)
      (resetKeyRepeatLocked_mActiveConnections s) (resetKeyRepeatLocked_callouts s)
      (resetKeyRepeatLocked_conn s)

theorem dispatchOnce_timeout_walk_witness :
    Reachable Example.twoWindows
      ∧ Example.twoWindows.mActiveConnections = [0, 1]
      ∧ (Example.twoWindows.conn 0).nextTimeoutTime = 101
      ∧ (Example.twoWindows.conn 1).nextTimeoutTime = 150
      ∧ (Example.twoWindows.dispatchOnceTimeouts (Example.env []) 120).state.mActiveConnections
        = [0, 1].filter (fun c => !hasTimedOut Example.twoWindows 120 c)
      ∧ [0, 1].filter (fun c => !hasTimedOut Example.twoWindows 120 c) = [1] :=
  ⟨Example.run_reachable _ _ (Example.run_reachable _ _ Reachable.init), by decide, by decide,
    by decide,
    (dispatchOnce_timeout_walk (Example.env []) Example.twoWindows 120
      (Example.run_reachable _ _ (Example.run_reachable _ _ Reachable.init))).2.2.2.1,
    by decide⟩

end Dispatcher

namespace Dispatcher

open InputDispatcher

/-- In a reachable state, the wake-up time that the timeout walk computes is the
least of `LONG_LONG_MAX` and the `nextTimeoutTime` of the connections that stay
active. -/
theorem InputDispatcher.dispatchOnceTimeouts_nextWakeupTime (env : Env) (s : InputDispatcher)
    (now : Int) (h : Reachable s) :
    (s.dispatchOnceTimeouts env now).nextWakeupTime
      = ((s.dispatchOnceTimeouts env now).state.mActiveConnections.map
          (fun c => ((s.dispatchOnceTimeouts env now).state.conn c).nextTimeoutTime)).foldl
          (fun w t => min t w) LONG_LONG_MAX := by
  have hinv0 := inv_of_reachable h
  have key : ∀ s1 : InputDispatcher, Inv none s1 →
      (processTimeouts now s1.mActiveConnections.length 0
        { state := s1, nextWakeupTime := LONG_LONG_MAX, hasPendingSyncTarget := false }
        ).nextWakeupTime
      = ((processTimeouts now s1.mActiveConnections.length 0
          { state := s1, nextWakeupTime := LONG_LONG_MAX, hasPendingSyncTarget := false }
          ).state.mActiveConnections.map
          (fun c => ((processTimeouts now s1.mActiveConnections.length 0
            { state := s1, nextWakeupTime := LONG_LONG_MAX, hasPendingSyncTarget := false }
            ).state.conn c).nextTimeoutTime)).foldl (fun w t => min t w) LONG_LONG_MAX := by
    intro s1 hinv
    have hwalk := processTimeouts_eq_timeoutWalk now s1.mActiveConnections.length 0
      { state := s1, nextWakeupTime := LONG_LONG_MAX, hasPendingSyncTarget := false } hinv
      (Nat.le_refl _)
    simp only [List.drop_zero] at hwalk
    obtain ⟨w1, -, w3, -, w5, -⟩ := timeoutWalk_spec now s1.mActiveConnections
      { state := s1, nextWakeupTime := LONG_LONG_MAX, hasPendingSyncTarget := false } hinv
      hinv.activeNodup (fun c hc => hc)
    simp only at w1 w3 w5
    rw [hwalk, w5, w1]
    have hf : s1.mActiveConnections.filter
        (fun c => !(decide (c ∈ s1.mActiveConnections) && hasTimedOut s1 now c))
        = s1.mActiveConnections.filter (fun c => !hasTimedOut s1 now c) := by
      apply List.filter_congr
      intro x hx
      simp [hx]
    rw [hf]
    congr 1
    apply List.map_congr_left
    intro x hx
    have hx2 := (List.mem_filter.mp hx).2
    rw [w3 x (fun hcon => by rw [hcon.2] at hx2; exact Bool.noConfusion hx2)]
  unfold dispatchOnceTimeouts
  simp only
  split
  · exact key _ (resetKeyRepeatLocked_inv hinv0)
  · exact key _ hinv0

/-- In a reachable state, the flag that the timeout walk computes tells whether some
connection has a pending synchronous target after the walk. -/
theorem InputDispatcher.dispatchOnceTimeouts_flag_iff (env : Env) (s : InputDispatcher)
    (now : Int) (h : Reachable s) :
    (s.dispatchOnceTimeouts env now).hasPendingSyncTarget = true
      ↔ ∃ c, ((s.dispatchOnceTimeouts env now).state.conn c).hasPendingSyncTarget = true := by
  have hinv0 := inv_of_reachable h
  have key : ∀ s1 : InputDispatcher, Inv none s1 →
      ((processTimeouts now s1.mActiveConnections.length 0
        { state := s1, nextWakeupTime := LONG_LONG_MAX, hasPendingSyncTarget := false }
        ).hasPendingSyncTarget = true
      ↔ ∃ c, ((processTimeouts now s1.mActiveConnections.length 0
          { state := s1, nextWakeupTime := LONG_LONG_MAX, hasPendingSyncTarget := false }
          ).state.conn c).hasPendingSyncTarget = true) := by
    intro s1 hinv
    have hinv1 : Inv none (processTimeouts now s1.mActiveConnections.length 0
        { state := s1, nextWakeupTime := LONG_LONG_MAX, hasPendingSyncTarget := false }).state :=
      processTimeouts_inv now _ 0 _ hinv
    have hwalk := processTimeouts_eq_timeoutWalk now s1.mActiveConnections.length 0
      { state := s1, nextWakeupTime := LONG_LONG_MAX, hasPendingSyncTarget := false } hinv
      (Nat.le_refl _)
    simp only [List.drop_zero] at hwalk
    obtain ⟨w1, -, w3, -, -, w6⟩ := timeoutWalk_spec now s1.mActiveConnections
      { state := s1, nextWakeupTime := LONG_LONG_MAX, hasPendingSyncTarget := false } hinv
      hinv.activeNodup (fun c hc => hc)
    simp only [Bool.false_or] at w1 w3 w6
    rw [hwalk] at hinv1 ⊢
    rw [w6]
    constructor
    · intro hany
      obtain ⟨x, hx, hp⟩ := List.any_eq_true.mp hany
      have hx2 := (List.mem_filter.mp hx).2
      refine ⟨x, ?_⟩
      rw [w3 x (fun hcon => by rw [hcon.2] at hx2; exact Bool.noConfusion hx2)]
      exact hp
    · rintro ⟨c, hp⟩
      have hne : ((timeoutWalk now s1.mActiveConnections
          { state := s1, nextWakeupTime := LONG_LONG_MAX, hasPendingSyncTarget := false }
          ).state.conn c).outboundQueue ≠ [] := by
        intro hnil
        unfold Connection.hasPendingSyncTarget at hp
        rw [hnil] at hp
        exact Bool.noConfusion hp
      have hact := (hinv1.connOk c).active.mpr hne
      rw [w1] at hact
      obtain ⟨hc1, hc2⟩ := List.mem_filter.mp hact
      have hnto : hasTimedOut s1 now c = false := by
        simpa [hc1] using hc2
      rw [w3 c (fun hcon => by rw [hcon.2] at hnto; exact Bool.noConfusion hnto)] at hp
      exact List.any_eq_true.mpr ⟨c, List.mem_filter.mpr ⟨hc1, by simp [hnto]⟩, hp⟩
  unfold dispatchOnceTimeouts
  simp only
  split
  · exact key _ (resetKeyRepeatLocked_inv hinv0)
  · exact key _ hinv0

/-- C33 fails as stated. In the reachable state `Example.keyHeld` a key down is being
delivered to a synchronous target: there is a `lastKeyEntry`, the key repeat is due at
50 ms and the timeout of the only active connection at 501 ms.  At 2 ms, before the
repeat is due, `dispatchOnce` waits in the poll loop until the timeout of the
connection (499 ms) and not until the least of the repeat time and the timeout
(48 ms): with a synchronous target pending, the repeat time is not folded into the
wake-up time. -/
theorem dispatchOnce_wakeup_counterexample :
    (Example.keyHeld.dispatchOnceTimeouts (Example.repeatEnv InputTarget.FLAG_SYNC)
        2000000).state.mKeyRepeatState.lastKeyEntry = some 0
      ∧ (Example.keyHeld.dispatchOnceTimeouts (Example.repeatEnv InputTarget.FLAG_SYNC)
          2000000).state.mKeyRepeatState.nextRepeatTime = 50000000
      ∧ (2000000 : Int) < 50000000
      ∧ (Example.keyHeld.dispatchOnceTimeouts (Example.repeatEnv InputTarget.FLAG_SYNC)
          2000000).state.mActiveConnections = [0]
      ∧ ((Example.keyHeld.dispatchOnceTimeouts (Example.repeatEnv InputTarget.FLAG_SYNC)
          2000000).state.conn 0).nextTimeoutTime = 501000000
      ∧ (Example.keyHeld.dispatchOnceTimeouts (Example.repeatEnv InputTarget.FLAG_SYNC)
          2000000).hasPendingSyncTarget = true
      ∧ Example.keyHeld.dispatchOnce (Example.repeatEnv InputTarget.FLAG_SYNC) 2000000
          = (Example.keyHeld.dispatchOnceTimeouts (Example.repeatEnv InputTarget.FLAG_SYNC)
              2000000).state.pollOnce 501000000 2000000
      ∧ (Example.keyHeld.dispatchOnce (Example.repeatEnv InputTarget.FLAG_SYNC)
          2000000).mPollLoop.pollTimeouts = [499]
      ∧ ((Example.keyHeld.dispatchOnceTimeouts (Example.repeatEnv InputTarget.FLAG_SYNC)
          2000000).state.pollOnce (min 50000000 501000000) 2000000).mPollLoop.pollTimeouts
          = [48] := by
  decide

/-- C33, amended. In every reachable state, with `r` the result of the timeout
processing of `dispatchOnce`: the flag of `r` is down exactly when no connection has a
pending synchronous target, and a key repeat is synthesized exactly when the flag is
down, the inbound queue is empty, there is a `lastKeyEntry` and the current time has
reached `nextRepeatTime`.  When it is, `dispatchOnce` is one call of
`processKeyRepeatLocked` on the state of `r`, which adds one to the repeat count of
the key; when it is not, `dispatchOnce` waits in the poll loop or dispatches the head
of the inbound queue.  When no synchronous target is pending, the inbound queue is
empty and there is a `lastKeyEntry` whose `nextRepeatTime` is still ahead,
`dispatchOnce` waits until the least of `nextRepeatTime` and the timeouts of the
connections that stay active (with `LONG_LONG_MAX` for none).  If the policy
disallows key repeat, the key repeat state is reset before the timeout processing,
`r` has no `lastKeyEntry` and no key repeat is synthesized. -/
theorem dispatchOnce_synthesizes_key_repeat (env : Env) (s : InputDispatcher) (now : Int)
    (h : Reachable s) :
    ((s.dispatchOnceTimeouts env now).hasPendingSyncTarget = false ↔
        ∀ c, ((s.dispatchOnceTimeouts env now).state.conn c).hasPendingSyncTarget = false)
      ∧ (s.synthesizesKeyRepeat env now = true ↔
        (s.dispatchOnceTimeouts env now).hasPendingSyncTarget = false
          ∧ (s.dispatchOnceTimeouts env now).state.mInboundQueue = []
          ∧ (s.dispatchOnceTimeouts env now).state.mKeyRepeatState.lastKeyEntry ≠ none
          ∧ (s.dispatchOnceTimeouts env now).state.mKeyRepeatState.nextRepeatTime ≤ now)
      ∧ (s.synthesizesKeyRepeat env now = true →
          s.dispatchOnce env now
              = (s.dispatchOnceTimeouts env now).state.processKeyRepeatLocked env now
            ∧ ∀ l k, (s.dispatchOnceTimeouts env now).state.mKeyRepeatState.lastKeyEntry
                  = some l →
                ((s.dispatchOnceTimeouts env now).state.entry l).body = .key k →
                ∃ p, (s.dispatchOnce env now).mKeyRepeatState.lastKeyEntry = some p
                  ∧ ((s.dispatchOnce env now).entry p).body
                    = .key { k with repeatCount := k.repeatCount + 1, downTime := now,
                                    policyFlags := 0 })
      ∧ (s.synthesizesKeyRepeat env now = false →
          (∃ w, s.dispatchOnce env now
              = (s.dispatchOnceTimeouts env now).state.pollOnce w now)
            ∨ ∃ p rest, (s.dispatchOnceTimeouts env now).state.mInboundQueue = p :: rest
                ∧ s.dispatchOnce env now
                  = InputDispatcher.dispatchInboundEntry env
                      { (s.dispatchOnceTimeouts env now).state with mInboundQueue := rest }
                      now p)
      ∧ ((s.dispatchOnceTimeouts env now).hasPendingSyncTarget = false →
          (s.dispatchOnceTimeouts env now).state.mInboundQueue = [] →
          (s.dispatchOnceTimeouts env now).state.mKeyRepeatState.lastKeyEntry ≠ none →
          now < (s.dispatchOnceTimeouts env now).state.mKeyRepeatState.nextRepeatTime →
          s.dispatchOnce env now
            = (s.dispatchOnceTimeouts env now).state.pollOnce
                (min (s.dispatchOnceTimeouts env now).state.mKeyRepeatState.nextRepeatTime
                  (((s.dispatchOnceTimeouts env now).state.mActiveConnections.map
                    (fun c => ((s.dispatchOnceTimeouts env now).state.conn c).nextTimeoutTime)
                    ).foldl (fun w t => min t w) LONG_LONG_MAX))
                now)
      ∧ (env.policy.allowKeyRepeat = false →
          s.dispatchOnceTimeouts env now
              = processTimeouts now s.resetKeyRepeatLocked.mActiveConnections.length 0
                  { state := s.resetKeyRepeatLocked, nextWakeupTime := LONG_LONG_MAX,
                    hasPendingSyncTarget := false }
            ∧ (s.dispatchOnceTimeouts env now).state.mKeyRepeatState.lastKeyEntry = none
            ∧ s.synthesizesKeyRepeat env now = false) := by
  have hby := dispatchOnce_by_synthesis env s now
  have hw := dispatchOnceTimeouts_nextWakeupTime env s now h
  have hiff : s.synthesizesKeyRepeat env now = true ↔
      (s.dispatchOnceTimeouts env now).hasPendingSyncTarget = false
        ∧ (s.dispatchOnceTimeouts env now).state.mInboundQueue = []
        ∧ (s.dispatchOnceTimeouts env now).state.mKeyRepeatState.lastKeyEntry ≠ none
        ∧ (s.dispatchOnceTimeouts env now).state.mKeyRepeatState.nextRepeatTime ≤ now := by
    unfold synthesizesKeyRepeat
    simp only [Bool.and_eq_true, Bool.not_eq_true', List.isEmpty_iff, decide_eq_true_eq,
      ge_iff_le, and_assoc, Option.isSome_iff_ne_none]
  have hflag : (s.dispatchOnceTimeouts env now).hasPendingSyncTarget = false ↔
      ∀ c, ((s.dispatchOnceTimeouts env now).state.conn c).hasPendingSyncTarget = false := by
    have hf := dispatchOnceTimeouts_flag_iff env s now h
    constructor
    · intro h0 c
      cases hc : ((s.dispatchOnceTimeouts env now).state.conn c).hasPendingSyncTarget with
      | false => rfl
      | true =>
        rw [hf.mpr ⟨c, hc⟩] at h0
        exact Bool.noConfusion h0
    · intro hall
      cases h1 : (s.dispatchOnceTimeouts env now).hasPendingSyncTarget with
      | false => rfl
      | true =>
        obtain ⟨c, hc⟩ := hf.mp h1
        rw [hall c] at hc
        exact Bool.noConfusion hc
  refine ⟨hflag, hiff, ?_, hby.2, ?_, ?_⟩
  · intro hs
    refine ⟨hby.1 hs, ?_⟩
    intro l k hl hk
    rw [hby.1 hs]
    obtain ⟨h1, h2, -⟩ := processKeyRepeatLocked_result env
      (s.dispatchOnceTimeouts env now).state now l k hl hk
    exact ⟨_, by rw [h1], h2⟩
  · intro hp hq hl ht
    rw [← hw]
    unfold dispatchOnce
    simp only [hp, Bool.not_false, if_true, hq]
    cases hl1 : (s.dispatchOnceTimeouts env now).state.mKeyRepeatState.lastKeyEntry with
    | none => exact absurd hl1 hl
    | some l =>
      simp only
      rw [if_neg (by omega)]
      congr 1
      rw [min_def]
      split_ifs <;> omega
  · intro ha
    have h1 : s.dispatchOnceTimeouts env now
        = processTimeouts now s.resetKeyRepeatLocked.mActiveConnections.length 0
            { state := s.resetKeyRepeatLocked, nextWakeupTime := LONG_LONG_MAX,
              hasPendingSyncTarget := false } := by
      unfold dispatchOnceTimeouts
      simp only [ha, Bool.not_false, if_true]
    have h2 : (s.dispatchOnceTimeouts env now).state.mKeyRepeatState.lastKeyEntry = none := by
      rw [h1, processTimeouts_mKeyRepeatState]
      exact resetKeyRepeatLocked_lastKeyEntry s
    refine ⟨h1, h2, ?_⟩
    cases hs : s.synthesizesKeyRepeat env now with
    | false => rfl
    | true => exact absurd h2 (hiff.mp hs).2.2.1

theorem dispatchOnce_synthesizes_key_repeat_witness :
    Reachable Example.keyHeldDelivered
      ∧ (Example.keyHeldDelivered.dispatchOnceTimeouts (Example.repeatEnv InputTarget.FLAG_SYNC)
          4000000).state.mKeyRepeatState = { lastKeyEntry := some 0, nextRepeatTime := 50000000 }
      ∧ Example.keyHeldDelivered.dispatchOnce (Example.repeatEnv InputTarget.FLAG_SYNC) 4000000
          = (Example.keyHeldDelivered.dispatchOnceTimeouts
              (Example.repeatEnv InputTarget.FLAG_SYNC) 4000000).state.pollOnce
              (min (Example.keyHeldDelivered.dispatchOnceTimeouts
                  (Example.repeatEnv InputTarget.FLAG_SYNC)
                  4000000).state.mKeyRepeatState.nextRepeatTime
                (((Example.keyHeldDelivered.dispatchOnceTimeouts
                    (Example.repeatEnv InputTarget.FLAG_SYNC)
                    4000000).state.mActiveConnections.map
                  (fun c => ((Example.keyHeldDelivered.dispatchOnceTimeouts
                    (Example.repeatEnv InputTarget.FLAG_SYNC)
                    4000000).state.conn c).nextTimeoutTime)
                  ).foldl (fun w t => min t w) LONG_LONG_MAX))
              4000000
      ∧ (Example.keyHeldDelivered.dispatchOnce (Example.repeatEnv InputTarget.FLAG_SYNC)
          4000000).mPollLoop.pollTimeouts = [46] :=
  ⟨Example.run_reachable _ _ (Example.run_reachable _ _ Reachable.init), by decide,
    (dispatchOnce_synthesizes_key_repeat (Example.repeatEnv InputTarget.FLAG_SYNC)
      Example.keyHeldDelivered 4000000
      (Example.run_reachable _ _ (Example.run_reachable _ _ Reachable.init))).2.2.2.2.1
      (by decide) (by decide) (by decide) (by decide),
    by decide⟩

end Dispatcher
